import Mathlib

/-!
# ERF slow right-hand side: a shallow embedding

Embedding of `Source/DataStruct.H` (`SolverChoice::init_params`),
`Source/Diffusion/DiffusionSrcForState_T.cpp` and
`Source/TimeIntegration/ERF_slow_rhs_pre.cpp` (dry build, i.e. with
`ERF_USE_MOISTURE` undefined).

* `amrex::Real` is exact rational arithmetic (`ℚ`); division is the field
  division of `ℚ`.
* An `Array4` is a total function of `(i,j,k,n)`; `a(i,j,k)` is `a i j k 0`.
* `amrex::ParallelFor` runs its body over the cells of the box, one after the
  other, on the array the kernel writes.
* Functions of headers that are not part of the embedded sources
  (`TerrainMetrics.H`, `EOS.H`, `Advection.H`, ...) are parameters.
* `erf_slow_rhs_pre` is modelled on one patch, i.e. one iteration of its
  `MFIter` loop without tiling; assertions abort the call.
-/

namespace ERF

/-! ## Index space -/

/-- Integer index vector `amrex::IntVect`. -/
structure IntVect where
  x : Int
  y : Int
  z : Int
deriving DecidableEq, Repr

/-- Component `dir` of an index vector. -/
def IntVect.get (v : IntVect) (dir : Nat) : Int :=
  match dir with
  | 0 => v.x
  | 1 => v.y
  | _ => v.z

/-- Index vector with component `dir` replaced. -/
def IntVect.set (v : IntVect) (dir : Nat) (a : Int) : IntVect :=
  match dir with
  | 0 => { v with x := a }
  | 1 => { v with y := a }
  | _ => { v with z := a }

/-- Index box `amrex::Box` given by its two corners (both included). -/
structure Box where
  smallEnd : IntVect
  bigEnd : IntVect
deriving DecidableEq, Repr

/-- Box of the faces normal to `dir` of a cell box (`amrex::surroundingNodes`). -/
def surroundingNodes (b : Box) (dir : Nat) : Box :=
  { b with bigEnd := b.bigEnd.set dir (b.bigEnd.get dir + 1) }

/-- Grow the low side in direction `dir` by `n` cells (`Box::growLo`). -/
def Box.growLo (b : Box) (dir : Nat) (n : Int) : Box :=
  { b with smallEnd := b.smallEnd.set dir (b.smallEnd.get dir - n) }

/-- Grow the high side in direction `dir` by `n` cells (`Box::growHi`). -/
def Box.growHi (b : Box) (dir : Nat) (n : Int) : Box :=
  { b with bigEnd := b.bigEnd.set dir (b.bigEnd.get dir + n) }

/-- Grow both sides by the components of `g` (`Box::grow (IntVect)`). -/
def Box.grow (b : Box) (g : IntVect) : Box :=
  { smallEnd := ⟨b.smallEnd.x - g.x, b.smallEnd.y - g.y, b.smallEnd.z - g.z⟩
    bigEnd := ⟨b.bigEnd.x + g.x, b.bigEnd.y + g.y, b.bigEnd.z + g.z⟩ }

/-- Replace the low corner in direction `dir` (`Box::setSmall`). -/
def Box.setSmall (b : Box) (dir : Nat) (a : Int) : Box :=
  { b with smallEnd := b.smallEnd.set dir a }

/-- Replace the high corner in direction `dir` (`Box::setBig`). -/
def Box.setBig (b : Box) (dir : Nat) (a : Int) : Box :=
  { b with bigEnd := b.bigEnd.set dir a }

/-- Membership of a cell in a box. -/
def Box.contains (b : Box) (i j k : Int) : Prop :=
  (b.smallEnd.x ≤ i ∧ i ≤ b.bigEnd.x) ∧ (b.smallEnd.y ≤ j ∧ j ≤ b.bigEnd.y) ∧
    (b.smallEnd.z ≤ k ∧ k ≤ b.bigEnd.z)

instance (b : Box) (i j k : Int) : Decidable (b.contains i j k) := by
  unfold Box.contains; infer_instance

/-- The integers `lo, lo+1, ..., hi` (empty when `hi < lo`). -/
def rangeInt (lo hi : Int) : List Int :=
  (List.range (hi + 1 - lo).toNat).map (fun (n : Nat) => lo + (n : Int))

/-- The cells of a box in loop order (`k` outermost, `i` innermost). -/
def Box.cells (b : Box) : List (Int × Int × Int) :=
  (rangeInt b.smallEnd.z b.bigEnd.z).flatMap fun k =>
    (rangeInt b.smallEnd.y b.bigEnd.y).flatMap fun j =>
      (rangeInt b.smallEnd.x b.bigEnd.x).map fun i => (i, j, k)

/-! ## Arrays and kernels -/

/-- Four-index array accessor `amrex::Array4<Real>`. -/
abbrev Array4 := Int → Int → Int → Int → ℚ

/-- The default-constructed accessor `Array4<Real>{}`. -/
def Array4.empty : Array4 := fun _ _ _ _ => 0

/-- Assignment `a(i,j,k,n) = v`. -/
def Array4.set (a : Array4) (i j k n : Int) (v : ℚ) : Array4 :=
  fun i2 j2 k2 n2 => if i2 = i ∧ j2 = j ∧ k2 = k ∧ n2 = n then v else a i2 j2 k2 n2

/-- Kernel launch `amrex::ParallelFor (bx, f)` on the array the kernel writes. -/
def ParallelFor (bx : Box) (f : Int → Int → Int → Array4 → Array4) (a : Array4) : Array4 :=
  bx.cells.foldl (fun s c => f c.1 c.2.1 c.2.2 s) a

/-- Kernel launch `amrex::ParallelFor (bx, ncomp, f)`: component loop outermost. -/
def ParallelForN (bx : Box) (ncomp : Int) (f : Int → Int → Int → Int → Array4 → Array4)
    (a : Array4) : Array4 :=
  (rangeInt 0 (ncomp - 1)).foldl (fun s n => ParallelFor bx (fun i j k => f i j k n) s) a

/-! ## Index definitions (`IndexDefines.H`, dry build) -/

def Rho_comp : Int := 0
def RhoTheta_comp : Int := 1
def RhoKE_comp : Int := 2
def RhoQKE_comp : Int := 3
def RhoScalar_comp : Int := 4
def NVAR : Int := 5

def PrimTheta_comp : Int := RhoTheta_comp - 1
def PrimKE_comp : Int := RhoKE_comp - 1
def PrimQKE_comp : Int := RhoQKE_comp - 1
def PrimScalar_comp : Int := RhoScalar_comp - 1
def NUM_PRIM : Int := NVAR - 1

namespace EddyDiff
def Mom_h : Int := 0
def Theta_h : Int := 1
def Scalar_h : Int := 2
def KE_h : Int := 3
def QKE_h : Int := 4
def Mom_v : Int := 5
def Theta_v : Int := 6
def Scalar_v : Int := 7
def KE_v : Int := 8
def QKE_v : Int := 9
def PBL_lengthscale : Int := 10
def NumDiffs : Int := 11
end EddyDiff

/-! ## Solver choices (`DataStruct.H`) -/

inductive ABLDriverType where
  | None | PressureGradient | GeostrophicWind
deriving DecidableEq, Repr

inductive LESType where
  | None | Smagorinsky | Deardorff
deriving DecidableEq, Repr

inductive PBLType where
  | None | MYNN25
deriving DecidableEq, Repr

inductive MolecDiffType where
  | None | Constant | ConstantAlpha
deriving DecidableEq, Repr

inductive IC_BC_Type where
  | Ideal | Real
deriving DecidableEq, Repr

/-- Three reals indexed by direction (`GpuArray<Real,AMREX_SPACEDIM>`). -/
abbrev GpuArray3 := Nat → ℚ

/-- Three reals as a direction-indexed array. -/
def GpuArray3.mk3 (a b c : ℚ) : GpuArray3 := fun d =>
  match d with
  | 0 => a
  | 1 => b
  | _ => c

/-- The data members of `struct SolverChoice`, with their default member
initializers; members without an initializer start at the first enumerator
or `0`. -/
structure SolverChoice where
  use_terrain : Bool := false
  test_mapfactor : Bool := false
  terrain_type : Int := 0
  use_gravity : Bool := false
  use_coriolis : Bool := false
  use_rayleigh_damping : Bool := false
  gravity : ℚ := 0
  c_p : ℚ := 1004.5
  rdOcp : ℚ := 0
  molec_diff_type : MolecDiffType := MolecDiffType.None
  alpha_T : ℚ := 0
  alpha_C : ℚ := 0
  rho0_trans : ℚ := 1
  rhoAlpha_T : ℚ := 0
  rhoAlpha_C : ℚ := 0
  dynamicViscosity : ℚ := 0
  les_type : LESType := LESType.None
  Cs : ℚ := 0
  CI : ℚ := 0
  Pr_t : ℚ := 1
  Pr_t_inv : ℚ := 1
  Sc_t : ℚ := 1
  Sc_t_inv : ℚ := 1
  Ce : ℚ := 0
  Ck : ℚ := 0
  sigma_k : ℚ := 1
  pbl_type : PBLType := PBLType.None
  pbl_A1 : ℚ := 1.18
  pbl_A2 : ℚ := 0.665
  pbl_B1 : ℚ := 24
  pbl_B2 : ℚ := 15
  pbl_C1 : ℚ := 0.137
  pbl_C2 : ℚ := 0.75
  pbl_C3 : ℚ := 0.352
  pbl_C4 : ℚ := 0
  pbl_C5 : ℚ := 0.2
  use_QKE : Bool := false
  diffuse_QKE_3D : Bool := false
  advect_QKE : Bool := true
  coriolis_factor : ℚ := 0
  cosphi : ℚ := 0
  sinphi : ℚ := 0
  spatial_order : Int := 2
  abl_driver_type : ABLDriverType := ABLDriverType.None
  abl_pressure_grad : GpuArray3 := GpuArray3.mk3 0 0 0
  abl_geo_forcing : GpuArray3 := GpuArray3.mk3 0 0 0
  icBcType : IC_BC_Type := IC_BC_Type.Ideal

/-! ## Functions of headers outside the embedded sources -/

/-- Boundary-condition records (`amrex::BCRec`); only handed on to closures. -/
abbrev BCRecs := List (List Int)

/-- Terrain metric functions of `TerrainMetrics.H`, which is not among the
embedded sources: parameters, each with the arguments of its call sites. -/
structure TerrainMetrics where
  Compute_h_xi_AtIface : Int → Int → Int → GpuArray3 → Array4 → ℚ
  Compute_h_zeta_AtIface : Int → Int → Int → GpuArray3 → Array4 → ℚ
  Compute_h_eta_AtJface : Int → Int → Int → GpuArray3 → Array4 → ℚ
  Compute_h_zeta_AtJface : Int → Int → Int → GpuArray3 → Array4 → ℚ
  Compute_h_xi_AtKface : Int → Int → Int → GpuArray3 → Array4 → ℚ
  Compute_h_eta_AtKface : Int → Int → Int → GpuArray3 → Array4 → ℚ
  Compute_h_zeta_AtKface : Int → Int → Int → GpuArray3 → Array4 → ℚ
  Compute_h_zeta_AtCellCenter : Int → Int → Int → GpuArray3 → Array4 → ℚ
  Compute_h_xi_AtEdgeCenterJ : Int → Int → Int → GpuArray3 → Array4 → ℚ
  Compute_h_zeta_AtEdgeCenterJ : Int → Int → Int → GpuArray3 → Array4 → ℚ
  Compute_h_eta_AtEdgeCenterI : Int → Int → Int → GpuArray3 → Array4 → ℚ
  Compute_h_zeta_AtEdgeCenterI : Int → Int → Int → GpuArray3 → Array4 → ℚ
  OmegaFromW : Int → Int → Int → ℚ → Array4 → Array4 → Array4 → GpuArray3 → ℚ

/-- Library and closure functions used by the TKE and QKE sources
(`std::sqrt`, `std::pow`, `EddyViscosity.H`, `ComputeQKESourceTerm.H`), which
are not among the embedded sources: parameters. -/
structure Closures where
  sqrt : ℚ → ℚ
  pow : ℚ → ℚ → ℚ
  ComputeTKEProduction : Int → Int → Int → Array4 → Array4 → Array4 → Array4 →
    GpuArray3 → Box → BCRecs → Int → ℚ
  ComputeQKESourceTerms : Int → Int → Int → Array4 → Array4 → Array4 → Array4 → Array4 →
    GpuArray3 → Box → SolverChoice → ℚ → ℚ

/-! ## `DiffusionSrcForState_T` (`Diffusion/DiffusionSrcForState_T.cpp`) -/

/-- Element `v[i]` of a `Vector<Real>`. -/
def vecGet (v : List ℚ) (i : Int) : ℚ := if 0 ≤ i then v.getD i.toNat 0 else 0

/-- Element `v[i]` of a `Vector<int>`. -/
def vecGetI (v : List Int) (i : Int) : Int := if 0 ≤ i then v.getD i.toNat 0 else 0

/-- The read-only arguments of `DiffusionSrcForState_T`. -/
structure DiffArgs where
  bx : Box
  domain : Box
  n_start : Int
  n_end : Int
  u : Array4
  v : Array4
  w : Array4
  cell_data : Array4
  cell_prim : Array4
  source_fab : Array4
  z_nd : Array4
  detJ : Array4
  dxInv : GpuArray3
  mf_m : Array4
  mf_u : Array4
  mf_v : Array4
  mu_turb : Array4
  solverChoice : SolverChoice
  tm_arr : Array4
  grav_gpu : GpuArray3
  bc_ptr : BCRecs

/-- The arrays `DiffusionSrcForState_T` writes. -/
structure DiffState where
  cell_rhs : Array4
  xflux : Array4
  yflux : Array4
  zflux : Array4

def qty_offset : Int := RhoTheta_comp

/-- The vector `alpha_eff` (lines 58-104). -/
def alpha_eff (sc : SolverChoice) : List ℚ :=
  if sc.molec_diff_type = MolecDiffType.ConstantAlpha then
    (rangeInt 0 (NUM_PRIM - 1)).map fun i =>
      if i = PrimTheta_comp then sc.alpha_T
      else if i = PrimScalar_comp then sc.alpha_C
      else 0
  else
    (rangeInt 0 (NUM_PRIM - 1)).map fun i =>
      if i = PrimTheta_comp then sc.rhoAlpha_T
      else if i = PrimScalar_comp then sc.rhoAlpha_C
      else 0

def eddy_diff_idx : List Int := [EddyDiff.Theta_h, EddyDiff.KE_h, EddyDiff.QKE_h, EddyDiff.Scalar_h]
def eddy_diff_idy : List Int := [EddyDiff.Theta_h, EddyDiff.KE_h, EddyDiff.QKE_h, EddyDiff.Scalar_h]
def eddy_diff_idz : List Int := [EddyDiff.Theta_v, EddyDiff.KE_v, EddyDiff.QKE_v, EddyDiff.Scalar_v]

/-- The flag `l_consA`. -/
def l_consA (sc : SolverChoice) : Bool :=
  decide (sc.molec_diff_type = MolecDiffType.ConstantAlpha)

/-- The flag `l_turb`. -/
def l_turb (sc : SolverChoice) : Bool :=
  decide (sc.les_type = LESType.Smagorinsky) || decide (sc.les_type = LESType.Deardorff) ||
    decide (sc.pbl_type = PBLType.MYNN25)

/-- The branch of the chain `if (l_consA && l_turb) .. else if (l_turb) ..
else if (l_consA) .. else ..` (lines 130, 189, 246, 299). -/
inductive DiffMode where
  | RhoAlphaTurb | AlphaTurb | RhoAlpha | Alpha
deriving DecidableEq, Repr

def diffMode (sc : SolverChoice) : DiffMode :=
  if l_consA sc && l_turb sc then DiffMode.RhoAlphaTurb
  else if l_turb sc then DiffMode.AlphaTurb
  else if l_consA sc then DiffMode.RhoAlpha
  else DiffMode.Alpha

/-- Diffusivity at the x-face `(i,j,k)` in each of the four branches. -/
def faceDiff_x (m : DiffMode) (p : DiffArgs) (i j k prim_index : Int) : ℚ :=
  let d_alpha_eff := vecGet (alpha_eff p.solverChoice)
  let d_eddy_diff_idx := vecGetI eddy_diff_idx
  match m with
  | DiffMode.RhoAlphaTurb =>
    let rhoFace := 0.5 * (p.cell_data i j k Rho_comp + p.cell_data (i-1) j k Rho_comp)
    let rhoAlpha := rhoFace * d_alpha_eff prim_index
    rhoAlpha + 0.5 * (p.mu_turb i j k (d_eddy_diff_idx prim_index)
                    + p.mu_turb (i-1) j k (d_eddy_diff_idx prim_index))
  | DiffMode.AlphaTurb =>
    let Alpha := d_alpha_eff prim_index
    Alpha + 0.5 * (p.mu_turb i j k (d_eddy_diff_idx prim_index)
                 + p.mu_turb (i-1) j k (d_eddy_diff_idx prim_index))
  | DiffMode.RhoAlpha =>
    let rhoFace := 0.5 * (p.cell_data i j k Rho_comp + p.cell_data (i-1) j k Rho_comp)
    rhoFace * d_alpha_eff prim_index
  | DiffMode.Alpha => d_alpha_eff prim_index

/-- Diffusivity at the y-face `(i,j,k)` in each of the four branches. -/
def faceDiff_y (m : DiffMode) (p : DiffArgs) (i j k prim_index : Int) : ℚ :=
  let d_alpha_eff := vecGet (alpha_eff p.solverChoice)
  let d_eddy_diff_idy := vecGetI eddy_diff_idy
  match m with
  | DiffMode.RhoAlphaTurb =>
    let rhoFace := 0.5 * (p.cell_data i j k Rho_comp + p.cell_data i (j-1) k Rho_comp)
    let rhoAlpha := rhoFace * d_alpha_eff prim_index
    rhoAlpha + 0.5 * (p.mu_turb i j k (d_eddy_diff_idy prim_index)
                    + p.mu_turb i (j-1) k (d_eddy_diff_idy prim_index))
  | DiffMode.AlphaTurb =>
    let Alpha := d_alpha_eff prim_index
    Alpha + 0.5 * (p.mu_turb i j k (d_eddy_diff_idy prim_index)
                 + p.mu_turb i (j-1) k (d_eddy_diff_idy prim_index))
  | DiffMode.RhoAlpha =>
    let rhoFace := 0.5 * (p.cell_data i j k Rho_comp + p.cell_data i (j-1) k Rho_comp)
    rhoFace * d_alpha_eff prim_index
  | DiffMode.Alpha => d_alpha_eff prim_index

/-- Diffusivity at the z-face `(i,j,k)` in each of the four branches. -/
def faceDiff_z (m : DiffMode) (p : DiffArgs) (i j k prim_index : Int) : ℚ :=
  let d_alpha_eff := vecGet (alpha_eff p.solverChoice)
  let d_eddy_diff_idz := vecGetI eddy_diff_idz
  match m with
  | DiffMode.RhoAlphaTurb =>
    let rhoFace := 0.5 * (p.cell_data i j k Rho_comp + p.cell_data i j (k-1) Rho_comp)
    let rhoAlpha := rhoFace * d_alpha_eff prim_index
    rhoAlpha + 0.5 * (p.mu_turb i j k (d_eddy_diff_idz prim_index)
                    + p.mu_turb i j (k-1) (d_eddy_diff_idz prim_index))
  | DiffMode.AlphaTurb =>
    let Alpha := d_alpha_eff prim_index
    Alpha + 0.5 * (p.mu_turb i j k (d_eddy_diff_idz prim_index)
                 + p.mu_turb i j (k-1) (d_eddy_diff_idz prim_index))
  | DiffMode.RhoAlpha =>
    let rhoFace := 0.5 * (p.cell_data i j k Rho_comp + p.cell_data i j (k-1) Rho_comp)
    rhoFace * d_alpha_eff prim_index
  | DiffMode.Alpha => d_alpha_eff prim_index

/-- Body of the kernels over `xbx` (lines 131-150, 190-208, 247-264, 300-316). -/
def xfluxKernel (tm : TerrainMetrics) (m : DiffMode) (p : DiffArgs) (i j k n : Int)
    (xflux : Array4) : Array4 :=
  let dx_inv := p.dxInv 0
  let dz_inv := p.dxInv 2
  let qty_index := p.n_start + n
  let prim_index := qty_index - qty_offset
  let rhoAlpha := faceDiff_x m p i j k prim_index
  let met_h_xi := tm.Compute_h_xi_AtIface i j k p.dxInv p.z_nd
  let met_h_zeta := tm.Compute_h_zeta_AtIface i j k p.dxInv p.z_nd
  let GradCz := 0.25 * dz_inv * (p.cell_prim i j (k+1) prim_index + p.cell_prim (i-1) j (k+1) prim_index
                               - p.cell_prim i j (k-1) prim_index - p.cell_prim (i-1) j (k-1) prim_index)
  let GradCx := dx_inv * (p.cell_prim i j k prim_index - p.cell_prim (i-1) j k prim_index)
  xflux.set i j k qty_index (rhoAlpha * p.mf_u i j 0 0 * (GradCx - (met_h_xi/met_h_zeta)*GradCz))

/-- Body of the kernels over `ybx` (lines 151-170, 209-227, 265-282, 317-333). -/
def yfluxKernel (tm : TerrainMetrics) (m : DiffMode) (p : DiffArgs) (i j k n : Int)
    (yflux : Array4) : Array4 :=
  let dy_inv := p.dxInv 1
  let dz_inv := p.dxInv 2
  let qty_index := p.n_start + n
  let prim_index := qty_index - qty_offset
  let rhoAlpha := faceDiff_y m p i j k prim_index
  let met_h_eta := tm.Compute_h_eta_AtJface i j k p.dxInv p.z_nd
  let met_h_zeta := tm.Compute_h_zeta_AtJface i j k p.dxInv p.z_nd
  let GradCz := 0.25 * dz_inv * (p.cell_prim i j (k+1) prim_index + p.cell_prim i (j-1) (k+1) prim_index
                               - p.cell_prim i j (k-1) prim_index - p.cell_prim i (j-1) (k-1) prim_index)
  let GradCy := dy_inv * (p.cell_prim i j k prim_index - p.cell_prim i (j-1) k prim_index)
  yflux.set i j k qty_index (rhoAlpha * p.mf_v i j 0 0 * (GradCy - (met_h_eta/met_h_zeta)*GradCz))

/-- Body of the kernels over `zbx` (lines 171-187, 228-244, 283-297, 334-347). -/
def zfluxKernel (tm : TerrainMetrics) (m : DiffMode) (p : DiffArgs) (i j k n : Int)
    (zflux : Array4) : Array4 :=
  let dz_inv := p.dxInv 2
  let qty_index := p.n_start + n
  let prim_index := qty_index - qty_offset
  let rhoAlpha := faceDiff_z m p i j k prim_index
  let met_h_zeta := tm.Compute_h_zeta_AtKface i j k p.dxInv p.z_nd
  let GradCz := dz_inv * (p.cell_prim i j k prim_index - p.cell_prim i j (k-1) prim_index)
  zflux.set i j k qty_index (rhoAlpha * GradCz / met_h_zeta)

/-- Body of the kernel over `planexy` (lines 357-391): bottom and top z-face. -/
def zfluxEndsKernel (tm : TerrainMetrics) (p : DiffArgs) (k_lo k_hi : Int) (xflux yflux : Array4)
    (i j _k n : Int) (zflux : Array4) : Array4 :=
  let qty_index := p.n_start + n
  -- Bottom face
  let met_h_xi := tm.Compute_h_xi_AtKface i j k_lo p.dxInv p.z_nd
  let met_h_eta := tm.Compute_h_eta_AtKface i j k_lo p.dxInv p.z_nd
  let xfluxlo := 0.5 * (xflux i j k_lo qty_index + xflux (i+1) j k_lo qty_index)
  let xfluxhi := 0.5 * (xflux i j (k_lo+1) qty_index + xflux (i+1) j (k_lo+1) qty_index)
  let xfluxbar := 1.5*xfluxlo - 0.5*xfluxhi
  let yfluxlo := 0.5 * (yflux i j k_lo qty_index + yflux i (j+1) k_lo qty_index)
  let yfluxhi := 0.5 * (yflux i j (k_lo+1) qty_index + yflux i (j+1) (k_lo+1) qty_index)
  let yfluxbar := 1.5*yfluxlo - 0.5*yfluxhi
  let zflux := zflux.set i j k_lo qty_index
    (zflux i j k_lo qty_index - (met_h_xi*xfluxbar + met_h_eta*yfluxbar))
  -- Top face
  let met_h_xi := tm.Compute_h_xi_AtKface i j k_hi p.dxInv p.z_nd
  let met_h_eta := tm.Compute_h_eta_AtKface i j k_hi p.dxInv p.z_nd
  let xfluxlo := 0.5 * (xflux i j (k_hi-2) qty_index + xflux (i+1) j (k_hi-2) qty_index)
  let xfluxhi := 0.5 * (xflux i j (k_hi-1) qty_index + xflux (i+1) j (k_hi-1) qty_index)
  let xfluxbar := 1.5*xfluxhi - 0.5*xfluxlo
  let yfluxlo := 0.5 * (yflux i j (k_hi-2) qty_index + yflux i (j+1) (k_hi-2) qty_index)
  let yfluxhi := 0.5 * (yflux i j (k_hi-1) qty_index + yflux i (j+1) (k_hi-1) qty_index)
  let yfluxbar := 1.5*yfluxhi - 0.5*yfluxlo
  zflux.set i j k_hi qty_index
    (zflux i j k_hi qty_index - (met_h_xi*xfluxbar + met_h_eta*yfluxbar))

/-- Body of the kernel over `zbx3` (lines 394-408): interior z-faces. -/
def zfluxInteriorKernel (tm : TerrainMetrics) (p : DiffArgs) (xflux yflux : Array4)
    (i j k n : Int) (zflux : Array4) : Array4 :=
  let qty_index := p.n_start + n
  let met_h_xi := tm.Compute_h_xi_AtKface i j k p.dxInv p.z_nd
  let met_h_eta := tm.Compute_h_eta_AtKface i j k p.dxInv p.z_nd
  let xfluxbar := 0.25 * (xflux i j k qty_index + xflux (i+1) j k qty_index
                        + xflux i j (k-1) qty_index + xflux (i+1) j (k-1) qty_index)
  let yfluxbar := 0.25 * (yflux i j k qty_index + yflux i (j+1) k qty_index
                        + yflux i j (k-1) qty_index + yflux i (j+1) (k-1) qty_index)
  zflux.set i j k qty_index (zflux i j k qty_index - (met_h_xi*xfluxbar + met_h_eta*yfluxbar))

/-- Body of the kernel multiplying the x-fluxes by `h_zeta` (lines 410-415). -/
def xfluxScaleKernel (tm : TerrainMetrics) (p : DiffArgs) (i j k n : Int) (xflux : Array4) :
    Array4 :=
  let qty_index := p.n_start + n
  let met_h_zeta := tm.Compute_h_zeta_AtIface i j k p.dxInv p.z_nd
  xflux.set i j k qty_index (xflux i j k qty_index * met_h_zeta)

/-- Body of the kernel multiplying the y-fluxes by `h_zeta` (lines 416-421). -/
def yfluxScaleKernel (tm : TerrainMetrics) (p : DiffArgs) (i j k n : Int) (yflux : Array4) :
    Array4 :=
  let qty_index := p.n_start + n
  let met_h_zeta := tm.Compute_h_zeta_AtJface i j k p.dxInv p.z_nd
  yflux.set i j k qty_index (yflux i j k qty_index * met_h_zeta)

/-- Body of the tendency kernel (lines 428-440). -/
def rhsKernel (p : DiffArgs) (xflux yflux zflux : Array4) (qty_index : Int) (i j k : Int)
    (cell_rhs : Array4) : Array4 :=
  let dx_inv := p.dxInv 0
  let dy_inv := p.dxInv 1
  let dz_inv := p.dxInv 2
  let stateContrib := (xflux (i+1) j k qty_index - xflux i j k qty_index) * dx_inv * p.mf_m i j 0 0
                    + (yflux i (j+1) k qty_index - yflux i j k qty_index) * dy_inv * p.mf_m i j 0 0
                    + (zflux i j (k+1) qty_index - zflux i j k qty_index) * dz_inv
  let stateContrib := stateContrib + p.source_fab i j k qty_index
  let stateContrib := stateContrib / p.detJ i j k 0
  cell_rhs.set i j k qty_index (cell_rhs i j k qty_index + stateContrib)

/-- Body of the Deardorff TKE source kernel (lines 446-473). -/
def deardorffKernel (tm : TerrainMetrics) (cl : Closures) (p : DiffArgs) (i j k : Int)
    (cell_rhs : Array4) : Array4 :=
  let dx_inv := p.dxInv 0
  let dy_inv := p.dxInv 1
  let dz_inv := p.dxInv 2
  let l_Delta := cl.pow (dx_inv * dy_inv * dz_inv) (-1/3)
  let l_C_e := p.solverChoice.Ce
  let l_use_terrain : Int := if p.solverChoice.use_terrain then 1 else 0
  let qty_index := RhoKE_comp
  let theta := p.cell_prim i j k PrimTheta_comp
  let dtheta_dz := 0.5*(p.cell_prim i j (k+1) PrimTheta_comp - p.cell_prim i j (k-1) PrimTheta_comp)*dz_inv
  let E := p.cell_prim i j k PrimKE_comp
  let met_h_zeta := tm.Compute_h_zeta_AtCellCenter i j k p.dxInv p.z_nd
  let dtheta_dz := dtheta_dz / met_h_zeta
  let length := if dtheta_dz ≤ 0 then l_Delta
                else 0.76 * cl.sqrt E * (p.grav_gpu 2 / theta) * dtheta_dz
  let KH := 0.1 * (1 + 2*length/l_Delta) * cl.sqrt E
  let cell_rhs := cell_rhs.set i j k qty_index
    (cell_rhs i j k qty_index + p.cell_data i j k Rho_comp * p.grav_gpu 2 * KH * dtheta_dz)
  let cell_rhs := cell_rhs.set i j k qty_index
    (cell_rhs i j k qty_index
      + cl.ComputeTKEProduction i j k p.u p.v p.w p.mu_turb p.dxInv p.domain p.bc_ptr l_use_terrain)
  if |E| > 0 then
    cell_rhs.set i j k qty_index
      (cell_rhs i j k qty_index + p.cell_data i j k Rho_comp * l_C_e * cl.pow E 1.5 / length)
  else cell_rhs

/-- Body of the QKE source kernel (lines 479-483). -/
def qkeKernel (cl : Closures) (p : DiffArgs) (i j k : Int) (cell_rhs : Array4) : Array4 :=
  let qty_index := RhoQKE_comp
  cell_rhs.set i j k qty_index
    (cell_rhs i j k qty_index
      + cl.ComputeQKESourceTerms i j k p.u p.v p.cell_data p.cell_prim p.mu_turb p.dxInv p.domain
          p.solverChoice (p.tm_arr i j 0 0))

/-- The raw face fluxes (lines 129-348). -/
def rawFluxes (tm : TerrainMetrics) (p : DiffArgs) (s : DiffState) : DiffState :=
  let xbx := surroundingNodes p.bx 0
  let ybx := surroundingNodes p.bx 1
  let zbx := surroundingNodes p.bx 2
  let ncomp := p.n_end - p.n_start + 1
  let m := diffMode p.solverChoice
  { s with
    xflux := ParallelForN xbx ncomp (xfluxKernel tm m p) s.xflux
    yflux := ParallelForN ybx ncomp (yfluxKernel tm m p) s.yflux
    zflux := ParallelForN zbx ncomp (zfluxKernel tm m p) s.zflux }

/-- The terrain correction of the z-flux and the scaling of the x/y-fluxes
(lines 350-421). -/
def correctFluxes (tm : TerrainMetrics) (p : DiffArgs) (s : DiffState) : DiffState :=
  let xbx := surroundingNodes p.bx 0
  let ybx := surroundingNodes p.bx 1
  let zbx := surroundingNodes p.bx 2
  let ncomp := p.n_end - p.n_start + 1
  let planexy := zbx.setBig 2 (zbx.smallEnd.get 2)
  let k_lo := zbx.smallEnd.get 2
  let k_hi := zbx.bigEnd.get 2
  let zbx3 := (zbx.growLo 2 (-1)).growHi 2 (-1)
  let zflux := ParallelForN planexy ncomp (zfluxEndsKernel tm p k_lo k_hi s.xflux s.yflux) s.zflux
  let zflux := ParallelForN zbx3 ncomp (zfluxInteriorKernel tm p s.xflux s.yflux) zflux
  { s with
    xflux := ParallelForN xbx ncomp (xfluxScaleKernel tm p) s.xflux
    yflux := ParallelForN ybx ncomp (yfluxScaleKernel tm p) s.yflux
    zflux := zflux }

/-- The loop over `qty_index` that adds the flux divergence to `cell_rhs`
(lines 424-441). -/
def fluxesToRhs (p : DiffArgs) (s : DiffState) : DiffState :=
  { s with
    cell_rhs := (rangeInt p.n_start p.n_end).foldl
      (fun rhs qty_index => ParallelFor p.bx (rhsKernel p s.xflux s.yflux s.zflux qty_index) rhs)
      s.cell_rhs }

/-- The TKE and QKE sources (lines 443-484). -/
def keSources (tm : TerrainMetrics) (cl : Closures) (p : DiffArgs) (s : DiffState) : DiffState :=
  let l_use_QKE := p.solverChoice.use_QKE && p.solverChoice.advect_QKE
  let l_use_deardorff := decide (p.solverChoice.les_type = LESType.Deardorff)
  let cell_rhs :=
    if l_use_deardorff = true ∧ p.n_end ≥ RhoKE_comp then
      ParallelFor p.bx (deardorffKernel tm cl p) s.cell_rhs
    else s.cell_rhs
  let cell_rhs :=
    if l_use_QKE = true ∧ p.n_end ≥ RhoQKE_comp then
      ParallelFor p.bx (qkeKernel cl p) cell_rhs
    else cell_rhs
  { s with cell_rhs := cell_rhs }

/-- The function `DiffusionSrcForState_T`. -/
def DiffusionSrcForState_T (tm : TerrainMetrics) (cl : Closures) (p : DiffArgs) (s : DiffState) :
    DiffState :=
  keSources tm cl p (fluxesToRhs p (correctFluxes tm p (rawFluxes tm p s)))

/-! ## `erf_slow_rhs_pre` (`TimeIntegration/ERF_slow_rhs_pre.cpp`) -/

/-- Intersection of two boxes (`operator&`). -/
def Box.inter (a b : Box) : Box :=
  { smallEnd := ⟨max a.smallEnd.x b.smallEnd.x, max a.smallEnd.y b.smallEnd.y,
                 max a.smallEnd.z b.smallEnd.z⟩
    bigEnd := ⟨min a.bigEnd.x b.bigEnd.x, min a.bigEnd.y b.bigEnd.y, min a.bigEnd.z b.bigEnd.z⟩ }

/-- Cell box to the box nodal in the directions flagged in `t` (`Box::convert`). -/
def Box.convert (b : Box) (t : IntVect) : Box :=
  { b with bigEnd := ⟨b.bigEnd.x + t.x, b.bigEnd.y + t.y, b.bigEnd.z + t.z⟩ }

/-- The nine stress/strain arrays `Tau11 .. Tau32`. -/
structure Tau9 where
  tau11 : Array4
  tau22 : Array4
  tau33 : Array4
  tau12 : Array4
  tau13 : Array4
  tau23 : Array4
  tau21 : Array4
  tau31 : Array4
  tau32 : Array4

/-- The arrays `erf_slow_rhs_pre` writes for one patch: the tendencies
`S_rhs`, the scratch momenta `S_scratch`, `Omega`, the stress arrays, and the
call-scoped scratch (`pprime`, `expr`, `dflux_x/y/z`), whose initial contents
are those of the fresh allocation. -/
structure RhsState where
  cell_rhs : Array4
  rho_u_rhs : Array4
  rho_v_rhs : Array4
  rho_w_rhs : Array4
  avg_xmom : Array4
  avg_ymom : Array4
  avg_zmom : Array4
  omega_arr : Array4
  tau : Tau9
  pp_arr : Array4
  er_arr : Array4
  diffflux_x : Array4
  diffflux_y : Array4
  diffflux_z : Array4

/-- The read-only arguments of `erf_slow_rhs_pre` as seen by one iteration of
the `MFIter` loop. The iteration is untiled: `mfi.tilebox()` is the valid box
of the patch, `mfi.growntilebox(ng)` is that box grown by `ng`, and
`mfi.nodaltilebox(2)` its z-faces. -/
structure RhsArgs where
  nrk : Int
  valid_bx : Box
  tilebox : Box
  cell_data : Array4
  rho_u : Array4
  rho_v : Array4
  rho_w : Array4
  cell_prim : Array4
  u : Array4
  v : Array4
  w : Array4
  z_t_mf : Option Array4
  source : Array4
  Tau11 : Bool
  Tau21 : Bool
  eddyDiffs : Array4
  domain : Box
  dxInv : GpuArray3
  solverChoice : SolverChoice
  most : Option (Option Array4)
  bc_ptr : BCRecs
  bc_ptr_h : BCRecs
  z_phys_nd : Array4
  dJ : Array4
  r0 : Array4
  p0 : Array4
  mapfac_m : Array4
  mapfac_u : Array4
  mapfac_v : Array4
  dptr_rayleigh_tau : Int → ℚ
  dptr_rayleigh_ubar : Int → ℚ
  dptr_rayleigh_vbar : Int → ℚ
  dptr_rayleigh_thetabar : Int → ℚ

/-- Functions called by `erf_slow_rhs_pre` whose definitions (`EOS.H`,
`Advection.H`, `Diffusion.H`) are not among the embedded sources: parameters,
each with exactly the arguments of its call. The functions without terrain
receive a `Tau9` whose `tau21`, `tau31`, `tau32` are default-constructed, and
`DiffusionSrcForState_N` a `DiffArgs` whose `z_nd` and `detJ` are
default-constructed (the accessors of the call when terrain is off). -/
structure RhsExt where
  getPgivenRTh : ℚ → ℚ
  AdvectionSrcForRhoAndTheta : Box → Box → Array4 → Array4 → Array4 → Array4 → ℚ →
    Array4 → Array4 → Array4 → Array4 → Array4 → Array4 → GpuArray3 → Array4 → Array4 → Array4 →
    Int → Bool → Array4 × Array4 × Array4 × Array4
  AdvectionSrcForMom : Box → Box → Box → Array4 → Array4 → Array4 → Array4 → Array4 → Array4 →
    Array4 → Array4 → Array4 → Array4 → Array4 → GpuArray3 → Array4 → Array4 → Array4 →
    Int → Bool → Int → Array4 × Array4 × Array4
  DiffusionSrcForState_N : DiffArgs → DiffState → DiffState
  DiffusionSrcForMom_T : Box → Box → Box → Array4 → Array4 → Array4 → Tau9 → Array4 → Array4 →
    SolverChoice → GpuArray3 → Array4 → Array4 → Array4 → Array4 × Array4 × Array4
  DiffusionSrcForMom_N : Box → Box → Box → Array4 → Array4 → Array4 → Tau9 → Array4 →
    SolverChoice → GpuArray3 → Array4 → Array4 → Array4 → Array4 × Array4 × Array4
  ComputeStrain_T : Box → Box → Box → Box → Array4 → Array4 → Array4 → Tau9 → Array4 → BCRecs →
    GpuArray3 → Array4 → Array4 → Array4 → Tau9
  ComputeStrain_N : Box → Box → Box → Box → Array4 → Array4 → Array4 → Tau9 → BCRecs →
    GpuArray3 → Array4 → Array4 → Array4 → Tau9
  ComputeStressConsVisc_T : Box → Box → Box → Box → ℚ → Tau9 → Array4 → Array4 → GpuArray3 → Tau9
  ComputeStressVarVisc_T : Box → Box → Box → Box → ℚ → Array4 → Tau9 → Array4 → Array4 →
    GpuArray3 → Tau9
  ComputeStressConsVisc_N : Box → Box → Box → Box → ℚ → Tau9 → Array4 → Tau9
  ComputeStressVarVisc_N : Box → Box → Box → Box → ℚ → Array4 → Tau9 → Array4 → Tau9

/-- The flag `l_use_diff` (lines 65-67). -/
def l_use_diff (sc : SolverChoice) : Bool :=
  decide (sc.molec_diff_type ≠ MolecDiffType.None) || decide (sc.les_type ≠ LESType.None) ||
    decide (sc.pbl_type ≠ PBLType.None)

/-- The flag `cons_visc` (lines 68-69). -/
def cons_visc (sc : SolverChoice) : Bool :=
  decide (sc.molec_diff_type = MolecDiffType.Constant) ||
    decide (sc.molec_diff_type = MolecDiffType.ConstantAlpha)

/-- The flag `l_use_turb` (lines 70-72). -/
def l_use_turb (sc : SolverChoice) : Bool :=
  decide (sc.les_type = LESType.Smagorinsky) || decide (sc.les_type = LESType.Deardorff) ||
    decide (sc.pbl_type = PBLType.MYNN25)

/-- The flag `l_moving_terrain` (line 62). -/
def l_moving_terrain (sc : SolverChoice) : Bool := decide (sc.terrain_type = 1)

/-- The vector `grav` (line 136). -/
def grav_gpu (sc : SolverChoice) : GpuArray3 := GpuArray3.mk3 0 0 (-sc.gravity)

/-- The vector `ext_forcing` (lines 139-142). -/
def ext_forcing (sc : SolverChoice) : GpuArray3 :=
  GpuArray3.mk3 (-sc.abl_pressure_grad 0 + sc.abl_geo_forcing 0)
    (-sc.abl_pressure_grad 1 + sc.abl_geo_forcing 1)
    (-sc.abl_pressure_grad 2 + sc.abl_geo_forcing 2)

/-- The box `bx` of the update (line 176). -/
def RhsArgs.bx (a : RhsArgs) : Box := a.tilebox.inter a.valid_bx

/-- The box `tbx` (line 178). -/
def RhsArgs.tbx (a : RhsArgs) : Box := surroundingNodes a.bx 0

/-- The box `tby` (line 179). -/
def RhsArgs.tby (a : RhsArgs) : Box := surroundingNodes a.bx 1

/-- The box `tbz` after `growLo(2,-1)` and `growHi(2,-1)` (lines 180-184). -/
def RhsArgs.tbz (a : RhsArgs) : Box := ((surroundingNodes a.bx 2).growLo 2 (-1)).growHi 2 (-1)

/-- The box `gbx = mfi.growntilebox({1,1,0})` (line 240). -/
def RhsArgs.gbx (a : RhsArgs) : Box := a.tilebox.grow ⟨1, 1, 0⟩

/-- The box `gbxo`: `mfi.nodaltilebox(2)` grown by `(1,1,0)` (lines 265, 303). -/
def RhsArgs.gbxo (a : RhsArgs) : Box := (surroundingNodes a.tilebox 2).grow ⟨1, 1, 0⟩

/-- The index `domhi_z` (line 78). -/
def RhsArgs.domhi_z (a : RhsArgs) : Int := a.domain.bigEnd.get 2

/-- The accessor `z_nd` (line 233). -/
def RhsArgs.z_nd (a : RhsArgs) : Array4 :=
  if a.solverChoice.use_terrain then a.z_phys_nd else Array4.empty

/-- The accessor `detJ` (line 234). -/
def RhsArgs.detJ (a : RhsArgs) : Array4 :=
  if a.solverChoice.use_terrain then a.dJ else Array4.empty

/-- The accessor `mu_turb` (line 230). -/
def RhsArgs.mu_turb (a : RhsArgs) : Array4 :=
  if l_use_turb a.solverChoice then a.eddyDiffs else Array4.empty

/-- Body of the perturbation-pressure kernel (line 248). -/
def pprimeKernel (ext : RhsExt) (a : RhsArgs) (i j k : Int) (pp_arr : Array4) : Array4 :=
  pp_arr.set i j k 0 (ext.getPgivenRTh (a.cell_data i j k RhoTheta_comp) - a.p0 i j k 0)

/-- Body of the kernel creating Omega from velocity (line 267). -/
def omegaVelKernel (tm : TerrainMetrics) (a : RhsArgs) (i j k : Int) (omega_arr : Array4) :
    Array4 :=
  omega_arr.set i j k 0
    (if k = 0 then 0 else tm.OmegaFromW i j k (a.w i j k 0) a.u a.v a.z_nd a.dxInv)

/-- Body of the expansion-rate kernel with terrain (lines 270-288). -/
def exprKernel_T (tm : TerrainMetrics) (a : RhsArgs) (omega_arr : Array4) (i j k : Int)
    (er_arr : Array4) : Array4 :=
  let met_u_h_zeta_hi := tm.Compute_h_zeta_AtIface (i+1) j k a.dxInv a.z_nd
  let met_u_h_zeta_lo := tm.Compute_h_zeta_AtIface i j k a.dxInv a.z_nd
  let met_v_h_zeta_hi := tm.Compute_h_zeta_AtJface i (j+1) k a.dxInv a.z_nd
  let met_v_h_zeta_lo := tm.Compute_h_zeta_AtJface i j k a.dxInv a.z_nd
  let Omega_hi := omega_arr i j (k+1) 0
  let Omega_lo := omega_arr i j k 0
  let mfsq := a.mapfac_m i j 0 0 * a.mapfac_m i j 0 0
  let expansionRate :=
    (a.u (i+1) j k 0 / a.mapfac_u (i+1) j 0 0 * met_u_h_zeta_hi
      - a.u i j k 0 / a.mapfac_u i j 0 0 * met_u_h_zeta_lo) * a.dxInv 0 * mfsq +
    (a.v i (j+1) k 0 / a.mapfac_v i (j+1) 0 0 * met_v_h_zeta_hi
      - a.v i j k 0 / a.mapfac_v i j 0 0 * met_v_h_zeta_lo) * a.dxInv 1 * mfsq +
    (Omega_hi - Omega_lo) * a.dxInv 2
  er_arr.set i j k 0 (expansionRate / a.detJ i j k 0)

/-- Body of the expansion-rate kernel without terrain (lines 291-296). -/
def exprKernel_N (a : RhsArgs) (i j k : Int) (er_arr : Array4) : Array4 :=
  let mfsq := a.mapfac_m i j 0 0 * a.mapfac_m i j 0 0
  er_arr.set i j k 0
    ((a.u (i+1) j k 0 / a.mapfac_u (i+1) j 0 0 - a.u i j k 0 / a.mapfac_u i j 0 0) * a.dxInv 0 * mfsq +
     (a.v i (j+1) k 0 / a.mapfac_v i (j+1) 0 0 - a.v i j k 0 / a.mapfac_v i j 0 0) * a.dxInv 1 * mfsq +
     (a.w i j (k+1) 0 - a.w i j k 0) * a.dxInv 2)

/-- Body of the Omega kernel under moving terrain (lines 307-311). -/
def omegaMovingKernel (tm : TerrainMetrics) (a : RhsArgs) (z_t : Array4) (i j k : Int)
    (omega_arr : Array4) : Array4 :=
  let rho_at_face := 0.5 * (a.cell_data i j k Rho_comp + a.cell_data i j (k-1) Rho_comp)
  omega_arr.set i j k 0
    (if k = 0 then 0
     else tm.OmegaFromW i j k (a.rho_w i j k 0) a.rho_u a.rho_v a.z_nd a.dxInv
            - rho_at_face * z_t i j k 0)

/-- Body of the Omega kernel under static terrain (lines 313-315). -/
def omegaStaticKernel (tm : TerrainMetrics) (a : RhsArgs) (i j k : Int) (omega_arr : Array4) :
    Array4 :=
  omega_arr.set i j k 0
    (if k = 0 then 0 else tm.OmegaFromW i j k (a.rho_w i j k 0) a.rho_u a.rho_v a.z_nd a.dxInv)

/-- Body of the Omega kernel without terrain (lines 318-320). -/
def omegaFlatKernel (a : RhsArgs) (i j k : Int) (omega_arr : Array4) : Array4 :=
  omega_arr.set i j k 0 (a.rho_w i j k 0)

/-- Body of the first MOST kernel with terrain, the value stored in `tau13`
and copied to `tau31` (lines 402-414). -/
def mostTau13_T (tm : TerrainMetrics) (a : RhsArgs) (i j k : Int) : ℚ :=
  let GradWz := 0.5 * a.dxInv 2 * (a.w i j (k+1) 0 + a.w (i-1) j (k+1) 0
                                 - a.w i j k 0 - a.w (i-1) j k 0)
  let met_h_xi := tm.Compute_h_xi_AtEdgeCenterJ i j k a.dxInv a.z_nd
  let met_h_zeta := tm.Compute_h_zeta_AtEdgeCenterJ i j k a.dxInv a.z_nd
  0.5 * ((a.u i j k 0 - a.u i j (k-1) 0) * a.dxInv 2 / met_h_zeta
        + (a.w i j k 0 - a.w (i-1) j k 0) * a.dxInv 0
        - (met_h_xi/met_h_zeta) * GradWz)

/-- Body of the second MOST kernel with terrain, the value stored in `tau23`
and copied to `tau32` (lines 415-427). -/
def mostTau23_T (tm : TerrainMetrics) (a : RhsArgs) (i j k : Int) : ℚ :=
  let GradWz := 0.5 * a.dxInv 2 * (a.w i j (k+1) 0 + a.w i (j-1) (k+1) 0
                                 - a.w i j k 0 - a.w i (j-1) k 0)
  let met_h_eta := tm.Compute_h_eta_AtEdgeCenterI i j k a.dxInv a.z_nd
  let met_h_zeta := tm.Compute_h_zeta_AtEdgeCenterI i j k a.dxInv a.z_nd
  0.5 * ((a.v i j k 0 - a.v i j (k-1) 0) * a.dxInv 2 / met_h_zeta
        + (a.w i j k 0 - a.w i (j-1) k 0) * a.dxInv 1
        - (met_h_eta/met_h_zeta) * GradWz)

/-- Value stored in `tau13` by the MOST kernel without terrain (line 431). -/
def mostTau13_N (a : RhsArgs) (i j k : Int) : ℚ :=
  0.5 * ((a.u i j k 0 - a.u i j (k-1) 0) * a.dxInv 2 + (a.w i j k 0 - a.w (i-1) j k 0) * a.dxInv 0)

/-- Value stored in `tau23` by the MOST kernel without terrain (line 434). -/
def mostTau23_N (a : RhsArgs) (i j k : Int) : ℚ :=
  0.5 * ((a.v i j k 0 - a.v i j (k-1) 0) * a.dxInv 2 + (a.w i j k 0 - a.w i (j-1) k 0) * a.dxInv 1)

/-- The block "recompute strain at bottom with MOST" (lines 389-438). The
kernel over `tbxxz` assigns `tau13` and then copies it to `tau31`; the kernel
over `tbxyz` does the same for `tau23` and `tau32`. -/
def mostStrain (tm : TerrainMetrics) (a : RhsArgs) (t : Tau9) : Tau9 :=
  if a.nrk = 0 ∧ l_use_diff a.solverChoice = true ∧ a.most.isSome = true then
    let tbxxz := (a.bx.convert ⟨1, 0, 1⟩).setBig 2 0
    let tbxyz := (a.bx.convert ⟨0, 1, 1⟩).setBig 2 0
    if a.solverChoice.use_terrain then
      let tau13 := ParallelFor tbxxz (fun i j k x => x.set i j k 0 (mostTau13_T tm a i j k)) t.tau13
      let tau31 := ParallelFor tbxxz (fun i j k x => x.set i j k 0 (tau13 i j k 0)) t.tau31
      let tau23 := ParallelFor tbxyz (fun i j k x => x.set i j k 0 (mostTau23_T tm a i j k)) t.tau23
      let tau32 := ParallelFor tbxyz (fun i j k x => x.set i j k 0 (tau23 i j k 0)) t.tau32
      { t with tau13 := tau13, tau31 := tau31, tau23 := tau23, tau32 := tau32 }
    else
      { t with
        tau13 := ParallelFor tbxxz (fun i j k x => x.set i j k 0 (mostTau13_N a i j k)) t.tau13
        tau23 := ParallelFor tbxyz (fun i j k x => x.set i j k 0 (mostTau23_N a i j k)) t.tau23 }
  else t

/-- Body of the Rayleigh-damping kernel of the RhoTheta tendency (lines 527-531). -/
def rayleighThetaKernel (a : RhsArgs) (i j k : Int) (cell_rhs : Array4) : Array4 :=
  let n := RhoTheta_comp
  let nr := Rho_comp
  let np := PrimTheta_comp
  let theta := a.cell_prim i j k np
  cell_rhs.set i j k n
    (cell_rhs i j k n
      - a.dptr_rayleigh_tau k * (theta - a.dptr_rayleigh_thetabar k) * a.cell_data i j k nr)

/-- Body of the kernel multiplying the state tendencies by `detJ` (lines 536-540). -/
def detJStateKernel (a : RhsArgs) (i j k : Int) (cell_rhs : Array4) : Array4 :=
  let cell_rhs := cell_rhs.set i j k Rho_comp (cell_rhs i j k Rho_comp * a.detJ i j k 0)
  cell_rhs.set i j k RhoTheta_comp (cell_rhs i j k RhoTheta_comp * a.detJ i j k 0)

/-- Body of the x-momentum kernel with terrain (lines 579-636). -/
def xmomKernel_T (tm : TerrainMetrics) (a : RhsArgs) (pp_arr : Array4) (i j k : Int)
    (rho_u_rhs : Array4) : Array4 :=
  let sc := a.solverChoice
  let met_h_xi := tm.Compute_h_xi_AtIface i j k a.dxInv a.z_nd
  let met_h_zeta := tm.Compute_h_zeta_AtIface i j k a.dxInv a.z_nd
  let gp_xi := a.dxInv 0 * (pp_arr i j k 0 - pp_arr (i-1) j k 0)
  let gp_zeta_on_iface :=
    if k = 0 then
      0.5 * a.dxInv 2 * (pp_arr (i-1) j (k+1) 0 + pp_arr i j (k+1) 0
                        - pp_arr (i-1) j k 0 - pp_arr i j k 0)
    else if k = a.domhi_z then
      0.5 * a.dxInv 2 * (pp_arr (i-1) j k 0 + pp_arr i j k 0
                        - pp_arr (i-1) j (k-1) 0 - pp_arr i j (k-1) 0)
    else
      0.25 * a.dxInv 2 * (pp_arr (i-1) j (k+1) 0 + pp_arr i j (k+1) 0
                         - pp_arr (i-1) j (k-1) 0 - pp_arr i j (k-1) 0)
  let gpx := gp_xi - (met_h_xi / met_h_zeta) * gp_zeta_on_iface
  let gpx := gpx * a.mapfac_u i j 0 0
  let rho_u_rhs := rho_u_rhs.set i j k 0 (rho_u_rhs i j k 0 - gpx)
  let rho_u_rhs := rho_u_rhs.set i j k 0 (rho_u_rhs i j k 0 + ext_forcing sc 0)
  let rho_u_rhs :=
    if sc.use_coriolis then
      let rho_v_loc := 0.25 * (a.rho_v i (j+1) k 0 + a.rho_v i j k 0
                             + a.rho_v (i-1) (j+1) k 0 + a.rho_v (i-1) j k 0)
      let rho_w_loc := 0.25 * (a.rho_w i j (k+1) 0 + a.rho_w i j k 0
                             + a.rho_w i (j-1) (k+1) 0 + a.rho_w i (j-1) k 0)
      rho_u_rhs.set i j k 0
        (rho_u_rhs i j k 0 + sc.coriolis_factor * (rho_v_loc * sc.sinphi - rho_w_loc * sc.cosphi))
    else rho_u_rhs
  let rho_u_rhs :=
    if sc.use_rayleigh_damping then
      let uu := a.rho_u i j k 0 / a.cell_data i j k Rho_comp
      rho_u_rhs.set i j k 0
        (rho_u_rhs i j k 0
          - a.dptr_rayleigh_tau k * (uu - a.dptr_rayleigh_ubar k) * a.cell_data i j k Rho_comp)
    else rho_u_rhs
  if l_moving_terrain sc then
    rho_u_rhs.set i j k 0 (rho_u_rhs i j k 0 * (0.5 * (a.detJ i j k 0 + a.detJ (i-1) j k 0)))
  else rho_u_rhs

/-- Body of the x-momentum kernel without terrain (lines 642-674). -/
def xmomKernel_N (a : RhsArgs) (pp_arr : Array4) (i j k : Int) (rho_u_rhs : Array4) : Array4 :=
  let sc := a.solverChoice
  let gpx := a.dxInv 0 * (pp_arr i j k 0 - pp_arr (i-1) j k 0)
  let gpx := gpx * a.mapfac_u i j 0 0
  let rho_u_rhs := rho_u_rhs.set i j k 0 (rho_u_rhs i j k 0 - gpx)
  let rho_u_rhs := rho_u_rhs.set i j k 0 (rho_u_rhs i j k 0 + ext_forcing sc 0)
  let rho_u_rhs :=
    if sc.use_coriolis then
      let rho_v_loc := 0.25 * (a.rho_v i (j+1) k 0 + a.rho_v i j k 0
                             + a.rho_v (i-1) (j+1) k 0 + a.rho_v (i-1) j k 0)
      let rho_w_loc := 0.25 * (a.rho_w i j (k+1) 0 + a.rho_w i j k 0
                             + a.rho_w i (j-1) (k+1) 0 + a.rho_w i (j-1) k 0)
      rho_u_rhs.set i j k 0
        (rho_u_rhs i j k 0 + sc.coriolis_factor * (rho_v_loc * sc.sinphi - rho_w_loc * sc.cosphi))
    else rho_u_rhs
  if sc.use_rayleigh_damping then
    let uu := a.rho_u i j k 0 / a.cell_data i j k Rho_comp
    rho_u_rhs.set i j k 0
      (rho_u_rhs i j k 0
        - a.dptr_rayleigh_tau k * (uu - a.dptr_rayleigh_ubar k) * a.cell_data i j k Rho_comp)
  else rho_u_rhs

/-- Body of the y-momentum kernel with terrain (lines 684-737). The Coriolis
block is not guarded: its `if (solverChoice.use_coriolis)` is part of the
comment on line 721. -/
def ymomKernel_T (tm : TerrainMetrics) (a : RhsArgs) (pp_arr : Array4) (i j k : Int)
    (rho_v_rhs : Array4) : Array4 :=
  let sc := a.solverChoice
  let met_h_eta := tm.Compute_h_eta_AtJface i j k a.dxInv a.z_nd
  let met_h_zeta := tm.Compute_h_zeta_AtJface i j k a.dxInv a.z_nd
  let gp_eta := a.dxInv 1 * (pp_arr i j k 0 - pp_arr i (j-1) k 0)
  let gp_zeta_on_jface :=
    if k = 0 then
      0.5 * a.dxInv 2 * (pp_arr i j (k+1) 0 + pp_arr i (j-1) (k+1) 0
                        - pp_arr i j k 0 - pp_arr i (j-1) k 0)
    else if k = a.domhi_z then
      0.5 * a.dxInv 2 * (pp_arr i j k 0 + pp_arr i (j-1) k 0
                        - pp_arr i j (k-1) 0 - pp_arr i (j-1) (k-1) 0)
    else
      0.25 * a.dxInv 2 * (pp_arr i j (k+1) 0 + pp_arr i (j-1) (k+1) 0
                         - pp_arr i j (k-1) 0 - pp_arr i (j-1) (k-1) 0)
  let gpy := gp_eta - (met_h_eta / met_h_zeta) * gp_zeta_on_jface
  let gpy := gpy * a.mapfac_v i j 0 0
  let rho_v_rhs := rho_v_rhs.set i j k 0 (rho_v_rhs i j k 0 - gpy)
  let rho_v_rhs := rho_v_rhs.set i j k 0 (rho_v_rhs i j k 0 + ext_forcing sc 1)
  let rho_u_loc := 0.25 * (a.rho_u (i+1) j k 0 + a.rho_u i j k 0
                         + a.rho_u (i+1) (j-1) k 0 + a.rho_u i (j-1) k 0)
  let rho_v_rhs := rho_v_rhs.set i j k 0
    (rho_v_rhs i j k 0 + -sc.coriolis_factor * rho_u_loc * sc.sinphi)
  let rho_v_rhs :=
    if sc.use_rayleigh_damping then
      let vv := a.rho_v i j k 0 / a.cell_data i j k Rho_comp
      rho_v_rhs.set i j k 0
        (rho_v_rhs i j k 0
          - a.dptr_rayleigh_tau k * (vv - a.dptr_rayleigh_vbar k) * a.cell_data i j k Rho_comp)
    else rho_v_rhs
  if l_moving_terrain sc then
    rho_v_rhs.set i j k 0 (rho_v_rhs i j k 0 * (0.5 * (a.detJ i j k 0 + a.detJ i (j-1) k 0)))
  else rho_v_rhs

/-- Body of the y-momentum kernel without terrain (lines 743-774). -/
def ymomKernel_N (a : RhsArgs) (pp_arr : Array4) (i j k : Int) (rho_v_rhs : Array4) : Array4 :=
  let sc := a.solverChoice
  let gpy := a.dxInv 1 * (pp_arr i j k 0 - pp_arr i (j-1) k 0)
  let gpy := gpy * a.mapfac_v i j 0 0
  let rho_v_rhs := rho_v_rhs.set i j k 0 (rho_v_rhs i j k 0 - gpy)
  let rho_v_rhs := rho_v_rhs.set i j k 0 (rho_v_rhs i j k 0 + ext_forcing sc 1)
  let rho_v_rhs :=
    if sc.use_coriolis then
      let rho_u_loc := 0.25 * (a.rho_u (i+1) j k 0 + a.rho_u i j k 0
                             + a.rho_u (i+1) (j-1) k 0 + a.rho_u i (j-1) k 0)
      rho_v_rhs.set i j k 0 (rho_v_rhs i j k 0 + -sc.coriolis_factor * rho_u_loc * sc.sinphi)
    else rho_v_rhs
  if sc.use_rayleigh_damping then
    let vv := a.rho_v i j k 0 / a.cell_data i j k Rho_comp
    rho_v_rhs.set i j k 0
      (rho_v_rhs i j k 0
        - a.dptr_rayleigh_tau k * (vv - a.dptr_rayleigh_vbar k) * a.cell_data i j k Rho_comp)
  else rho_v_rhs

/-- Body of the kernel over `b2d` zeroing the z-momentum tendency at the
bottom and top boundaries (lines 784-787). -/
def zeroKernel (a : RhsArgs) (i j _k : Int) (rho_w_rhs : Array4) : Array4 :=
  let rho_w_rhs := rho_w_rhs.set i j 0 0 0
  rho_w_rhs.set i j (a.domhi_z + 1) 0 0

/-- Body of the z-momentum kernel with terrain (lines 796-858). -/
def zmomKernel_T (tm : TerrainMetrics) (a : RhsArgs) (pp_arr : Array4) (i j k : Int)
    (rho_w_rhs : Array4) : Array4 :=
  let sc := a.solverChoice
  let met_h_zeta := tm.Compute_h_zeta_AtKface i j k a.dxInv a.z_nd
  let gpz := a.dxInv 2 * (pp_arr i j k 0 - pp_arr i j (k-1) 0) / met_h_zeta
  let rho_w_rhs := rho_w_rhs.set i j k 0 (rho_w_rhs i j k 0 - gpz)
  let rho_w_rhs := rho_w_rhs.set i j k 0
    (rho_w_rhs i j k 0 + grav_gpu sc 2 * 0.5 * (a.cell_data i j k 0 + a.cell_data i j (k-1) 0
                                               - a.r0 i j k 0 - a.r0 i j (k-1) 0))
  let rho_w_rhs := rho_w_rhs.set i j k 0 (rho_w_rhs i j k 0 + ext_forcing sc 2)
  let rho_w_rhs :=
    if sc.use_coriolis then
      let rho_u_loc := 0.25 * (a.rho_u (i+1) j k 0 + a.rho_u i j k 0
                             + a.rho_u (i+1) j (k-1) 0 + a.rho_u i j (k-1) 0)
      rho_w_rhs.set i j k 0 (rho_w_rhs i j k 0 + sc.coriolis_factor * rho_u_loc * sc.cosphi)
    else rho_w_rhs
  let rho_w_rhs :=
    if sc.use_rayleigh_damping then
      rho_w_rhs.set i j k 0 (rho_w_rhs i j k 0 - a.dptr_rayleigh_tau k * a.rho_w i j k 0)
    else rho_w_rhs
  if sc.use_terrain = true ∧ l_moving_terrain sc = true then
    rho_w_rhs.set i j k 0 (rho_w_rhs i j k 0 * (0.5 * (a.detJ i j k 0 + a.detJ i j (k-1) 0)))
  else rho_w_rhs

/-- Body of the z-momentum kernel without terrain (lines 864-920). -/
def zmomKernel_N (a : RhsArgs) (pp_arr : Array4) (i j k : Int) (rho_w_rhs : Array4) : Array4 :=
  let sc := a.solverChoice
  let gpz := a.dxInv 2 * (pp_arr i j k 0 - pp_arr i j (k-1) 0)
  let rho_w_rhs := rho_w_rhs.set i j k 0 (rho_w_rhs i j k 0 - gpz)
  let rho_w_rhs := rho_w_rhs.set i j k 0
    (rho_w_rhs i j k 0 + grav_gpu sc 2 * 0.5 * (a.cell_data i j k 0 + a.cell_data i j (k-1) 0
                                               - a.r0 i j k 0 - a.r0 i j (k-1) 0))
  let rho_w_rhs := rho_w_rhs.set i j k 0 (rho_w_rhs i j k 0 + ext_forcing sc 2)
  let rho_w_rhs :=
    if sc.use_coriolis then
      let rho_u_loc := 0.25 * (a.rho_u (i+1) j k 0 + a.rho_u i j k 0
                             + a.rho_u (i+1) j (k-1) 0 + a.rho_u i j (k-1) 0)
      rho_w_rhs.set i j k 0 (rho_w_rhs i j k 0 + sc.coriolis_factor * rho_u_loc * sc.cosphi)
    else rho_w_rhs
  if sc.use_rayleigh_damping then
    rho_w_rhs.set i j k 0 (rho_w_rhs i j k 0 - a.dptr_rayleigh_tau k * a.rho_w i j k 0)
  else rho_w_rhs

def start_comp : Int := 0
def num_comp : Int := 2

/-- The accessors `tau11 .. tau32` of one patch: default-constructed where
the `MultiFab` pointer is null (lines 325-352). -/
def tauView (a : RhsArgs) (t : Tau9) : Tau9 :=
  { tau11 := if a.Tau11 then t.tau11 else Array4.empty
    tau22 := if a.Tau11 then t.tau22 else Array4.empty
    tau33 := if a.Tau11 then t.tau33 else Array4.empty
    tau12 := if a.Tau11 then t.tau12 else Array4.empty
    tau13 := if a.Tau11 then t.tau13 else Array4.empty
    tau23 := if a.Tau11 then t.tau23 else Array4.empty
    tau21 := if a.Tau21 then t.tau21 else Array4.empty
    tau31 := if a.Tau21 then t.tau31 else Array4.empty
    tau32 := if a.Tau21 then t.tau32 else Array4.empty }

/-- Writing through the accessors: arrays behind a null pointer are untouched. -/
def tauStore (a : RhsArgs) (t r : Tau9) : Tau9 :=
  { tau11 := if a.Tau11 then r.tau11 else t.tau11
    tau22 := if a.Tau11 then r.tau22 else t.tau22
    tau33 := if a.Tau11 then r.tau33 else t.tau33
    tau12 := if a.Tau11 then r.tau12 else t.tau12
    tau13 := if a.Tau11 then r.tau13 else t.tau13
    tau23 := if a.Tau11 then r.tau23 else t.tau23
    tau21 := if a.Tau21 then r.tau21 else t.tau21
    tau31 := if a.Tau21 then r.tau31 else t.tau31
    tau32 := if a.Tau21 then r.tau32 else t.tau32 }

/-- The six arrays handed to the functions without terrain. -/
def Tau9.six (t : Tau9) : Tau9 :=
  { t with tau21 := Array4.empty, tau31 := Array4.empty, tau32 := Array4.empty }

/-- Result of a function without terrain: the six arrays it was handed, the
other three as they were. -/
def Tau9.putSix (t r : Tau9) : Tau9 :=
  { r with tau21 := t.tau21, tau31 := t.tau31, tau32 := t.tau32 }

/-- The arguments of the call of `DiffusionSrcForState_T` (lines 504-512). -/
def RhsArgs.diffArgs (a : RhsArgs) : DiffArgs :=
  { bx := a.bx
    domain := a.domain
    n_start := max start_comp RhoTheta_comp
    n_end := start_comp + num_comp - 1
    u := a.u
    v := a.v
    w := a.w
    cell_data := a.cell_data
    cell_prim := a.cell_prim
    source_fab := a.source
    z_nd := a.z_nd
    detJ := a.detJ
    dxInv := a.dxInv
    mf_m := a.mapfac_m
    mf_u := a.mapfac_u
    mf_v := a.mapfac_v
    mu_turb := a.mu_turb
    solverChoice := a.solverChoice
    tm_arr := match a.most with
      | some (some t) => t
      | _ => Array4.empty
    grav_gpu := grav_gpu a.solverChoice
    bc_ptr := a.bc_ptr }

/-- Zeroing of `S_scratch` (lines 197-199). -/
def stepScratch (s : RhsState) : RhsState :=
  { s with avg_xmom := fun _ _ _ _ => 0, avg_ymom := fun _ _ _ _ => 0,
           avg_zmom := fun _ _ _ _ => 0 }

/-- The perturbation pressure (lines 240-250). -/
def stepPprime (ext : RhsExt) (a : RhsArgs) (s : RhsState) : RhsState :=
  { s with pp_arr := ParallelFor a.gbx (pprimeKernel ext a) s.pp_arr }

/-- The expansion rate (lines 252-299). -/
def stepExpr (tm : TerrainMetrics) (a : RhsArgs) (s : RhsState) : RhsState :=
  if l_use_diff a.solverChoice then
    let gbx2 := a.tilebox.grow ⟨1, 1, 0⟩
    if a.solverChoice.use_terrain then
      let omega_arr := ParallelFor a.gbxo (omegaVelKernel tm a) s.omega_arr
      { s with omega_arr := omega_arr
               er_arr := ParallelFor gbx2 (exprKernel_T tm a omega_arr) s.er_arr }
    else
      { s with er_arr := ParallelFor gbx2 (exprKernel_N a) s.er_arr }
  else s

/-- Omega from momentum (lines 301-322). -/
def stepOmega (tm : TerrainMetrics) (a : RhsArgs) (s : RhsState) : RhsState :=
  if a.solverChoice.use_terrain then
    match a.z_t_mf with
    | some z_t => { s with omega_arr := ParallelFor a.gbxo (omegaMovingKernel tm a z_t) s.omega_arr }
    | none => { s with omega_arr := ParallelFor a.gbxo (omegaStaticKernel tm a) s.omega_arr }
  else
    { s with omega_arr := ParallelFor a.gbxo (omegaFlatKernel a) s.omega_arr }

/-- The strain at stages after the first (lines 353-387). -/
def stepStrain (ext : RhsExt) (a : RhsArgs) (t : Tau9) : Tau9 :=
  if a.nrk > 0 ∧ l_use_diff a.solverChoice = true then
    let bxcc := a.tilebox.grow ⟨1, 1, 0⟩
    let tbxxy := ((((a.bx.convert ⟨1, 1, 0⟩).growLo 0 1).growLo 1 1).growHi 0 1).growHi 1 1
    let tbxxz := ((((a.bx.convert ⟨1, 0, 1⟩).growLo 0 1).growLo 1 1).growHi 0 1).growHi 1 1
    let tbxyz := ((((a.bx.convert ⟨0, 1, 1⟩).growLo 0 1).growLo 1 1).growHi 0 1).growHi 1 1
    if a.solverChoice.use_terrain then
      ext.ComputeStrain_T bxcc tbxxy tbxxz tbxyz a.u a.v a.w t a.z_nd a.bc_ptr_h a.dxInv
        a.mapfac_m a.mapfac_u a.mapfac_v
    else
      t.putSix (ext.ComputeStrain_N bxcc tbxxy tbxxz tbxyz a.u a.v a.w t.six a.bc_ptr_h a.dxInv
        a.mapfac_m a.mapfac_u a.mapfac_v)
  else t

/-- The stress (lines 440-482). -/
def stepStress (ext : RhsExt) (a : RhsArgs) (er_arr : Array4) (t : Tau9) : Tau9 :=
  if l_use_diff a.solverChoice then
    let bxcc := a.tilebox.grow ⟨1, 1, 0⟩
    let tbxxy := a.bx.convert ⟨1, 1, 0⟩
    let tbxxz := a.bx.convert ⟨1, 0, 1⟩
    let tbxyz := a.bx.convert ⟨0, 1, 1⟩
    let mu_eff : ℚ := 0
    let mu_eff := if cons_visc a.solverChoice then mu_eff + 2.0 * a.solverChoice.dynamicViscosity
                  else mu_eff
    if a.solverChoice.use_terrain then
      if cons_visc a.solverChoice then
        ext.ComputeStressConsVisc_T bxcc tbxxy tbxxz tbxyz mu_eff t er_arr a.z_nd a.dxInv
      else
        ext.ComputeStressVarVisc_T bxcc tbxxy tbxxz tbxyz mu_eff a.mu_turb t er_arr a.z_nd a.dxInv
    else
      if cons_visc a.solverChoice then
        t.putSix (ext.ComputeStressConsVisc_N bxcc tbxxy tbxxz tbxyz mu_eff t.six er_arr)
      else
        t.putSix (ext.ComputeStressVarVisc_N bxcc tbxxy tbxxz tbxyz mu_eff a.mu_turb t.six er_arr)
  else t

/-- Strain and stress on the accessors of the patch (lines 324-482). -/
def stepTau (tm : TerrainMetrics) (ext : RhsExt) (a : RhsArgs) (s : RhsState) : RhsState :=
  let view := stepStress ext a s.er_arr (mostStrain tm a (stepStrain ext a (tauView a s.tau)))
  { s with tau := tauStore a s.tau view }

/-- Advection of density and potential temperature (lines 487-493). -/
def stepAdvState (ext : RhsExt) (a : RhsArgs) (s : RhsState) : RhsState :=
  let fac : ℚ := 1.0
  let r := ext.AdvectionSrcForRhoAndTheta a.bx a.valid_bx s.cell_rhs a.rho_u a.rho_v s.omega_arr
    fac s.avg_xmom s.avg_ymom s.avg_zmom a.cell_prim a.z_nd a.detJ a.dxInv
    a.mapfac_m a.mapfac_u a.mapfac_v a.solverChoice.spatial_order a.solverChoice.use_terrain
  { s with cell_rhs := r.1, avg_xmom := r.2.1, avg_ymom := r.2.2.1, avg_zmom := r.2.2.2 }

/-- Diffusion of the state (lines 495-520). -/
def stepDiffState (tm : TerrainMetrics) (ext : RhsExt) (cl : Closures) (a : RhsArgs)
    (s : RhsState) : RhsState :=
  if l_use_diff a.solverChoice then
    let d : DiffState := ⟨s.cell_rhs, s.diffflux_x, s.diffflux_y, s.diffflux_z⟩
    let r := if a.solverChoice.use_terrain then DiffusionSrcForState_T tm cl a.diffArgs d
             else ext.DiffusionSrcForState_N a.diffArgs d
    { s with cell_rhs := r.cell_rhs, diffflux_x := r.xflux, diffflux_y := r.yflux,
             diffflux_z := r.zflux }
  else s

/-- Rayleigh damping of the RhoTheta tendency (lines 522-532). -/
def stepRayleighTheta (a : RhsArgs) (s : RhsState) : RhsState :=
  if a.solverChoice.use_rayleigh_damping then
    { s with cell_rhs := ParallelFor a.bx (rayleighThetaKernel a) s.cell_rhs }
  else s

/-- Multiplication of the state tendencies by `detJ` (lines 534-541). -/
def stepDetJState (a : RhsArgs) (s : RhsState) : RhsState :=
  if a.solverChoice.use_terrain = true ∧ l_moving_terrain a.solverChoice = true then
    { s with cell_rhs := ParallelFor a.bx (detJStateKernel a) s.cell_rhs }
  else s

/-- Advection of momentum (lines 547-551). -/
def stepAdvMom (ext : RhsExt) (a : RhsArgs) (s : RhsState) : RhsState :=
  let r := ext.AdvectionSrcForMom a.tbx a.tby a.tbz s.rho_u_rhs s.rho_v_rhs s.rho_w_rhs
    a.u a.v a.w a.rho_u a.rho_v s.omega_arr a.z_nd a.detJ a.dxInv
    a.mapfac_m a.mapfac_u a.mapfac_v a.solverChoice.spatial_order a.solverChoice.use_terrain
    a.domhi_z
  { s with rho_u_rhs := r.1, rho_v_rhs := r.2.1, rho_w_rhs := r.2.2 }

/-- Diffusion of momentum (lines 553-571). -/
def stepDiffMom (ext : RhsExt) (a : RhsArgs) (s : RhsState) : RhsState :=
  if l_use_diff a.solverChoice then
    let r := if a.solverChoice.use_terrain then
        ext.DiffusionSrcForMom_T a.tbx a.tby a.tbz s.rho_u_rhs s.rho_v_rhs s.rho_w_rhs
          (tauView a s.tau) a.cell_data a.detJ a.solverChoice a.dxInv a.mapfac_m a.mapfac_u a.mapfac_v
      else
        ext.DiffusionSrcForMom_N a.tbx a.tby a.tbz s.rho_u_rhs s.rho_v_rhs s.rho_w_rhs
          (tauView a s.tau).six a.cell_data a.solverChoice a.dxInv a.mapfac_m a.mapfac_u a.mapfac_v
    { s with rho_u_rhs := r.1, rho_v_rhs := r.2.1, rho_w_rhs := r.2.2 }
  else s

/-- The x-momentum terms (lines 573-676). -/
def stepXmom (tm : TerrainMetrics) (a : RhsArgs) (s : RhsState) : RhsState :=
  if a.solverChoice.use_terrain then
    { s with rho_u_rhs := ParallelFor a.tbx (xmomKernel_T tm a s.pp_arr) s.rho_u_rhs }
  else
    { s with rho_u_rhs := ParallelFor a.tbx (xmomKernel_N a s.pp_arr) s.rho_u_rhs }

/-- The y-momentum terms (lines 678-776). -/
def stepYmom (tm : TerrainMetrics) (a : RhsArgs) (s : RhsState) : RhsState :=
  if a.solverChoice.use_terrain then
    { s with rho_v_rhs := ParallelFor a.tby (ymomKernel_T tm a s.pp_arr) s.rho_v_rhs }
  else
    { s with rho_v_rhs := ParallelFor a.tby (ymomKernel_N a s.pp_arr) s.rho_v_rhs }

/-- No forcing term at the top and bottom boundaries (lines 778-788). -/
def stepZero (a : RhsArgs) (s : RhsState) : RhsState :=
  let b2d := (a.tbz.setSmall 2 0).setBig 2 0
  { s with rho_w_rhs := ParallelFor b2d (zeroKernel a) s.rho_w_rhs }

/-- The z-momentum terms (lines 790-922). -/
def stepZmom (tm : TerrainMetrics) (a : RhsArgs) (s : RhsState) : RhsState :=
  if a.solverChoice.use_terrain then
    { s with rho_w_rhs := ParallelFor a.tbz (zmomKernel_T tm a s.pp_arr) s.rho_w_rhs }
  else
    { s with rho_w_rhs := ParallelFor a.tbz (zmomKernel_N a s.pp_arr) s.rho_w_rhs }

/-- The state part of one iteration of the `MFIter` loop (lines 173-541). -/
def statePart (tm : TerrainMetrics) (ext : RhsExt) (cl : Closures) (a : RhsArgs)
    (s : RhsState) : RhsState :=
  stepDetJState a (stepRayleighTheta a (stepDiffState tm ext cl a (stepAdvState ext a
    (stepTau tm ext a (stepOmega tm a (stepExpr tm a (stepPprime ext a (stepScratch s))))))))

/-- The momentum steps up to the advective and diffusive sources (lines 547-571). -/
def momSources (ext : RhsExt) (a : RhsArgs) (s : RhsState) : RhsState :=
  stepDiffMom ext a (stepAdvMom ext a s)

/-- One iteration of the `MFIter` loop (lines 173-922). -/
def tileBody (tm : TerrainMetrics) (ext : RhsExt) (cl : Closures) (a : RhsArgs)
    (s : RhsState) : RhsState :=
  stepZmom tm a (stepZero a (stepYmom tm a (stepXmom tm a
    (momSources ext a (statePart tm ext cl a s)))))

/-- The function `erf_slow_rhs_pre` on one patch. `AMREX_ALWAYS_ASSERT` (line
63) and `AMREX_ASSERT` (line 247, assertions enabled) abort the run. -/
def erf_slow_rhs_pre (tm : TerrainMetrics) (ext : RhsExt) (cl : Closures) (a : RhsArgs)
    (s : RhsState) : Except String RhsState :=
  if l_moving_terrain a.solverChoice = true ∧ a.solverChoice.use_terrain = false then
    Except.error "Assertion l_use_terrain failed"
  else if a.gbx.cells.any (fun c => decide (a.cell_data c.1 c.2.1 c.2.2 RhoTheta_comp ≤ 0)) then
    Except.error "Assertion cell_data(i,j,k,RhoTheta_comp) > 0. failed"
  else
    Except.ok (tileBody tm ext cl a s)

/-! ## `SolverChoice::init_params` (`DataStruct.H`) -/

/-- The entries of the `ParmParse` table under the prefix `erf` that
`init_params` and `build_coriolis_forcings` query; `none` when absent. -/
structure ParmParse where
  use_terrain : Option Bool := none
  test_mapfactor : Option Bool := none
  terrain_type : Option Int := none
  use_gravity : Option Bool := none
  c_p : Option ℚ := none
  les_type : Option String := none
  molec_diff_type : Option String := none
  pbl_type : Option String := none
  pbl_A1 : Option ℚ := none
  pbl_A2 : Option ℚ := none
  pbl_B1 : Option ℚ := none
  pbl_B2 : Option ℚ := none
  pbl_C1 : Option ℚ := none
  pbl_C2 : Option ℚ := none
  pbl_C3 : Option ℚ := none
  pbl_C4 : Option ℚ := none
  pbl_C5 : Option ℚ := none
  diffuse_QKE_3D : Option Bool := none
  advect_QKE : Option Bool := none
  alpha_T : Option ℚ := none
  alpha_C : Option ℚ := none
  dynamicViscosity : Option ℚ := none
  Cs : Option ℚ := none
  CI : Option ℚ := none
  Pr_t : Option ℚ := none
  Sc_t : Option ℚ := none
  rho0_trans : Option ℚ := none
  Ce : Option ℚ := none
  Ck : Option ℚ := none
  sigma_k : Option ℚ := none
  spatial_order : Option Int := none
  use_coriolis : Option Bool := none
  use_rayleigh_damping : Option Bool := none
  abl_driver_type : Option String := none
  abl_pressure_grad : Option (List ℚ) := none
  abl_geo_forcing : Option (List ℚ) := none
  rotational_time_period : Option ℚ := none
  latitude : Option ℚ := none
  abl_geo_wind : Option (List ℚ) := none
  ic_bc_type : Option String := none

/-- The function-local `static std::string` variables of `init_params`, with
the values they have before the first call. -/
structure Statics where
  les_type_string : String := "None"
  molec_diff_type_string : String := "None"
  pbl_type_string : String := "None"
  abl_driver_type_string : String := "None"
  ic_bc_type_string : String := "Ideal"

/-- Constants of `ERF_Constants.H` and the functions `std::sin`, `std::cos`,
which are not among the embedded sources: parameters. -/
structure Constants where
  CONST_GRAV : ℚ
  R_d : ℚ
  PI : ℚ
  sin : ℚ → ℚ
  cos : ℚ → ℚ

/-- The call `pp.query(name, ref)`: `ref` is overwritten when the entry exists. -/
def query {α : Type} (entry : Option α) (ref : α) : α := entry.getD ref

/-- The function `SolverChoice::build_coriolis_forcings` (lines 301-333). -/
def build_coriolis_forcings (c : Constants) (pp : ParmParse) (sc : SolverChoice) : SolverChoice :=
  let rot_time_period := query pp.rotational_time_period 86400.0
  let coriolis_factor := 2.0 * 2.0 * c.PI / rot_time_period
  let latitude := query pp.latitude 90.0
  let latitude := latitude * (c.PI / 180)
  let sinphi := c.sin latitude
  let cosphi := c.cos latitude
  let sc := { sc with coriolis_factor := coriolis_factor, sinphi := sinphi, cosphi := cosphi }
  if sc.abl_driver_type = ABLDriverType.GeostrophicWind then
    let abl_geo_wind := query pp.abl_geo_wind [0, 0, 0]
    let f0 := -coriolis_factor * (vecGet abl_geo_wind 1 * sinphi - vecGet abl_geo_wind 2 * cosphi)
    let f1 := coriolis_factor * vecGet abl_geo_wind 0 * sinphi
    let f2 := -coriolis_factor * vecGet abl_geo_wind 0 * cosphi
    { sc with abl_geo_forcing := GpuArray3.mk3 f0 f1 f2 }
  else sc

/-- Lines 67-81 of `init_params`: terrain, gravity, heat capacity. -/
def init_terrain_gravity (c : Constants) (pp : ParmParse) (sc : SolverChoice) : SolverChoice :=
  let sc := { sc with use_terrain := query pp.use_terrain sc.use_terrain }
  let sc := { sc with test_mapfactor := query pp.test_mapfactor sc.test_mapfactor }
  let sc := { sc with terrain_type := query pp.terrain_type sc.terrain_type }
  let sc := { sc with use_gravity := query pp.use_gravity sc.use_gravity }
  let sc := { sc with gravity := if sc.use_gravity then c.CONST_GRAV else 0.0 }
  let sc := { sc with c_p := query pp.c_p sc.c_p }
  { sc with rdOcp := c.R_d / sc.c_p }

/-- Lines 87-95 of `init_params`: the LES closure named by the string. -/
def parse_les_type (les_type_string : String) : Except String LESType :=
  if les_type_string = "Smagorinsky" then pure LESType.Smagorinsky
  else if les_type_string = "Deardorff" then pure LESType.Deardorff
  else if les_type_string = "None" then pure LESType.None
  else throw "Don't know this les_type"

/-- Lines 108-116 of `init_params`: the molecular transport named by the string. -/
def parse_molec_diff_type (molec_diff_type_string : String) : Except String MolecDiffType :=
  if molec_diff_type_string = "Constant" then pure MolecDiffType.Constant
  else if molec_diff_type_string = "ConstantAlpha" then pure MolecDiffType.ConstantAlpha
  else if molec_diff_type_string = "None" then pure MolecDiffType.None
  else throw "Don't know this molec_diff_type"

/-- Lines 126-132 of `init_params`: the PBL closure named by the string. -/
def parse_pbl_type (pbl_type_string : String) : Except String PBLType :=
  if pbl_type_string = "MYNN2.5" then pure PBLType.MYNN25
  else if pbl_type_string = "None" then pure PBLType.None
  else throw "Don't know this pbl_type"

/-- Lines 134-152 of `init_params`: "do some more stuff for PBL modeling". -/
def init_pbl (pp : ParmParse) (sc : SolverChoice) : Except String SolverChoice :=
  if sc.pbl_type ≠ PBLType.None then do
    if sc.les_type ≠ LESType.None then
      pure ()
    else if sc.les_type = LESType.Deardorff then
      throw "It is not recommended to use Deardorff LES and a PBL model"
    pure { sc with
      pbl_A1 := query pp.pbl_A1 sc.pbl_A1
      pbl_A2 := query pp.pbl_A2 sc.pbl_A2
      pbl_B1 := query pp.pbl_B1 sc.pbl_B1
      pbl_B2 := query pp.pbl_B2 sc.pbl_B2
      pbl_C1 := query pp.pbl_C1 sc.pbl_C1
      pbl_C2 := query pp.pbl_C2 sc.pbl_C2
      pbl_C3 := query pp.pbl_C3 sc.pbl_C3
      pbl_C4 := query pp.pbl_C4 sc.pbl_C4
      pbl_C5 := query pp.pbl_C5 sc.pbl_C5 }
  else pure sc

/-- Lines 154-195 of `init_params`: QKE switches, diffusion constants,
spatial order, Coriolis and Rayleigh switches. -/
def init_constants (pp : ParmParse) (sc : SolverChoice) : SolverChoice :=
  let sc := if sc.pbl_type = PBLType.MYNN25 then { sc with use_QKE := true } else sc
  let sc :=
    if sc.use_QKE then
      { sc with diffuse_QKE_3D := query pp.diffuse_QKE_3D sc.diffuse_QKE_3D
                advect_QKE := query pp.advect_QKE sc.advect_QKE }
    else sc
  let sc := { sc with
    alpha_T := query pp.alpha_T sc.alpha_T
    alpha_C := query pp.alpha_C sc.alpha_C
    dynamicViscosity := query pp.dynamicViscosity sc.dynamicViscosity
    Cs := query pp.Cs sc.Cs
    CI := query pp.CI sc.CI
    Pr_t := query pp.Pr_t sc.Pr_t
    Sc_t := query pp.Sc_t sc.Sc_t
    rho0_trans := query pp.rho0_trans sc.rho0_trans }
  let sc := { sc with
    Ce := query pp.Ce sc.Ce
    Ck := query pp.Ck sc.Ck
    sigma_k := query pp.sigma_k sc.sigma_k }
  let sc := { sc with
    Pr_t_inv := 1.0 / sc.Pr_t
    Sc_t_inv := 1.0 / sc.Sc_t
    rhoAlpha_T := sc.rho0_trans * sc.alpha_T
    rhoAlpha_C := sc.rho0_trans * sc.alpha_C }
  let sc := { sc with spatial_order := query pp.spatial_order sc.spatial_order }
  let sc := { sc with use_coriolis := query pp.use_coriolis sc.use_coriolis }
  { sc with use_rayleigh_damping := query pp.use_rayleigh_damping sc.use_rayleigh_damping }

/-- Lines 201-209 of `init_params`: the ABL driver named by the string. -/
def parse_abl_driver_type (abl_driver_type_string : String) : Except String ABLDriverType :=
  if abl_driver_type_string = "PressureGradient" then pure ABLDriverType.PressureGradient
  else if abl_driver_type_string = "GeostrophicWind" then pure ABLDriverType.GeostrophicWind
  else if abl_driver_type_string = "None" then pure ABLDriverType.None
  else throw "Don't know this abl_driver_type"

/-- Lines 211-222 of `init_params`: the forcing vectors and the Coriolis set-up. -/
def init_forcing (c : Constants) (pp : ParmParse) (sc : SolverChoice) : SolverChoice :=
  let abl_pressure_grad_in := query pp.abl_pressure_grad [0.0, 0.0, 0.0]
  let pg := GpuArray3.mk3 (vecGet abl_pressure_grad_in 0) (vecGet abl_pressure_grad_in 1)
    (vecGet abl_pressure_grad_in 2)
  let sc := { sc with abl_pressure_grad := pg }
  let abl_geo_forcing_in := query pp.abl_geo_forcing [0.0, 0.0, 0.0]
  let gf := GpuArray3.mk3 (vecGet abl_geo_forcing_in 0) (vecGet abl_geo_forcing_in 1)
    (vecGet abl_geo_forcing_in 2)
  let sc := { sc with abl_geo_forcing := gf }
  if sc.use_coriolis then build_coriolis_forcings c pp sc else sc

/-- Lines 227-233 of `init_params`: the kind of initial and boundary data. -/
def parse_ic_bc_type (ic_bc_type_string : String) : Except String IC_BC_Type :=
  if ic_bc_type_string = "Ideal" then pure IC_BC_Type.Ideal
  else if ic_bc_type_string = "Real" then pure IC_BC_Type.Real
  else throw "Don't know this ic_bc_type"

/-- The function `SolverChoice::init_params` (lines 63-240); `amrex::Error`
aborts with its message, `amrex::Print` is not modelled. The result holds
the object and the static strings after the call. -/
def init_params (c : Constants) (pp : ParmParse) (st : Statics) (sc : SolverChoice) :
    Except String (SolverChoice × Statics) := do
  let sc := init_terrain_gravity c pp sc
  -- Which LES closure?
  let les_type_string := query pp.les_type st.les_type_string
  let les_type ← parse_les_type les_type_string
  let sc := { sc with les_type := les_type }
  -- Include molecular transport? If not running LES then default to "Constant"
  let molec_diff_type_string :=
    if sc.les_type = LESType.None then "Constant" else st.molec_diff_type_string
  let molec_diff_type_string := query pp.molec_diff_type molec_diff_type_string
  let molec_diff_type ← parse_molec_diff_type molec_diff_type_string
  let sc := { sc with molec_diff_type := molec_diff_type }
  if sc.molec_diff_type = MolecDiffType.ConstantAlpha ∧ sc.les_type ≠ LESType.None then
    throw "We don't allow LES with MolecDiffType::ConstantAlpha"
  -- Which PBL closure
  let pbl_type_string := query pp.pbl_type st.pbl_type_string
  let pbl_type ← parse_pbl_type pbl_type_string
  let sc := { sc with pbl_type := pbl_type }
  let sc ← init_pbl pp sc
  let sc := init_constants pp sc
  -- Which external forcings?
  let abl_driver_type_string := query pp.abl_driver_type st.abl_driver_type_string
  let abl_driver_type ← parse_abl_driver_type abl_driver_type_string
  let sc := { sc with abl_driver_type := abl_driver_type }
  let sc := init_forcing c pp sc
  let ic_bc_type_string := query pp.ic_bc_type st.ic_bc_type_string
  let icBcType ← parse_ic_bc_type ic_bc_type_string
  let sc := { sc with icBcType := icBcType }
  pure (sc, { les_type_string := les_type_string
              molec_diff_type_string := molec_diff_type_string
              pbl_type_string := pbl_type_string
              abl_driver_type_string := abl_driver_type_string
              ic_bc_type_string := ic_bc_type_string })

/-! ## Auxiliary definitions for the statements -/

/-- The array holding `v` everywhere. -/
def Array4.const (v : ℚ) : Array4 := fun _ _ _ _ => v

/-- The value a kernel leaves in component `n` of its own cell `(i,j,k)` when
it finds `old` there: the kernel is run on the array holding `old`. -/
def ownValue (f : Int → Int → Int → Array4 → Array4) (n i j k : Int) (old : ℚ) : ℚ :=
  f i j k (Array4.const old) i j k n

/-- Terrain metrics of a uniform flat grid: `h_xi = h_eta = 0`, `h_zeta = 1`,
and `Omega = rho w`. -/
def flatMetrics : TerrainMetrics :=
  { Compute_h_xi_AtIface := fun _ _ _ _ _ => 0
    Compute_h_zeta_AtIface := fun _ _ _ _ _ => 1
    Compute_h_eta_AtJface := fun _ _ _ _ _ => 0
    Compute_h_zeta_AtJface := fun _ _ _ _ _ => 1
    Compute_h_xi_AtKface := fun _ _ _ _ _ => 0
    Compute_h_eta_AtKface := fun _ _ _ _ _ => 0
    Compute_h_zeta_AtKface := fun _ _ _ _ _ => 1
    Compute_h_zeta_AtCellCenter := fun _ _ _ _ _ => 1
    Compute_h_xi_AtEdgeCenterJ := fun _ _ _ _ _ => 0
    Compute_h_zeta_AtEdgeCenterJ := fun _ _ _ _ _ => 1
    Compute_h_eta_AtEdgeCenterI := fun _ _ _ _ _ => 0
    Compute_h_zeta_AtEdgeCenterI := fun _ _ _ _ _ => 1
    OmegaFromW := fun _ _ _ w _ _ _ _ => w }

/-- Collaborators that add nothing: advection and the diffusion functions
return the tendencies and stresses they were given, the equation of state is
the identity. -/
def idleExt : RhsExt :=
  { getPgivenRTh := fun rt => rt
    AdvectionSrcForRhoAndTheta := fun _ _ cell_rhs _ _ _ _ ax ay az _ _ _ _ _ _ _ _ _ =>
      (cell_rhs, ax, ay, az)
    AdvectionSrcForMom := fun _ _ _ ru rv rw _ _ _ _ _ _ _ _ _ _ _ _ _ _ _ => (ru, rv, rw)
    DiffusionSrcForState_N := fun _ d => d
    DiffusionSrcForMom_T := fun _ _ _ ru rv rw _ _ _ _ _ _ _ _ => (ru, rv, rw)
    DiffusionSrcForMom_N := fun _ _ _ ru rv rw _ _ _ _ _ _ _ => (ru, rv, rw)
    ComputeStrain_T := fun _ _ _ _ _ _ _ t _ _ _ _ _ _ => t
    ComputeStrain_N := fun _ _ _ _ _ _ _ t _ _ _ _ _ => t
    ComputeStressConsVisc_T := fun _ _ _ _ _ t _ _ _ => t
    ComputeStressVarVisc_T := fun _ _ _ _ _ _ t _ _ _ => t
    ComputeStressConsVisc_N := fun _ _ _ _ _ t _ => t
    ComputeStressVarVisc_N := fun _ _ _ _ _ _ t _ => t }

/-- Closures that return zero. -/
def idleClosures : Closures :=
  { sqrt := fun _ => 0
    pow := fun _ _ => 0
    ComputeTKEProduction := fun _ _ _ _ _ _ _ _ _ _ _ => 0
    ComputeQKESourceTerms := fun _ _ _ _ _ _ _ _ _ _ _ _ => 0 }

/-- The box of cells `0..1` in each direction. -/
def unitBox : Box := ⟨⟨0, 0, 0⟩, ⟨1, 1, 1⟩⟩

/-- A small patch covering its whole domain (cells `0..1` in each direction):
unit density and potential temperature, base state `r0 = 1`, `p0 = 1`, fluid
at rest, unit grid, default solver choices. -/
def restArgs : RhsArgs :=
  { nrk := 0
    valid_bx := unitBox
    tilebox := unitBox
    cell_data := Array4.const 1
    rho_u := Array4.const 0
    rho_v := Array4.const 0
    rho_w := Array4.const 0
    cell_prim := Array4.const 1
    u := Array4.const 0
    v := Array4.const 0
    w := Array4.const 0
    z_t_mf := none
    source := Array4.const 0
    Tau11 := false
    Tau21 := false
    eddyDiffs := Array4.const 0
    domain := unitBox
    dxInv := fun _ => 1
    solverChoice := {}
    most := none
    bc_ptr := []
    bc_ptr_h := []
    z_phys_nd := Array4.const 0
    dJ := Array4.const 1
    r0 := Array4.const 1
    p0 := Array4.const 1
    mapfac_m := Array4.const 1
    mapfac_u := Array4.const 1
    mapfac_v := Array4.const 1
    dptr_rayleigh_tau := fun _ => 0
    dptr_rayleigh_ubar := fun _ => 0
    dptr_rayleigh_vbar := fun _ => 0
    dptr_rayleigh_thetabar := fun _ => 0 }

/-- A patch state in which every array holds `7`. -/
def sevenState : RhsState :=
  { cell_rhs := Array4.const 7
    rho_u_rhs := Array4.const 7
    rho_v_rhs := Array4.const 7
    rho_w_rhs := Array4.const 7
    avg_xmom := Array4.const 7
    avg_ymom := Array4.const 7
    avg_zmom := Array4.const 7
    omega_arr := Array4.const 7
    tau := ⟨Array4.const 7, Array4.const 7, Array4.const 7, Array4.const 7, Array4.const 7,
            Array4.const 7, Array4.const 7, Array4.const 7, Array4.const 7⟩
    pp_arr := Array4.const 7
    er_arr := Array4.const 7
    diffflux_x := Array4.const 7
    diffflux_y := Array4.const 7
    diffflux_z := Array4.const 7 }

/-- Constants with `g = 9.81`, `R_d = 287`, `PI = 3.14159` and stand-ins for
the trigonometric functions. -/
def sampleConstants : Constants :=
  { CONST_GRAV := 9.81, R_d := 287, PI := 3.14159, sin := fun _ => 1, cos := fun _ => 0 }

/-- The patch state when the Rayleigh-damping block of the state equations
(line 522) is reached. -/
def beforeDamping (tm : TerrainMetrics) (ext : RhsExt) (cl : Closures) (a : RhsArgs)
    (s : RhsState) : RhsState :=
  stepDiffState tm ext cl a (stepAdvState ext a
    (stepTau tm ext a (stepOmega tm a (stepExpr tm a (stepPprime ext a (stepScratch s))))))

/-- The patch `restArgs` with Rayleigh damping on: `tau(k) = 0.01`,
`thetabar(k) = 300`, potential temperature `305`, density `2`. -/
def dampedArgs : RhsArgs :=
  { restArgs with
    cell_data := Array4.const 2
    cell_prim := Array4.const 305
    r0 := Array4.const 2
    p0 := Array4.const 2
    solverChoice := { use_rayleigh_damping := true }
    dptr_rayleigh_tau := fun _ => 0.01
    dptr_rayleigh_thetabar := fun _ => 300 }

/-- The arguments `a` with another eddy-diffusivity field, another source
field and other diffusion coefficients; nothing else is changed. -/
def RhsArgs.withDiffusionData (a : RhsArgs) (eddyDiffs source : Array4)
    (alpha_T alpha_C dynamicViscosity rho0_trans rhoAlpha_T rhoAlpha_C : ℚ) : RhsArgs :=
  { a with
    eddyDiffs := eddyDiffs
    source := source
    solverChoice := { a.solverChoice with
      alpha_T := alpha_T
      alpha_C := alpha_C
      dynamicViscosity := dynamicViscosity
      rho0_trans := rho0_trans
      rhoAlpha_T := rhoAlpha_T
      rhoAlpha_C := rhoAlpha_C } }

/-- The hypotheses "hydrostatically balanced and at rest": on the patch and
its one-cell lateral halo the density is the base-state density and the
equation-of-state pressure is the base-state pressure; the momenta are zero;
the external forcing is zero; Rayleigh damping is off. -/
def AtHydrostaticRest (ext : RhsExt) (a : RhsArgs) : Prop :=
  (∀ i j k, a.gbx.contains i j k →
      a.cell_data i j k Rho_comp = a.r0 i j k 0 ∧
      ext.getPgivenRTh (a.cell_data i j k RhoTheta_comp) = a.p0 i j k 0) ∧
  (∀ i j k, a.rho_u i j k 0 = 0 ∧ a.rho_v i j k 0 = 0 ∧ a.rho_w i j k 0 = 0) ∧
  (∀ d, a.solverChoice.abl_pressure_grad d = 0 ∧ a.solverChoice.abl_geo_forcing d = 0) ∧
  a.solverChoice.use_rayleigh_damping = false

/-- The factor applied to a momentum tendency under moving terrain: the mean
of `detJ` over the two cells sharing the face normal to `dir`; `1` otherwise. -/
def jacobianFactor (a : RhsArgs) (dir : Nat) (i j k : Int) : ℚ :=
  if a.solverChoice.use_terrain = true ∧ l_moving_terrain a.solverChoice = true then
    match dir with
    | 0 => 0.5 * (a.detJ i j k 0 + a.detJ (i-1) j k 0)
    | 1 => 0.5 * (a.detJ i j k 0 + a.detJ i (j-1) k 0)
    | _ => 0.5 * (a.detJ i j k 0 + a.detJ i j (k-1) 0)
  else 1

/-- Terrain metrics of a uniform slope in x: `h_xi = 1` on x-faces, otherwise
as on the flat grid. -/
def slopeMetrics : TerrainMetrics :=
  { flatMetrics with Compute_h_xi_AtIface := fun _ _ _ _ _ => 1 }

/-- The patch `restArgs` with terrain, as the lower half of a domain with
cells `k = 0..3`: hydrostatically balanced and at rest. -/
def slopeArgs : RhsArgs :=
  { restArgs with
    solverChoice := { use_terrain := true }
    domain := ⟨⟨0, 0, 0⟩, ⟨1, 1, 3⟩⟩ }

/-- The patch `restArgs` with static terrain. -/
def terrainRestArgs : RhsArgs :=
  { restArgs with solverChoice := { use_terrain := true } }

/-- The flux divergence plus source over `detJ` at cell `(i,j,k)`, component
`q`, built from the flux arrays of `s`: the generic tendency increment. -/
def fluxDivergence (p : DiffArgs) (s : DiffState) (i j k q : Int) : ℚ :=
  ((s.xflux (i+1) j k q - s.xflux i j k q) * p.dxInv 0 * p.mf_m i j 0 0
    + (s.yflux i (j+1) k q - s.yflux i j k q) * p.dxInv 1 * p.mf_m i j 0 0
    + (s.zflux i j (k+1) q - s.zflux i j k q) * p.dxInv 2
    + p.source_fab i j k q) / p.detJ i j k 0

/-- Component `q` receives one of the special sources that follow the generic
update: the TKE component under Deardorff, the QKE component when QKE is
advected (each only when within `n_end`). -/
def specialComponent (p : DiffArgs) (q : Int) : Prop :=
  (p.solverChoice.les_type = LESType.Deardorff ∧ q = RhoKE_comp) ∨
  ((p.solverChoice.use_QKE = true ∧ p.solverChoice.advect_QKE = true) ∧ q = RhoQKE_comp)

/-- Arguments for `DiffusionSrcForState_T` on the box of cells `0..1`: unit
grid, unit map factors, `detJ = 1`, all fields zero, Deardorff closure,
components RhoTheta and RhoKE. -/
def keArgs : DiffArgs :=
  { bx := unitBox
    domain := unitBox
    n_start := RhoTheta_comp
    n_end := RhoKE_comp
    u := Array4.const 0
    v := Array4.const 0
    w := Array4.const 0
    cell_data := Array4.const 1
    cell_prim := Array4.const 0
    source_fab := Array4.const 0
    z_nd := Array4.const 0
    detJ := Array4.const 1
    dxInv := fun _ => 1
    mf_m := Array4.const 1
    mf_u := Array4.const 1
    mf_v := Array4.const 1
    mu_turb := Array4.const 0
    solverChoice := { les_type := LESType.Deardorff }
    tm_arr := Array4.const 0
    grav_gpu := GpuArray3.mk3 0 0 (-9.81)
    bc_ptr := [] }

/-- Closures with a shear production of `1` in every cell; the stand-ins for
`std::sqrt` and `std::pow` are exact at the values used (`sqrt 0 = 0`,
`sqrt 1 = 1`, `pow 1 y = 1`). -/
def shearClosures : Closures :=
  { sqrt := fun x => x
    pow := fun _ _ => 1
    ComputeTKEProduction := fun _ _ _ _ _ _ _ _ _ _ _ => 1
    ComputeQKESourceTerms := fun _ _ _ _ _ _ _ _ _ _ _ _ => 0 }

/-- A diffusion state in which every array holds `0`. -/
def zeroDiffState : DiffState :=
  ⟨Array4.const 0, Array4.const 0, Array4.const 0, Array4.const 0⟩

/-- The sum of `f` over the integers `lo..hi`. -/
def sumInt (lo hi : Int) (f : Int → ℚ) : ℚ := ((rangeInt lo hi).map f).sum

/-- The sum of `f` over the cells of a box. -/
def Box.sumCells (b : Box) (f : Int → Int → Int → ℚ) : ℚ :=
  sumInt b.smallEnd.z b.bigEnd.z fun k =>
    sumInt b.smallEnd.y b.bigEnd.y fun j =>
      sumInt b.smallEnd.x b.bigEnd.x fun i => f i j k

/-- The net flux of component `q` through the boundary faces of the box, each
direction scaled by its inverse spacing: high face minus low face, summed
over the faces of the box boundary. -/
def netBoundaryFlux (p : DiffArgs) (s : DiffState) (q : Int) : ℚ :=
  p.dxInv 0 * (sumInt p.bx.smallEnd.z p.bx.bigEnd.z fun k =>
      sumInt p.bx.smallEnd.y p.bx.bigEnd.y fun j =>
        s.xflux (p.bx.bigEnd.x + 1) j k q - s.xflux p.bx.smallEnd.x j k q)
  + p.dxInv 1 * (sumInt p.bx.smallEnd.z p.bx.bigEnd.z fun k =>
      sumInt p.bx.smallEnd.x p.bx.bigEnd.x fun i =>
        s.yflux i (p.bx.bigEnd.y + 1) k q - s.yflux i p.bx.smallEnd.y k q)
  + p.dxInv 2 * (sumInt p.bx.smallEnd.y p.bx.bigEnd.y fun j =>
      sumInt p.bx.smallEnd.x p.bx.bigEnd.x fun i =>
        s.zflux i j (p.bx.bigEnd.z + 1) q - s.zflux i j p.bx.smallEnd.z q)

/-- Identity metrics: `h_xi = h_eta = 0` and `h_zeta = 1` at every point where
`DiffusionSrcForState_T` evaluates them, and `detJ = 1`. -/
def IdentityMetrics (tm : TerrainMetrics) (p : DiffArgs) : Prop :=
  (∀ i j k, tm.Compute_h_xi_AtIface i j k p.dxInv p.z_nd = 0 ∧
    tm.Compute_h_zeta_AtIface i j k p.dxInv p.z_nd = 1 ∧
    tm.Compute_h_eta_AtJface i j k p.dxInv p.z_nd = 0 ∧
    tm.Compute_h_zeta_AtJface i j k p.dxInv p.z_nd = 1 ∧
    tm.Compute_h_xi_AtKface i j k p.dxInv p.z_nd = 0 ∧
    tm.Compute_h_eta_AtKface i j k p.dxInv p.z_nd = 0 ∧
    tm.Compute_h_zeta_AtKface i j k p.dxInv p.z_nd = 1 ∧
    tm.Compute_h_zeta_AtCellCenter i j k p.dxInv p.z_nd = 1) ∧
  (∀ i j k, p.detJ i j k 0 = 1)

/-- The Cartesian reference x-flux: `D * mf_u * dx_inv * (q(i,j,k) - q(i-1,j,k))`
with `q` the primitive quantity of component `c` and `D` the face diffusivity
of the mode. -/
def cartesian_xflux (p : DiffArgs) (i j k c : Int) : ℚ :=
  faceDiff_x (diffMode p.solverChoice) p i j k (c - qty_offset) * p.mf_u i j 0 0 * p.dxInv 0
    * (p.cell_prim i j k (c - qty_offset) - p.cell_prim (i-1) j k (c - qty_offset))

/-- The Cartesian reference y-flux: `D * mf_v * dy_inv * (q(i,j,k) - q(i,j-1,k))`. -/
def cartesian_yflux (p : DiffArgs) (i j k c : Int) : ℚ :=
  faceDiff_y (diffMode p.solverChoice) p i j k (c - qty_offset) * p.mf_v i j 0 0 * p.dxInv 1
    * (p.cell_prim i j k (c - qty_offset) - p.cell_prim i (j-1) k (c - qty_offset))

/-- The Cartesian reference z-flux: `D * dz_inv * (q(i,j,k) - q(i,j,k-1))`. -/
def cartesian_zflux (p : DiffArgs) (i j k c : Int) : ℚ :=
  faceDiff_z (diffMode p.solverChoice) p i j k (c - qty_offset) * p.dxInv 2
    * (p.cell_prim i j k (c - qty_offset) - p.cell_prim i j (k-1) (c - qty_offset))

/-- The Cartesian reference increment: the plain divergence of the reference
fluxes plus the source. -/
def cartesian_increment (p : DiffArgs) (i j k c : Int) : ℚ :=
  (cartesian_xflux p (i+1) j k c - cartesian_xflux p i j k c) * p.dxInv 0 * p.mf_m i j 0 0
    + (cartesian_yflux p i (j+1) k c - cartesian_yflux p i j k c) * p.dxInv 1 * p.mf_m i j 0 0
    + (cartesian_zflux p i j (k+1) c - cartesian_zflux p i j k c) * p.dxInv 2
    + p.source_fab i j k c

/-- Arguments for `DiffusionSrcForState_T` like `keArgs`, with the QKE equation
in use and advected (as under the MYNN2.5 PBL model), components
RhoTheta..RhoQKE. -/
def qkeArgs : DiffArgs :=
  { keArgs with
    n_end := RhoQKE_comp
    solverChoice := { pbl_type := PBLType.MYNN25, use_QKE := true } }

/-- Closures whose QKE source is `1` in every cell. -/
def qkeClosures : Closures :=
  { idleClosures with ComputeQKESourceTerms := fun _ _ _ _ _ _ _ _ _ _ _ _ => 1 }

/-! ## `ERF::ComputeGhostCells` (`ERF.H`) -/

/-- The function `ERF::ComputeGhostCells` (`ERF.H`, lines 695-721). `amrex::Error` aborts
the run, so the `default` case has no return value. -/
def ComputeGhostCells (spatial_order : Int) : Except String Int :=
  if spatial_order = 2 then Except.ok 2
  else if spatial_order = 3 then Except.ok 2
  else if spatial_order = 4 then Except.ok 2
  else if spatial_order = 5 then Except.ok 3
  else if spatial_order = 6 then Except.ok 3
  else Except.error "Must specify spatial order to be 2,3,4,5 or 6"

/-! ## Auxiliary definitions for the statements on terrain -/

/-- The arguments `a` with the terrain declared static (`terrain_type = 0`),
everything else unchanged: a momentum kernel launched with them accumulates
the same terms and skips the final moving-terrain scaling. -/
def RhsArgs.fixedTerrain (a : RhsArgs) : RhsArgs :=
  { a with solverChoice := { a.solverChoice with terrain_type := 0 } }

/-- The tile body in which the three momentum kernels are launched with
`a.fixedTerrain`: the momentum tendencies as accumulated by advection,
diffusion, pressure gradient, buoyancy, forcing, Coriolis and damping, before
any moving-terrain scaling. -/
def accumulatedMomentum (tm : TerrainMetrics) (ext : RhsExt) (cl : Closures) (a : RhsArgs)
    (s : RhsState) : RhsState :=
  stepZmom tm a.fixedTerrain (stepZero a (stepYmom tm a.fixedTerrain (stepXmom tm a.fixedTerrain
    (momSources ext a (statePart tm ext cl a s)))))

/-- The patch `restArgs` on moving terrain, with `detJ = 3` and the terrain
velocity `z_t = 1`. -/
def movingArgs : RhsArgs :=
  { restArgs with
    solverChoice := { use_terrain := true, terrain_type := 1 }
    z_t_mf := some (Array4.const 1)
    dJ := Array4.const 3 }

/-- The patch `restArgs` with `RhoTheta = 0` (and every other state component
`0`). -/
def coldArgs : RhsArgs :=
  { restArgs with cell_data := Array4.const 0 }

/-- The patch `restArgs` with static terrain and constant molecular
transport (`rhoAlpha_T = 1`): the state diffusion runs. -/
def diffusingArgs : RhsArgs :=
  { restArgs with
    solverChoice := { use_terrain := true, molec_diff_type := MolecDiffType.Constant,
                      alpha_T := 1, rhoAlpha_T := 1 }
    cell_prim := fun i _ _ _ => (i : ℚ) }

/-- The solver choices `init_params` leaves on a fresh object when the inputs
set only `alpha_T = 1`: no LES, molecular transport `Constant`, no PBL scheme,
`rhoAlpha_T = rho0_trans * alpha_T = 1`. -/
def conductingChoice : SolverChoice :=
  match init_params sampleConstants { alpha_T := some 1 } {} {} with
  | Except.ok r => r.1
  | Except.error _ => {}

/-- Arguments for `DiffusionSrcForState_T` on the box of cells `0..1` with the
solver choices `conductingChoice`, the component RhoTheta only, and the
potential temperature `theta(i,j,k) = i`. -/
def conductingArgs : DiffArgs :=
  { keArgs with
    solverChoice := conductingChoice
    n_end := RhoTheta_comp
    cell_prim := fun i _ _ _ => (i : ℚ) }

/-- The entry of `alpha_eff` the branches without constant alpha read,
written with the input coefficients: `rho0_trans * alpha_T` for the potential
temperature, `rho0_trans * alpha_C` for the scalar, `0` for TKE and QKE. -/
def molecularDiffusivity (sc : SolverChoice) (prim_index : Int) : ℚ :=
  if prim_index = PrimTheta_comp then sc.rho0_trans * sc.alpha_T
  else if prim_index = PrimScalar_comp then sc.rho0_trans * sc.alpha_C
  else 0

/-- The solver choices `init_params` leaves on a fresh object when the inputs
set nothing: no LES, molecular transport `Constant`, no PBL scheme,
`alpha_T = alpha_C = 0`. -/
def quietChoice : SolverChoice :=
  match init_params sampleConstants {} {} {} with
  | Except.ok r => r.1
  | Except.error _ => {}

/-- Arguments for `DiffusionSrcForState_T` on the box of cells `0..1` with the
solver choices `quietChoice`, the component RhoTheta only, the potential
temperature `theta(i,j,k) = i + k` and the source `3`. -/
def quietArgs : DiffArgs :=
  { keArgs with
    solverChoice := quietChoice
    n_end := RhoTheta_comp
    cell_prim := fun i _ k _ => (i : ℚ) + (k : ℚ)
    source_fab := Array4.const 3 }

/-- The arguments `quietArgs` on the one-cell box `(0,0,0)`. -/
def thinArgs : DiffArgs :=
  { quietArgs with bx := ⟨⟨0, 0, 0⟩, ⟨0, 0, 0⟩⟩ }

/-- Terrain metrics of a uniform slope in x as seen on the z-faces:
`h_xi = 1` there, otherwise as on the flat grid. -/
def rampMetrics : TerrainMetrics :=
  { flatMetrics with Compute_h_xi_AtKface := fun _ _ _ _ _ => 1 }

/-- A diffusion state whose flux arrays hold `7` and whose tendency holds `0`. -/
def staleFluxState : DiffState :=
  ⟨Array4.const 0, Array4.const 7, Array4.const 7, Array4.const 7⟩

/-! ## `ERF::erf_enforce_hse` (`ERF_init1d.cpp`) -/

/-- The constant `p_0` of `ERF_Constants.H` and the function `getExnergivenP`
of `EOS.H`, which are not among the embedded sources: parameters. -/
structure HseExt where
  p_0 : ℚ
  getExnergivenP : ℚ → ℚ → ℚ

/-- What `erf_enforce_hse` reads in one iteration of its `MFIter` loop: the
solver choices, the vertical cell size `geomdata.CellSize(2)`, the domain, the
valid box of the patch (the iteration is untiled, so `mfi.nodaltilebox(2)` is
its z-faces), the box `pres[mfi].box()` of the pressure array, the density and
the nodal heights. -/
structure HseArgs where
  solverChoice : SolverChoice
  dz : ℚ
  domain : Box
  tilebox : Box
  presbox : Box
  rho_arr : Array4
  znd_arr : Array4

/-- The arrays `erf_enforce_hse` writes. -/
structure HseState where
  pres_arr : Array4
  pi_arr : Array4

/-- Number of cells in direction `dir` (`Box::length`). -/
def Box.length (b : Box) (dir : Nat) : Int := b.bigEnd.get dir - b.smallEnd.get dir + 1

/-- Grow both sides in direction `dir` by `n` cells (`Box::grow (int, int)`). -/
def Box.growDir (b : Box) (dir : Nat) (n : Int) : Box := (b.growLo dir n).growHi dir n

/-- Set the range in direction `dir` to `n_cells` cells from `sm_index`
(`Box::setRange`). -/
def Box.setRange (b : Box) (dir : Nat) (sm_index n_cells : Int) : Box :=
  (b.setSmall dir sm_index).setBig dir (sm_index + n_cells - 1)

/-- Kernel launch `amrex::ParallelFor (bx, f)` for a kernel writing several
arrays, held in the state `σ`. -/
def ParallelForState {σ : Type} (bx : Box) (f : Int → Int → Int → σ → σ) (s : σ) : σ :=
  bx.cells.foldl (fun s c => f c.1 c.2.1 c.2.2 s) s

/-- The number `nz` of cells of the domain in z. -/
def HseArgs.nz (h : HseArgs) : Int := h.domain.length 2

/-- Body of the loop `for (k = 1; k <= nz; k++)` with terrain (lines 127-149). -/
def hseTerrainStep (x : HseExt) (h : HseArgs) (i j : Int) (s : HseState) (k : Int) : HseState :=
  let l_gravity := h.solverChoice.gravity
  let rdOcp := h.solverChoice.rdOcp
  let z_face_lo := 0.25 * (h.znd_arr i j (k-1) 0 + h.znd_arr (i+1) j (k-1) 0
                          + h.znd_arr i (j+1) (k-1) 0 + h.znd_arr (i+1) (j+1) (k-1) 0)
  let z_face_md := 0.25 * (h.znd_arr i j k 0 + h.znd_arr (i+1) j k 0
                          + h.znd_arr i (j+1) k 0 + h.znd_arr (i+1) (j+1) k 0)
  let z_face_hi := 0.25 * (h.znd_arr i j (k+1) 0 + h.znd_arr (i+1) j (k+1) 0
                          + h.znd_arr i (j+1) (k+1) 0 + h.znd_arr (i+1) (j+1) (k+1) 0)
  let z_cc_hi := 0.5 * (z_face_md + z_face_hi)
  let z_cc_lo := 0.5 * (z_face_md + z_face_lo)
  let dz_lo := 0.5 * (z_cc_hi - z_cc_lo)
  let dz_hi := 0.5 * (z_cc_hi - z_cc_lo)
  let pres_arr := s.pres_arr.set i j k 0
    (s.pres_arr i j (k-1) 0 - (dz_lo * h.rho_arr i j (k-1) 0) * l_gravity
                            - (dz_hi * h.rho_arr i j k 0) * l_gravity)
  let pi_arr := s.pi_arr.set i j k 0 (x.getExnergivenP (pres_arr i j k 0) rdOcp)
  ⟨pres_arr, pi_arr⟩

/-- Body of the loop `for (k = 1; k <= nz; k++)` without terrain (lines 151-155). -/
def hseFlatStep (x : HseExt) (h : HseArgs) (i j : Int) (s : HseState) (k : Int) : HseState :=
  let l_gravity := h.solverChoice.gravity
  let rdOcp := h.solverChoice.rdOcp
  let dens_interp := 0.5 * (h.rho_arr i j k 0 + h.rho_arr i j (k-1) 0)
  let pres_arr := s.pres_arr.set i j k 0 (s.pres_arr i j (k-1) 0 - h.dz * dens_interp * l_gravity)
  let pi_arr := s.pi_arr.set i j k 0 (x.getExnergivenP (pres_arr i j k 0) rdOcp)
  ⟨pres_arr, pi_arr⟩

/-- Body of the kernel over `b2d` (lines 106-157): the column above `(i,j)`. -/
def hseColumnKernel (x : HseExt) (h : HseArgs) (i j _k : Int) (s : HseState) : HseState :=
  let l_gravity := h.solverChoice.gravity
  let rdOcp := h.solverChoice.rdOcp
  let k0 : Int := 0
  let hz :=
    if h.solverChoice.use_terrain then
      0.125 * (h.znd_arr i j 0 0 + h.znd_arr (i+1) j 0 0 + h.znd_arr i (j+1) 0 0
                + h.znd_arr (i+1) (j+1) 0 0
              + h.znd_arr i j 1 0 + h.znd_arr (i+1) j 1 0 + h.znd_arr i (j+1) 1 0
                + h.znd_arr (i+1) (j+1) 1 0)
    else 0.5 * h.dz
  let pres_arr := s.pres_arr.set i j k0 0 (x.p_0 - hz * h.rho_arr i j k0 0 * l_gravity)
  let pi_arr := s.pi_arr.set i j k0 0 (x.getExnergivenP (pres_arr i j k0 0) rdOcp)
  let pres_arr := pres_arr.set i j (k0-1) 0 (x.p_0 + hz * h.rho_arr i j k0 0 * l_gravity)
  let pi_arr := pi_arr.set i j (k0-1) 0 (x.getExnergivenP (pres_arr i j (k0-1) 0) rdOcp)
  if h.solverChoice.use_terrain then
    (rangeInt 1 h.nz).foldl (hseTerrainStep x h i j) ⟨pres_arr, pi_arr⟩
  else
    (rangeInt 1 h.nz).foldl (hseFlatStep x h i j) ⟨pres_arr, pi_arr⟩

/-- Body of the kernels filling a lateral ghost plane in x from the column
`src` of the domain edge (lines 165-168, 176-179). -/
def hseCopyX (x : HseExt) (h : HseArgs) (src : Int) (i j k : Int) (s : HseState) : HseState :=
  let pres_arr := s.pres_arr.set i j k 0 (s.pres_arr src j k 0)
  let pi_arr := s.pi_arr.set i j k 0 (x.getExnergivenP (pres_arr i j k 0) h.solverChoice.rdOcp)
  ⟨pres_arr, pi_arr⟩

/-- Body of the kernels filling a lateral ghost plane in y from the row `src`
of the domain edge (lines 187-190, 198-201). -/
def hseCopyY (x : HseExt) (h : HseArgs) (src : Int) (i j k : Int) (s : HseState) : HseState :=
  let pres_arr := s.pres_arr.set i j k 0 (s.pres_arr i src k 0)
  let pi_arr := s.pi_arr.set i j k 0 (x.getExnergivenP (pres_arr i j k 0) h.solverChoice.rdOcp)
  ⟨pres_arr, pi_arr⟩

/-- The box `b2d` of the column kernel (lines 81-84). -/
def HseArgs.b2d (h : HseArgs) : Box :=
  (((surroundingNodes h.tilebox 2).growDir 0 1).growDir 1 1).setRange 2 0 1

/-- The function `ERF::erf_enforce_hse` on one patch (lines 77-204). The
calls of `FillBoundary` that follow the loop exchange ghost cells between
patches and are not modelled. -/
def erf_enforce_hse (x : HseExt) (h : HseArgs) (s : HseState) : HseState :=
  let tbz := surroundingNodes h.tilebox 2
  let s := ParallelForState h.b2d (hseColumnKernel x h) s
  let domlo_x := h.domain.smallEnd.get 0
  let domhi_x := h.domain.bigEnd.get 0
  let domlo_y := h.domain.smallEnd.get 1
  let domhi_y := h.domain.bigEnd.get 1
  let s :=
    if h.presbox.smallEnd.get 0 < domlo_x then
      ParallelForState ((tbz.setSmall 0 (domlo_x-1)).setBig 0 (domlo_x-1)) (hseCopyX x h domlo_x) s
    else s
  let s :=
    if h.presbox.bigEnd.get 0 > domhi_x then
      ParallelForState ((tbz.setSmall 0 (domhi_x+1)).setBig 0 (domhi_x+1)) (hseCopyX x h domhi_x) s
    else s
  let s :=
    if h.presbox.smallEnd.get 1 < domlo_y then
      ParallelForState ((tbz.setSmall 1 (domlo_y-1)).setBig 1 (domlo_y-1)) (hseCopyY x h domlo_y) s
    else s
  if h.presbox.bigEnd.get 1 > domhi_y then
    ParallelForState ((tbz.setSmall 1 (domhi_y+1)).setBig 1 (domhi_y+1)) (hseCopyY x h domhi_y) s
  else s

/-- The values a column loop leaves at the levels `0, 1, 2, ..`: `P0` at level
`0`, and at level `n+1` the value `F (n+1)` makes of the one at level `n`. -/
def columnValues (F : Int → ℚ → ℚ) (P0 : ℚ) : Nat → ℚ
  | 0 => P0
  | n + 1 => F ((n : Int) + 1) (columnValues F P0 n)

/-- The pressure the loop without terrain stores at level `k` from the value
`prev` at level `k-1` (line 153). -/
def flatPressureStep (h : HseArgs) (i j : Int) (k : Int) (prev : ℚ) : ℚ :=
  prev - h.dz * (0.5 * (h.rho_arr i j k 0 + h.rho_arr i j (k-1) 0)) * h.solverChoice.gravity

/-- The pressure the column kernel without terrain leaves at level `k` of the
column `(i,j)`, for `k = -1, 0, 1, ..`. -/
def flatColumn (x : HseExt) (h : HseArgs) (i j k : Int) : ℚ :=
  if k = -1 then x.p_0 + 0.5 * h.dz * h.rho_arr i j 0 0 * h.solverChoice.gravity
  else columnValues (flatPressureStep h i j)
    (x.p_0 - 0.5 * h.dz * h.rho_arr i j 0 0 * h.solverChoice.gravity) k.toNat

/-- A single column of two cells under gravity `10`: domain and patch are the
cells `(0,0,0..1)`, the pressure array has one ghost cell, `dz = 1`, density
`1`. -/
def columnArgs : HseArgs :=
  { solverChoice := { gravity := 10 }
    dz := 1
    domain := ⟨⟨0, 0, 0⟩, ⟨0, 0, 1⟩⟩
    tilebox := ⟨⟨0, 0, 0⟩, ⟨0, 0, 1⟩⟩
    presbox := ⟨⟨-1, -1, -1⟩, ⟨1, 1, 2⟩⟩
    rho_arr := Array4.const 1
    znd_arr := Array4.empty }

/-- Reference pressure `p_0 = 100000` and a stand-in for the Exner function. -/
def sampleHseExt : HseExt :=
  { p_0 := 100000
    getExnergivenP := fun p _ => p }

/-! ## `InputSoundingData::read_from_file` (`DataStruct.H`) -/

/-- One profile line of the input sounding file: the numbers `z theta qv U V`. -/
structure SoundingLine where
  z : ℚ
  theta : ℚ
  qv : ℚ
  U : ℚ
  V : ℚ

/-- An input sounding file that could be opened: the three numbers of its
first line and the numbers of its profile lines, in file order. -/
structure SoundingFile where
  press_ref : ℚ
  theta_ref : ℚ
  qv_ref : ℚ
  profile : List SoundingLine

/-- The host members of `InputSoundingData` (lines 654-664). The device
vectors, which `host_to_device` fills with copies, are left out. -/
structure InputSoundingData where
  press_ref_inp_sound : ℚ
  theta_ref_inp_sound : ℚ
  qv_ref_inp_sound : ℚ
  z_inp_sound : List ℚ
  theta_inp_sound : List ℚ
  qv_inp_sound : List ℚ
  U_inp_sound : List ℚ
  V_inp_sound : List ℚ
  pm_integ : List ℚ
  rhom_integ : List ℚ
  pd_integ : List ℚ
  rhod_integ : List ℚ

/-- The function `InputSoundingData::size` (lines 645-652);
`AMREX_ALWAYS_ASSERT` aborts the run. -/
def InputSoundingData.size (d : InputSoundingData) : Except String Int :=
  if d.z_inp_sound.length ≠ d.theta_inp_sound.length then
    Except.error "Assertion z_inp_sound.size() == theta_inp_sound.size() failed"
  else if d.z_inp_sound.length ≠ d.qv_inp_sound.length then
    Except.error "Assertion z_inp_sound.size() == qv_inp_sound.size() failed"
  else if d.z_inp_sound.length ≠ d.U_inp_sound.length then
    Except.error "Assertion z_inp_sound.size() == U_inp_sound.size() failed"
  else if d.z_inp_sound.length ≠ d.V_inp_sound.length then
    Except.error "Assertion z_inp_sound.size() == V_inp_sound.size() failed"
  else Except.ok (d.z_inp_sound.length : Int)

/-- The five `push_back` calls that add one level to the profile vectors. -/
def InputSoundingData.push_back (d : InputSoundingData) (z theta qv U V : ℚ) :
    InputSoundingData :=
  { d with
    z_inp_sound := d.z_inp_sound ++ [z]
    theta_inp_sound := d.theta_inp_sound ++ [theta]
    qv_inp_sound := d.qv_inp_sound ++ [qv]
    U_inp_sound := d.U_inp_sound ++ [U]
    V_inp_sound := d.V_inp_sound ++ [V] }

/-- The loop `while (std::getline (..)) { .. if (z >= ztop) break; }` (lines
469-478) over the profile lines still unread; the second component is the
local variable `z`. -/
def readProfile (ztop : ℚ) : List SoundingLine → InputSoundingData → ℚ → InputSoundingData × ℚ
  | [], d, z => (d, z)
  | l :: rest, d, _ =>
    let d := d.push_back l.z l.theta (l.qv * 0.001) l.U l.V
    if l.z ≥ ztop then (d, l.z) else readProfile ztop rest d l.z

/-- The adjustment of the top of the profile (lines 482-520). -/
def adjustTop (ztop z : ℚ) (d : InputSoundingData) : Except String InputSoundingData :=
  if z ≠ ztop then do
    let N ← d.size
    let z1 := vecGet d.z_inp_sound (N-2)
    let th1 := vecGet d.theta_inp_sound (N-2)
    let qv1 := vecGet d.qv_inp_sound (N-2)
    let U1 := vecGet d.U_inp_sound (N-2)
    let V1 := vecGet d.V_inp_sound (N-2)
    let z2 := vecGet d.z_inp_sound (N-1)
    let th2 := vecGet d.theta_inp_sound (N-1)
    let qv2 := vecGet d.qv_inp_sound (N-1)
    let U2 := vecGet d.U_inp_sound (N-1)
    let V2 := vecGet d.V_inp_sound (N-1)
    let zfrac := (ztop - z1) / (z2 - z1)
    let th_top := th1 + zfrac * (th2 - th1)
    let qv_top := qv1 + zfrac * (qv2 - qv1)
    let U_top := U1 + zfrac * (U2 - U1)
    let V_top := V1 + zfrac * (V2 - V1)
    if z < ztop then
      pure (d.push_back ztop th_top qv_top U_top V_top)
    else
      pure { d with
        z_inp_sound := d.z_inp_sound.set (N-1).toNat ztop
        theta_inp_sound := d.theta_inp_sound.set (N-1).toNat th_top
        qv_inp_sound := d.qv_inp_sound.set (N-1).toNat qv_top
        U_inp_sound := d.U_inp_sound.set (N-1).toNat U_top
        V_inp_sound := d.V_inp_sound.set (N-1).toNat V_top }
  else pure d

/-- The function `InputSoundingData::host_to_device` (lines 607-643) on the
host members: its calls of `size`. -/
def host_to_device (d : InputSoundingData) : Except String InputSoundingData := do
  let _ ← d.size
  pure d

/-- The function `InputSoundingData::read_from_file` (lines 428-526). The
file is `none` when it cannot be opened (`amrex::Error` aborts, the message
is given without its final newline); `z_uninit` is the indeterminate value of
the local `z` before the first profile line is read. -/
def read_from_file (input_sounding_file : Option SoundingFile) (ztop z_uninit : ℚ)
    (d : InputSoundingData) : Except String InputSoundingData := do
  let d := { d with
    z_inp_sound := [], theta_inp_sound := [], qv_inp_sound := [], U_inp_sound := [],
    V_inp_sound := [], pm_integ := [], rhom_integ := [], pd_integ := [], rhod_integ := [] }
  match input_sounding_file with
  | none => throw "Error opening the input_sounding file"
  | some f =>
    let d := { d with
      press_ref_inp_sound := f.press_ref
      theta_ref_inp_sound := f.theta_ref
      qv_ref_inp_sound := f.qv_ref * 0.001 }
    let d := d.push_back 0 d.theta_ref_inp_sound d.qv_ref_inp_sound 0 0
    let r := readProfile ztop f.profile d z_uninit
    let d ← adjustTop ztop r.2 r.1
    host_to_device d

/-- The profile lines the reading loop consumes: up to and including the
first one at or above `ztop`. -/
def consumed (ztop : ℚ) : List SoundingLine → List SoundingLine
  | [] => []
  | l :: rest => if l.z ≥ ztop then [l] else l :: consumed ztop rest

/-- The level stored for a profile line: the moisture is scaled by `0.001`. -/
def storedLevel (l : SoundingLine) : SoundingLine := { l with qv := l.qv * 0.001 }

/-- The data `d` with the levels `ls` appended to the five profile vectors. -/
def InputSoundingData.withLevels (d : InputSoundingData) (ls : List SoundingLine) :
    InputSoundingData :=
  { d with
    z_inp_sound := d.z_inp_sound ++ ls.map (fun l => l.z)
    theta_inp_sound := d.theta_inp_sound ++ ls.map (fun l => l.theta)
    qv_inp_sound := d.qv_inp_sound ++ ls.map (fun l => l.qv)
    U_inp_sound := d.U_inp_sound ++ ls.map (fun l => l.U)
    V_inp_sound := d.V_inp_sound ++ ls.map (fun l => l.V) }

/-- The surface level `read_from_file` puts first (lines 460-465). -/
def surfaceLevel (f : SoundingFile) : SoundingLine :=
  ⟨0, f.theta_ref, f.qv_ref * 0.001, 0, 0⟩

/-- The level at `ztop` obtained from the stored levels `a` (last but one) and
`b` (last) by the formula of lines 496-500. -/
def interpolatedTop (ztop : ℚ) (a b : SoundingLine) : SoundingLine :=
  let zfrac := (ztop - a.z) / (b.z - a.z)
  ⟨ztop, a.theta + zfrac * (b.theta - a.theta), a.qv + zfrac * (b.qv - a.qv),
    a.U + zfrac * (b.U - a.U), a.V + zfrac * (b.V - a.V)⟩

/-- The object after the header of the file has been read: vectors emptied,
reference values stored. -/
def soundingBase (f : SoundingFile) (d : InputSoundingData) : InputSoundingData :=
  { d with
    z_inp_sound := [], theta_inp_sound := [], qv_inp_sound := [], U_inp_sound := [],
    V_inp_sound := [], pm_integ := [], rhom_integ := [], pd_integ := [], rhod_integ := []
    press_ref_inp_sound := f.press_ref
    theta_ref_inp_sound := f.theta_ref
    qv_ref_inp_sound := f.qv_ref * 0.001 }

/-- The stored level below the last consumed line: the last of the scaled
lines `kept`, or the surface when there is none. -/
def levelBelow (f : SoundingFile) (kept : List SoundingLine) : SoundingLine :=
  ((kept.map storedLevel).getLast?).getD (surfaceLevel f)

/-- A sounding file with two profile lines, the second above `ztop = 150`. -/
def sampleSounding : SoundingFile :=
  { press_ref := 100000, theta_ref := 300, qv_ref := 10
    profile := [⟨100, 301, 8, 5, 0⟩, ⟨200, 303, 6, 7, 0⟩, ⟨300, 305, 4, 9, 0⟩] }

/-- An `InputSoundingData` object with stale contents. -/
def staleSounding : InputSoundingData :=
  { press_ref_inp_sound := 0, theta_ref_inp_sound := 0, qv_ref_inp_sound := 0
    z_inp_sound := [1, 2], theta_inp_sound := [1], qv_inp_sound := [], U_inp_sound := []
    V_inp_sound := [], pm_integ := [1], rhom_integ := [], pd_integ := [], rhod_integ := [1] }

/-- The arguments `p` with the turbulence closures switched off: the
constant-alpha-only mode of the same set-up. -/
def DiffArgs.molecularOnly (p : DiffArgs) : DiffArgs :=
  { p with solverChoice :=
      { p.solverChoice with les_type := LESType.None, pbl_type := PBLType.None } }

/-- The arguments `p` with the molecular transport switched off and its
coefficients set to zero: the turbulence-only mode of the same set-up. -/
def DiffArgs.turbulentOnly (p : DiffArgs) : DiffArgs :=
  { p with solverChoice :=
      { p.solverChoice with molec_diff_type := MolecDiffType.None, alpha_T := 0, alpha_C := 0,
                            rhoAlpha_T := 0, rhoAlpha_C := 0 } }

/-- The molecular coefficient of a primitive quantity in the constant-alpha
branch of `alpha_eff`: `alpha_T` for the potential temperature, `alpha_C` for
the scalar, `0` for TKE and QKE. -/
def molecularAlpha (sc : SolverChoice) (prim_index : Int) : ℚ :=
  if prim_index = PrimTheta_comp then sc.alpha_T
  else if prim_index = PrimScalar_comp then sc.alpha_C
  else 0

/-- Arguments for `DiffusionSrcForState_T` on the box of cells `0..1` in the
mode with constant alpha (`alpha_T = 2`) and the MYNN2.5 closure (eddy
diffusivity `3`), the component RhoTheta only, `theta(i,j,k) = i`. -/
def bothArgs : DiffArgs :=
  { keArgs with
    solverChoice := { molec_diff_type := MolecDiffType.ConstantAlpha, pbl_type := PBLType.MYNN25,
                      alpha_T := 2 }
    n_end := RhoTheta_comp
    cell_prim := fun i _ _ _ => (i : ℚ)
    mu_turb := Array4.const 3 }

/-- The amount `met_h_xi*xfluxbar + met_h_eta*yfluxbar` subtracted from the
z-flux at the bottom face `(i,j,k_lo)`, component `q` (lines 362-375): the
horizontal fluxes averaged over the two faces of the column and extrapolated
from the levels `k_lo` and `k_lo+1`. -/
def bottomCorrection (tm : TerrainMetrics) (p : DiffArgs) (xflux yflux : Array4)
    (k_lo i j q : Int) : ℚ :=
  tm.Compute_h_xi_AtKface i j k_lo p.dxInv p.z_nd *
      (1.5 * (0.5 * (xflux i j k_lo q + xflux (i+1) j k_lo q))
        - 0.5 * (0.5 * (xflux i j (k_lo+1) q + xflux (i+1) j (k_lo+1) q)))
    + tm.Compute_h_eta_AtKface i j k_lo p.dxInv p.z_nd *
      (1.5 * (0.5 * (yflux i j k_lo q + yflux i (j+1) k_lo q))
        - 0.5 * (0.5 * (yflux i j (k_lo+1) q + yflux i (j+1) (k_lo+1) q)))

/-- The amount subtracted from the z-flux at the top face `(i,j,k_hi)`,
component `q` (lines 377-390): extrapolated from the levels `k_hi-1` and
`k_hi-2`. -/
def topCorrection (tm : TerrainMetrics) (p : DiffArgs) (xflux yflux : Array4)
    (k_hi i j q : Int) : ℚ :=
  tm.Compute_h_xi_AtKface i j k_hi p.dxInv p.z_nd *
      (1.5 * (0.5 * (xflux i j (k_hi-1) q + xflux (i+1) j (k_hi-1) q))
        - 0.5 * (0.5 * (xflux i j (k_hi-2) q + xflux (i+1) j (k_hi-2) q)))
    + tm.Compute_h_eta_AtKface i j k_hi p.dxInv p.z_nd *
      (1.5 * (0.5 * (yflux i j (k_hi-1) q + yflux i (j+1) (k_hi-1) q))
        - 0.5 * (0.5 * (yflux i j (k_hi-2) q + yflux i (j+1) (k_hi-2) q)))

/-- The amount subtracted from the z-flux at an interior face `(i,j,k)`,
component `q` (lines 394-408): the four-point averages of the horizontal
fluxes over the faces `(i,i+1)` resp. `(j,j+1)` and the levels `(k-1,k)`. -/
def interiorCorrection (tm : TerrainMetrics) (p : DiffArgs) (xflux yflux : Array4)
    (i j k q : Int) : ℚ :=
  tm.Compute_h_xi_AtKface i j k p.dxInv p.z_nd *
      (0.25 * (xflux i j k q + xflux (i+1) j k q + xflux i j (k-1) q + xflux (i+1) j (k-1) q))
    + tm.Compute_h_eta_AtKface i j k p.dxInv p.z_nd *
      (0.25 * (yflux i j k q + yflux i (j+1) k q + yflux i j (k-1) q + yflux i (j+1) (k-1) q))

/-- Arguments for `DiffusionSrcForState_T` on the box of cells `0..1`:
constant alpha with `alpha_T = 2` and no closure, unit density, the component
RhoTheta only, the potential temperature `theta(i,j,k) = i`. -/
def inclineArgs : DiffArgs :=
  { keArgs with
    solverChoice := { molec_diff_type := MolecDiffType.ConstantAlpha, alpha_T := 2 }
    n_end := RhoTheta_comp
    cell_prim := fun i _ _ _ => (i : ℚ) }

/-- The arguments `keArgs` (Deardorff closure) restricted to the component
RhoScalar alone: `n_start = n_end = RhoScalar_comp`. -/
def scalarOnlyArgs : DiffArgs :=
  { keArgs with n_start := RhoScalar_comp, n_end := RhoScalar_comp }

/-- The value `l_Delta` (line 40): `std::pow(dx_inv * dy_inv * dz_inv, -1./3.)`. -/
def l_Delta (cl : Closures) (p : DiffArgs) : ℚ :=
  cl.pow (p.dxInv 0 * p.dxInv 1 * p.dxInv 2) (-1/3)

/-- The local `dtheta_dz` of the Deardorff kernel after its division by
`met_h_zeta` (lines 450, 453, 454). -/
def deardorff_dtheta_dz (tm : TerrainMetrics) (p : DiffArgs) (i j k : Int) : ℚ :=
  0.5*(p.cell_prim i j (k+1) PrimTheta_comp - p.cell_prim i j (k-1) PrimTheta_comp)*p.dxInv 2
    / tm.Compute_h_zeta_AtCellCenter i j k p.dxInv p.z_nd

/-- The local `length` of the Deardorff kernel (lines 456-461). -/
def deardorffLength (tm : TerrainMetrics) (cl : Closures) (p : DiffArgs) (i j k : Int) : ℚ :=
  if deardorff_dtheta_dz tm p i j k ≤ 0 then l_Delta cl p
  else 0.76 * cl.sqrt (p.cell_prim i j k PrimKE_comp)
        * (p.grav_gpu 2 / p.cell_prim i j k PrimTheta_comp) * deardorff_dtheta_dz tm p i j k

/-- Arguments for `DiffusionSrcForState_T` on the box of cells `0..1` under
the Deardorff closure with `Ce = 1`: unit grid, unit density, gravity
`(0,0,-9.81)`, potential temperature `theta(i,j,k) = k + 1` and TKE `1`. -/
def stableArgs : DiffArgs :=
  { keArgs with
    solverChoice := { les_type := LESType.Deardorff, Ce := 1 }
    cell_prim := fun _ _ k n => if n = PrimTheta_comp then (k : ℚ) + 1 else 1 }

/-- The solver choices `init_params` leaves on a fresh object when the inputs
set only `les_type = "Deardorff"` and `Ce = 1`. -/
def calmChoice : SolverChoice :=
  match init_params sampleConstants { les_type := some "Deardorff", Ce := some 1 } {} {} with
  | Except.ok r => r.1
  | Except.error _ => {}

/-- The arguments `stableArgs` with the solver choices `calmChoice` and the
gravity vector `erf_slow_rhs_pre` builds from them. -/
def calmArgs : DiffArgs :=
  { stableArgs with solverChoice := calmChoice, grav_gpu := grav_gpu calmChoice }

/-- The patch `restArgs` at the first stage with a surface-layer model,
constant molecular transport (diffusion enabled, no terrain) and the wind
`u(i,j,k) = k`. -/
def mostArgs : RhsArgs :=
  { restArgs with
    most := some none
    solverChoice := { molec_diff_type := MolecDiffType.Constant, alpha_T := 1, rhoAlpha_T := 1 }
    u := fun _ _ k _ => (k : ℚ) }

/-- The patch `mostArgs` at the second stage (`nrk = 1`). -/
def laterStageArgs : RhsArgs := { mostArgs with nrk := 1 }

/-- Strain arrays that hold `0` everywhere. -/
def zeroTau : Tau9 :=
  ⟨Array4.const 0, Array4.const 0, Array4.const 0, Array4.const 0, Array4.const 0,
   Array4.const 0, Array4.const 0, Array4.const 0, Array4.const 0⟩

/-- A perturbation-pressure array that is `0` on the box `gbx` of the patch
`terrainRestArgs` and `7` outside it. -/
def haloPressure : Array4 :=
  fun i j k _ => if terrainRestArgs.gbx.contains i j k then 0 else 7

/-- The amount the Coriolis block of the x-momentum kernels adds (lines
620-623, 662-665). -/
def coriolis_x (a : RhsArgs) (i j k : Int) : ℚ :=
  let sc := a.solverChoice
  let rho_v_loc := 0.25 * (a.rho_v i (j+1) k 0 + a.rho_v i j k 0
                         + a.rho_v (i-1) (j+1) k 0 + a.rho_v (i-1) j k 0)
  let rho_w_loc := 0.25 * (a.rho_w i j (k+1) 0 + a.rho_w i j k 0
                         + a.rho_w i (j-1) (k+1) 0 + a.rho_w i (j-1) k 0)
  sc.coriolis_factor * (rho_v_loc * sc.sinphi - rho_w_loc * sc.cosphi)

/-- The amount the Coriolis block of the y-momentum kernels adds (lines
723-724, 764-765): `-coriolis_factor * rho_u_loc * sinphi`. -/
def coriolis_y (a : RhsArgs) (i j k : Int) : ℚ :=
  -a.solverChoice.coriolis_factor
    * (0.25 * (a.rho_u (i+1) j k 0 + a.rho_u i j k 0
              + a.rho_u (i+1) (j-1) k 0 + a.rho_u i (j-1) k 0))
    * a.solverChoice.sinphi

/-- The amount the Coriolis block of the z-momentum kernels adds (lines
845-846, 911-912). -/
def coriolis_z (a : RhsArgs) (i j k : Int) : ℚ :=
  let sc := a.solverChoice
  let rho_u_loc := 0.25 * (a.rho_u (i+1) j k 0 + a.rho_u i j k 0
                         + a.rho_u (i+1) j (k-1) 0 + a.rho_u i j (k-1) 0)
  sc.coriolis_factor * rho_u_loc * sc.cosphi

/-- The amount the Rayleigh-damping block of the x-momentum kernels
subtracts (lines 627-631, 669-673). -/
def rayleigh_x (a : RhsArgs) (i j k : Int) : ℚ :=
  a.dptr_rayleigh_tau k
    * (a.rho_u i j k 0 / a.cell_data i j k Rho_comp - a.dptr_rayleigh_ubar k)
    * a.cell_data i j k Rho_comp

/-- The amount the Rayleigh-damping block of the y-momentum kernels
subtracts (lines 728-732, 769-773). -/
def rayleigh_y (a : RhsArgs) (i j k : Int) : ℚ :=
  a.dptr_rayleigh_tau k
    * (a.rho_v i j k 0 / a.cell_data i j k Rho_comp - a.dptr_rayleigh_vbar k)
    * a.cell_data i j k Rho_comp

/-- The amount the Rayleigh-damping block of the z-momentum kernels
subtracts (lines 850-853, 916-919). -/
def rayleigh_z (a : RhsArgs) (i j k : Int) : ℚ :=
  a.dptr_rayleigh_tau k * a.rho_w i j k 0

/-- The dry buoyancy the z-momentum kernels add (lines 835-836, 902-903). -/
def buoyancy (a : RhsArgs) (i j k : Int) : ℚ :=
  grav_gpu a.solverChoice 2 * 0.5 * (a.cell_data i j k 0 + a.cell_data i j (k-1) 0
                                       - a.r0 i j k 0 - a.r0 i j (k-1) 0)

/-- The pressure gradient `gpx` the x-momentum kernel with terrain subtracts. -/
def gpx_T (tm : TerrainMetrics) (a : RhsArgs) (pp_arr : Array4) (i j k : Int) : ℚ :=
  let met_h_xi := tm.Compute_h_xi_AtIface i j k a.dxInv a.z_nd
  let met_h_zeta := tm.Compute_h_zeta_AtIface i j k a.dxInv a.z_nd
  let gp_xi := a.dxInv 0 * (pp_arr i j k 0 - pp_arr (i-1) j k 0)
  let gp_zeta_on_iface :=
    if k = 0 then
      0.5 * a.dxInv 2 * (pp_arr (i-1) j (k+1) 0 + pp_arr i j (k+1) 0
                        - pp_arr (i-1) j k 0 - pp_arr i j k 0)
    else if k = a.domhi_z then
      0.5 * a.dxInv 2 * (pp_arr (i-1) j k 0 + pp_arr i j k 0
                        - pp_arr (i-1) j (k-1) 0 - pp_arr i j (k-1) 0)
    else
      0.25 * a.dxInv 2 * (pp_arr (i-1) j (k+1) 0 + pp_arr i j (k+1) 0
                         - pp_arr (i-1) j (k-1) 0 - pp_arr i j (k-1) 0)
  (gp_xi - (met_h_xi / met_h_zeta) * gp_zeta_on_iface) * a.mapfac_u i j 0 0

/-- The pressure gradient `gpx` the x-momentum kernel without terrain subtracts. -/
def gpx_N (a : RhsArgs) (pp_arr : Array4) (i j k : Int) : ℚ :=
  a.dxInv 0 * (pp_arr i j k 0 - pp_arr (i-1) j k 0) * a.mapfac_u i j 0 0

/-- The pressure gradient `gpy` the y-momentum kernel with terrain subtracts. -/
def gpy_T (tm : TerrainMetrics) (a : RhsArgs) (pp_arr : Array4) (i j k : Int) : ℚ :=
  let met_h_eta := tm.Compute_h_eta_AtJface i j k a.dxInv a.z_nd
  let met_h_zeta := tm.Compute_h_zeta_AtJface i j k a.dxInv a.z_nd
  let gp_eta := a.dxInv 1 * (pp_arr i j k 0 - pp_arr i (j-1) k 0)
  let gp_zeta_on_jface :=
    if k = 0 then
      0.5 * a.dxInv 2 * (pp_arr i j (k+1) 0 + pp_arr i (j-1) (k+1) 0
                        - pp_arr i j k 0 - pp_arr i (j-1) k 0)
    else if k = a.domhi_z then
      0.5 * a.dxInv 2 * (pp_arr i j k 0 + pp_arr i (j-1) k 0
                        - pp_arr i j (k-1) 0 - pp_arr i (j-1) (k-1) 0)
    else
      0.25 * a.dxInv 2 * (pp_arr i j (k+1) 0 + pp_arr i (j-1) (k+1) 0
                         - pp_arr i j (k-1) 0 - pp_arr i (j-1) (k-1) 0)
  (gp_eta - (met_h_eta / met_h_zeta) * gp_zeta_on_jface) * a.mapfac_v i j 0 0

/-- The pressure gradient `gpy` the y-momentum kernel without terrain subtracts. -/
def gpy_N (a : RhsArgs) (pp_arr : Array4) (i j k : Int) : ℚ :=
  a.dxInv 1 * (pp_arr i j k 0 - pp_arr i (j-1) k 0) * a.mapfac_v i j 0 0

/-- The pressure gradient `gpz` the z-momentum kernel with terrain subtracts. -/
def gpz_T (tm : TerrainMetrics) (a : RhsArgs) (pp_arr : Array4) (i j k : Int) : ℚ :=
  a.dxInv 2 * (pp_arr i j k 0 - pp_arr i j (k-1) 0)
    / tm.Compute_h_zeta_AtKface i j k a.dxInv a.z_nd

/-- The pressure gradient `gpz` the z-momentum kernel without terrain subtracts. -/
def gpz_N (a : RhsArgs) (pp_arr : Array4) (i j k : Int) : ℚ :=
  a.dxInv 2 * (pp_arr i j k 0 - pp_arr i j (k-1) 0)

/-- The solver choices `init_params` leaves on a fresh object when the inputs
set only `use_gravity = true`. -/
def gravChoice : SolverChoice :=
  match init_params sampleConstants { use_gravity := some true } {} {} with
  | Except.ok r => r.1
  | Except.error _ => {}

/-- The patch `restArgs` with the solver choices `gravChoice` and density `2`
over the base-state density `1`. -/
def denseArgs : RhsArgs :=
  { restArgs with solverChoice := gravChoice, cell_data := Array4.const 2 }

/-- The solver choices `init_params` leaves on a fresh object when the inputs
set `use_coriolis = true`, the driver `GeostrophicWind` and the geostrophic
wind `(3, 4, 5)`. -/
def geoChoice : SolverChoice :=
  match init_params sampleConstants
      { use_coriolis := some true, abl_driver_type := some "GeostrophicWind",
        abl_geo_wind := some [3, 4, 5] } {} {} with
  | Except.ok r => r.1
  | Except.error _ => {}

/-- The patch `restArgs` with the solver choices `geoChoice` and the uniform
momentum `(3, 4, 5)`. -/
def geoArgs : RhsArgs :=
  { restArgs with
    solverChoice := geoChoice
    rho_u := Array4.const 3
    rho_v := Array4.const 4
    rho_w := Array4.const 5 }

/-- The patch `restArgs` with static terrain, Coriolis switched off but
`coriolis_factor = 1`, `sinphi = 1`, and x-momentum `4` everywhere. -/
def spinArgs : RhsArgs :=
  { restArgs with
    solverChoice := { use_terrain := true, use_coriolis := false, coriolis_factor := 1,
                      sinphi := 1 }
    rho_u := Array4.const 4 }

/-- A patch of one column of two cells without terrain under gravity `10`,
with unit grid, density `3`, and the base state of `columnArgs`: base density
`1` and the base pressure `erf_enforce_hse` computes from it. -/
def perturbedArgs : RhsArgs :=
  { restArgs with
    valid_bx := ⟨⟨0, 0, 0⟩, ⟨0, 0, 1⟩⟩
    tilebox := ⟨⟨0, 0, 0⟩, ⟨0, 0, 1⟩⟩
    domain := ⟨⟨0, 0, 0⟩, ⟨0, 0, 1⟩⟩
    solverChoice := { gravity := 10 }
    cell_data := Array4.const 3
    r0 := columnArgs.rho_arr
    p0 := (erf_enforce_hse sampleHseExt columnArgs ⟨Array4.empty, Array4.empty⟩).pres_arr }

/-- The arguments `h` with terrain switched off: `erf_enforce_hse` then takes
its non-terrain branch. -/
def HseArgs.withoutTerrain (h : HseArgs) : HseArgs :=
  { h with solverChoice := { h.solverChoice with use_terrain := false } }

/-- The column of `columnArgs` with terrain switched on and the flat nodal
heights `z_nd(i,j,k) = k*dz`, density `rho(k) = k + 1`. -/
def flatTerrainArgs : HseArgs :=
  { columnArgs with
    solverChoice := { gravity := 10, use_terrain := true }
    rho_arr := fun _ _ k _ => (k : ℚ) + 1
    znd_arr := fun _ _ k _ => (k : ℚ) * 1 }

/-- The arguments `inclineArgs` with the potential temperature
`theta(i,j,k) = i*k`: the raw x-flux then grows linearly with the level. -/
def shearedArgs : DiffArgs :=
  { inclineArgs with cell_prim := fun i _ k _ => (i : ℚ) * (k : ℚ) }

/-- The solver choices `init_params` leaves on a fresh object when the inputs
set `molec_diff_type = "ConstantAlpha"`, `alpha_T = 1` and `rho0_trans = 2`. -/
def alphaOnlyChoice : SolverChoice :=
  match init_params sampleConstants
    { molec_diff_type := some "ConstantAlpha", alpha_T := some 1, rho0_trans := some 2 } {} {} with
  | Except.ok r => r.1
  | Except.error _ => {}

/-- The solver choices `init_params` leaves on a fresh object when the inputs
set `alpha_T = 1` and `rho0_trans = 2`: molecular transport `Constant`,
`rhoAlpha_T = 2`. -/
def heavyChoice : SolverChoice :=
  match init_params sampleConstants { alpha_T := some 1, rho0_trans := some 2 } {} {} with
  | Except.ok r => r.1
  | Except.error _ => {}

/-- Arguments for `DiffusionSrcForState_T` on the box of cells `0..1`: uniform
density `2`, the component RhoTheta only, `theta(i,j,k) = i`; the solver
choices are filled in by the caller. -/
def heavyArgs : DiffArgs :=
  { keArgs with
    cell_data := Array4.const 2
    n_end := RhoTheta_comp
    cell_prim := fun i _ _ _ => (i : ℚ) }

/-- Collaborators as `idleExt`, except that the two stress functions without
terrain report which of them ran and the `mu_eff` it was given: the
constant-viscosity function fills `tau11` with `mu_eff`, the variable-viscosity
function fills it with `mu_eff - 1`. -/
def tagExt : RhsExt :=
  { idleExt with
    ComputeStressConsVisc_N := fun _ _ _ _ mu t _ => { t with tau11 := Array4.const mu }
    ComputeStressVarVisc_N := fun _ _ _ _ mu _ t _ => { t with tau11 := Array4.const (mu - 1) } }

/-- The patch `restArgs` with constant molecular diffusion, the Smagorinsky
closure and `dynamicViscosity = 3`. -/
def viscousArgs : RhsArgs :=
  { restArgs with
    solverChoice := { molec_diff_type := MolecDiffType.Constant, les_type := LESType.Smagorinsky,
                      dynamicViscosity := 3 } }

/-- The patch `restArgs` with the Smagorinsky closure and no molecular
diffusion, `dynamicViscosity = 3`. -/
def eddyArgs : RhsArgs :=
  { restArgs with
    solverChoice := { molec_diff_type := MolecDiffType.None, les_type := LESType.Smagorinsky,
                      dynamicViscosity := 3 } }

theorem mem_rangeInt (lo hi x : Int) : x ∈ rangeInt lo hi ↔ lo ≤ x ∧ x ≤ hi := by
  unfold rangeInt
  simp only [List.mem_map, List.mem_range]
  constructor
  · rintro ⟨n, hn, rfl⟩
    omega
  · rintro ⟨h1, h2⟩
    exact ⟨(x - lo).toNat, by omega, by omega⟩

theorem nodup_rangeInt (lo hi : Int) : (rangeInt lo hi).Nodup := by
  unfold rangeInt
  refine List.Nodup.map ?_ (List.nodup_range _)
  intro m n h
  simpa using h

theorem mem_cells (b : Box) (i j k : Int) : (i, j, k) ∈ b.cells ↔ b.contains i j k := by
  unfold Box.cells Box.contains
  simp only [List.mem_flatMap, List.mem_map, mem_rangeInt, Prod.mk.injEq]
  constructor
  · rintro ⟨k2, hk, j2, hj, i2, hi, rfl, rfl, rfl⟩
    exact ⟨hi, hj, hk⟩
  · rintro ⟨hi, hj, hk⟩
    exact ⟨k, hk, j, hj, i, hi, rfl, rfl, rfl⟩

theorem nodup_cells (b : Box) : b.cells.Nodup := by
  unfold Box.cells
  rw [List.nodup_flatMap]
  refine ⟨?_, ?_⟩
  · intro k _
    rw [List.nodup_flatMap]
    refine ⟨?_, ?_⟩
    · intro j _
      refine List.Nodup.map ?_ (nodup_rangeInt _ _)
      intro a b h
      simpa using h
    · refine List.Nodup.pairwise_of_forall_ne (nodup_rangeInt _ _) ?_
      intro j1 _ j2 _ hne
      simp only [Function.onFun, List.disjoint_left, List.mem_map]
      rintro c ⟨i1, _, rfl⟩ ⟨i2, _, h⟩
      simp only [Prod.mk.injEq] at h
      exact hne h.2.1.symm
  · refine List.Nodup.pairwise_of_forall_ne (nodup_rangeInt _ _) ?_
    intro k1 _ k2 _ hne
    simp only [Function.onFun, List.disjoint_left, List.mem_flatMap, List.mem_map]
    rintro c ⟨j1, _, i1, _, rfl⟩ ⟨j2, _, i2, _, h⟩
    simp only [Prod.mk.injEq] at h
    exact hne h.2.2.symm

theorem Array4.set_same (a : Array4) (i j k n : Int) (v : ℚ) : (a.set i j k n v) i j k n = v := by
  simp [Array4.set]

theorem Array4.set_apply (a : Array4) (i j k n : Int) (v : ℚ) (i2 j2 k2 n2 : Int) :
    (a.set i j k n v) i2 j2 k2 n2 =
      if i2 = i ∧ j2 = j ∧ k2 = k ∧ n2 = n then v else a i2 j2 k2 n2 := rfl

theorem Array4.set_set (a : Array4) (i j k n : Int) (v w : ℚ) :
    (a.set i j k n v).set i j k n w = a.set i j k n w := by
  funext i2 j2 k2 n2
  simp only [Array4.set]
  split <;> rfl

theorem Array4.set_self (a : Array4) (i j k n : Int) : a.set i j k n (a i j k n) = a := by
  funext i2 j2 k2 n2
  simp only [Array4.set]
  split
  · rename_i h
    obtain ⟨rfl, rfl, rfl, rfl⟩ := h
    rfl
  · rfl

/-- A fold of own-cell assignments over a duplicate-free list of cells. -/
theorem foldl_set_apply (n : Int) (g : Int → Int → Int → ℚ → ℚ)
    (f : Int → Int → Int → Array4 → Array4)
    (hf : ∀ i j k a, f i j k a = a.set i j k n (g i j k (a i j k n)))
    (l : List (Int × Int × Int)) (hl : l.Nodup) (a : Array4) (i j k m : Int) :
    (l.foldl (fun s c => f c.1 c.2.1 c.2.2 s) a) i j k m =
      if (i, j, k) ∈ l ∧ m = n then g i j k (a i j k n) else a i j k m := by
  induction l generalizing a with
  | nil => simp
  | cons c l ih =>
    obtain ⟨ci, cj, ck⟩ := c
    rw [List.nodup_cons] at hl
    rw [List.foldl_cons, ih hl.2, hf]
    simp only [Array4.set_apply, List.mem_cons, Prod.mk.injEq]
    by_cases hmem : (i, j, k) ∈ l
    · have hne : ¬ (i = ci ∧ j = cj ∧ k = ck) := by
        rintro ⟨rfl, rfl, rfl⟩
        exact hl.1 hmem
      by_cases hm : m = n
      · subst hm
        simp [hmem, hne]
      · simp [hmem, hm]
    · by_cases hc : i = ci ∧ j = cj ∧ k = ck
      · obtain ⟨rfl, rfl, rfl⟩ := hc
        by_cases hm : m = n
        · subst hm
          simp [hmem]
        · simp [hmem, hm]
      · have h2 : ¬ (i = ci ∧ j = cj ∧ k = ck ∧ m = n) := fun h => hc ⟨h.1, h.2.1, h.2.2.1⟩
        simp [hmem, hc, h2]

/-- A kernel that assigns component `n` of its own cell from the old value
there: the launch changes exactly the cells of the box. -/
theorem ParallelFor_apply (bx : Box) (n : Int) (g : Int → Int → Int → ℚ → ℚ)
    (f : Int → Int → Int → Array4 → Array4)
    (hf : ∀ i j k a, f i j k a = a.set i j k n (g i j k (a i j k n)))
    (a : Array4) (i j k m : Int) :
    ParallelFor bx f a i j k m =
      if bx.contains i j k ∧ m = n then g i j k (a i j k n) else a i j k m := by
  unfold ParallelFor
  rw [foldl_set_apply n g f hf bx.cells (nodup_cells bx)]
  simp only [mem_cells]

theorem zmomKernel_T_own (tm : TerrainMetrics) (a : RhsArgs) (pp : Array4) (i j k : Int)
    (r : Array4) :
    zmomKernel_T tm a pp i j k r =
      r.set i j k 0 (ownValue (zmomKernel_T tm a pp) 0 i j k (r i j k 0)) := by
  simp only [zmomKernel_T, ownValue]
  split_ifs <;> simp only [Array4.set_set, Array4.set_same, Array4.const]

theorem zmomKernel_N_own (a : RhsArgs) (pp : Array4) (i j k : Int) (r : Array4) :
    zmomKernel_N a pp i j k r =
      r.set i j k 0 (ownValue (zmomKernel_N a pp) 0 i j k (r i j k 0)) := by
  simp only [zmomKernel_N, ownValue]
  split_ifs <;> simp only [Array4.set_set, Array4.set_same, Array4.const]

theorem tbz_contains (a : RhsArgs) (i j k : Int) :
    a.tbz.contains i j k ↔
      (a.bx.smallEnd.x ≤ i ∧ i ≤ a.bx.bigEnd.x) ∧ (a.bx.smallEnd.y ≤ j ∧ j ≤ a.bx.bigEnd.y) ∧
        (a.bx.smallEnd.z + 1 ≤ k ∧ k ≤ a.bx.bigEnd.z) := by
  simp only [RhsArgs.tbz, Box.contains, Box.growLo, Box.growHi, surroundingNodes, IntVect.set,
    IntVect.get]
  constructor <;> rintro ⟨h1, h2, h3⟩ <;> exact ⟨h1, h2, by omega⟩

/-- The value the z-momentum kernel of the active branch leaves at a face. -/
theorem stepZmom_apply (tm : TerrainMetrics) (a : RhsArgs) (s : RhsState) (i j k m : Int) :
    (stepZmom tm a s).rho_w_rhs i j k m =
      if a.tbz.contains i j k ∧ m = 0 then
        (if a.solverChoice.use_terrain = true
          then ownValue (zmomKernel_T tm a s.pp_arr) 0 i j k (s.rho_w_rhs i j k 0)
          else ownValue (zmomKernel_N a s.pp_arr) 0 i j k (s.rho_w_rhs i j k 0))
      else s.rho_w_rhs i j k m := by
  unfold stepZmom
  by_cases ht : a.solverChoice.use_terrain = true
  · simp only [ht, if_true]
    exact ParallelFor_apply a.tbz 0 _ _ (zmomKernel_T_own tm a s.pp_arr) _ i j k m
  · simp only [ht, if_false]
    exact ParallelFor_apply a.tbz 0 _ _ (zmomKernel_N_own a s.pp_arr) _ i j k m

/-- The z-momentum terms leave every face outside `tbz` as it was. -/
theorem stepZmom_frame (tm : TerrainMetrics) (a : RhsArgs) (s : RhsState) (i j k m : Int)
    (h : ¬ (a.bx.smallEnd.z + 1 ≤ k ∧ k ≤ a.bx.bigEnd.z)) :
    (stepZmom tm a s).rho_w_rhs i j k m = s.rho_w_rhs i j k m := by
  rw [stepZmom_apply, if_neg]
  rintro ⟨hc, _⟩
  exact h ((tbz_contains a i j k).1 hc).2.2

theorem foldl_zero_apply (a : RhsArgs) (l : List (Int × Int × Int)) (r : Array4)
    (i j k m : Int) :
    (l.foldl (fun s c => zeroKernel a c.1 c.2.1 c.2.2 s) r) i j k m =
      if (∃ c ∈ l, c.1 = i ∧ c.2.1 = j) ∧ (k = 0 ∨ k = a.domhi_z + 1) ∧ m = 0 then 0
      else r i j k m := by
  induction l generalizing r with
  | nil => simp
  | cons c l ih =>
    rw [List.foldl_cons, ih]
    by_cases h1 : (∃ c2 ∈ l, c2.1 = i ∧ c2.2.1 = j) ∧ (k = 0 ∨ k = a.domhi_z + 1) ∧ m = 0
    · have h2 : (∃ c2 ∈ c :: l, c2.1 = i ∧ c2.2.1 = j) ∧ (k = 0 ∨ k = a.domhi_z + 1) ∧ m = 0 := by
        obtain ⟨⟨c2, hc2, hx⟩, hk⟩ := h1
        exact ⟨⟨c2, List.mem_cons_of_mem _ hc2, hx⟩, hk⟩
      rw [if_pos h1, if_pos h2]
    · rw [if_neg h1]
      simp only [zeroKernel, Array4.set_apply]
      by_cases h3 : (c.1 = i ∧ c.2.1 = j) ∧ (k = 0 ∨ k = a.domhi_z + 1) ∧ m = 0
      · have h2 : (∃ c2 ∈ c :: l, c2.1 = i ∧ c2.2.1 = j) ∧ (k = 0 ∨ k = a.domhi_z + 1) ∧ m = 0 :=
          ⟨⟨c, List.mem_cons_self _ _, h3.1⟩, h3.2⟩
        rw [if_pos h2]
        obtain ⟨⟨hi, hj⟩, hk, hm⟩ := h3
        rcases hk with hk | hk
        · by_cases hd : k = a.domhi_z + 1
          · simp [hi, hj, hd, hm]
          · simp [hi, hj, hk, hd, hm]
        · simp [hi, hj, hk, hm]
      · have h2 : ¬ ((∃ c2 ∈ c :: l, c2.1 = i ∧ c2.2.1 = j) ∧ (k = 0 ∨ k = a.domhi_z + 1) ∧ m = 0) := by
          rintro ⟨⟨c2, hc2, hx⟩, hk⟩
          rcases List.mem_cons.1 hc2 with rfl | hc2
          · exact h3 ⟨hx, hk⟩
          · exact h1 ⟨⟨c2, hc2, hx⟩, hk⟩
        rw [if_neg h2]
        have e1 : ¬ (i = c.1 ∧ j = c.2.1 ∧ k = a.domhi_z + 1 ∧ m = 0) := fun h =>
          h3 ⟨⟨h.1.symm, h.2.1.symm⟩, Or.inr h.2.2.1, h.2.2.2⟩
        have e2 : ¬ (i = c.1 ∧ j = c.2.1 ∧ k = 0 ∧ m = 0) := fun h =>
          h3 ⟨⟨h.1.symm, h.2.1.symm⟩, Or.inl h.2.2.1, h.2.2.2⟩
        rw [if_neg e1, if_neg e2]

/-- The boundary zeroing: the bottom face `k = 0` and the face `k = domhi_z + 1`
hold `0` for every `(i,j)` of the patch, the other faces are as they were. -/
theorem stepZero_apply (a : RhsArgs) (s : RhsState) (i j k m : Int) :
    (stepZero a s).rho_w_rhs i j k m =
      if ((a.bx.smallEnd.x ≤ i ∧ i ≤ a.bx.bigEnd.x) ∧ (a.bx.smallEnd.y ≤ j ∧ j ≤ a.bx.bigEnd.y)) ∧
          (k = 0 ∨ k = a.domhi_z + 1) ∧ m = 0 then 0
      else s.rho_w_rhs i j k m := by
  simp only [stepZero, ParallelFor]
  rw [foldl_zero_apply]
  have hiff : (∃ c ∈ ((a.tbz.setSmall 2 0).setBig 2 0).cells, c.1 = i ∧ c.2.1 = j) ↔
      ((a.bx.smallEnd.x ≤ i ∧ i ≤ a.bx.bigEnd.x) ∧ (a.bx.smallEnd.y ≤ j ∧ j ≤ a.bx.bigEnd.y)) := by
    constructor
    · rintro ⟨⟨ci, cj, ck⟩, hc, rfl, rfl⟩
      rw [mem_cells] at hc
      simp only [RhsArgs.tbz, Box.contains, Box.growLo, Box.growHi, Box.setSmall, Box.setBig,
        surroundingNodes, IntVect.set, IntVect.get] at hc
      exact ⟨hc.1, hc.2.1⟩
    · rintro ⟨hi, hj⟩
      refine ⟨(i, j, 0), ?_, rfl, rfl⟩
      rw [mem_cells]
      simp only [RhsArgs.tbz, Box.contains, Box.growLo, Box.growHi, Box.setSmall, Box.setBig,
        surroundingNodes, IntVect.set, IntVect.get]
      exact ⟨hi, hj, le_refl _, le_refl _⟩
  simp only [hiff]

theorem erf_slow_rhs_pre_ok (tm : TerrainMetrics) (ext : RhsExt) (cl : Closures) (a : RhsArgs)
    (s r : RhsState) (h : erf_slow_rhs_pre tm ext cl a s = Except.ok r) :
    r = tileBody tm ext cl a s := by
  unfold erf_slow_rhs_pre at h
  split_ifs at h
  injection h with h
  exact h.symm

theorem restArgs_ok :
    erf_slow_rhs_pre flatMetrics idleExt idleClosures restArgs sevenState =
      Except.ok (tileBody flatMetrics idleExt idleClosures restArgs sevenState) := by
  simp [erf_slow_rhs_pre, restArgs, l_moving_terrain, Array4.const]

theorem rayleighThetaKernel_own (a : RhsArgs) (i j k : Int) (r : Array4) :
    rayleighThetaKernel a i j k r =
      r.set i j k RhoTheta_comp
        (ownValue (rayleighThetaKernel a) RhoTheta_comp i j k (r i j k RhoTheta_comp)) := by
  simp only [rayleighThetaKernel, ownValue, Array4.set_same, Array4.const]

/-- The momentum steps leave the state tendency as the state steps made it. -/
theorem tileBody_cell_rhs (tm : TerrainMetrics) (ext : RhsExt) (cl : Closures) (a : RhsArgs)
    (s : RhsState) :
    (tileBody tm ext cl a s).cell_rhs = (statePart tm ext cl a s).cell_rhs := by
  simp only [tileBody, stepZmom, stepZero, stepYmom, stepXmom, momSources, stepDiffMom, stepAdvMom]
  split_ifs <;> rfl

/-- The Rayleigh-damping block of the state equations, cell by cell. -/
theorem stepRayleighTheta_apply (a : RhsArgs) (s : RhsState) (i j k m : Int)
    (hr : a.solverChoice.use_rayleigh_damping = true) :
    (stepRayleighTheta a s).cell_rhs i j k m =
      if a.bx.contains i j k ∧ m = RhoTheta_comp then
        s.cell_rhs i j k RhoTheta_comp
          - a.dptr_rayleigh_tau k * (a.cell_prim i j k PrimTheta_comp - a.dptr_rayleigh_thetabar k)
              * a.cell_data i j k Rho_comp
      else s.cell_rhs i j k m := by
  simp only [stepRayleighTheta, hr, if_true]
  rw [ParallelFor_apply a.bx RhoTheta_comp _ _ (rayleighThetaKernel_own a)]
  simp only [ownValue, rayleighThetaKernel, Array4.set_same, Array4.const]

theorem stepExpr_off (tm : TerrainMetrics) (a : RhsArgs) (t : RhsState)
    (h : l_use_diff a.solverChoice = false) : stepExpr tm a t = t := by
  unfold stepExpr
  rw [if_neg (by simp [h])]

theorem stepDiffState_off (tm : TerrainMetrics) (ext : RhsExt) (cl : Closures) (a : RhsArgs)
    (t : RhsState) (h : l_use_diff a.solverChoice = false) : stepDiffState tm ext cl a t = t := by
  unfold stepDiffState
  rw [if_neg (by simp [h])]

theorem stepDiffMom_off (ext : RhsExt) (a : RhsArgs) (t : RhsState)
    (h : l_use_diff a.solverChoice = false) : stepDiffMom ext a t = t := by
  unfold stepDiffMom
  rw [if_neg (by simp [h])]

/-- Without diffusion no strain or stress is computed: the accessors are
written back as they were read. -/
theorem stepTau_off (tm : TerrainMetrics) (ext : RhsExt) (a : RhsArgs) (t : RhsState)
    (h : l_use_diff a.solverChoice = false) :
    stepTau tm ext a t = { t with tau := tauStore a t.tau (tauView a t.tau) } := by
  unfold stepTau stepStress mostStrain stepStrain
  rw [if_neg (by simp [h]), if_neg (by simp [h]), if_neg (by simp [h])]

theorem stepPprime_withDiffusionData (ext : RhsExt) (a : RhsArgs) (t : RhsState)
    (e so : Array4) (c1 c2 c3 c4 c5 c6 : ℚ) :
    stepPprime ext (a.withDiffusionData e so c1 c2 c3 c4 c5 c6) t = stepPprime ext a t := rfl

theorem stepOmega_withDiffusionData (tm : TerrainMetrics) (a : RhsArgs) (t : RhsState)
    (e so : Array4) (c1 c2 c3 c4 c5 c6 : ℚ) :
    stepOmega tm (a.withDiffusionData e so c1 c2 c3 c4 c5 c6) t = stepOmega tm a t := rfl

theorem stepAdvState_withDiffusionData (ext : RhsExt) (a : RhsArgs) (t : RhsState)
    (e so : Array4) (c1 c2 c3 c4 c5 c6 : ℚ) :
    stepAdvState ext (a.withDiffusionData e so c1 c2 c3 c4 c5 c6) t = stepAdvState ext a t := rfl

theorem stepRayleighTheta_withDiffusionData (a : RhsArgs) (t : RhsState)
    (e so : Array4) (c1 c2 c3 c4 c5 c6 : ℚ) :
    stepRayleighTheta (a.withDiffusionData e so c1 c2 c3 c4 c5 c6) t = stepRayleighTheta a t := rfl

theorem stepDetJState_withDiffusionData (a : RhsArgs) (t : RhsState)
    (e so : Array4) (c1 c2 c3 c4 c5 c6 : ℚ) :
    stepDetJState (a.withDiffusionData e so c1 c2 c3 c4 c5 c6) t = stepDetJState a t := rfl

theorem stepAdvMom_withDiffusionData (ext : RhsExt) (a : RhsArgs) (t : RhsState)
    (e so : Array4) (c1 c2 c3 c4 c5 c6 : ℚ) :
    stepAdvMom ext (a.withDiffusionData e so c1 c2 c3 c4 c5 c6) t = stepAdvMom ext a t := rfl

theorem stepXmom_withDiffusionData (tm : TerrainMetrics) (a : RhsArgs) (t : RhsState)
    (e so : Array4) (c1 c2 c3 c4 c5 c6 : ℚ) :
    stepXmom tm (a.withDiffusionData e so c1 c2 c3 c4 c5 c6) t = stepXmom tm a t := rfl

theorem stepYmom_withDiffusionData (tm : TerrainMetrics) (a : RhsArgs) (t : RhsState)
    (e so : Array4) (c1 c2 c3 c4 c5 c6 : ℚ) :
    stepYmom tm (a.withDiffusionData e so c1 c2 c3 c4 c5 c6) t = stepYmom tm a t := rfl

theorem stepZero_withDiffusionData (a : RhsArgs) (t : RhsState)
    (e so : Array4) (c1 c2 c3 c4 c5 c6 : ℚ) :
    stepZero (a.withDiffusionData e so c1 c2 c3 c4 c5 c6) t = stepZero a t := rfl

theorem stepZmom_withDiffusionData (tm : TerrainMetrics) (a : RhsArgs) (t : RhsState)
    (e so : Array4) (c1 c2 c3 c4 c5 c6 : ℚ) :
    stepZmom tm (a.withDiffusionData e so c1 c2 c3 c4 c5 c6) t = stepZmom tm a t := rfl

theorem bx_bounds (a : RhsArgs) :
    (a.tilebox.smallEnd.x ≤ a.bx.smallEnd.x ∧ a.bx.bigEnd.x ≤ a.tilebox.bigEnd.x) ∧
    (a.tilebox.smallEnd.y ≤ a.bx.smallEnd.y ∧ a.bx.bigEnd.y ≤ a.tilebox.bigEnd.y) ∧
    (a.tilebox.smallEnd.z ≤ a.bx.smallEnd.z ∧ a.bx.bigEnd.z ≤ a.tilebox.bigEnd.z) := by
  simp only [RhsArgs.bx, Box.inter]
  exact ⟨⟨le_max_left _ _, min_le_left _ _⟩, ⟨le_max_left _ _, min_le_left _ _⟩,
    ⟨le_max_left _ _, min_le_left _ _⟩⟩

theorem gbx_contains (a : RhsArgs) (i j k : Int) :
    a.gbx.contains i j k ↔
      (a.tilebox.smallEnd.x - 1 ≤ i ∧ i ≤ a.tilebox.bigEnd.x + 1) ∧
      (a.tilebox.smallEnd.y - 1 ≤ j ∧ j ≤ a.tilebox.bigEnd.y + 1) ∧
      (a.tilebox.smallEnd.z ≤ k ∧ k ≤ a.tilebox.bigEnd.z) := by
  simp only [RhsArgs.gbx, Box.contains, Box.grow, sub_zero, add_zero]

theorem tbx_contains (a : RhsArgs) (i j k : Int) :
    a.tbx.contains i j k ↔
      (a.bx.smallEnd.x ≤ i ∧ i ≤ a.bx.bigEnd.x + 1) ∧ (a.bx.smallEnd.y ≤ j ∧ j ≤ a.bx.bigEnd.y) ∧
        (a.bx.smallEnd.z ≤ k ∧ k ≤ a.bx.bigEnd.z) := by
  simp only [RhsArgs.tbx, Box.contains, surroundingNodes, IntVect.set, IntVect.get]

theorem tby_contains (a : RhsArgs) (i j k : Int) :
    a.tby.contains i j k ↔
      (a.bx.smallEnd.x ≤ i ∧ i ≤ a.bx.bigEnd.x) ∧ (a.bx.smallEnd.y ≤ j ∧ j ≤ a.bx.bigEnd.y + 1) ∧
        (a.bx.smallEnd.z ≤ k ∧ k ≤ a.bx.bigEnd.z) := by
  simp only [RhsArgs.tby, Box.contains, surroundingNodes, IntVect.set, IntVect.get]

theorem pprimeKernel_own (ext : RhsExt) (a : RhsArgs) (i j k : Int) (r : Array4) :
    pprimeKernel ext a i j k r =
      r.set i j k 0 (ownValue (pprimeKernel ext a) 0 i j k (r i j k 0)) := by
  simp only [pprimeKernel, ownValue, Array4.set_same]

/-- The perturbation pressure after its pass: written on `gbx`, as allocated
elsewhere. -/
theorem stepPprime_apply (ext : RhsExt) (a : RhsArgs) (s : RhsState) (i j k m : Int) :
    (stepPprime ext a s).pp_arr i j k m =
      if a.gbx.contains i j k ∧ m = 0 then
        ext.getPgivenRTh (a.cell_data i j k RhoTheta_comp) - a.p0 i j k 0
      else s.pp_arr i j k m := by
  simp only [stepPprime]
  rw [ParallelFor_apply a.gbx 0 _ _ (pprimeKernel_own ext a)]
  simp only [ownValue, pprimeKernel, Array4.set_same]

theorem stepExpr_pp_arr (tm : TerrainMetrics) (a : RhsArgs) (s : RhsState) :
    (stepExpr tm a s).pp_arr = s.pp_arr := by
  unfold stepExpr
  split_ifs <;> rfl

theorem stepOmega_pp_arr (tm : TerrainMetrics) (a : RhsArgs) (s : RhsState) :
    (stepOmega tm a s).pp_arr = s.pp_arr := by
  unfold stepOmega
  split_ifs
  · split <;> rfl
  · rfl

theorem stepDiffState_pp_arr (tm : TerrainMetrics) (ext : RhsExt) (cl : Closures) (a : RhsArgs)
    (s : RhsState) : (stepDiffState tm ext cl a s).pp_arr = s.pp_arr := by
  unfold stepDiffState
  split_ifs <;> rfl

theorem stepRayleighTheta_pp_arr (a : RhsArgs) (s : RhsState) :
    (stepRayleighTheta a s).pp_arr = s.pp_arr := by
  unfold stepRayleighTheta
  split_ifs <;> rfl

theorem stepDetJState_pp_arr (a : RhsArgs) (s : RhsState) :
    (stepDetJState a s).pp_arr = s.pp_arr := by
  unfold stepDetJState
  split_ifs <;> rfl

theorem stepDiffMom_pp_arr (ext : RhsExt) (a : RhsArgs) (s : RhsState) :
    (stepDiffMom ext a s).pp_arr = s.pp_arr := by
  unfold stepDiffMom
  split_ifs <;> rfl

theorem stepXmom_pp_arr (tm : TerrainMetrics) (a : RhsArgs) (s : RhsState) :
    (stepXmom tm a s).pp_arr = s.pp_arr := by
  unfold stepXmom
  split_ifs <;> rfl

theorem stepYmom_pp_arr (tm : TerrainMetrics) (a : RhsArgs) (s : RhsState) :
    (stepYmom tm a s).pp_arr = s.pp_arr := by
  unfold stepYmom
  split_ifs <;> rfl

/-- The perturbation pressure the momentum kernels read is the one written by
the pressure pass. -/
theorem momSources_pp_arr (tm : TerrainMetrics) (ext : RhsExt) (cl : Closures) (a : RhsArgs)
    (s : RhsState) :
    (momSources ext a (statePart tm ext cl a s)).pp_arr =
      (stepPprime ext a (stepScratch s)).pp_arr := by
  unfold momSources statePart
  rw [stepDiffMom_pp_arr]
  show (stepDetJState a _).pp_arr = _
  rw [stepDetJState_pp_arr, stepRayleighTheta_pp_arr, stepDiffState_pp_arr]
  show (stepOmega tm a _).pp_arr = _
  rw [stepOmega_pp_arr, stepExpr_pp_arr]

/-- At hydrostatic rest the perturbation pressure is zero on `gbx`. -/
theorem pp_zero_at_rest (tm : TerrainMetrics) (ext : RhsExt) (cl : Closures) (a : RhsArgs)
    (s : RhsState) (hbal : AtHydrostaticRest ext a) (i j k : Int) (hc : a.gbx.contains i j k) :
    (momSources ext a (statePart tm ext cl a s)).pp_arr i j k 0 = 0 := by
  rw [momSources_pp_arr, stepPprime_apply, if_pos ⟨hc, rfl⟩, (hbal.1 i j k hc).2, sub_self]

theorem xmomKernel_T_own (tm : TerrainMetrics) (a : RhsArgs) (pp : Array4) (i j k : Int)
    (r : Array4) :
    xmomKernel_T tm a pp i j k r =
      r.set i j k 0 (ownValue (xmomKernel_T tm a pp) 0 i j k (r i j k 0)) := by
  simp only [xmomKernel_T, ownValue]
  split_ifs <;> simp only [Array4.set_set, Array4.set_same, Array4.const]

theorem xmomKernel_N_own (a : RhsArgs) (pp : Array4) (i j k : Int) (r : Array4) :
    xmomKernel_N a pp i j k r =
      r.set i j k 0 (ownValue (xmomKernel_N a pp) 0 i j k (r i j k 0)) := by
  simp only [xmomKernel_N, ownValue]
  split_ifs <;> simp only [Array4.set_set, Array4.set_same, Array4.const]

theorem ymomKernel_T_own (tm : TerrainMetrics) (a : RhsArgs) (pp : Array4) (i j k : Int)
    (r : Array4) :
    ymomKernel_T tm a pp i j k r =
      r.set i j k 0 (ownValue (ymomKernel_T tm a pp) 0 i j k (r i j k 0)) := by
  simp only [ymomKernel_T, ownValue]
  split_ifs <;> simp only [Array4.set_set, Array4.set_same, Array4.const]

theorem ymomKernel_N_own (a : RhsArgs) (pp : Array4) (i j k : Int) (r : Array4) :
    ymomKernel_N a pp i j k r =
      r.set i j k 0 (ownValue (ymomKernel_N a pp) 0 i j k (r i j k 0)) := by
  simp only [ymomKernel_N, ownValue]
  split_ifs <;> simp only [Array4.set_set, Array4.set_same, Array4.const]

/-- The value the x-momentum kernel of the active branch leaves at a face. -/
theorem stepXmom_apply (tm : TerrainMetrics) (a : RhsArgs) (s : RhsState) (i j k m : Int) :
    (stepXmom tm a s).rho_u_rhs i j k m =
      if a.tbx.contains i j k ∧ m = 0 then
        (if a.solverChoice.use_terrain = true
          then ownValue (xmomKernel_T tm a s.pp_arr) 0 i j k (s.rho_u_rhs i j k 0)
          else ownValue (xmomKernel_N a s.pp_arr) 0 i j k (s.rho_u_rhs i j k 0))
      else s.rho_u_rhs i j k m := by
  unfold stepXmom
  by_cases ht : a.solverChoice.use_terrain = true
  · simp only [ht, if_true]
    exact ParallelFor_apply a.tbx 0 _ _ (xmomKernel_T_own tm a s.pp_arr) _ i j k m
  · simp only [ht, if_false]
    exact ParallelFor_apply a.tbx 0 _ _ (xmomKernel_N_own a s.pp_arr) _ i j k m

/-- The value the y-momentum kernel of the active branch leaves at a face. -/
theorem stepYmom_apply (tm : TerrainMetrics) (a : RhsArgs) (s : RhsState) (i j k m : Int) :
    (stepYmom tm a s).rho_v_rhs i j k m =
      if a.tby.contains i j k ∧ m = 0 then
        (if a.solverChoice.use_terrain = true
          then ownValue (ymomKernel_T tm a s.pp_arr) 0 i j k (s.rho_v_rhs i j k 0)
          else ownValue (ymomKernel_N a s.pp_arr) 0 i j k (s.rho_v_rhs i j k 0))
      else s.rho_v_rhs i j k m := by
  unfold stepYmom
  by_cases ht : a.solverChoice.use_terrain = true
  · simp only [ht, if_true]
    exact ParallelFor_apply a.tby 0 _ _ (ymomKernel_T_own tm a s.pp_arr) _ i j k m
  · simp only [ht, if_false]
    exact ParallelFor_apply a.tby 0 _ _ (ymomKernel_N_own a s.pp_arr) _ i j k m

theorem ext_forcing_zero (a : RhsArgs)
    (h : ∀ d, a.solverChoice.abl_pressure_grad d = 0 ∧ a.solverChoice.abl_geo_forcing d = 0)
    (d : Nat) : ext_forcing a.solverChoice d = 0 := by
  unfold ext_forcing GpuArray3.mk3
  rcases d with _ | _ | d <;> simp [(h 0).1, (h 0).2, (h 1).1, (h 1).2, (h 2).1, (h 2).2]

/-- At hydrostatic rest the terrain x-momentum kernel only applies the
moving-terrain factor, when every pressure value it reads is zero. -/
theorem xmomKernel_T_at_rest (tm : TerrainMetrics) (ext : RhsExt) (a : RhsArgs) (pp : Array4)
    (hbal : AtHydrostaticRest ext a) (ht : a.solverChoice.use_terrain = true)
    (hpp : ∀ i j k, a.gbx.contains i j k → pp i j k 0 = 0)
    (hspan : a.tilebox.smallEnd.z = 0 ∧ a.tilebox.bigEnd.z = a.domhi_z ∧ 1 ≤ a.domhi_z)
    (i j k : Int) (hc : a.tbx.contains i j k) (old : ℚ) :
    ownValue (xmomKernel_T tm a pp) 0 i j k old = old * jacobianFactor a 0 i j k := by
  obtain ⟨hx, hy, hz⟩ := (tbx_contains a i j k).1 hc
  obtain ⟨bxx, bxy, bxz⟩ := bx_bounds a
  obtain ⟨hrho, hmom, hforce, hray⟩ := hbal
  have hu : ∀ i j k, a.rho_u i j k 0 = 0 := fun i j k => (hmom i j k).1
  have hv : ∀ i j k, a.rho_v i j k 0 = 0 := fun i j k => (hmom i j k).2.1
  have hw : ∀ i j k, a.rho_w i j k 0 = 0 := fun i j k => (hmom i j k).2.2
  have e0 := ext_forcing_zero a hforce 0
  have p0 : pp i j k 0 = 0 ∧ pp (i - 1) j k 0 = 0 :=
    ⟨hpp _ _ _ ((gbx_contains a _ _ _).2 ⟨by omega, by omega, by omega⟩),
     hpp _ _ _ ((gbx_contains a _ _ _).2 ⟨by omega, by omega, by omega⟩)⟩
  have hup : k ≠ a.domhi_z → pp i j (k + 1) 0 = 0 ∧ pp (i - 1) j (k + 1) 0 = 0 := fun h =>
    ⟨hpp _ _ _ ((gbx_contains a _ _ _).2 ⟨by omega, by omega, by omega⟩),
     hpp _ _ _ ((gbx_contains a _ _ _).2 ⟨by omega, by omega, by omega⟩)⟩
  have hdn : k ≠ 0 → pp i j (k - 1) 0 = 0 ∧ pp (i - 1) j (k - 1) 0 = 0 := fun h =>
    ⟨hpp _ _ _ ((gbx_contains a _ _ _).2 ⟨by omega, by omega, by omega⟩),
     hpp _ _ _ ((gbx_contains a _ _ _).2 ⟨by omega, by omega, by omega⟩)⟩
  simp only [xmomKernel_T, ownValue, jacobianFactor, ht, hray, e0, hu, hv, hw, p0.1, p0.2,
    Bool.false_eq_true, if_false, true_and, Array4.const]
  by_cases hk0 : k = 0
  · have hkd : k ≠ a.domhi_z := by omega
    simp only [if_pos hk0, (hup hkd).1, (hup hkd).2]
    split_ifs <;> simp only [Array4.set_set, Array4.set_same] <;> ring
  · by_cases hkd : k = a.domhi_z
    · simp only [if_neg hk0, if_pos hkd, (hdn hk0).1, (hdn hk0).2]
      split_ifs <;> simp only [Array4.set_set, Array4.set_same] <;> ring
    · simp only [if_neg hk0, if_neg hkd, (hup hkd).1, (hup hkd).2, (hdn hk0).1, (hdn hk0).2]
      split_ifs <;> simp only [Array4.set_set, Array4.set_same] <;> ring

/-- At hydrostatic rest the terrain y-momentum kernel only applies the
moving-terrain factor, when every pressure value it reads is zero. -/
theorem ymomKernel_T_at_rest (tm : TerrainMetrics) (ext : RhsExt) (a : RhsArgs) (pp : Array4)
    (hbal : AtHydrostaticRest ext a) (ht : a.solverChoice.use_terrain = true)
    (hpp : ∀ i j k, a.gbx.contains i j k → pp i j k 0 = 0)
    (hspan : a.tilebox.smallEnd.z = 0 ∧ a.tilebox.bigEnd.z = a.domhi_z ∧ 1 ≤ a.domhi_z)
    (i j k : Int) (hc : a.tby.contains i j k) (old : ℚ) :
    ownValue (ymomKernel_T tm a pp) 0 i j k old = old * jacobianFactor a 1 i j k := by
  obtain ⟨hx, hy, hz⟩ := (tby_contains a i j k).1 hc
  obtain ⟨bxx, bxy, bxz⟩ := bx_bounds a
  obtain ⟨hrho, hmom, hforce, hray⟩ := hbal
  have hu : ∀ i j k, a.rho_u i j k 0 = 0 := fun i j k => (hmom i j k).1
  have e1 := ext_forcing_zero a hforce 1
  have p0 : pp i j k 0 = 0 ∧ pp i (j - 1) k 0 = 0 :=
    ⟨hpp _ _ _ ((gbx_contains a _ _ _).2 ⟨by omega, by omega, by omega⟩),
     hpp _ _ _ ((gbx_contains a _ _ _).2 ⟨by omega, by omega, by omega⟩)⟩
  have hup : k ≠ a.domhi_z → pp i j (k + 1) 0 = 0 ∧ pp i (j - 1) (k + 1) 0 = 0 := fun h =>
    ⟨hpp _ _ _ ((gbx_contains a _ _ _).2 ⟨by omega, by omega, by omega⟩),
     hpp _ _ _ ((gbx_contains a _ _ _).2 ⟨by omega, by omega, by omega⟩)⟩
  have hdn : k ≠ 0 → pp i j (k - 1) 0 = 0 ∧ pp i (j - 1) (k - 1) 0 = 0 := fun h =>
    ⟨hpp _ _ _ ((gbx_contains a _ _ _).2 ⟨by omega, by omega, by omega⟩),
     hpp _ _ _ ((gbx_contains a _ _ _).2 ⟨by omega, by omega, by omega⟩)⟩
  simp only [ymomKernel_T, ownValue, jacobianFactor, ht, hray, e1, hu, p0.1, p0.2,
    Bool.false_eq_true, if_false, true_and, Array4.const]
  by_cases hk0 : k = 0
  · have hkd : k ≠ a.domhi_z := by omega
    simp only [if_pos hk0, (hup hkd).1, (hup hkd).2]
    split_ifs <;> simp only [Array4.set_set, Array4.set_same] <;> ring
  · by_cases hkd : k = a.domhi_z
    · simp only [if_neg hk0, if_pos hkd, (hdn hk0).1, (hdn hk0).2]
      split_ifs <;> simp only [Array4.set_set, Array4.set_same] <;> ring
    · simp only [if_neg hk0, if_neg hkd, (hup hkd).1, (hup hkd).2, (hdn hk0).1, (hdn hk0).2]
      split_ifs <;> simp only [Array4.set_set, Array4.set_same] <;> ring

/-- At hydrostatic rest the x-momentum kernel without terrain changes nothing. -/
theorem xmomKernel_N_at_rest (ext : RhsExt) (a : RhsArgs) (pp : Array4)
    (hbal : AtHydrostaticRest ext a)
    (hpp : ∀ i j k, a.gbx.contains i j k → pp i j k 0 = 0)
    (i j k : Int) (hc : a.tbx.contains i j k) (old : ℚ) :
    ownValue (xmomKernel_N a pp) 0 i j k old = old := by
  obtain ⟨hx, hy, hz⟩ := (tbx_contains a i j k).1 hc
  obtain ⟨bxx, bxy, bxz⟩ := bx_bounds a
  obtain ⟨hrho, hmom, hforce, hray⟩ := hbal
  have hv : ∀ i j k, a.rho_v i j k 0 = 0 := fun i j k => (hmom i j k).2.1
  have hw : ∀ i j k, a.rho_w i j k 0 = 0 := fun i j k => (hmom i j k).2.2
  have e0 := ext_forcing_zero a hforce 0
  have p0 : pp i j k 0 = 0 ∧ pp (i - 1) j k 0 = 0 :=
    ⟨hpp _ _ _ ((gbx_contains a _ _ _).2 ⟨by omega, by omega, by omega⟩),
     hpp _ _ _ ((gbx_contains a _ _ _).2 ⟨by omega, by omega, by omega⟩)⟩
  simp only [xmomKernel_N, ownValue, hray, e0, hv, hw, p0.1, p0.2,
    Bool.false_eq_true, if_false, Array4.const]
  split_ifs <;> simp only [Array4.set_set, Array4.set_same] <;> ring

/-- At hydrostatic rest the y-momentum kernel without terrain changes nothing. -/
theorem ymomKernel_N_at_rest (ext : RhsExt) (a : RhsArgs) (pp : Array4)
    (hbal : AtHydrostaticRest ext a)
    (hpp : ∀ i j k, a.gbx.contains i j k → pp i j k 0 = 0)
    (i j k : Int) (hc : a.tby.contains i j k) (old : ℚ) :
    ownValue (ymomKernel_N a pp) 0 i j k old = old := by
  obtain ⟨hx, hy, hz⟩ := (tby_contains a i j k).1 hc
  obtain ⟨bxx, bxy, bxz⟩ := bx_bounds a
  obtain ⟨hrho, hmom, hforce, hray⟩ := hbal
  have hu : ∀ i j k, a.rho_u i j k 0 = 0 := fun i j k => (hmom i j k).1
  have e1 := ext_forcing_zero a hforce 1
  have p0 : pp i j k 0 = 0 ∧ pp i (j - 1) k 0 = 0 :=
    ⟨hpp _ _ _ ((gbx_contains a _ _ _).2 ⟨by omega, by omega, by omega⟩),
     hpp _ _ _ ((gbx_contains a _ _ _).2 ⟨by omega, by omega, by omega⟩)⟩
  simp only [ymomKernel_N, ownValue, hray, e1, hu, p0.1, p0.2,
    Bool.false_eq_true, if_false, Array4.const]
  split_ifs <;> simp only [Array4.set_set, Array4.set_same] <;> ring

/-- At hydrostatic rest the z-momentum kernels only apply the moving-terrain
factor: the pressure gradient is zero and the buoyancy is zero. -/
theorem zmomKernel_at_rest (tm : TerrainMetrics) (ext : RhsExt) (a : RhsArgs) (pp : Array4)
    (hbal : AtHydrostaticRest ext a)
    (hpp : ∀ i j k, a.gbx.contains i j k → pp i j k 0 = 0)
    (i j k : Int) (hc : a.tbz.contains i j k) (old : ℚ) :
    (if a.solverChoice.use_terrain = true then ownValue (zmomKernel_T tm a pp) 0 i j k old
      else ownValue (zmomKernel_N a pp) 0 i j k old) = old * jacobianFactor a 2 i j k := by
  obtain ⟨hx, hy, hz⟩ := (tbz_contains a i j k).1 hc
  obtain ⟨bxx, bxy, bxz⟩ := bx_bounds a
  obtain ⟨hrho, hmom, hforce, hray⟩ := hbal
  have hu : ∀ i j k, a.rho_u i j k 0 = 0 := fun i j k => (hmom i j k).1
  have hw : ∀ i j k, a.rho_w i j k 0 = 0 := fun i j k => (hmom i j k).2.2
  have e2 := ext_forcing_zero a hforce 2
  have c1 : a.gbx.contains i j k := (gbx_contains a _ _ _).2 ⟨by omega, by omega, by omega⟩
  have c2 : a.gbx.contains i j (k - 1) := (gbx_contains a _ _ _).2 ⟨by omega, by omega, by omega⟩
  have r1 : a.cell_data i j k 0 = a.r0 i j k 0 := (hrho _ _ _ c1).1
  have r2 : a.cell_data i j (k - 1) 0 = a.r0 i j (k - 1) 0 := (hrho _ _ _ c2).1
  by_cases ht : a.solverChoice.use_terrain = true
  · simp only [zmomKernel_T, ownValue, jacobianFactor, ht, hray, e2, hu, hw, hpp _ _ _ c1,
      hpp _ _ _ c2, r1, r2, Bool.false_eq_true, if_false, if_true, true_and, Array4.const]
    split_ifs <;> simp only [Array4.set_set, Array4.set_same] <;> ring
  · simp only [zmomKernel_N, ownValue, jacobianFactor, ht, hray, e2, hu, hw, hpp _ _ _ c1,
      hpp _ _ _ c2, r1, r2, Bool.false_eq_true, if_false, false_and, Array4.const]
    split_ifs <;> simp only [Array4.set_set, Array4.set_same] <;> ring

theorem stepYmom_rho_u_rhs (tm : TerrainMetrics) (a : RhsArgs) (s : RhsState) :
    (stepYmom tm a s).rho_u_rhs = s.rho_u_rhs := by
  unfold stepYmom
  split_ifs <;> rfl

theorem stepZmom_rho_u_rhs (tm : TerrainMetrics) (a : RhsArgs) (s : RhsState) :
    (stepZmom tm a s).rho_u_rhs = s.rho_u_rhs := by
  unfold stepZmom
  split_ifs <;> rfl

theorem stepZmom_rho_v_rhs (tm : TerrainMetrics) (a : RhsArgs) (s : RhsState) :
    (stepZmom tm a s).rho_v_rhs = s.rho_v_rhs := by
  unfold stepZmom
  split_ifs <;> rfl

theorem stepXmom_rho_v_rhs (tm : TerrainMetrics) (a : RhsArgs) (s : RhsState) :
    (stepXmom tm a s).rho_v_rhs = s.rho_v_rhs := by
  unfold stepXmom
  split_ifs <;> rfl

theorem stepXmom_rho_w_rhs (tm : TerrainMetrics) (a : RhsArgs) (s : RhsState) :
    (stepXmom tm a s).rho_w_rhs = s.rho_w_rhs := by
  unfold stepXmom
  split_ifs <;> rfl

theorem stepYmom_rho_w_rhs (tm : TerrainMetrics) (a : RhsArgs) (s : RhsState) :
    (stepYmom tm a s).rho_w_rhs = s.rho_w_rhs := by
  unfold stepYmom
  split_ifs <;> rfl

/-- The x-momentum tendency of the result is the one left by the x-momentum
kernel. -/
theorem tileBody_rho_u_rhs (tm : TerrainMetrics) (ext : RhsExt) (cl : Closures) (a : RhsArgs)
    (s : RhsState) :
    (tileBody tm ext cl a s).rho_u_rhs =
      (stepXmom tm a (momSources ext a (statePart tm ext cl a s))).rho_u_rhs := by
  unfold tileBody
  rw [stepZmom_rho_u_rhs]
  show (stepYmom tm a _).rho_u_rhs = _
  rw [stepYmom_rho_u_rhs]

/-- The y-momentum tendency of the result is the one left by the y-momentum
kernel, which starts from the value left by the momentum sources. -/
theorem tileBody_rho_v_rhs (tm : TerrainMetrics) (ext : RhsExt) (cl : Closures) (a : RhsArgs)
    (s : RhsState) :
    (tileBody tm ext cl a s).rho_v_rhs =
      (stepYmom tm a (stepXmom tm a (momSources ext a (statePart tm ext cl a s)))).rho_v_rhs := by
  unfold tileBody
  rw [stepZmom_rho_v_rhs]
  rfl

/-- A fold of kernel launches, one per component `n0 + n` for `n` in a
duplicate-free list, each assigning that component of its own cell. -/
theorem foldl_launch_apply (bx : Box) (n0 : Int) (g : Int → Int → Int → Int → ℚ → ℚ)
    (f : Int → Int → Int → Int → Array4 → Array4)
    (hf : ∀ i j k n a, f i j k n a = a.set i j k (n0 + n) (g i j k n (a i j k (n0 + n))))
    (l : List Int) (hl : l.Nodup) (a : Array4) (i j k q : Int) :
    (l.foldl (fun s n => ParallelFor bx (fun i j k => f i j k n) s) a) i j k q =
      if bx.contains i j k ∧ (q - n0) ∈ l then g i j k (q - n0) (a i j k q) else a i j k q := by
  induction l generalizing a with
  | nil => simp
  | cons n l ih =>
    rw [List.nodup_cons] at hl
    rw [List.foldl_cons, ih hl.2,
      ParallelFor_apply bx (n0 + n) (fun i j k => g i j k n) _ (fun i j k a => hf i j k n a)]
    by_cases hc : bx.contains i j k
    · by_cases hmem : (q - n0) ∈ l
      · have hne : q ≠ n0 + n := by
          rintro rfl
          apply hl.1
          simpa using hmem
        simp [hc, hmem, hne]
      · by_cases hq : q = n0 + n
        · subst hq
          have e : n0 + n - n0 = n := by omega
          simp [hc, e, hl.1]
        · have hne : q - n0 ≠ n := fun h => hq (by omega)
          simp [hc, hmem, hq, hne]
    · simp [hc]

/-- A launch over a box and `ncomp` components starting at `n0`. -/
theorem ParallelForN_apply (bx : Box) (ncomp n0 : Int) (g : Int → Int → Int → Int → ℚ → ℚ)
    (f : Int → Int → Int → Int → Array4 → Array4)
    (hf : ∀ i j k n a, f i j k n a = a.set i j k (n0 + n) (g i j k n (a i j k (n0 + n))))
    (a : Array4) (i j k q : Int) :
    ParallelForN bx ncomp f a i j k q =
      if bx.contains i j k ∧ (n0 ≤ q ∧ q ≤ n0 + ncomp - 1) then g i j k (q - n0) (a i j k q)
      else a i j k q := by
  unfold ParallelForN
  rw [foldl_launch_apply bx n0 g f hf _ (nodup_rangeInt _ _)]
  have hiff : (q - n0) ∈ rangeInt 0 (ncomp - 1) ↔ (n0 ≤ q ∧ q ≤ n0 + ncomp - 1) := by
    rw [mem_rangeInt]
    omega
  simp only [hiff]

theorem rhsKernel_own (p : DiffArgs) (xf yf zf : Array4) (i j k q : Int) (r : Array4) :
    rhsKernel p xf yf zf q i j k r =
      r.set i j k (0 + q) (ownValue (rhsKernel p xf yf zf q) q i j k (r i j k (0 + q))) := by
  simp only [rhsKernel, ownValue, Array4.set_same, Array4.const, zero_add]

/-- The tendency after the flux-divergence loop. -/
theorem fluxesToRhs_apply (p : DiffArgs) (s : DiffState) (i j k q : Int) :
    (fluxesToRhs p s).cell_rhs i j k q =
      if p.bx.contains i j k ∧ (p.n_start ≤ q ∧ q ≤ p.n_end) then
        s.cell_rhs i j k q +
          ((s.xflux (i+1) j k q - s.xflux i j k q) * p.dxInv 0 * p.mf_m i j 0 0
            + (s.yflux i (j+1) k q - s.yflux i j k q) * p.dxInv 1 * p.mf_m i j 0 0
            + (s.zflux i j (k+1) q - s.zflux i j k q) * p.dxInv 2
            + p.source_fab i j k q) / p.detJ i j k 0
      else s.cell_rhs i j k q := by
  simp only [fluxesToRhs]
  rw [foldl_launch_apply p.bx 0
    (fun i j k q old => ownValue (rhsKernel p s.xflux s.yflux s.zflux q) q i j k old)
    (fun i j k q => rhsKernel p s.xflux s.yflux s.zflux q i j k)
    (fun i j k q r => rhsKernel_own p s.xflux s.yflux s.zflux i j k q r) _ (nodup_rangeInt _ _)]
  simp only [sub_zero, mem_rangeInt, ownValue, rhsKernel, Array4.set_same, Array4.const]

theorem deardorffKernel_own (tm : TerrainMetrics) (cl : Closures) (p : DiffArgs) (i j k : Int)
    (r : Array4) :
    deardorffKernel tm cl p i j k r =
      r.set i j k RhoKE_comp
        (ownValue (deardorffKernel tm cl p) RhoKE_comp i j k (r i j k RhoKE_comp)) := by
  simp only [deardorffKernel, ownValue]
  split_ifs <;> simp only [Array4.set_set, Array4.set_same, Array4.const]

theorem qkeKernel_own (cl : Closures) (p : DiffArgs) (i j k : Int) (r : Array4) :
    qkeKernel cl p i j k r =
      r.set i j k RhoQKE_comp
        (ownValue (qkeKernel cl p) RhoQKE_comp i j k (r i j k RhoQKE_comp)) := by
  simp only [qkeKernel, ownValue, Array4.set_same, Array4.const]

/-- The TKE and QKE sources change the tendency of no other component. -/
theorem keSources_other (tm : TerrainMetrics) (cl : Closures) (p : DiffArgs) (s : DiffState)
    (i j k q : Int)
    (hke : ¬ (p.solverChoice.les_type = LESType.Deardorff ∧ q = RhoKE_comp))
    (hqke : ¬ ((p.solverChoice.use_QKE = true ∧ p.solverChoice.advect_QKE = true) ∧
      q = RhoQKE_comp)) :
    (keSources tm cl p s).cell_rhs i j k q = s.cell_rhs i j k q := by
  simp only [keSources]
  have h1 : ∀ r : Array4,
      (if (decide (p.solverChoice.les_type = LESType.Deardorff) = true ∧ p.n_end ≥ RhoKE_comp)
        then ParallelFor p.bx (deardorffKernel tm cl p) r else r) i j k q = r i j k q := by
    intro r
    split_ifs with h
    · rw [ParallelFor_apply p.bx RhoKE_comp _ _ (deardorffKernel_own tm cl p), if_neg]
      rintro ⟨_, hq⟩
      exact hke ⟨by simpa using h.1, hq⟩
    · rfl
  have h2 : ∀ r : Array4,
      (if ((p.solverChoice.use_QKE && p.solverChoice.advect_QKE) = true ∧ p.n_end ≥ RhoQKE_comp)
        then ParallelFor p.bx (qkeKernel cl p) r else r) i j k q = r i j k q := by
    intro r
    split_ifs with h
    · rw [ParallelFor_apply p.bx RhoQKE_comp _ _ (qkeKernel_own cl p), if_neg]
      rintro ⟨_, hq⟩
      exact hqke ⟨by simpa using h.1, hq⟩
    · rfl
  exact (h2 _).trans (h1 _)

/-- The flux arrays of the result are those left by the flux correction. -/
theorem DiffusionSrcForState_T_fluxes (tm : TerrainMetrics) (cl : Closures) (p : DiffArgs)
    (s : DiffState) :
    fluxDivergence p (DiffusionSrcForState_T tm cl p s) =
      fluxDivergence p (correctFluxes tm p (rawFluxes tm p s)) := rfl

/-- The tendency of the result at an ordinary component: old value plus the
generic increment. -/
theorem DiffusionSrcForState_T_generic (tm : TerrainMetrics) (cl : Closures) (p : DiffArgs)
    (s : DiffState) (i j k q : Int) (hb : p.bx.contains i j k)
    (hq : p.n_start ≤ q ∧ q ≤ p.n_end) (hsp : ¬ specialComponent p q) :
    (DiffusionSrcForState_T tm cl p s).cell_rhs i j k q =
      s.cell_rhs i j k q + fluxDivergence p (DiffusionSrcForState_T tm cl p s) i j k q := by
  rw [DiffusionSrcForState_T_fluxes]
  unfold DiffusionSrcForState_T
  rw [keSources_other tm cl p _ i j k q (fun h => hsp (Or.inl h)) (fun h => hsp (Or.inr h)),
    fluxesToRhs_apply, if_pos ⟨hb, hq⟩]
  rfl

/-- The tendency of the result at the TKE component under the Deardorff
closure: the Deardorff kernel runs on the generically updated value. -/
theorem DiffusionSrcForState_T_ke (tm : TerrainMetrics) (cl : Closures) (p : DiffArgs)
    (s : DiffState) (i j k : Int) (hb : p.bx.contains i j k)
    (hq : p.n_start ≤ RhoKE_comp ∧ RhoKE_comp ≤ p.n_end)
    (hd : p.solverChoice.les_type = LESType.Deardorff) :
    (DiffusionSrcForState_T tm cl p s).cell_rhs i j k RhoKE_comp =
      ownValue (deardorffKernel tm cl p) RhoKE_comp i j k
        (s.cell_rhs i j k RhoKE_comp
          + fluxDivergence p (DiffusionSrcForState_T tm cl p s) i j k RhoKE_comp) := by
  rw [DiffusionSrcForState_T_fluxes]
  unfold DiffusionSrcForState_T
  simp only [keSources]
  have h2 : ∀ r : Array4,
      (if ((p.solverChoice.use_QKE && p.solverChoice.advect_QKE) = true ∧ p.n_end ≥ RhoQKE_comp)
        then ParallelFor p.bx (qkeKernel cl p) r else r) i j k RhoKE_comp = r i j k RhoKE_comp := by
    intro r
    split_ifs with h
    · rw [ParallelFor_apply p.bx RhoQKE_comp _ _ (qkeKernel_own cl p), if_neg]
      rintro ⟨_, hq⟩
      exact absurd hq (by decide)
    · rfl
  refine (h2 _).trans ?_
  rw [if_pos ⟨by simpa using hd, hq.2⟩,
    ParallelFor_apply p.bx RhoKE_comp _ _ (deardorffKernel_own tm cl p), if_pos ⟨hb, rfl⟩,
    fluxesToRhs_apply, if_pos ⟨hb, hq⟩]
  rfl

theorem sumInt_congr (lo hi : Int) (f g : Int → ℚ) (h : ∀ x, lo ≤ x → x ≤ hi → f x = g x) :
    sumInt lo hi f = sumInt lo hi g := by
  unfold sumInt
  congr 1
  apply List.map_congr_left
  intro x hx
  rw [mem_rangeInt] at hx
  exact h x hx.1 hx.2

theorem sumInt_add (lo hi : Int) (f g : Int → ℚ) :
    sumInt lo hi (fun x => f x + g x) = sumInt lo hi f + sumInt lo hi g := by
  unfold sumInt
  induction rangeInt lo hi with
  | nil => simp
  | cons x l ih => simp only [List.map_cons, List.sum_cons, ih]; ring

theorem sumInt_sub (lo hi : Int) (f g : Int → ℚ) :
    sumInt lo hi (fun x => f x - g x) = sumInt lo hi f - sumInt lo hi g := by
  unfold sumInt
  induction rangeInt lo hi with
  | nil => simp
  | cons x l ih => simp only [List.map_cons, List.sum_cons, ih]; ring

theorem sumInt_mul_right (lo hi : Int) (f : Int → ℚ) (c : ℚ) :
    sumInt lo hi (fun x => f x * c) = sumInt lo hi f * c := by
  unfold sumInt
  induction rangeInt lo hi with
  | nil => simp
  | cons x l ih => simp only [List.map_cons, List.sum_cons, ih]; ring

theorem sumInt_zero (lo hi : Int) : sumInt lo hi (fun _ => 0) = 0 := by
  unfold sumInt
  induction rangeInt lo hi with
  | nil => simp
  | cons x l ih => simp only [List.map_cons, List.sum_cons, ih]; ring

theorem sum_range_telescope (h : Nat → ℚ) (N : Nat) :
    ((List.range N).map (fun n => h (n + 1) - h n)).sum = h N - h 0 := by
  induction N with
  | zero => simp
  | succ N ih =>
    rw [List.range_succ, List.map_append, List.sum_append, ih]
    simp

/-- Telescoping: the sum of `f (i+1) - f i` over `lo..hi` is `f (hi+1) - f lo`. -/
theorem sumInt_telescope (lo hi : Int) (f : Int → ℚ) (h : lo ≤ hi + 1) :
    sumInt lo hi (fun i => f (i + 1) - f i) = f (hi + 1) - f lo := by
  unfold sumInt rangeInt
  rw [List.map_map]
  have e : ((fun i => f (i + 1) - f i) ∘ fun (n : Nat) => lo + (n : Int)) =
      fun (n : Nat) => (fun m : Nat => f (lo + (m : Int))) (n + 1)
        - (fun m : Nat => f (lo + (m : Int))) n := by
    funext n
    simp only [Function.comp, Nat.cast_add, Nat.cast_one, add_assoc]
  rw [e]
  have e2 : lo + (((hi + 1 - lo).toNat : Nat) : Int) = hi + 1 := by omega
  have e3 := sum_range_telescope (fun m : Nat => f (lo + (m : Int))) (hi + 1 - lo).toNat
  simp only [e2, Nat.cast_zero, add_zero] at e3
  exact e3

theorem sumCells_divergence (b : Box)
    (hx : b.smallEnd.x ≤ b.bigEnd.x + 1) (hy : b.smallEnd.y ≤ b.bigEnd.y + 1)
    (hz : b.smallEnd.z ≤ b.bigEnd.z + 1)
    (xf yf zf extra : Int → Int → Int → ℚ) (dx dy dz : ℚ) :
    b.sumCells (fun i j k => (xf (i+1) j k - xf i j k) * dx + (yf i (j+1) k - yf i j k) * dy
        + (zf i j (k+1) - zf i j k) * dz + extra i j k) =
      dx * (sumInt b.smallEnd.z b.bigEnd.z fun k => sumInt b.smallEnd.y b.bigEnd.y fun j =>
          xf (b.bigEnd.x + 1) j k - xf b.smallEnd.x j k)
      + dy * (sumInt b.smallEnd.z b.bigEnd.z fun k => sumInt b.smallEnd.x b.bigEnd.x fun i =>
          yf i (b.bigEnd.y + 1) k - yf i b.smallEnd.y k)
      + dz * (sumInt b.smallEnd.y b.bigEnd.y fun j => sumInt b.smallEnd.x b.bigEnd.x fun i =>
          zf i j (b.bigEnd.z + 1) - zf i j b.smallEnd.z)
      + b.sumCells extra := by
  have s1 : ∀ j k, sumInt b.smallEnd.x b.bigEnd.x (fun i =>
        (xf (i+1) j k - xf i j k) * dx + (yf i (j+1) k - yf i j k) * dy
          + (zf i j (k+1) - zf i j k) * dz + extra i j k) =
      (xf (b.bigEnd.x + 1) j k - xf b.smallEnd.x j k) * dx
        + ((fun j2 => sumInt b.smallEnd.x b.bigEnd.x (fun i => yf i j2 k)) (j + 1)
            - (fun j2 => sumInt b.smallEnd.x b.bigEnd.x (fun i => yf i j2 k)) j) * dy
        + (sumInt b.smallEnd.x b.bigEnd.x (fun i => zf i j (k+1))
            - sumInt b.smallEnd.x b.bigEnd.x (fun i => zf i j k)) * dz
        + sumInt b.smallEnd.x b.bigEnd.x (fun i => extra i j k) := by
    intro j k
    rw [sumInt_add, sumInt_add, sumInt_add, sumInt_mul_right, sumInt_mul_right, sumInt_mul_right,
      sumInt_telescope _ _ (fun i => xf i j k) hx, sumInt_sub, sumInt_sub]
  have s2 : ∀ k, sumInt b.smallEnd.y b.bigEnd.y (fun j =>
        sumInt b.smallEnd.x b.bigEnd.x (fun i =>
          (xf (i+1) j k - xf i j k) * dx + (yf i (j+1) k - yf i j k) * dy
            + (zf i j (k+1) - zf i j k) * dz + extra i j k)) =
      (sumInt b.smallEnd.y b.bigEnd.y fun j => xf (b.bigEnd.x + 1) j k - xf b.smallEnd.x j k) * dx
        + (sumInt b.smallEnd.x b.bigEnd.x fun i => yf i (b.bigEnd.y + 1) k - yf i b.smallEnd.y k) * dy
        + ((fun k2 => sumInt b.smallEnd.y b.bigEnd.y fun j =>
              sumInt b.smallEnd.x b.bigEnd.x (fun i => zf i j k2)) (k + 1)
            - (fun k2 => sumInt b.smallEnd.y b.bigEnd.y fun j =>
              sumInt b.smallEnd.x b.bigEnd.x (fun i => zf i j k2)) k) * dz
        + (sumInt b.smallEnd.y b.bigEnd.y fun j =>
            sumInt b.smallEnd.x b.bigEnd.x (fun i => extra i j k)) := by
    intro k
    rw [sumInt_congr _ _ _ _ (fun j _ _ => s1 j k)]
    rw [sumInt_add, sumInt_add, sumInt_add, sumInt_mul_right, sumInt_mul_right, sumInt_mul_right,
      sumInt_telescope _ _ (fun j2 => sumInt b.smallEnd.x b.bigEnd.x (fun i => yf i j2 k)) hy]
    simp only [sumInt_sub]
  unfold Box.sumCells
  rw [sumInt_congr _ _ _ _ (fun k _ _ => s2 k)]
  rw [sumInt_add, sumInt_add, sumInt_add, sumInt_mul_right, sumInt_mul_right, sumInt_mul_right,
    sumInt_telescope _ _ (fun k2 => sumInt b.smallEnd.y b.bigEnd.y fun j =>
      sumInt b.smallEnd.x b.bigEnd.x (fun i => zf i j k2)) hz]
  simp only [sumInt_sub]
  ring

theorem sumCells_congr (b : Box) (f g : Int → Int → Int → ℚ)
    (h : ∀ i j k, b.contains i j k → f i j k = g i j k) : b.sumCells f = b.sumCells g := by
  unfold Box.sumCells
  refine sumInt_congr _ _ _ _ (fun k hk1 hk2 => ?_)
  refine sumInt_congr _ _ _ _ (fun j hj1 hj2 => ?_)
  exact sumInt_congr _ _ _ _ (fun i hi1 hi2 => h i j k ⟨⟨hi1, hi2⟩, ⟨hj1, hj2⟩, ⟨hk1, hk2⟩⟩)

theorem sumCells_zero (b : Box) : b.sumCells (fun _ _ _ => 0) = 0 := by
  unfold Box.sumCells
  simp only [sumInt_zero]

/-- In the Deardorff example every cell of the box gets, at the TKE
component, the generic increment plus the shear production `1`. -/
theorem keArgs_ke_increment (i j k : Int) (hb : keArgs.bx.contains i j k) :
    (DiffusionSrcForState_T flatMetrics shearClosures keArgs zeroDiffState).cell_rhs i j k
        RhoKE_comp =
      zeroDiffState.cell_rhs i j k RhoKE_comp
        + fluxDivergence keArgs
            (DiffusionSrcForState_T flatMetrics shearClosures keArgs zeroDiffState) i j k
            RhoKE_comp
        + 1 := by
  rw [DiffusionSrcForState_T_ke flatMetrics shearClosures keArgs zeroDiffState i j k hb
    (by decide) rfl]
  simp only [ownValue, deardorffKernel, Array4.set_same, Array4.set_set, Array4.const]
  norm_num [keArgs, shearClosures, flatMetrics, Array4.const, Array4.set_apply,
    PrimKE_comp, RhoKE_comp, PrimTheta_comp, RhoTheta_comp, Rho_comp]

theorem xfluxKernel_own (tm : TerrainMetrics) (m : DiffMode) (p : DiffArgs) (i j k n : Int)
    (a : Array4) :
    xfluxKernel tm m p i j k n a =
      a.set i j k (p.n_start + n)
        (ownValue (fun i j k => xfluxKernel tm m p i j k n) (p.n_start + n) i j k
          (a i j k (p.n_start + n))) := by
  simp only [xfluxKernel, ownValue, Array4.set_same]

theorem yfluxKernel_own (tm : TerrainMetrics) (m : DiffMode) (p : DiffArgs) (i j k n : Int)
    (a : Array4) :
    yfluxKernel tm m p i j k n a =
      a.set i j k (p.n_start + n)
        (ownValue (fun i j k => yfluxKernel tm m p i j k n) (p.n_start + n) i j k
          (a i j k (p.n_start + n))) := by
  simp only [yfluxKernel, ownValue, Array4.set_same]

theorem zfluxKernel_own (tm : TerrainMetrics) (m : DiffMode) (p : DiffArgs) (i j k n : Int)
    (a : Array4) :
    zfluxKernel tm m p i j k n a =
      a.set i j k (p.n_start + n)
        (ownValue (fun i j k => zfluxKernel tm m p i j k n) (p.n_start + n) i j k
          (a i j k (p.n_start + n))) := by
  simp only [zfluxKernel, ownValue, Array4.set_same]

theorem xfluxScaleKernel_own (tm : TerrainMetrics) (p : DiffArgs) (i j k n : Int) (a : Array4) :
    xfluxScaleKernel tm p i j k n a =
      a.set i j k (p.n_start + n)
        (ownValue (fun i j k => xfluxScaleKernel tm p i j k n) (p.n_start + n) i j k
          (a i j k (p.n_start + n))) := by
  simp only [xfluxScaleKernel, ownValue, Array4.set_same, Array4.const]

theorem yfluxScaleKernel_own (tm : TerrainMetrics) (p : DiffArgs) (i j k n : Int) (a : Array4) :
    yfluxScaleKernel tm p i j k n a =
      a.set i j k (p.n_start + n)
        (ownValue (fun i j k => yfluxScaleKernel tm p i j k n) (p.n_start + n) i j k
          (a i j k (p.n_start + n))) := by
  simp only [yfluxScaleKernel, ownValue, Array4.set_same, Array4.const]

/-- The raw x-flux on the faces and components of the launch. -/
theorem rawFluxes_xflux (tm : TerrainMetrics) (p : DiffArgs) (s : DiffState) (i j k q : Int)
    (hb : (surroundingNodes p.bx 0).contains i j k) (hq : p.n_start ≤ q ∧ q ≤ p.n_end) :
    (rawFluxes tm p s).xflux i j k q =
      faceDiff_x (diffMode p.solverChoice) p i j k (q - qty_offset) * p.mf_u i j 0 0 *
        (p.dxInv 0 * (p.cell_prim i j k (q - qty_offset) - p.cell_prim (i-1) j k (q - qty_offset))
          - (tm.Compute_h_xi_AtIface i j k p.dxInv p.z_nd
              / tm.Compute_h_zeta_AtIface i j k p.dxInv p.z_nd)
            * (0.25 * p.dxInv 2 *
                (p.cell_prim i j (k+1) (q - qty_offset) + p.cell_prim (i-1) j (k+1) (q - qty_offset)
                  - p.cell_prim i j (k-1) (q - qty_offset)
                  - p.cell_prim (i-1) j (k-1) (q - qty_offset)))) := by
  simp only [rawFluxes]
  rw [ParallelForN_apply _ _ p.n_start _ _ (xfluxKernel_own tm _ p), if_pos ⟨hb, by omega⟩]
  have e : p.n_start + (q - p.n_start) = q := by omega
  simp only [ownValue, xfluxKernel, Array4.set_same, e]

/-- The raw y-flux on the faces and components of the launch. -/
theorem rawFluxes_yflux (tm : TerrainMetrics) (p : DiffArgs) (s : DiffState) (i j k q : Int)
    (hb : (surroundingNodes p.bx 1).contains i j k) (hq : p.n_start ≤ q ∧ q ≤ p.n_end) :
    (rawFluxes tm p s).yflux i j k q =
      faceDiff_y (diffMode p.solverChoice) p i j k (q - qty_offset) * p.mf_v i j 0 0 *
        (p.dxInv 1 * (p.cell_prim i j k (q - qty_offset) - p.cell_prim i (j-1) k (q - qty_offset))
          - (tm.Compute_h_eta_AtJface i j k p.dxInv p.z_nd
              / tm.Compute_h_zeta_AtJface i j k p.dxInv p.z_nd)
            * (0.25 * p.dxInv 2 *
                (p.cell_prim i j (k+1) (q - qty_offset) + p.cell_prim i (j-1) (k+1) (q - qty_offset)
                  - p.cell_prim i j (k-1) (q - qty_offset)
                  - p.cell_prim i (j-1) (k-1) (q - qty_offset)))) := by
  simp only [rawFluxes]
  rw [ParallelForN_apply _ _ p.n_start _ _ (yfluxKernel_own tm _ p), if_pos ⟨hb, by omega⟩]
  have e : p.n_start + (q - p.n_start) = q := by omega
  simp only [ownValue, yfluxKernel, Array4.set_same, e]

/-- The raw z-flux on the faces and components of the launch. -/
theorem rawFluxes_zflux (tm : TerrainMetrics) (p : DiffArgs) (s : DiffState) (i j k q : Int)
    (hb : (surroundingNodes p.bx 2).contains i j k) (hq : p.n_start ≤ q ∧ q ≤ p.n_end) :
    (rawFluxes tm p s).zflux i j k q =
      faceDiff_z (diffMode p.solverChoice) p i j k (q - qty_offset)
        * (p.dxInv 2 * (p.cell_prim i j k (q - qty_offset) - p.cell_prim i j (k-1) (q - qty_offset)))
        / tm.Compute_h_zeta_AtKface i j k p.dxInv p.z_nd := by
  simp only [rawFluxes]
  rw [ParallelForN_apply _ _ p.n_start _ _ (zfluxKernel_own tm _ p), if_pos ⟨hb, by omega⟩]
  have e : p.n_start + (q - p.n_start) = q := by omega
  simp only [ownValue, zfluxKernel, Array4.set_same, e]

/-- The final x-flux is the raw one times `h_zeta` on the faces of the launch. -/
theorem correctFluxes_xflux (tm : TerrainMetrics) (p : DiffArgs) (s : DiffState) (i j k q : Int)
    (hb : (surroundingNodes p.bx 0).contains i j k) (hq : p.n_start ≤ q ∧ q ≤ p.n_end) :
    (correctFluxes tm p s).xflux i j k q =
      s.xflux i j k q * tm.Compute_h_zeta_AtIface i j k p.dxInv p.z_nd := by
  simp only [correctFluxes]
  rw [ParallelForN_apply _ _ p.n_start _ _ (xfluxScaleKernel_own tm p), if_pos ⟨hb, by omega⟩]
  have e : p.n_start + (q - p.n_start) = q := by omega
  simp only [ownValue, xfluxScaleKernel, Array4.set_same, Array4.const, e]

/-- The final y-flux is the raw one times `h_zeta` on the faces of the launch. -/
theorem correctFluxes_yflux (tm : TerrainMetrics) (p : DiffArgs) (s : DiffState) (i j k q : Int)
    (hb : (surroundingNodes p.bx 1).contains i j k) (hq : p.n_start ≤ q ∧ q ≤ p.n_end) :
    (correctFluxes tm p s).yflux i j k q =
      s.yflux i j k q * tm.Compute_h_zeta_AtJface i j k p.dxInv p.z_nd := by
  simp only [correctFluxes]
  rw [ParallelForN_apply _ _ p.n_start _ _ (yfluxScaleKernel_own tm p), if_pos ⟨hb, by omega⟩]
  have e : p.n_start + (q - p.n_start) = q := by omega
  simp only [ownValue, yfluxScaleKernel, Array4.set_same, Array4.const, e]

theorem ParallelFor_id (bx : Box) (f : Int → Int → Int → Array4 → Array4)
    (hf : ∀ i j k a, f i j k a = a) (a : Array4) : ParallelFor bx f a = a := by
  unfold ParallelFor
  induction bx.cells generalizing a with
  | nil => rfl
  | cons c l ih => rw [List.foldl_cons, hf, ih]

theorem ParallelForN_id (bx : Box) (ncomp : Int) (f : Int → Int → Int → Int → Array4 → Array4)
    (hf : ∀ i j k n a, f i j k n a = a) (a : Array4) : ParallelForN bx ncomp f a = a := by
  unfold ParallelForN
  induction rangeInt 0 (ncomp - 1) generalizing a with
  | nil => rfl
  | cons c l ih => rw [List.foldl_cons, ParallelFor_id bx _ (fun i j k a => hf i j k c a), ih]

/-- With `h_xi = h_eta = 0` on the z-faces the terrain correction leaves the
z-flux as it was. -/
theorem correctFluxes_zflux_identity (tm : TerrainMetrics) (p : DiffArgs) (s : DiffState)
    (hid : IdentityMetrics tm p) : (correctFluxes tm p s).zflux = s.zflux := by
  simp only [correctFluxes]
  rw [ParallelForN_id, ParallelForN_id]
  · intro i j k n a
    simp only [zfluxEndsKernel, (hid.1 _ _ _).2.2.2.2.1, (hid.1 _ _ _).2.2.2.2.2.1, zero_mul,
      add_zero, sub_zero, Array4.set_self]
  · intro i j k n a
    simp only [zfluxInteriorKernel, (hid.1 _ _ _).2.2.2.2.1, (hid.1 _ _ _).2.2.2.2.2.1, zero_mul,
      add_zero, sub_zero, Array4.set_self]

theorem final_xflux_identity (tm : TerrainMetrics) (cl : Closures) (p : DiffArgs) (s : DiffState)
    (hid : IdentityMetrics tm p) (i j k q : Int)
    (hb : (surroundingNodes p.bx 0).contains i j k) (hq : p.n_start ≤ q ∧ q ≤ p.n_end) :
    (DiffusionSrcForState_T tm cl p s).xflux i j k q = cartesian_xflux p i j k q := by
  show (correctFluxes tm p (rawFluxes tm p s)).xflux i j k q = _
  rw [correctFluxes_xflux tm p _ i j k q hb hq, rawFluxes_xflux tm p s i j k q hb hq,
    (hid.1 i j k).1, (hid.1 i j k).2.1]
  unfold cartesian_xflux
  ring

theorem final_yflux_identity (tm : TerrainMetrics) (cl : Closures) (p : DiffArgs) (s : DiffState)
    (hid : IdentityMetrics tm p) (i j k q : Int)
    (hb : (surroundingNodes p.bx 1).contains i j k) (hq : p.n_start ≤ q ∧ q ≤ p.n_end) :
    (DiffusionSrcForState_T tm cl p s).yflux i j k q = cartesian_yflux p i j k q := by
  show (correctFluxes tm p (rawFluxes tm p s)).yflux i j k q = _
  rw [correctFluxes_yflux tm p _ i j k q hb hq, rawFluxes_yflux tm p s i j k q hb hq,
    (hid.1 i j k).2.2.1, (hid.1 i j k).2.2.2.1]
  unfold cartesian_yflux
  ring

theorem final_zflux_identity (tm : TerrainMetrics) (cl : Closures) (p : DiffArgs) (s : DiffState)
    (hid : IdentityMetrics tm p) (i j k q : Int)
    (hb : (surroundingNodes p.bx 2).contains i j k) (hq : p.n_start ≤ q ∧ q ≤ p.n_end) :
    (DiffusionSrcForState_T tm cl p s).zflux i j k q = cartesian_zflux p i j k q := by
  show (correctFluxes tm p (rawFluxes tm p s)).zflux i j k q = _
  rw [correctFluxes_zflux_identity tm p _ hid, rawFluxes_zflux tm p s i j k q hb hq,
    (hid.1 i j k).2.2.2.2.2.2.1]
  unfold cartesian_zflux
  ring

/-- With identity metrics the generic increment is the Cartesian one. -/
theorem fluxDivergence_identity (tm : TerrainMetrics) (cl : Closures) (p : DiffArgs)
    (s : DiffState) (hid : IdentityMetrics tm p) (i j k q : Int) (hb : p.bx.contains i j k)
    (hq : p.n_start ≤ q ∧ q ≤ p.n_end) :
    fluxDivergence p (DiffusionSrcForState_T tm cl p s) i j k q = cartesian_increment p i j k q := by
  obtain ⟨hx, hy, hz⟩ := hb
  have cx : ∀ d : Int, (d = 0 ∨ d = 1) → (surroundingNodes p.bx 0).contains (i + d) j k := by
    intro d hd
    simp only [surroundingNodes, Box.contains, IntVect.set, IntVect.get]
    exact ⟨by omega, hy, hz⟩
  have cy : ∀ d : Int, (d = 0 ∨ d = 1) → (surroundingNodes p.bx 1).contains i (j + d) k := by
    intro d hd
    simp only [surroundingNodes, Box.contains, IntVect.set, IntVect.get]
    exact ⟨hx, by omega, hz⟩
  have cz : ∀ d : Int, (d = 0 ∨ d = 1) → (surroundingNodes p.bx 2).contains i j (k + d) := by
    intro d hd
    simp only [surroundingNodes, Box.contains, IntVect.set, IntVect.get]
    exact ⟨hx, hy, by omega⟩
  have x0 := cx 0 (Or.inl rfl)
  have y0 := cy 0 (Or.inl rfl)
  have z0 := cz 0 (Or.inl rfl)
  rw [add_zero] at x0 y0 z0
  unfold fluxDivergence cartesian_increment
  rw [final_xflux_identity tm cl p s hid _ _ _ _ (cx 1 (Or.inr rfl)) hq,
    final_xflux_identity tm cl p s hid _ _ _ _ x0 hq,
    final_yflux_identity tm cl p s hid _ _ _ _ (cy 1 (Or.inr rfl)) hq,
    final_yflux_identity tm cl p s hid _ _ _ _ y0 hq,
    final_zflux_identity tm cl p s hid _ _ _ _ (cz 1 (Or.inr rfl)) hq,
    final_zflux_identity tm cl p s hid _ _ _ _ z0 hq, hid.2 i j k, div_one]

/-- The tendency of the result at the QKE component when QKE is advected: the
generic increment plus the QKE source. -/
theorem DiffusionSrcForState_T_qke (tm : TerrainMetrics) (cl : Closures) (p : DiffArgs)
    (s : DiffState) (i j k : Int) (hb : p.bx.contains i j k)
    (hq : p.n_start ≤ RhoQKE_comp ∧ RhoQKE_comp ≤ p.n_end)
    (hu : p.solverChoice.use_QKE = true ∧ p.solverChoice.advect_QKE = true) :
    (DiffusionSrcForState_T tm cl p s).cell_rhs i j k RhoQKE_comp =
      s.cell_rhs i j k RhoQKE_comp
        + fluxDivergence p (DiffusionSrcForState_T tm cl p s) i j k RhoQKE_comp
        + cl.ComputeQKESourceTerms i j k p.u p.v p.cell_data p.cell_prim p.mu_turb p.dxInv
            p.domain p.solverChoice (p.tm_arr i j 0 0) := by
  rw [DiffusionSrcForState_T_fluxes]
  unfold DiffusionSrcForState_T
  simp only [keSources]
  have h1 : ∀ r : Array4,
      (if (decide (p.solverChoice.les_type = LESType.Deardorff) = true ∧ p.n_end ≥ RhoKE_comp)
        then ParallelFor p.bx (deardorffKernel tm cl p) r else r) i j k RhoQKE_comp =
        r i j k RhoQKE_comp := by
    intro r
    split_ifs with h
    · rw [ParallelFor_apply p.bx RhoKE_comp _ _ (deardorffKernel_own tm cl p), if_neg]
      rintro ⟨_, hq⟩
      exact absurd hq (by decide)
    · rfl
  rw [if_pos ⟨by simp [hu.1, hu.2], hq.2⟩,
    ParallelFor_apply p.bx RhoQKE_comp _ _ (qkeKernel_own cl p), if_pos ⟨hb, rfl⟩, h1,
    fluxesToRhs_apply, if_pos ⟨hb, hq⟩]
  simp only [ownValue, qkeKernel, Array4.set_same, Array4.const]
  rfl

theorem omegaMovingKernel_own (tm : TerrainMetrics) (a : RhsArgs) (z_t : Array4) (i j k : Int)
    (r : Array4) :
    omegaMovingKernel tm a z_t i j k r =
      r.set i j k 0 (ownValue (omegaMovingKernel tm a z_t) 0 i j k (r i j k 0)) := by
  simp only [omegaMovingKernel, ownValue, Array4.set_same]

theorem omegaStaticKernel_own (tm : TerrainMetrics) (a : RhsArgs) (i j k : Int) (r : Array4) :
    omegaStaticKernel tm a i j k r =
      r.set i j k 0 (ownValue (omegaStaticKernel tm a) 0 i j k (r i j k 0)) := by
  simp only [omegaStaticKernel, ownValue, Array4.set_same]

/-- With terrain the Omega pass leaves `0` on the ground faces of its box. -/
theorem stepOmega_ground (tm : TerrainMetrics) (a : RhsArgs) (s : RhsState) (i j : Int)
    (ht : a.solverChoice.use_terrain = true) (hc : a.gbxo.contains i j 0) :
    (stepOmega tm a s).omega_arr i j 0 0 = 0 := by
  unfold stepOmega
  rw [if_pos ht]
  cases hz : a.z_t_mf with
  | none =>
    show ParallelFor a.gbxo (omegaStaticKernel tm a) s.omega_arr i j 0 0 = 0
    rw [ParallelFor_apply a.gbxo 0 _ _ (omegaStaticKernel_own tm a), if_pos ⟨hc, rfl⟩]
    simp only [ownValue, omegaStaticKernel, Array4.set_same, if_true]
  | some z_t =>
    show ParallelFor a.gbxo (omegaMovingKernel tm a z_t) s.omega_arr i j 0 0 = 0
    rw [ParallelFor_apply a.gbxo 0 _ _ (omegaMovingKernel_own tm a z_t), if_pos ⟨hc, rfl⟩]
    simp only [ownValue, omegaMovingKernel, Array4.set_same, if_true]

theorem stepTau_omega_arr (tm : TerrainMetrics) (ext : RhsExt) (a : RhsArgs) (s : RhsState) :
    (stepTau tm ext a s).omega_arr = s.omega_arr := rfl

theorem stepAdvState_omega_arr (ext : RhsExt) (a : RhsArgs) (s : RhsState) :
    (stepAdvState ext a s).omega_arr = s.omega_arr := rfl

theorem stepDiffState_omega_arr (tm : TerrainMetrics) (ext : RhsExt) (cl : Closures) (a : RhsArgs)
    (s : RhsState) : (stepDiffState tm ext cl a s).omega_arr = s.omega_arr := by
  unfold stepDiffState
  split_ifs <;> rfl

theorem stepRayleighTheta_omega_arr (a : RhsArgs) (s : RhsState) :
    (stepRayleighTheta a s).omega_arr = s.omega_arr := by
  unfold stepRayleighTheta
  split_ifs <;> rfl

theorem stepDetJState_omega_arr (a : RhsArgs) (s : RhsState) :
    (stepDetJState a s).omega_arr = s.omega_arr := by
  unfold stepDetJState
  split_ifs <;> rfl

theorem stepDiffMom_omega_arr (ext : RhsExt) (a : RhsArgs) (s : RhsState) :
    (stepDiffMom ext a s).omega_arr = s.omega_arr := by
  unfold stepDiffMom
  split_ifs <;> rfl

theorem stepXmom_omega_arr (tm : TerrainMetrics) (a : RhsArgs) (s : RhsState) :
    (stepXmom tm a s).omega_arr = s.omega_arr := by
  unfold stepXmom
  split_ifs <;> rfl

theorem stepYmom_omega_arr (tm : TerrainMetrics) (a : RhsArgs) (s : RhsState) :
    (stepYmom tm a s).omega_arr = s.omega_arr := by
  unfold stepYmom
  split_ifs <;> rfl

theorem stepZmom_omega_arr (tm : TerrainMetrics) (a : RhsArgs) (s : RhsState) :
    (stepZmom tm a s).omega_arr = s.omega_arr := by
  unfold stepZmom
  split_ifs <;> rfl

/-- The Omega of the result is the one left by the Omega pass. -/
theorem tileBody_omega_arr (tm : TerrainMetrics) (ext : RhsExt) (cl : Closures) (a : RhsArgs)
    (s : RhsState) :
    (tileBody tm ext cl a s).omega_arr =
      (stepOmega tm a (stepExpr tm a (stepPprime ext a (stepScratch s)))).omega_arr := by
  unfold tileBody momSources statePart
  rw [stepZmom_omega_arr]
  show (stepYmom tm a _).omega_arr = _
  rw [stepYmom_omega_arr, stepXmom_omega_arr, stepDiffMom_omega_arr]
  show (stepDetJState a _).omega_arr = _
  rw [stepDetJState_omega_arr, stepRayleighTheta_omega_arr, stepDiffState_omega_arr]
  rfl

theorem movingArgs_ok :
    erf_slow_rhs_pre flatMetrics idleExt idleClosures movingArgs sevenState =
      Except.ok (tileBody flatMetrics idleExt idleClosures movingArgs sevenState) := by
  simp [erf_slow_rhs_pre, movingArgs, restArgs, l_moving_terrain, Array4.const]

theorem fixedTerrain_static (a : RhsArgs) : l_moving_terrain a.fixedTerrain.solverChoice = false := by
  simp [l_moving_terrain, RhsArgs.fixedTerrain]

theorem xmomKernel_T_split (tm : TerrainMetrics) (a : RhsArgs) (pp : Array4) (i j k : Int)
    (r : Array4) :
    xmomKernel_T tm a pp i j k r =
      if l_moving_terrain a.solverChoice = true then
        (xmomKernel_T tm a.fixedTerrain pp i j k r).set i j k 0
          (xmomKernel_T tm a.fixedTerrain pp i j k r i j k 0 *
            (0.5 * (a.detJ i j k 0 + a.detJ (i-1) j k 0)))
      else xmomKernel_T tm a.fixedTerrain pp i j k r := by
  unfold xmomKernel_T
  simp only [fixedTerrain_static, Bool.false_eq_true, if_false]
  rfl

/-- The x-momentum kernel with terrain: the value of the launch with static
terrain, times the Jacobian factor. -/
theorem xmomKernel_T_factor (tm : TerrainMetrics) (a : RhsArgs) (pp : Array4) (i j k : Int)
    (old : ℚ) :
    ownValue (xmomKernel_T tm a pp) 0 i j k old =
      ownValue (xmomKernel_T tm a.fixedTerrain pp) 0 i j k old *
        (if a.solverChoice.terrain_type = 1 then 0.5 * (a.detJ i j k 0 + a.detJ (i-1) j k 0)
         else 1) := by
  unfold ownValue
  rw [xmomKernel_T_split]
  by_cases hm : a.solverChoice.terrain_type = 1
  · have h1 : l_moving_terrain a.solverChoice = true := by simp [l_moving_terrain, hm]
    rw [if_pos h1, if_pos hm, Array4.set_same]
  · have h1 : ¬ l_moving_terrain a.solverChoice = true := by simp [l_moving_terrain, hm]
    rw [if_neg h1, if_neg hm, mul_one]

theorem ymomKernel_T_split (tm : TerrainMetrics) (a : RhsArgs) (pp : Array4) (i j k : Int)
    (r : Array4) :
    ymomKernel_T tm a pp i j k r =
      if l_moving_terrain a.solverChoice = true then
        (ymomKernel_T tm a.fixedTerrain pp i j k r).set i j k 0
          (ymomKernel_T tm a.fixedTerrain pp i j k r i j k 0 *
            (0.5 * (a.detJ i j k 0 + a.detJ i (j-1) k 0)))
      else ymomKernel_T tm a.fixedTerrain pp i j k r := by
  unfold ymomKernel_T
  simp only [fixedTerrain_static, Bool.false_eq_true, if_false]
  rfl

theorem ymomKernel_T_factor (tm : TerrainMetrics) (a : RhsArgs) (pp : Array4) (i j k : Int)
    (old : ℚ) :
    ownValue (ymomKernel_T tm a pp) 0 i j k old =
      ownValue (ymomKernel_T tm a.fixedTerrain pp) 0 i j k old *
        (if a.solverChoice.terrain_type = 1 then 0.5 * (a.detJ i j k 0 + a.detJ i (j-1) k 0)
         else 1) := by
  unfold ownValue
  rw [ymomKernel_T_split]
  by_cases hm : a.solverChoice.terrain_type = 1
  · have h1 : l_moving_terrain a.solverChoice = true := by simp [l_moving_terrain, hm]
    rw [if_pos h1, if_pos hm, Array4.set_same]
  · have h1 : ¬ l_moving_terrain a.solverChoice = true := by simp [l_moving_terrain, hm]
    rw [if_neg h1, if_neg hm, mul_one]

theorem zmomKernel_T_split (tm : TerrainMetrics) (a : RhsArgs) (pp : Array4) (i j k : Int)
    (r : Array4) :
    zmomKernel_T tm a pp i j k r =
      if a.solverChoice.use_terrain = true ∧ l_moving_terrain a.solverChoice = true then
        (zmomKernel_T tm a.fixedTerrain pp i j k r).set i j k 0
          (zmomKernel_T tm a.fixedTerrain pp i j k r i j k 0 *
            (0.5 * (a.detJ i j k 0 + a.detJ i j (k-1) 0)))
      else zmomKernel_T tm a.fixedTerrain pp i j k r := by
  unfold zmomKernel_T
  simp only [fixedTerrain_static, Bool.false_eq_true, and_false, if_false]
  rfl

theorem zmomKernel_T_factor (tm : TerrainMetrics) (a : RhsArgs) (pp : Array4) (i j k : Int)
    (old : ℚ) (ht : a.solverChoice.use_terrain = true) :
    ownValue (zmomKernel_T tm a pp) 0 i j k old =
      ownValue (zmomKernel_T tm a.fixedTerrain pp) 0 i j k old *
        (if a.solverChoice.terrain_type = 1 then 0.5 * (a.detJ i j k 0 + a.detJ i j (k-1) 0)
         else 1) := by
  unfold ownValue
  rw [zmomKernel_T_split]
  by_cases hm : a.solverChoice.terrain_type = 1
  · have h1 : l_moving_terrain a.solverChoice = true := by simp [l_moving_terrain, hm]
    rw [if_pos ⟨ht, h1⟩, if_pos hm, Array4.set_same]
  · have h1 : ¬ (a.solverChoice.use_terrain = true ∧ l_moving_terrain a.solverChoice = true) := by
      simp [l_moving_terrain, hm]
    rw [if_neg h1, if_neg hm, mul_one]

/-- The momentum tendencies of the result: the accumulated value times the
factor `f` of the face, `f` being the mean of `detJ` over the two cells of the
face when the terrain moves and `1` otherwise. -/
theorem tileBody_momentum_factor (tm : TerrainMetrics) (ext : RhsExt) (cl : Closures)
    (a : RhsArgs) (s : RhsState) (i j k : Int)
    (hassert : ¬ (l_moving_terrain a.solverChoice = true ∧ a.solverChoice.use_terrain = false)) :
    (a.tbx.contains i j k →
      (tileBody tm ext cl a s).rho_u_rhs i j k 0 =
        (accumulatedMomentum tm ext cl a s).rho_u_rhs i j k 0 *
          (if a.solverChoice.terrain_type = 1 then 0.5 * (a.dJ i j k 0 + a.dJ (i-1) j k 0)
           else 1)) ∧
    (a.tby.contains i j k →
      (tileBody tm ext cl a s).rho_v_rhs i j k 0 =
        (accumulatedMomentum tm ext cl a s).rho_v_rhs i j k 0 *
          (if a.solverChoice.terrain_type = 1 then 0.5 * (a.dJ i j k 0 + a.dJ i (j-1) k 0)
           else 1)) ∧
    (a.tbz.contains i j k →
      (tileBody tm ext cl a s).rho_w_rhs i j k 0 =
        (accumulatedMomentum tm ext cl a s).rho_w_rhs i j k 0 *
          (if a.solverChoice.terrain_type = 1 then 0.5 * (a.dJ i j k 0 + a.dJ i j (k-1) 0)
           else 1)) := by
  have hdet : a.solverChoice.terrain_type = 1 → a.detJ = a.dJ := by
    intro hm
    have h1 : l_moving_terrain a.solverChoice = true := by simp [l_moving_terrain, hm]
    have ht : a.solverChoice.use_terrain = true := by
      by_contra hc
      exact hassert ⟨h1, by simpa using hc⟩
    simp [RhsArgs.detJ, ht]
  refine ⟨?_, ?_, ?_⟩
  · intro hc
    have hp : a.tbx.contains i j k ∧ (0 : Int) = 0 := ⟨hc, rfl⟩
    have hp0 : a.fixedTerrain.tbx.contains i j k ∧ (0 : Int) = 0 := ⟨hc, rfl⟩
    rw [tileBody_rho_u_rhs]
    unfold accumulatedMomentum
    rw [stepZmom_rho_u_rhs]
    show _ = (stepYmom tm a.fixedTerrain _).rho_u_rhs i j k 0 * _
    rw [stepYmom_rho_u_rhs, stepXmom_apply, stepXmom_apply, if_pos hp, if_pos hp0]
    by_cases ht : a.solverChoice.use_terrain = true
    · have ht0 : a.fixedTerrain.solverChoice.use_terrain = true := ht
      rw [if_pos ht, if_pos ht0, xmomKernel_T_factor]
      by_cases hm : a.solverChoice.terrain_type = 1
      · rw [if_pos hm, if_pos hm, hdet hm]
      · rw [if_neg hm, if_neg hm]
    · have ht0 : ¬ a.fixedTerrain.solverChoice.use_terrain = true := ht
      have hm : ¬ a.solverChoice.terrain_type = 1 := by
        intro hm
        exact hassert ⟨by simp [l_moving_terrain, hm], by simpa using ht⟩
      rw [if_neg ht, if_neg ht0, if_neg hm, mul_one]
      rfl
  · intro hc
    have hp : a.tby.contains i j k ∧ (0 : Int) = 0 := ⟨hc, rfl⟩
    have hp0 : a.fixedTerrain.tby.contains i j k ∧ (0 : Int) = 0 := ⟨hc, rfl⟩
    rw [tileBody_rho_v_rhs]
    unfold accumulatedMomentum
    rw [stepZmom_rho_v_rhs]
    show _ = (stepYmom tm a.fixedTerrain _).rho_v_rhs i j k 0 * _
    rw [stepYmom_apply, stepYmom_apply, if_pos hp, if_pos hp0,
      stepXmom_pp_arr, stepXmom_pp_arr, stepXmom_rho_v_rhs, stepXmom_rho_v_rhs]
    by_cases ht : a.solverChoice.use_terrain = true
    · have ht0 : a.fixedTerrain.solverChoice.use_terrain = true := ht
      rw [if_pos ht, if_pos ht0, ymomKernel_T_factor]
      by_cases hm : a.solverChoice.terrain_type = 1
      · rw [if_pos hm, if_pos hm, hdet hm]
      · rw [if_neg hm, if_neg hm]
    · have ht0 : ¬ a.fixedTerrain.solverChoice.use_terrain = true := ht
      have hm : ¬ a.solverChoice.terrain_type = 1 := by
        intro hm
        exact hassert ⟨by simp [l_moving_terrain, hm], by simpa using ht⟩
      rw [if_neg ht, if_neg ht0, if_neg hm, mul_one]
      rfl
  · intro hc
    have hp : a.tbz.contains i j k ∧ (0 : Int) = 0 := ⟨hc, rfl⟩
    have hp0 : a.fixedTerrain.tbz.contains i j k ∧ (0 : Int) = 0 := ⟨hc, rfl⟩
    unfold accumulatedMomentum tileBody
    rw [stepZmom_apply, stepZmom_apply, if_pos hp, if_pos hp0]
    have e1 : (stepZero a (stepYmom tm a (stepXmom tm a
        (momSources ext a (statePart tm ext cl a s))))).pp_arr =
        (momSources ext a (statePart tm ext cl a s)).pp_arr := by
      show (stepYmom tm a _).pp_arr = _
      rw [stepYmom_pp_arr, stepXmom_pp_arr]
    have e2 : (stepZero a (stepYmom tm a.fixedTerrain (stepXmom tm a.fixedTerrain
        (momSources ext a (statePart tm ext cl a s))))).pp_arr =
        (momSources ext a (statePart tm ext cl a s)).pp_arr := by
      show (stepYmom tm a.fixedTerrain _).pp_arr = _
      rw [stepYmom_pp_arr, stepXmom_pp_arr]
    have e3 : (stepZero a (stepYmom tm a (stepXmom tm a
        (momSources ext a (statePart tm ext cl a s))))).rho_w_rhs =
        (stepZero a (stepYmom tm a.fixedTerrain (stepXmom tm a.fixedTerrain
        (momSources ext a (statePart tm ext cl a s))))).rho_w_rhs := by
      show ParallelFor _ _ (stepYmom tm a _).rho_w_rhs =
        ParallelFor _ _ (stepYmom tm a.fixedTerrain _).rho_w_rhs
      rw [stepYmom_rho_w_rhs, stepYmom_rho_w_rhs, stepXmom_rho_w_rhs, stepXmom_rho_w_rhs]
    rw [e1, e2, e3]
    by_cases ht : a.solverChoice.use_terrain = true
    · have ht0 : a.fixedTerrain.solverChoice.use_terrain = true := ht
      rw [if_pos ht, if_pos ht0, zmomKernel_T_factor _ _ _ _ _ _ _ ht]
      by_cases hm : a.solverChoice.terrain_type = 1
      · rw [if_pos hm, if_pos hm, hdet hm]
      · rw [if_neg hm, if_neg hm]
    · have ht0 : ¬ a.fixedTerrain.solverChoice.use_terrain = true := ht
      have hm : ¬ a.solverChoice.terrain_type = 1 := by
        intro hm
        exact hassert ⟨by simp [l_moving_terrain, hm], by simpa using ht⟩
      rw [if_neg ht, if_neg ht0, if_neg hm, mul_one]
      rfl

theorem stepZmom_pp_arr (tm : TerrainMetrics) (a : RhsArgs) (s : RhsState) :
    (stepZmom tm a s).pp_arr = s.pp_arr := by
  unfold stepZmom
  split_ifs <;> rfl

/-- The check of the pressure pass as a statement on the cells of `gbx`. -/
theorem pprime_check_iff (a : RhsArgs) :
    a.gbx.cells.any (fun c => decide (a.cell_data c.1 c.2.1 c.2.2 RhoTheta_comp ≤ 0)) = true ↔
      ∃ i j k, a.gbx.contains i j k ∧ a.cell_data i j k RhoTheta_comp ≤ 0 := by
  rw [List.any_eq_true]
  constructor
  · rintro ⟨⟨i, j, k⟩, hmem, hle⟩
    exact ⟨i, j, k, (mem_cells _ _ _ _).1 hmem, by simpa using hle⟩
  · rintro ⟨i, j, k, hc, hle⟩
    exact ⟨(i, j, k), (mem_cells _ _ _ _).2 hc, by simpa using hle⟩

/-- A returning call of `init_params`, phase by phase. -/
theorem init_params_ok_inv (c : Constants) (pp : ParmParse) (st : Statics) (sc : SolverChoice)
    (r : SolverChoice × Statics) (h : init_params c pp st sc = Except.ok r) :
    ∃ les mol pbl sc1 abl ic,
      parse_les_type (query pp.les_type st.les_type_string) = Except.ok les ∧
      parse_molec_diff_type (query pp.molec_diff_type
        (if les = LESType.None then "Constant" else st.molec_diff_type_string)) = Except.ok mol ∧
      ¬ (mol = MolecDiffType.ConstantAlpha ∧ les ≠ LESType.None) ∧
      parse_pbl_type (query pp.pbl_type st.pbl_type_string) = Except.ok pbl ∧
      init_pbl pp { init_terrain_gravity c pp sc with
        les_type := les, molec_diff_type := mol, pbl_type := pbl } = Except.ok sc1 ∧
      parse_abl_driver_type (query pp.abl_driver_type st.abl_driver_type_string) = Except.ok abl ∧
      parse_ic_bc_type (query pp.ic_bc_type st.ic_bc_type_string) = Except.ok ic ∧
      r.1 = { init_forcing c pp { init_constants pp sc1 with abl_driver_type := abl } with
        icBcType := ic } := by
  unfold init_params at h
  simp only [bind, Except.bind, pure, Except.pure] at h
  cases h1 : parse_les_type (query pp.les_type st.les_type_string) with
  | error e => rw [h1] at h; cases h
  | ok les =>
    rw [h1] at h
    try simp only at h
    cases h2 : parse_molec_diff_type (query pp.molec_diff_type
        (if les = LESType.None then "Constant" else st.molec_diff_type_string)) with
    | error e => rw [h2] at h; cases h
    | ok mol =>
      rw [h2] at h
      try simp only at h
      by_cases h3 : mol = MolecDiffType.ConstantAlpha ∧ les ≠ LESType.None
      · rw [if_pos h3] at h
        cases h
      · rw [if_neg h3] at h
        try simp only at h
        cases h4 : parse_pbl_type (query pp.pbl_type st.pbl_type_string) with
        | error e => rw [h4] at h; cases h
        | ok pbl =>
          rw [h4] at h
          try simp only at h
          cases h5 : init_pbl pp { init_terrain_gravity c pp sc with
              les_type := les, molec_diff_type := mol, pbl_type := pbl } with
          | error e => rw [h5] at h; cases h
          | ok sc1 =>
            rw [h5] at h
            try simp only at h
            cases h6 : parse_abl_driver_type
                (query pp.abl_driver_type st.abl_driver_type_string) with
            | error e => rw [h6] at h; cases h
            | ok abl =>
              rw [h6] at h
              try simp only at h
              cases h7 : parse_ic_bc_type (query pp.ic_bc_type st.ic_bc_type_string) with
              | error e => rw [h7] at h; cases h
              | ok ic =>
                rw [h7] at h
                try simp only at h
                injection h with h
                exact ⟨les, mol, pbl, sc1, abl, ic, (by first | exact h1 | rfl), h2,
                  h3, (by first | exact h4 | rfl), h5,
                  (by first | exact h6 | rfl), (by first | exact h7 | rfl), by rw [← h]⟩

/-- The PBL phase of `init_params` changes only the PBL constants. -/
theorem init_pbl_fields (pp : ParmParse) (sc sc1 : SolverChoice)
    (h : init_pbl pp sc = Except.ok sc1) :
    sc1.les_type = sc.les_type ∧ sc1.molec_diff_type = sc.molec_diff_type ∧
    sc1.pbl_type = sc.pbl_type ∧ sc1.use_QKE = sc.use_QKE ∧
    sc1.alpha_T = sc.alpha_T ∧ sc1.alpha_C = sc.alpha_C ∧ sc1.rho0_trans = sc.rho0_trans := by
  unfold init_pbl at h
  by_cases hp : sc.pbl_type ≠ PBLType.None
  · rw [if_pos hp] at h
    by_cases hl : sc.les_type ≠ LESType.None
    · simp only [bind, Except.bind, pure, Except.pure, if_pos hl] at h
      injection h with h
      subst h
      exact ⟨rfl, rfl, rfl, rfl, rfl, rfl, rfl⟩
    · have hd : ¬ sc.les_type = LESType.Deardorff := by
        intro hd
        exact hl (by rw [hd]; decide)
      simp only [bind, Except.bind, pure, Except.pure, if_neg hl, if_neg hd] at h
      injection h with h
      subst h
      exact ⟨rfl, rfl, rfl, rfl, rfl, rfl, rfl⟩
  · rw [if_neg hp] at h
    injection h with h
    subst h
    exact ⟨rfl, rfl, rfl, rfl, rfl, rfl, rfl⟩

/-- The constants phase of `init_params`: the closure types stay, `use_QKE`
is switched on by the MYNN2.5 PBL scheme, the molecular coefficients are
queried and `rhoAlpha_T`, `rhoAlpha_C` are set from them. -/
theorem init_constants_fields (pp : ParmParse) (sc : SolverChoice) :
    (init_constants pp sc).les_type = sc.les_type ∧
    (init_constants pp sc).molec_diff_type = sc.molec_diff_type ∧
    (init_constants pp sc).pbl_type = sc.pbl_type ∧
    (init_constants pp sc).use_QKE = (decide (sc.pbl_type = PBLType.MYNN25) || sc.use_QKE) ∧
    (init_constants pp sc).alpha_T = query pp.alpha_T sc.alpha_T ∧
    (init_constants pp sc).alpha_C = query pp.alpha_C sc.alpha_C ∧
    (init_constants pp sc).rho0_trans = query pp.rho0_trans sc.rho0_trans ∧
    (init_constants pp sc).rhoAlpha_T =
      (init_constants pp sc).rho0_trans * (init_constants pp sc).alpha_T ∧
    (init_constants pp sc).rhoAlpha_C =
      (init_constants pp sc).rho0_trans * (init_constants pp sc).alpha_C := by
  unfold init_constants
  by_cases hp : sc.pbl_type = PBLType.MYNN25
  · simp [hp]
  · by_cases hq : sc.use_QKE = true
    · simp [hp, hq]
    · simp [hp, hq]

/-- The forcing phase of `init_params` leaves the diffusion set-up alone. -/
theorem init_forcing_fields (c : Constants) (pp : ParmParse) (sc : SolverChoice) :
    (init_forcing c pp sc).les_type = sc.les_type ∧
    (init_forcing c pp sc).molec_diff_type = sc.molec_diff_type ∧
    (init_forcing c pp sc).pbl_type = sc.pbl_type ∧
    (init_forcing c pp sc).use_QKE = sc.use_QKE ∧
    (init_forcing c pp sc).alpha_T = sc.alpha_T ∧
    (init_forcing c pp sc).alpha_C = sc.alpha_C ∧
    (init_forcing c pp sc).rho0_trans = sc.rho0_trans ∧
    (init_forcing c pp sc).rhoAlpha_T = sc.rhoAlpha_T ∧
    (init_forcing c pp sc).rhoAlpha_C = sc.rhoAlpha_C := by
  unfold init_forcing build_coriolis_forcings
  simp only
  split_ifs <;> exact ⟨rfl, rfl, rfl, rfl, rfl, rfl, rfl, rfl, rfl⟩

/-- The diffusion set-up a returning call of `init_params` leaves in the
object: the closure types are the parsed strings, `use_QKE` is on when the
PBL scheme is MYNN2.5 (or was on before), and `rhoAlpha_T = rho0_trans *
alpha_T`, `rhoAlpha_C = rho0_trans * alpha_C`. -/
theorem init_params_config (c : Constants) (pp : ParmParse) (st : Statics) (sc : SolverChoice)
    (r : SolverChoice × Statics) (h : init_params c pp st sc = Except.ok r) :
    parse_les_type (query pp.les_type st.les_type_string) = Except.ok r.1.les_type ∧
    parse_molec_diff_type (query pp.molec_diff_type
      (if r.1.les_type = LESType.None then "Constant" else st.molec_diff_type_string)) =
        Except.ok r.1.molec_diff_type ∧
    parse_pbl_type (query pp.pbl_type st.pbl_type_string) = Except.ok r.1.pbl_type ∧
    r.1.use_QKE = (decide (r.1.pbl_type = PBLType.MYNN25) || sc.use_QKE) ∧
    r.1.alpha_T = query pp.alpha_T sc.alpha_T ∧
    r.1.alpha_C = query pp.alpha_C sc.alpha_C ∧
    r.1.rhoAlpha_T = r.1.rho0_trans * r.1.alpha_T ∧
    r.1.rhoAlpha_C = r.1.rho0_trans * r.1.alpha_C ∧
    r.1.rho0_trans = query pp.rho0_trans sc.rho0_trans := by
  obtain ⟨les, mol, pbl, sc1, abl, ic, h1, h2, _, h4, h5, _, _, hr⟩ :=
    init_params_ok_inv c pp st sc r h
  have hp := init_pbl_fields pp _ sc1 h5
  have hc := init_constants_fields pp sc1
  have hf := init_forcing_fields c pp { init_constants pp sc1 with abl_driver_type := abl }
  have e1 : r.1.les_type = les := by
    rw [hr]
    exact hf.1.trans (hc.1.trans hp.1)
  have e2 : r.1.molec_diff_type = mol := by
    rw [hr]
    exact hf.2.1.trans (hc.2.1.trans hp.2.1)
  have e3 : r.1.pbl_type = pbl := by
    rw [hr]
    exact hf.2.2.1.trans (hc.2.2.1.trans hp.2.2.1)
  have e4 : r.1.use_QKE = (decide (pbl = PBLType.MYNN25) || sc.use_QKE) := by
    rw [hr]
    refine hf.2.2.2.1.trans (hc.2.2.2.1.trans ?_)
    rw [hp.2.2.1, hp.2.2.2.1]
    rfl
  have e5 : r.1.alpha_T = query pp.alpha_T sc.alpha_T := by
    rw [hr]
    refine hf.2.2.2.2.1.trans (hc.2.2.2.2.1.trans ?_)
    rw [hp.2.2.2.2.1]
    rfl
  have e6 : r.1.alpha_C = query pp.alpha_C sc.alpha_C := by
    rw [hr]
    refine hf.2.2.2.2.2.1.trans (hc.2.2.2.2.2.1.trans ?_)
    rw [hp.2.2.2.2.2.1]
    rfl
  have e7 : r.1.rhoAlpha_T = r.1.rho0_trans * r.1.alpha_T := by
    rw [hr]
    show (init_forcing c pp _).rhoAlpha_T =
      (init_forcing c pp _).rho0_trans * (init_forcing c pp _).alpha_T
    rw [hf.2.2.2.2.2.2.2.1, hf.2.2.2.2.2.2.1, hf.2.2.2.2.1]
    exact hc.2.2.2.2.2.2.2.1
  have e8 : r.1.rhoAlpha_C = r.1.rho0_trans * r.1.alpha_C := by
    rw [hr]
    show (init_forcing c pp _).rhoAlpha_C =
      (init_forcing c pp _).rho0_trans * (init_forcing c pp _).alpha_C
    rw [hf.2.2.2.2.2.2.2.2, hf.2.2.2.2.2.2.1, hf.2.2.2.2.2.1]
    exact hc.2.2.2.2.2.2.2.2
  have e9 : r.1.rho0_trans = query pp.rho0_trans sc.rho0_trans := by
    rw [hr]
    refine hf.2.2.2.2.2.2.1.trans (hc.2.2.2.2.2.2.1.trans ?_)
    rw [hp.2.2.2.2.2.2]
    rfl
  rw [e1, e2, e3]
  exact ⟨h1, h2, h4, e4, e5, e6, e7, e8, e9⟩

theorem parse_molec_diff_type_unknown (str : String) (h1 : str ≠ "Constant")
    (h2 : str ≠ "ConstantAlpha") (h3 : str ≠ "None") :
    parse_molec_diff_type str = Except.error "Don't know this molec_diff_type" := by
  unfold parse_molec_diff_type
  rw [if_neg h1, if_neg h2, if_neg h3]
  rfl

/-- The entries of `alpha_eff`. -/
theorem alpha_eff_get (sc : SolverChoice) (prim : Int) (h0 : 0 ≤ prim) (h1 : prim < NUM_PRIM) :
    vecGet (alpha_eff sc) prim =
      if sc.molec_diff_type = MolecDiffType.ConstantAlpha then
        (if prim = PrimTheta_comp then sc.alpha_T
         else if prim = PrimScalar_comp then sc.alpha_C else 0)
      else
        (if prim = PrimTheta_comp then sc.rhoAlpha_T
         else if prim = PrimScalar_comp then sc.rhoAlpha_C else 0) := by
  have hN : NUM_PRIM = 4 := rfl
  rw [hN] at h1
  have e : rangeInt 0 (NUM_PRIM - 1) = [0, 1, 2, 3] := by decide
  unfold alpha_eff
  rw [e]
  have hp : prim = 0 ∨ prim = 1 ∨ prim = 2 ∨ prim = 3 := by omega
  by_cases hc : sc.molec_diff_type = MolecDiffType.ConstantAlpha
  · rw [if_pos hc, if_pos hc]
    rcases hp with rfl | rfl | rfl | rfl <;>
      simp +decide [vecGet, PrimTheta_comp, PrimScalar_comp, RhoTheta_comp, RhoScalar_comp]
  · rw [if_neg hc, if_neg hc]
    rcases hp with rfl | rfl | rfl | rfl <;>
      simp +decide [vecGet, PrimTheta_comp, PrimScalar_comp, RhoTheta_comp, RhoScalar_comp]

/-- Without a turbulence closure the branch taken is `RhoAlpha` or `Alpha`. -/
theorem diffMode_no_closure (sc : SolverChoice) (hl : sc.les_type = LESType.None)
    (hp : sc.pbl_type = PBLType.None) :
    diffMode sc = if sc.molec_diff_type = MolecDiffType.ConstantAlpha then DiffMode.RhoAlpha
      else DiffMode.Alpha := by
  have ht : l_turb sc = false := by simp [l_turb, hl, hp]
  unfold diffMode
  by_cases hc : sc.molec_diff_type = MolecDiffType.ConstantAlpha
  · simp [ht, l_consA, hc]
  · simp [ht, l_consA, hc]

theorem ParallelFor_id_on (bx : Box) (f : Int → Int → Int → Array4 → Array4)
    (hf : ∀ i j k a, bx.contains i j k → f i j k a = a) (a : Array4) :
    ParallelFor bx f a = a := by
  unfold ParallelFor
  have key : ∀ l : List (Int × Int × Int), (∀ c ∈ l, bx.contains c.1 c.2.1 c.2.2) →
      ∀ a, l.foldl (fun s c => f c.1 c.2.1 c.2.2 s) a = a := by
    intro l
    induction l with
    | nil => intro _ a; rfl
    | cons c l ih =>
      intro hl a
      rw [List.foldl_cons, hf _ _ _ _ (hl c (List.mem_cons_self _ _))]
      exact ih (fun d hd => hl d (List.mem_cons_of_mem _ hd)) a
  exact key _ (fun c hc => (mem_cells bx c.1 c.2.1 c.2.2).1 hc) a

theorem ParallelForN_id_on (bx : Box) (ncomp : Int)
    (f : Int → Int → Int → Int → Array4 → Array4)
    (hf : ∀ i j k n a, bx.contains i j k → 0 ≤ n → n ≤ ncomp - 1 → f i j k n a = a)
    (a : Array4) : ParallelForN bx ncomp f a = a := by
  unfold ParallelForN
  have key : ∀ l : List Int, (∀ n ∈ l, 0 ≤ n ∧ n ≤ ncomp - 1) →
      ∀ a, l.foldl (fun s n => ParallelFor bx (fun i j k => f i j k n) s) a = a := by
    intro l
    induction l with
    | nil => intro _ a; rfl
    | cons n l ih =>
      intro hl a
      have hn := hl n (List.mem_cons_self _ _)
      rw [List.foldl_cons, ParallelFor_id_on bx _ (fun i j k a hc => hf i j k n a hc hn.1 hn.2)]
      exact ih (fun d hd => hl d (List.mem_cons_of_mem _ hd)) a
  exact key _ (fun n hn => (mem_rangeInt _ _ _).1 hn) a

/-- When the x- and y-fluxes vanish on their faces and the box has at least
two cells in z, the terrain correction leaves the z-flux as it was. -/
theorem correctFluxes_zflux_of_zero (tm : TerrainMetrics) (p : DiffArgs) (s : DiffState)
    (hz : p.bx.smallEnd.z < p.bx.bigEnd.z)
    (hx0 : ∀ i j k q, (surroundingNodes p.bx 0).contains i j k → p.n_start ≤ q ∧ q ≤ p.n_end →
      s.xflux i j k q = 0)
    (hy0 : ∀ i j k q, (surroundingNodes p.bx 1).contains i j k → p.n_start ≤ q ∧ q ≤ p.n_end →
      s.yflux i j k q = 0) :
    (correctFluxes tm p s).zflux = s.zflux := by
  simp only [correctFluxes]
  rw [ParallelForN_id_on, ParallelForN_id_on]
  · intro i j k n a hc h0 h1
    simp only [Box.contains, surroundingNodes, Box.setBig, IntVect.set, IntVect.get] at hc
    have hq : p.n_start ≤ p.n_start + n ∧ p.n_start + n ≤ p.n_end := by omega
    have cx : ∀ i1 k1, (i1 = i ∨ i1 = i + 1) → p.bx.smallEnd.z ≤ k1 → k1 ≤ p.bx.bigEnd.z →
        s.xflux i1 j k1 (p.n_start + n) = 0 := by
      intro i1 k1 hi h2 h3
      refine hx0 i1 j k1 _ ?_ hq
      simp only [Box.contains, surroundingNodes, IntVect.set, IntVect.get]
      omega
    have cy : ∀ j1 k1, (j1 = j ∨ j1 = j + 1) → p.bx.smallEnd.z ≤ k1 → k1 ≤ p.bx.bigEnd.z →
        s.yflux i j1 k1 (p.n_start + n) = 0 := by
      intro j1 k1 hj h2 h3
      refine hy0 i j1 k1 _ ?_ hq
      simp only [Box.contains, surroundingNodes, IntVect.set, IntVect.get]
      omega
    simp only [zfluxEndsKernel, surroundingNodes, IntVect.set, IntVect.get]
    rw [cx i _ (Or.inl rfl) (le_refl _) (by omega), cx (i+1) _ (Or.inr rfl) (le_refl _) (by omega),
      cx i (p.bx.smallEnd.z + 1) (Or.inl rfl) (by omega) (by omega),
      cx (i+1) (p.bx.smallEnd.z + 1) (Or.inr rfl) (by omega) (by omega),
      cy j _ (Or.inl rfl) (le_refl _) (by omega), cy (j+1) _ (Or.inr rfl) (le_refl _) (by omega),
      cy j (p.bx.smallEnd.z + 1) (Or.inl rfl) (by omega) (by omega),
      cy (j+1) (p.bx.smallEnd.z + 1) (Or.inr rfl) (by omega) (by omega),
      cx i (p.bx.bigEnd.z + 1 - 2) (Or.inl rfl) (by omega) (by omega),
      cx (i+1) (p.bx.bigEnd.z + 1 - 2) (Or.inr rfl) (by omega) (by omega),
      cx i (p.bx.bigEnd.z + 1 - 1) (Or.inl rfl) (by omega) (by omega),
      cx (i+1) (p.bx.bigEnd.z + 1 - 1) (Or.inr rfl) (by omega) (by omega),
      cy j (p.bx.bigEnd.z + 1 - 2) (Or.inl rfl) (by omega) (by omega),
      cy (j+1) (p.bx.bigEnd.z + 1 - 2) (Or.inr rfl) (by omega) (by omega),
      cy j (p.bx.bigEnd.z + 1 - 1) (Or.inl rfl) (by omega) (by omega),
      cy (j+1) (p.bx.bigEnd.z + 1 - 1) (Or.inr rfl) (by omega) (by omega)]
    simp only [add_zero, mul_zero, sub_zero, Array4.set_self]
  · intro i j k n a hc h0 h1
    simp only [Box.contains, surroundingNodes, Box.growLo, Box.growHi, IntVect.set,
      IntVect.get] at hc
    have hq : p.n_start ≤ p.n_start + n ∧ p.n_start + n ≤ p.n_end := by omega
    have cx : ∀ i1 k1, (i1 = i ∨ i1 = i + 1) → p.bx.smallEnd.z ≤ k1 → k1 ≤ p.bx.bigEnd.z →
        s.xflux i1 j k1 (p.n_start + n) = 0 := by
      intro i1 k1 hi h2 h3
      refine hx0 i1 j k1 _ ?_ hq
      simp only [Box.contains, surroundingNodes, IntVect.set, IntVect.get]
      omega
    have cy : ∀ j1 k1, (j1 = j ∨ j1 = j + 1) → p.bx.smallEnd.z ≤ k1 → k1 ≤ p.bx.bigEnd.z →
        s.yflux i j1 k1 (p.n_start + n) = 0 := by
      intro j1 k1 hj h2 h3
      refine hy0 i j1 k1 _ ?_ hq
      simp only [Box.contains, surroundingNodes, IntVect.set, IntVect.get]
      omega
    simp only [zfluxInteriorKernel]
    rw [cx i k (Or.inl rfl) (by omega) (by omega), cx (i+1) k (Or.inr rfl) (by omega) (by omega),
      cx i (k-1) (Or.inl rfl) (by omega) (by omega),
      cx (i+1) (k-1) (Or.inr rfl) (by omega) (by omega),
      cy j k (Or.inl rfl) (by omega) (by omega), cy (j+1) k (Or.inr rfl) (by omega) (by omega),
      cy j (k-1) (Or.inl rfl) (by omega) (by omega),
      cy (j+1) (k-1) (Or.inr rfl) (by omega) (by omega)]
    simp only [add_zero, mul_zero, sub_zero, Array4.set_self]

/-- Without a turbulence closure the diffusivity at a face is the entry of
`alpha_eff`, times the face density in the constant-alpha branch. -/
theorem faceDiff_no_closure (p : DiffArgs) (hl : p.solverChoice.les_type = LESType.None)
    (hp : p.solverChoice.pbl_type = PBLType.None) (i j k prim : Int) :
    faceDiff_x (diffMode p.solverChoice) p i j k prim =
      (if p.solverChoice.molec_diff_type = MolecDiffType.ConstantAlpha then
        0.5 * (p.cell_data i j k Rho_comp + p.cell_data (i-1) j k Rho_comp) *
          vecGet (alpha_eff p.solverChoice) prim
       else vecGet (alpha_eff p.solverChoice) prim) ∧
    faceDiff_y (diffMode p.solverChoice) p i j k prim =
      (if p.solverChoice.molec_diff_type = MolecDiffType.ConstantAlpha then
        0.5 * (p.cell_data i j k Rho_comp + p.cell_data i (j-1) k Rho_comp) *
          vecGet (alpha_eff p.solverChoice) prim
       else vecGet (alpha_eff p.solverChoice) prim) ∧
    faceDiff_z (diffMode p.solverChoice) p i j k prim =
      (if p.solverChoice.molec_diff_type = MolecDiffType.ConstantAlpha then
        0.5 * (p.cell_data i j k Rho_comp + p.cell_data i j (k-1) Rho_comp) *
          vecGet (alpha_eff p.solverChoice) prim
       else vecGet (alpha_eff p.solverChoice) prim) := by
  rw [diffMode_no_closure p.solverChoice hl hp]
  by_cases hc : p.solverChoice.molec_diff_type = MolecDiffType.ConstantAlpha
  · simp only [if_pos hc]
    exact ⟨rfl, rfl, rfl⟩
  · simp only [if_neg hc]
    exact ⟨rfl, rfl, rfl⟩

/-- The raw fluxes vanish where the face diffusivity does. -/
theorem rawFluxes_zero (tm : TerrainMetrics) (p : DiffArgs) (s : DiffState) (q : Int)
    (hq : p.n_start ≤ q ∧ q ≤ p.n_end)
    (hD : ∀ i j k, faceDiff_x (diffMode p.solverChoice) p i j k (q - qty_offset) = 0 ∧
      faceDiff_y (diffMode p.solverChoice) p i j k (q - qty_offset) = 0 ∧
      faceDiff_z (diffMode p.solverChoice) p i j k (q - qty_offset) = 0) (i j k : Int) :
    ((surroundingNodes p.bx 0).contains i j k → (rawFluxes tm p s).xflux i j k q = 0) ∧
    ((surroundingNodes p.bx 1).contains i j k → (rawFluxes tm p s).yflux i j k q = 0) ∧
    ((surroundingNodes p.bx 2).contains i j k → (rawFluxes tm p s).zflux i j k q = 0) := by
  refine ⟨fun hb => ?_, fun hb => ?_, fun hb => ?_⟩
  · rw [rawFluxes_xflux tm p s i j k q hb hq, (hD i j k).1, zero_mul, zero_mul]
  · rw [rawFluxes_yflux tm p s i j k q hb hq, (hD i j k).2.1, zero_mul, zero_mul]
  · rw [rawFluxes_zflux tm p s i j k q hb hq, (hD i j k).2.2, zero_mul, zero_div]

/-- The special sources are skipped when `n_end` is below the TKE component. -/
theorem keSources_below (tm : TerrainMetrics) (cl : Closures) (p : DiffArgs) (s : DiffState)
    (h : p.n_end < RhoKE_comp) : (keSources tm cl p s).cell_rhs = s.cell_rhs := by
  have h2 : p.n_end < RhoQKE_comp := lt_trans h (by decide)
  simp only [keSources]
  rw [if_neg (fun hh => absurd hh.2 (not_le.2 h2)), if_neg (fun hh => absurd hh.2 (not_le.2 h))]

/-- The state diffusion with terrain changes the tendency of no component
outside `n_start..n_end` when `n_end` is below the TKE component. -/
theorem DiffusionSrcForState_T_frame (tm : TerrainMetrics) (cl : Closures) (p : DiffArgs)
    (s : DiffState) (h : p.n_end < RhoKE_comp) (i j k q : Int)
    (hq : ¬ (p.n_start ≤ q ∧ q ≤ p.n_end)) :
    (DiffusionSrcForState_T tm cl p s).cell_rhs i j k q = s.cell_rhs i j k q := by
  unfold DiffusionSrcForState_T
  rw [keSources_below tm cl p _ h, fluxesToRhs_apply, if_neg (fun hh => hq hh.2)]
  rfl

theorem conductingChoice_ok :
    ∃ st, init_params sampleConstants { alpha_T := some 1 } {} {} =
      Except.ok (conductingChoice, st) := by
  have h : ∃ r, init_params sampleConstants { alpha_T := some 1 } {} {} = Except.ok r := by
    simp +decide [init_params, bind, Except.bind, pure, Except.pure, query, parse_les_type,
      parse_molec_diff_type, parse_pbl_type, init_pbl, parse_abl_driver_type, parse_ic_bc_type]
  obtain ⟨r, hr⟩ := h
  refine ⟨r.2, ?_⟩
  have e : conductingChoice = r.1 := by
    unfold conductingChoice
    rw [hr]
  rw [e, hr]

theorem conductingChoice_fields :
    conductingChoice.les_type = LESType.None ∧
    conductingChoice.molec_diff_type = MolecDiffType.Constant ∧
    conductingChoice.pbl_type = PBLType.None ∧
    conductingChoice.rhoAlpha_T = 1 := by
  obtain ⟨st, h⟩ := conductingChoice_ok
  obtain ⟨h1, h2, h3, _, h5, _, h7, _, h9⟩ := init_params_config _ _ _ _ _ h
  simp only at h1 h2 h3 h5 h7 h9
  have e1 : conductingChoice.les_type = LESType.None := by
    have : parse_les_type (query (none : Option String) "None") = Except.ok LESType.None := by
      simp +decide [parse_les_type, query, pure, Except.pure]
    exact (Except.ok.inj (this.symm.trans h1)).symm
  rw [e1] at h2
  have e2 : conductingChoice.molec_diff_type = MolecDiffType.Constant := by
    have : parse_molec_diff_type (query (none : Option String)
        (if LESType.None = LESType.None then "Constant" else "None")) =
          Except.ok MolecDiffType.Constant := by
      simp +decide [parse_molec_diff_type, query, pure, Except.pure]
    exact (Except.ok.inj (this.symm.trans h2)).symm
  have e3 : conductingChoice.pbl_type = PBLType.None := by
    have : parse_pbl_type (query (none : Option String) "None") = Except.ok PBLType.None := by
      simp +decide [parse_pbl_type, query, pure, Except.pure]
    exact (Except.ok.inj (this.symm.trans h3)).symm
  refine ⟨e1, e2, e3, ?_⟩
  rw [h7, h9, h5]
  norm_num [query]

theorem quietChoice_ok :
    ∃ st, init_params sampleConstants {} {} {} = Except.ok (quietChoice, st) := by
  have h : ∃ r, init_params sampleConstants {} {} {} = Except.ok r := by
    simp +decide [init_params, bind, Except.bind, pure, Except.pure, query, parse_les_type,
      parse_molec_diff_type, parse_pbl_type, init_pbl, parse_abl_driver_type, parse_ic_bc_type]
  obtain ⟨r, hr⟩ := h
  refine ⟨r.2, ?_⟩
  have e : quietChoice = r.1 := by
    unfold quietChoice
    rw [hr]
  rw [e, hr]

theorem quietChoice_fields :
    quietChoice.les_type = LESType.None ∧ quietChoice.pbl_type = PBLType.None ∧
    quietChoice.alpha_T = 0 ∧ quietChoice.alpha_C = 0 := by
  obtain ⟨st, h⟩ := quietChoice_ok
  obtain ⟨h1, _, h3, _, h5, h6, _, _, _⟩ := init_params_config _ _ _ _ _ h
  simp only at h1 h3 h5 h6
  have e1 : quietChoice.les_type = LESType.None := by
    have : parse_les_type (query (none : Option String) "None") = Except.ok LESType.None := by
      simp +decide [parse_les_type, query, pure, Except.pure]
    exact (Except.ok.inj (this.symm.trans h1)).symm
  have e3 : quietChoice.pbl_type = PBLType.None := by
    have : parse_pbl_type (query (none : Option String) "None") = Except.ok PBLType.None := by
      simp +decide [parse_pbl_type, query, pure, Except.pure]
    exact (Except.ok.inj (this.symm.trans h3)).symm
  exact ⟨e1, e3, h5, h6⟩

/-- Without a turbulence closure and with `alpha_T = alpha_C = 0` in a set-up
made by `init_params`, the diffusivity vanishes at every face. -/
theorem faceDiff_zero (c : Constants) (pp : ParmParse) (st st2 : Statics) (sc0 : SolverChoice)
    (p : DiffArgs) (hcfg : init_params c pp st sc0 = Except.ok (p.solverChoice, st2))
    (hl : p.solverChoice.les_type = LESType.None)
    (hp : p.solverChoice.pbl_type = PBLType.None)
    (ha : p.solverChoice.alpha_T = 0 ∧ p.solverChoice.alpha_C = 0)
    (i j k prim : Int) (h0 : 0 ≤ prim) (h1 : prim < NUM_PRIM) :
    faceDiff_x (diffMode p.solverChoice) p i j k prim = 0 ∧
    faceDiff_y (diffMode p.solverChoice) p i j k prim = 0 ∧
    faceDiff_z (diffMode p.solverChoice) p i j k prim = 0 := by
  obtain ⟨_, _, _, _, _, _, h7, h8, _⟩ := init_params_config c pp st sc0 _ hcfg
  simp only at h7 h8
  rw [ha.1, mul_zero] at h7
  rw [ha.2, mul_zero] at h8
  have hv : vecGet (alpha_eff p.solverChoice) prim = 0 := by
    rw [alpha_eff_get _ prim h0 h1, ha.1, ha.2, h7, h8]
    simp only [ite_self]
  obtain ⟨hx, hy, hz⟩ := faceDiff_no_closure p hl hp i j k prim
  rw [hv] at hx hy hz
  simp only [mul_zero, ite_self] at hx hy hz
  exact ⟨hx, hy, hz⟩

/-- The fluxes and the tendency when the raw fluxes vanish on the faces of a
box with at least two cells in z. -/
theorem DiffusionSrcForState_T_of_zero (tm : TerrainMetrics) (cl : Closures) (p : DiffArgs)
    (s : DiffState) (hz : p.bx.smallEnd.z < p.bx.bigEnd.z)
    (hD : ∀ q, p.n_start ≤ q ∧ q ≤ p.n_end → ∀ i j k,
      faceDiff_x (diffMode p.solverChoice) p i j k (q - qty_offset) = 0 ∧
      faceDiff_y (diffMode p.solverChoice) p i j k (q - qty_offset) = 0 ∧
      faceDiff_z (diffMode p.solverChoice) p i j k (q - qty_offset) = 0)
    (i j k q : Int) (hq : p.n_start ≤ q ∧ q ≤ p.n_end) :
    ((surroundingNodes p.bx 0).contains i j k →
      (DiffusionSrcForState_T tm cl p s).xflux i j k q = 0) ∧
    ((surroundingNodes p.bx 1).contains i j k →
      (DiffusionSrcForState_T tm cl p s).yflux i j k q = 0) ∧
    ((surroundingNodes p.bx 2).contains i j k →
      (DiffusionSrcForState_T tm cl p s).zflux i j k q = 0) := by
  have hraw := fun q hq i j k => rawFluxes_zero tm p s q hq (hD q hq) i j k
  refine ⟨fun hb => ?_, fun hb => ?_, fun hb => ?_⟩
  · show (correctFluxes tm p (rawFluxes tm p s)).xflux i j k q = 0
    rw [correctFluxes_xflux tm p _ i j k q hb hq, (hraw q hq i j k).1 hb, zero_mul]
  · show (correctFluxes tm p (rawFluxes tm p s)).yflux i j k q = 0
    rw [correctFluxes_yflux tm p _ i j k q hb hq, (hraw q hq i j k).2.1 hb, zero_mul]
  · show (correctFluxes tm p (rawFluxes tm p s)).zflux i j k q = 0
    rw [correctFluxes_zflux_of_zero tm p _ hz
      (fun i j k q hb hq => (hraw q hq i j k).1 hb) (fun i j k q hb hq => (hraw q hq i j k).2.1 hb)]
    exact (hraw q hq i j k).2.2 hb

/-- The raw-flux launches leave the x-flux array as it was outside their faces. -/
theorem rawFluxes_xflux_outside (tm : TerrainMetrics) (p : DiffArgs) (s : DiffState)
    (i j k q : Int) (hb : ¬ (surroundingNodes p.bx 0).contains i j k) :
    (rawFluxes tm p s).xflux i j k q = s.xflux i j k q := by
  simp only [rawFluxes]
  rw [ParallelForN_apply _ _ p.n_start _ _ (xfluxKernel_own tm _ p), if_neg (fun h => hb h.1)]

/-- The raw-flux launches leave the y-flux array as it was outside their faces. -/
theorem rawFluxes_yflux_outside (tm : TerrainMetrics) (p : DiffArgs) (s : DiffState)
    (i j k q : Int) (hb : ¬ (surroundingNodes p.bx 1).contains i j k) :
    (rawFluxes tm p s).yflux i j k q = s.yflux i j k q := by
  simp only [rawFluxes]
  rw [ParallelForN_apply _ _ p.n_start _ _ (yfluxKernel_own tm _ p), if_neg (fun h => hb h.1)]

/-- A launch over the one-cell box `(0,0,0)` and one component. -/
theorem ParallelForN_single (f : Int → Int → Int → Int → Array4 → Array4) (a : Array4) :
    ParallelForN ⟨⟨0, 0, 0⟩, ⟨0, 0, 0⟩⟩ 1 f a = f 0 0 0 0 a := by
  have e : rangeInt 0 0 = [0] := by decide
  have e1 : rangeInt 0 (1 - 1) = [0] := by decide
  simp [ParallelForN, ParallelFor, Box.cells, e, e1]

theorem rangeInt_one (nz : Int) :
    rangeInt 1 nz = (List.range nz.toNat).map (fun (n : Nat) => 1 + (n : Int)) := by
  unfold rangeInt
  have e : nz + 1 - 1 = nz := by ring
  rw [e]

/-- A column loop that stores at level `k` the value `F k` makes of the one at
level `k-1`, and in the second array `E` of the stored value. -/
theorem columnLoop_apply (i j : Int) (F : Int → ℚ → ℚ) (E : ℚ → ℚ)
    (B : HseState → Int → HseState)
    (hB : ∀ s k, B s k = ⟨s.pres_arr.set i j k 0 (F k (s.pres_arr i j (k-1) 0)),
      s.pi_arr.set i j k 0 (E (F k (s.pres_arr i j (k-1) 0)))⟩)
    (s0 : HseState) (m : Nat) :
    ((List.range m).map (fun (n : Nat) => 1 + (n : Int))).foldl B s0 =
      ⟨fun i2 j2 k2 n2 =>
        if i2 = i ∧ j2 = j ∧ n2 = 0 ∧ 1 ≤ k2 ∧ k2 ≤ (m : Int) then
          columnValues F (s0.pres_arr i j 0 0) k2.toNat
        else s0.pres_arr i2 j2 k2 n2,
       fun i2 j2 k2 n2 =>
        if i2 = i ∧ j2 = j ∧ n2 = 0 ∧ 1 ≤ k2 ∧ k2 ≤ (m : Int) then
          E (columnValues F (s0.pres_arr i j 0 0) k2.toNat)
        else s0.pi_arr i2 j2 k2 n2⟩ := by
  induction m with
  | zero =>
    have hf : ∀ i2 j2 k2 n2 : Int,
        ¬ (i2 = i ∧ j2 = j ∧ n2 = 0 ∧ 1 ≤ k2 ∧ k2 ≤ ((0 : Nat) : Int)) := by
      intro i2 j2 k2 n2 hh
      have := hh.2.2.2
      omega
    simp only [List.range_zero, List.map_nil, List.foldl_nil, hf, if_false]
  | succ m ih =>
    rw [List.range_succ, List.map_append, List.foldl_append, ih]
    simp only [List.map_cons, List.map_nil, List.foldl_cons, List.foldl_nil]
    rw [hB]
    have hprev : (if True ∧ True ∧ True ∧ 1 ≤ (1 + (m : Int) - 1) ∧
        (1 + (m : Int) - 1) ≤ (m : Int) then
          columnValues F (s0.pres_arr i j 0 0) (1 + (m : Int) - 1).toNat
        else s0.pres_arr i j (1 + (m : Int) - 1) 0) = columnValues F (s0.pres_arr i j 0 0) m := by
      have e : (1 + (m : Int) - 1) = (m : Int) := by ring
      rw [e, Int.toNat_ofNat]
      cases m with
      | zero => simp [columnValues]
      | succ m =>
        rw [if_pos]
        refine ⟨trivial, trivial, trivial, ?_, le_refl _⟩
        push_cast
        omega
    simp only [hprev]
    have hstep : F (1 + (m : Int)) (columnValues F (s0.pres_arr i j 0 0) m) =
        columnValues F (s0.pres_arr i j 0 0) (m + 1) := by
      rw [add_comm]
      rfl
    rw [hstep]
    congr 1
    · funext i2 j2 k2 n2
      rw [Array4.set_apply]
      by_cases hk : i2 = i ∧ j2 = j ∧ k2 = 1 + (m : Int) ∧ n2 = 0
      · obtain ⟨rfl, rfl, rfl, rfl⟩ := hk
        have e : (1 + (m : Int)).toNat = m + 1 := by omega
        rw [if_pos ⟨rfl, rfl, rfl, rfl⟩, if_pos, e]
        refine ⟨rfl, rfl, rfl, by omega, ?_⟩
        push_cast
        omega
      · rw [if_neg hk]
        by_cases hc : i2 = i ∧ j2 = j ∧ n2 = 0 ∧ 1 ≤ k2 ∧ k2 ≤ (m : Int)
        · rw [if_pos hc, if_pos]
          refine ⟨hc.1, hc.2.1, hc.2.2.1, hc.2.2.2.1, ?_⟩
          push_cast
          omega
        · rw [if_neg hc, if_neg]
          intro hh
          have h5 : k2 ≤ ((m + 1 : Nat) : Int) := hh.2.2.2.2
          have h6 : ¬ k2 = 1 + (m : Int) := fun e => hk ⟨hh.1, hh.2.1, e, hh.2.2.1⟩
          refine hc ⟨hh.1, hh.2.1, hh.2.2.1, hh.2.2.2.1, ?_⟩
          push_cast at h5
          omega
    · funext i2 j2 k2 n2
      rw [Array4.set_apply]
      by_cases hk : i2 = i ∧ j2 = j ∧ k2 = 1 + (m : Int) ∧ n2 = 0
      · obtain ⟨rfl, rfl, rfl, rfl⟩ := hk
        have e : (1 + (m : Int)).toNat = m + 1 := by omega
        rw [if_pos ⟨rfl, rfl, rfl, rfl⟩, if_pos, e]
        refine ⟨rfl, rfl, rfl, by omega, ?_⟩
        push_cast
        omega
      · rw [if_neg hk]
        by_cases hc : i2 = i ∧ j2 = j ∧ n2 = 0 ∧ 1 ≤ k2 ∧ k2 ≤ (m : Int)
        · rw [if_pos hc, if_pos]
          refine ⟨hc.1, hc.2.1, hc.2.2.1, hc.2.2.2.1, ?_⟩
          push_cast
          omega
        · rw [if_neg hc, if_neg]
          intro hh
          have h5 : k2 ≤ ((m + 1 : Nat) : Int) := hh.2.2.2.2
          have h6 : ¬ k2 = 1 + (m : Int) := fun e => hk ⟨hh.1, hh.2.1, e, hh.2.2.1⟩
          refine hc ⟨hh.1, hh.2.1, hh.2.2.1, hh.2.2.2.1, ?_⟩
          push_cast at h5
          omega

/-- The column kernel without terrain: it stores `flatColumn` at the levels
`-1 .. nz` of its column, the Exner function of it in `pi_arr`, and nothing
else. -/
theorem hseColumnKernel_flat (x : HseExt) (h : HseArgs) (i j k : Int) (s : HseState)
    (ht : h.solverChoice.use_terrain = false) :
    hseColumnKernel x h i j k s =
      ⟨fun i2 j2 k2 n2 =>
        if i2 = i ∧ j2 = j ∧ n2 = 0 ∧ -1 ≤ k2 ∧ (k2 ≤ 0 ∨ k2 ≤ h.nz) then flatColumn x h i j k2
        else s.pres_arr i2 j2 k2 n2,
       fun i2 j2 k2 n2 =>
        if i2 = i ∧ j2 = j ∧ n2 = 0 ∧ -1 ≤ k2 ∧ (k2 ≤ 0 ∨ k2 ≤ h.nz) then
          x.getExnergivenP (flatColumn x h i j k2) h.solverChoice.rdOcp
        else s.pi_arr i2 j2 k2 n2⟩ := by
  unfold hseColumnKernel
  simp only [ht, Bool.false_eq_true, if_false]
  rw [rangeInt_one, columnLoop_apply i j (flatPressureStep h i j)
    (fun v => x.getExnergivenP v h.solverChoice.rdOcp) (hseFlatStep x h i j)
    (fun s k => by simp only [hseFlatStep, flatPressureStep, Array4.set_same])]
  have hP0 : ((s.pres_arr.set i j 0 0
      (x.p_0 - 0.5 * h.dz * h.rho_arr i j 0 0 * h.solverChoice.gravity)).set i j (0 - 1) 0
      (x.p_0 + 0.5 * h.dz * h.rho_arr i j 0 0 * h.solverChoice.gravity)) i j 0 0 =
      x.p_0 - 0.5 * h.dz * h.rho_arr i j 0 0 * h.solverChoice.gravity := by
    rw [Array4.set_apply, if_neg (fun hh => absurd hh.2.2.1 (by decide)), Array4.set_same]
  simp only [hP0, Array4.set_same]
  congr 1
  · funext i2 j2 k2 n2
    by_cases hc : i2 = i ∧ j2 = j ∧ n2 = 0
    · obtain ⟨rfl, rfl, rfl⟩ := hc
      by_cases h1 : 1 ≤ k2 ∧ k2 ≤ (h.nz.toNat : Int)
      · rw [if_pos ⟨rfl, rfl, rfl, h1⟩, if_pos ⟨rfl, rfl, rfl, by omega, by omega⟩]
        unfold flatColumn
        rw [if_neg (by omega)]
      · rw [if_neg (fun hh => h1 hh.2.2.2)]
        by_cases hm : k2 = -1
        · subst hm
          rw [if_pos ⟨rfl, rfl, rfl, le_refl _, Or.inl (by decide)⟩]
          have e : (0 : Int) - 1 = -1 := rfl
          rw [e, Array4.set_same]
          unfold flatColumn
          rw [if_pos rfl]
        · by_cases h0 : k2 = 0
          · subst h0
            rw [if_pos ⟨rfl, rfl, rfl, by decide, Or.inl (le_refl _)⟩, Array4.set_apply,
              if_neg (fun hh => absurd hh.2.2.1 (by decide)), Array4.set_same]
            unfold flatColumn
            rw [if_neg (by decide)]
            rfl
          · have hn : ¬ (i2 = i2 ∧ j2 = j2 ∧ (0 : Int) = 0 ∧ -1 ≤ k2 ∧ (k2 ≤ 0 ∨ k2 ≤ h.nz)) := by
              intro hh
              apply h1
              omega
            rw [if_neg hn, Array4.set_apply, if_neg (fun hh => hm (by omega)), Array4.set_apply,
              if_neg (fun hh => h0 hh.2.2.1)]
    · rw [if_neg (fun hh => hc ⟨hh.1, hh.2.1, hh.2.2.1⟩),
        if_neg (fun hh => hc ⟨hh.1, hh.2.1, hh.2.2.1⟩), Array4.set_apply,
        if_neg (fun hh => hc ⟨hh.1, hh.2.1, hh.2.2.2⟩), Array4.set_apply,
        if_neg (fun hh => hc ⟨hh.1, hh.2.1, hh.2.2.2⟩)]
  · funext i2 j2 k2 n2
    by_cases hc : i2 = i ∧ j2 = j ∧ n2 = 0
    · obtain ⟨rfl, rfl, rfl⟩ := hc
      by_cases h1 : 1 ≤ k2 ∧ k2 ≤ (h.nz.toNat : Int)
      · rw [if_pos ⟨rfl, rfl, rfl, h1⟩, if_pos ⟨rfl, rfl, rfl, by omega, by omega⟩]
        unfold flatColumn
        rw [if_neg (by omega)]
      · rw [if_neg (fun hh => h1 hh.2.2.2)]
        by_cases hm : k2 = -1
        · subst hm
          rw [if_pos ⟨rfl, rfl, rfl, le_refl _, Or.inl (by decide)⟩]
          have e : (0 : Int) - 1 = -1 := rfl
          rw [e, Array4.set_same]
          unfold flatColumn
          rw [if_pos rfl]
        · by_cases h0 : k2 = 0
          · subst h0
            rw [if_pos ⟨rfl, rfl, rfl, by decide, Or.inl (le_refl _)⟩, Array4.set_apply,
              if_neg (fun hh => absurd hh.2.2.1 (by decide)), Array4.set_same]
            unfold flatColumn
            rw [if_neg (by decide)]
            rfl
          · have hn : ¬ (i2 = i2 ∧ j2 = j2 ∧ (0 : Int) = 0 ∧ -1 ≤ k2 ∧ (k2 ≤ 0 ∨ k2 ≤ h.nz)) := by
              intro hh
              apply h1
              omega
            rw [if_neg hn, Array4.set_apply, if_neg (fun hh => hm (by omega)), Array4.set_apply,
              if_neg (fun hh => h0 hh.2.2.1)]
    · rw [if_neg (fun hh => hc ⟨hh.1, hh.2.1, hh.2.2.1⟩),
        if_neg (fun hh => hc ⟨hh.1, hh.2.1, hh.2.2.1⟩), Array4.set_apply,
        if_neg (fun hh => hc ⟨hh.1, hh.2.1, hh.2.2.2⟩), Array4.set_apply,
        if_neg (fun hh => hc ⟨hh.1, hh.2.1, hh.2.2.2⟩)]

/-- A fold of kernels each of which stores, on a region of its own, values
that do not depend on the kernel nor on the arrays it finds. -/
theorem foldl_region_writes (f : Int → Int → Int → HseState → HseState)
    (W : Int × Int × Int → Int → Int → Int → Int → Prop)
    (V U : Int → Int → Int → Int → ℚ)
    (hin : ∀ c s i2 j2 k2 n2, W c i2 j2 k2 n2 →
      (f c.1 c.2.1 c.2.2 s).pres_arr i2 j2 k2 n2 = V i2 j2 k2 n2 ∧
      (f c.1 c.2.1 c.2.2 s).pi_arr i2 j2 k2 n2 = U i2 j2 k2 n2)
    (hout : ∀ c s i2 j2 k2 n2, ¬ W c i2 j2 k2 n2 →
      (f c.1 c.2.1 c.2.2 s).pres_arr i2 j2 k2 n2 = s.pres_arr i2 j2 k2 n2 ∧
      (f c.1 c.2.1 c.2.2 s).pi_arr i2 j2 k2 n2 = s.pi_arr i2 j2 k2 n2)
    (l : List (Int × Int × Int)) (s : HseState) (i2 j2 k2 n2 : Int) :
    ((∃ c ∈ l, W c i2 j2 k2 n2) →
      (l.foldl (fun s c => f c.1 c.2.1 c.2.2 s) s).pres_arr i2 j2 k2 n2 = V i2 j2 k2 n2 ∧
      (l.foldl (fun s c => f c.1 c.2.1 c.2.2 s) s).pi_arr i2 j2 k2 n2 = U i2 j2 k2 n2) ∧
    ((¬ ∃ c ∈ l, W c i2 j2 k2 n2) →
      (l.foldl (fun s c => f c.1 c.2.1 c.2.2 s) s).pres_arr i2 j2 k2 n2 = s.pres_arr i2 j2 k2 n2 ∧
      (l.foldl (fun s c => f c.1 c.2.1 c.2.2 s) s).pi_arr i2 j2 k2 n2 = s.pi_arr i2 j2 k2 n2) := by
  induction l generalizing s with
  | nil =>
    refine ⟨fun h => ?_, fun _ => ⟨rfl, rfl⟩⟩
    obtain ⟨c, hc, _⟩ := h
    cases hc
  | cons c l ih =>
    rw [List.foldl_cons]
    have ih2 := ih (f c.1 c.2.1 c.2.2 s)
    constructor
    · rintro ⟨d, hd, hW⟩
      by_cases hl : ∃ c ∈ l, W c i2 j2 k2 n2
      · exact ih2.1 hl
      · have hdc : d = c := by
          rcases List.mem_cons.1 hd with e | e
          · exact e
          · exact absurd ⟨d, e, hW⟩ hl
        subst hdc
        obtain ⟨e1, e2⟩ := ih2.2 hl
        rw [e1, e2]
        exact hin d s i2 j2 k2 n2 hW
    · intro hn
      have hl : ¬ ∃ c ∈ l, W c i2 j2 k2 n2 := by
        rintro ⟨d, hd, hW⟩
        exact hn ⟨d, List.mem_cons_of_mem _ hd, hW⟩
      have hc : ¬ W c i2 j2 k2 n2 := fun hW => hn ⟨c, List.mem_cons_self _ _, hW⟩
      obtain ⟨e1, e2⟩ := ih2.2 hl
      rw [e1, e2]
      exact hout c s i2 j2 k2 n2 hc

/-- A launch of a kernel that writes only its own cell leaves every cell
outside the box as it was. -/
theorem ParallelForState_frame (bx : Box) (f : Int → Int → Int → HseState → HseState)
    (hf : ∀ i j k s i2 j2 k2 n2, ¬ (i2 = i ∧ j2 = j ∧ k2 = k) →
      (f i j k s).pres_arr i2 j2 k2 n2 = s.pres_arr i2 j2 k2 n2 ∧
      (f i j k s).pi_arr i2 j2 k2 n2 = s.pi_arr i2 j2 k2 n2)
    (s : HseState) (i2 j2 k2 n2 : Int) (hb : ¬ bx.contains i2 j2 k2) :
    (ParallelForState bx f s).pres_arr i2 j2 k2 n2 = s.pres_arr i2 j2 k2 n2 ∧
    (ParallelForState bx f s).pi_arr i2 j2 k2 n2 = s.pi_arr i2 j2 k2 n2 := by
  unfold ParallelForState
  have key : ∀ l : List (Int × Int × Int), (i2, j2, k2) ∉ l → ∀ s : HseState,
      (l.foldl (fun s c => f c.1 c.2.1 c.2.2 s) s).pres_arr i2 j2 k2 n2 = s.pres_arr i2 j2 k2 n2 ∧
      (l.foldl (fun s c => f c.1 c.2.1 c.2.2 s) s).pi_arr i2 j2 k2 n2 = s.pi_arr i2 j2 k2 n2 := by
    intro l
    induction l with
    | nil => intro _ s; exact ⟨rfl, rfl⟩
    | cons c l ih =>
      intro hl s
      rw [List.foldl_cons]
      obtain ⟨e1, e2⟩ := ih (fun hm => hl (List.mem_cons_of_mem _ hm)) (f c.1 c.2.1 c.2.2 s)
      rw [e1, e2]
      refine hf _ _ _ s i2 j2 k2 n2 ?_
      rintro ⟨rfl, rfl, rfl⟩
      exact hl (List.mem_cons_self _ _)
  exact key _ (fun hm => hb ((mem_cells bx _ _ _).1 hm)) s

theorem hseCopyX_frame (x : HseExt) (h : HseArgs) (src : Int) (i j k : Int) (s : HseState)
    (i2 j2 k2 n2 : Int) (hne : ¬ (i2 = i ∧ j2 = j ∧ k2 = k)) :
    (hseCopyX x h src i j k s).pres_arr i2 j2 k2 n2 = s.pres_arr i2 j2 k2 n2 ∧
    (hseCopyX x h src i j k s).pi_arr i2 j2 k2 n2 = s.pi_arr i2 j2 k2 n2 := by
  simp only [hseCopyX, Array4.set_apply]
  rw [if_neg (fun hh => hne ⟨hh.1, hh.2.1, hh.2.2.1⟩), if_neg (fun hh => hne ⟨hh.1, hh.2.1, hh.2.2.1⟩)]
  exact ⟨rfl, rfl⟩

theorem hseCopyY_frame (x : HseExt) (h : HseArgs) (src : Int) (i j k : Int) (s : HseState)
    (i2 j2 k2 n2 : Int) (hne : ¬ (i2 = i ∧ j2 = j ∧ k2 = k)) :
    (hseCopyY x h src i j k s).pres_arr i2 j2 k2 n2 = s.pres_arr i2 j2 k2 n2 ∧
    (hseCopyY x h src i j k s).pi_arr i2 j2 k2 n2 = s.pi_arr i2 j2 k2 n2 := by
  simp only [hseCopyY, Array4.set_apply]
  rw [if_neg (fun hh => hne ⟨hh.1, hh.2.1, hh.2.2.1⟩), if_neg (fun hh => hne ⟨hh.1, hh.2.1, hh.2.2.1⟩)]
  exact ⟨rfl, rfl⟩

/-- The lateral ghost fills of `erf_enforce_hse` leave the columns inside the
domain as the column kernel made them. -/
theorem erf_enforce_hse_inside (x : HseExt) (h : HseArgs) (s : HseState) (i j k n : Int)
    (hi : h.domain.smallEnd.x ≤ i ∧ i ≤ h.domain.bigEnd.x)
    (hj : h.domain.smallEnd.y ≤ j ∧ j ≤ h.domain.bigEnd.y) :
    (erf_enforce_hse x h s).pres_arr i j k n =
      (ParallelForState h.b2d (hseColumnKernel x h) s).pres_arr i j k n ∧
    (erf_enforce_hse x h s).pi_arr i j k n =
      (ParallelForState h.b2d (hseColumnKernel x h) s).pi_arr i j k n := by
  have fx : ∀ (b : Box) (src v : Int) (t : HseState), (v < h.domain.smallEnd.x ∨
      h.domain.bigEnd.x < v) →
      (ParallelForState ((b.setSmall 0 v).setBig 0 v) (hseCopyX x h src) t).pres_arr i j k n =
        t.pres_arr i j k n ∧
      (ParallelForState ((b.setSmall 0 v).setBig 0 v) (hseCopyX x h src) t).pi_arr i j k n =
        t.pi_arr i j k n := by
    intro b src v t hv
    refine ParallelForState_frame _ _ (fun i j k s => hseCopyX_frame x h src i j k s) t i j k n ?_
    intro hc
    simp only [Box.contains, Box.setSmall, Box.setBig, IntVect.set] at hc
    omega
  have fy : ∀ (b : Box) (src v : Int) (t : HseState), (v < h.domain.smallEnd.y ∨
      h.domain.bigEnd.y < v) →
      (ParallelForState ((b.setSmall 1 v).setBig 1 v) (hseCopyY x h src) t).pres_arr i j k n =
        t.pres_arr i j k n ∧
      (ParallelForState ((b.setSmall 1 v).setBig 1 v) (hseCopyY x h src) t).pi_arr i j k n =
        t.pi_arr i j k n := by
    intro b src v t hv
    refine ParallelForState_frame _ _ (fun i j k s => hseCopyY_frame x h src i j k s) t i j k n ?_
    intro hc
    simp only [Box.contains, Box.setSmall, Box.setBig, IntVect.set] at hc
    omega
  have gx : ∀ (c : Prop) [Decidable c] (b : Box) (src v : Int) (t : HseState),
      (v < h.domain.smallEnd.x ∨ h.domain.bigEnd.x < v) →
      (if c then ParallelForState ((b.setSmall 0 v).setBig 0 v) (hseCopyX x h src) t
        else t).pres_arr i j k n = t.pres_arr i j k n ∧
      (if c then ParallelForState ((b.setSmall 0 v).setBig 0 v) (hseCopyX x h src) t
        else t).pi_arr i j k n = t.pi_arr i j k n := by
    intro c _ b src v t hv
    by_cases hc : c
    · rw [if_pos hc]
      exact fx b src v t hv
    · rw [if_neg hc]
      exact ⟨rfl, rfl⟩
  have gy : ∀ (c : Prop) [Decidable c] (b : Box) (src v : Int) (t : HseState),
      (v < h.domain.smallEnd.y ∨ h.domain.bigEnd.y < v) →
      (if c then ParallelForState ((b.setSmall 1 v).setBig 1 v) (hseCopyY x h src) t
        else t).pres_arr i j k n = t.pres_arr i j k n ∧
      (if c then ParallelForState ((b.setSmall 1 v).setBig 1 v) (hseCopyY x h src) t
        else t).pi_arr i j k n = t.pi_arr i j k n := by
    intro c _ b src v t hv
    by_cases hc : c
    · rw [if_pos hc]
      exact fy b src v t hv
    · rw [if_neg hc]
      exact ⟨rfl, rfl⟩
  unfold erf_enforce_hse
  simp only [IntVect.get]
  have h4 := gy (h.presbox.bigEnd.y > h.domain.bigEnd.y) (surroundingNodes h.tilebox 2)
    h.domain.bigEnd.y (h.domain.bigEnd.y + 1)
  have h3 := gy (h.presbox.smallEnd.y < h.domain.smallEnd.y) (surroundingNodes h.tilebox 2)
    h.domain.smallEnd.y (h.domain.smallEnd.y - 1)
  have h2 := gx (h.presbox.bigEnd.x > h.domain.bigEnd.x) (surroundingNodes h.tilebox 2)
    h.domain.bigEnd.x (h.domain.bigEnd.x + 1)
  have h1 := gx (h.presbox.smallEnd.x < h.domain.smallEnd.x) (surroundingNodes h.tilebox 2)
    h.domain.smallEnd.x (h.domain.smallEnd.x - 1)
  constructor
  · rw [(h4 _ (by omega)).1, (h3 _ (by omega)).1, (h2 _ (by omega)).1, (h1 _ (by omega)).1]
  · rw [(h4 _ (by omega)).2, (h3 _ (by omega)).2, (h2 _ (by omega)).2, (h1 _ (by omega)).2]

theorem b2d_contains (h : HseArgs) (i j k : Int) :
    h.b2d.contains i j k ↔
      (h.tilebox.smallEnd.x - 1 ≤ i ∧ i ≤ h.tilebox.bigEnd.x + 1) ∧
      (h.tilebox.smallEnd.y - 1 ≤ j ∧ j ≤ h.tilebox.bigEnd.y + 1) ∧ k = 0 := by
  simp only [HseArgs.b2d, Box.contains, Box.setRange, Box.growDir, Box.growLo, Box.growHi,
    Box.setSmall, Box.setBig, surroundingNodes, IntVect.set, IntVect.get]
  constructor
  · rintro ⟨h1, h2, h3⟩
    exact ⟨h1, h2, by omega⟩
  · rintro ⟨h1, h2, h3⟩
    exact ⟨h1, h2, by omega⟩

/-- Without terrain, `erf_enforce_hse` leaves `flatColumn` at the levels
`-1 .. nz` of every column of its kernel box that lies inside the domain. -/
theorem erf_enforce_hse_flat (x : HseExt) (h : HseArgs) (s : HseState) (i j k : Int)
    (ht : h.solverChoice.use_terrain = false) (hb : h.b2d.contains i j 0)
    (hi : h.domain.smallEnd.x ≤ i ∧ i ≤ h.domain.bigEnd.x)
    (hj : h.domain.smallEnd.y ≤ j ∧ j ≤ h.domain.bigEnd.y)
    (hk : -1 ≤ k ∧ (k ≤ 0 ∨ k ≤ h.nz)) :
    (erf_enforce_hse x h s).pres_arr i j k 0 = flatColumn x h i j k ∧
    (erf_enforce_hse x h s).pi_arr i j k 0 =
      x.getExnergivenP (flatColumn x h i j k) h.solverChoice.rdOcp := by
  obtain ⟨e1, e2⟩ := erf_enforce_hse_inside x h s i j k 0 hi hj
  rw [e1, e2]
  unfold ParallelForState
  refine (foldl_region_writes (hseColumnKernel x h)
    (fun c i2 j2 k2 n2 => i2 = c.1 ∧ j2 = c.2.1 ∧ n2 = 0 ∧ -1 ≤ k2 ∧ (k2 ≤ 0 ∨ k2 ≤ h.nz))
    (fun i2 j2 k2 _ => flatColumn x h i2 j2 k2)
    (fun i2 j2 k2 _ => x.getExnergivenP (flatColumn x h i2 j2 k2) h.solverChoice.rdOcp)
    ?_ ?_ h.b2d.cells s i j k 0).1 ⟨(i, j, 0), (mem_cells _ _ _ _).2 hb, rfl, rfl, rfl, hk⟩
  · intro c s i2 j2 k2 n2 hW
    rw [hseColumnKernel_flat x h _ _ _ s ht]
    simp only
    rw [if_pos hW, if_pos hW, hW.1, hW.2.1]
    exact ⟨rfl, rfl⟩
  · intro c s i2 j2 k2 n2 hW
    rw [hseColumnKernel_flat x h _ _ _ s ht]
    simp only
    rw [if_neg hW, if_neg hW]
    exact ⟨rfl, rfl⟩

theorem flatColumn_succ (x : HseExt) (h : HseArgs) (i j k : Int) (hk : 1 ≤ k) :
    flatColumn x h i j k = flatPressureStep h i j k (flatColumn x h i j (k - 1)) := by
  unfold flatColumn
  rw [if_neg (by omega), if_neg (by omega)]
  obtain ⟨m, hm⟩ : ∃ m : Nat, k = (m : Int) + 1 := ⟨(k - 1).toNat, by omega⟩
  subst hm
  have e1 : ((m : Int) + 1).toNat = m + 1 := by omega
  have e2 : ((m : Int) + 1 - 1).toNat = m := by omega
  rw [e1, e2]
  rfl

theorem readProfile_eq (ztop : ℚ) (lines : List SoundingLine) (d : InputSoundingData) (z0 : ℚ) :
    readProfile ztop lines d z0 =
      (d.withLevels ((consumed ztop lines).map storedLevel),
        ((consumed ztop lines).getLast?.map (fun l => l.z)).getD z0) := by
  induction lines generalizing d z0 with
  | nil =>
    simp [readProfile, consumed, InputSoundingData.withLevels]
  | cons l rest ih =>
    unfold readProfile consumed
    by_cases hz : l.z ≥ ztop
    · simp [hz, InputSoundingData.withLevels, InputSoundingData.push_back, storedLevel]
    · simp only [hz, if_false]
      rw [ih]
      have hne : ((l :: consumed ztop rest).getLast?.map (fun l => l.z)).getD z0 =
          ((consumed ztop rest).getLast?.map (fun l => l.z)).getD l.z := by
        cases hc : consumed ztop rest with
        | nil => simp
        | cons a t =>
          rw [List.getLast?_cons_cons]
          obtain ⟨x, hx⟩ : ∃ x, (a :: t).getLast? = some x :=
            ⟨_, List.getLast?_eq_getLast _ (List.cons_ne_nil a t)⟩
          rw [hx]
          rfl
      rw [hne]
      simp [InputSoundingData.withLevels, InputSoundingData.push_back, storedLevel]

theorem getD_append_two_fst (A : List ℚ) (a b : ℚ) : (A ++ [a, b]).getD A.length 0 = a := by
  induction A with
  | nil => rfl
  | cons x A ih => exact ih

theorem getD_append_two_snd (A : List ℚ) (a b : ℚ) :
    (A ++ [a, b]).getD (A.length + 1) 0 = b := by
  induction A with
  | nil => rfl
  | cons x A ih => exact ih

theorem set_append_two_snd (A : List ℚ) (a b c : ℚ) :
    (A ++ [a, b]).set (A.length + 1) c = A ++ [a, c] := by
  induction A with
  | nil => rfl
  | cons x A ih => simp [List.set, ih]

/-- The lines the loop consumes, when there is at least one profile line: a
run of lines below `ztop` and one more line, which is at or above `ztop`
unless the file ends with it. -/
theorem consumed_split (ztop : ℚ) (lines : List SoundingLine) (hne : lines ≠ []) :
    ∃ kept last, consumed ztop lines = kept ++ [last] ∧ (kept ++ [last]) <+: lines ∧
      (∀ l ∈ kept, l.z < ztop) ∧ (last.z < ztop → kept ++ [last] = lines) := by
  induction lines with
  | nil => exact absurd rfl hne
  | cons l rest ih =>
    unfold consumed
    by_cases hz : l.z ≥ ztop
    · refine ⟨[], l, by simp [hz], ?_, by simp, fun h => absurd hz (not_le.2 h)⟩
      exact ⟨rest, rfl⟩
    · rw [if_neg hz]
      by_cases hr : rest = []
      · subst hr
        refine ⟨[], l, by simp [consumed], List.prefix_refl _, by simp, fun _ => rfl⟩
      · obtain ⟨kept, last, h1, h2, h3, h4⟩ := ih hr
        refine ⟨l :: kept, last, by rw [h1]; rfl, ?_, ?_, ?_⟩
        · obtain ⟨t, ht⟩ := h2
          exact ⟨t, by rw [← ht]; rfl⟩
        · intro x hx
          rcases List.mem_cons.1 hx with rfl | hx
          · exact not_le.1 hz
          · exact h3 x hx
        · intro hl
          rw [List.cons_append, h4 hl]

theorem vecGet_append_two (A : List ℚ) (a b : ℚ) (n : Nat) (hn : A.length = n) :
    vecGet (A ++ [a, b]) (((n + 2 : Nat) : Int) - 2) = a ∧
    vecGet (A ++ [a, b]) (((n + 2 : Nat) : Int) - 1) = b := by
  subst hn
  unfold vecGet
  have e1 : (((A.length + 2 : Nat) : Int) - 2).toNat = A.length := by omega
  have e2 : (((A.length + 2 : Nat) : Int) - 1).toNat = A.length + 1 := by omega
  rw [if_pos (by omega), if_pos (by omega), e1, e2]
  exact ⟨getD_append_two_fst A a b, getD_append_two_snd A a b⟩

theorem size_withLevels (b : InputSoundingData) (ls : List SoundingLine)
    (h0 : b.z_inp_sound = [] ∧ b.theta_inp_sound = [] ∧ b.qv_inp_sound = [] ∧
      b.U_inp_sound = [] ∧ b.V_inp_sound = []) :
    (b.withLevels ls).size = Except.ok ((ls.length : Nat) : Int) := by
  obtain ⟨h1, h2, h3, h4, h5⟩ := h0
  simp [InputSoundingData.size, InputSoundingData.withLevels, h1, h2, h3, h4, h5]

/-- The adjustment of the top on the levels `Q ++ [prev, last]`. -/
theorem adjustTop_eval (ztop : ℚ) (b : InputSoundingData) (Q : List SoundingLine)
    (prev last : SoundingLine)
    (h0 : b.z_inp_sound = [] ∧ b.theta_inp_sound = [] ∧ b.qv_inp_sound = [] ∧
      b.U_inp_sound = [] ∧ b.V_inp_sound = []) :
    adjustTop ztop last.z (b.withLevels (Q ++ [prev, last])) =
      Except.ok (b.withLevels
        (if last.z = ztop then Q ++ [prev, last]
         else if last.z < ztop then Q ++ [prev, last, interpolatedTop ztop prev last]
         else Q ++ [prev, interpolatedTop ztop prev last])) := by
  unfold adjustTop
  by_cases hz : last.z = ztop
  · rw [if_neg (not_not.2 hz), if_pos hz]
    rfl
  · rw [if_pos hz, if_neg hz]
    simp only [bind, Except.bind]
    rw [size_withLevels b _ h0]
    simp only
    have hlen : (Q ++ [prev, last]).length = Q.length + 2 := by simp
    rw [hlen]
    obtain ⟨h1, h2, h3, h4, h5⟩ := h0
    have ez := vecGet_append_two (Q.map (fun l => l.z)) prev.z last.z Q.length (by simp)
    have et := vecGet_append_two (Q.map (fun l => l.theta)) prev.theta last.theta Q.length
      (by simp)
    have eq := vecGet_append_two (Q.map (fun l => l.qv)) prev.qv last.qv Q.length (by simp)
    have eu := vecGet_append_two (Q.map (fun l => l.U)) prev.U last.U Q.length (by simp)
    have ev := vecGet_append_two (Q.map (fun l => l.V)) prev.V last.V Q.length (by simp)
    have lz : (b.withLevels (Q ++ [prev, last])).z_inp_sound =
        Q.map (fun l => l.z) ++ [prev.z, last.z] := by
      simp [InputSoundingData.withLevels, h1]
    have lt : (b.withLevels (Q ++ [prev, last])).theta_inp_sound =
        Q.map (fun l => l.theta) ++ [prev.theta, last.theta] := by
      simp [InputSoundingData.withLevels, h2]
    have lq : (b.withLevels (Q ++ [prev, last])).qv_inp_sound =
        Q.map (fun l => l.qv) ++ [prev.qv, last.qv] := by
      simp [InputSoundingData.withLevels, h3]
    have lu : (b.withLevels (Q ++ [prev, last])).U_inp_sound =
        Q.map (fun l => l.U) ++ [prev.U, last.U] := by
      simp [InputSoundingData.withLevels, h4]
    have lv : (b.withLevels (Q ++ [prev, last])).V_inp_sound =
        Q.map (fun l => l.V) ++ [prev.V, last.V] := by
      simp [InputSoundingData.withLevels, h5]
    rw [lz, lt, lq, lu, lv, ez.1, ez.2, et.1, et.2, eq.1, eq.2, eu.1, eu.2, ev.1, ev.2]
    by_cases hlt : last.z < ztop
    · rw [if_pos hlt, if_pos hlt]
      simp [pure, Except.pure, InputSoundingData.push_back, InputSoundingData.withLevels,
        interpolatedTop, h1, h2, h3, h4, h5]
    · rw [if_neg hlt, if_neg hlt]
      have e3 : (((Q.length + 2 : Nat) : Int) - 1).toNat = Q.length + 1 := by omega
      rw [e3]
      have sz := set_append_two_snd (Q.map (fun l => l.z)) prev.z last.z ztop
      have st := set_append_two_snd (Q.map (fun l => l.theta)) prev.theta last.theta
      have sq := set_append_two_snd (Q.map (fun l => l.qv)) prev.qv last.qv
      have su := set_append_two_snd (Q.map (fun l => l.U)) prev.U last.U
      have sv := set_append_two_snd (Q.map (fun l => l.V)) prev.V last.V
      simp only [List.length_map] at sz st sq su sv
      rw [sz, st, sq, su, sv]
      simp [pure, Except.pure, InputSoundingData.withLevels, interpolatedTop, h1, h2, h3, h4, h5]

theorem surface_cons_split (f : SoundingFile) (kept : List SoundingLine) :
    ∃ Q, surfaceLevel f :: kept.map storedLevel = Q ++ [levelBelow f kept] := by
  have hne : surfaceLevel f :: kept.map storedLevel ≠ [] := List.cons_ne_nil _ _
  refine ⟨(surfaceLevel f :: kept.map storedLevel).dropLast, ?_⟩
  have h1 := List.dropLast_concat_getLast hne
  have h2 : (surfaceLevel f :: kept.map storedLevel).getLast hne = levelBelow f kept := by
    have h3 := List.getLast?_eq_getLast _ hne
    rw [List.getLast?_cons] at h3
    exact (Option.some.inj h3).symm
  rw [← h2]
  exact h1.symm

/-- The result of `read_from_file` for a file whose consumed profile lines
are `kept ++ [last]`: the stored levels are the surface, the scaled lines
`kept`, and then the scaled `last` when it is at `ztop`, the scaled `last`
followed by the extrapolated top when it is below, the interpolated top in
its place when it is above. -/
theorem read_from_file_eval (f : SoundingFile) (ztop z_uninit : ℚ) (d : InputSoundingData)
    (kept : List SoundingLine) (last : SoundingLine)
    (hC : consumed ztop f.profile = kept ++ [last]) :
    read_from_file (some f) ztop z_uninit d =
      Except.ok ((soundingBase f d).withLevels
        (if last.z = ztop then
          (surfaceLevel f :: kept.map storedLevel) ++ [storedLevel last]
         else if last.z < ztop then
          (surfaceLevel f :: kept.map storedLevel) ++ [storedLevel last,
            interpolatedTop ztop (levelBelow f kept) (storedLevel last)]
         else
          (surfaceLevel f :: kept.map storedLevel) ++ [
            interpolatedTop ztop (levelBelow f kept) (storedLevel last)])) := by
  have hb : (soundingBase f d).z_inp_sound = [] ∧ (soundingBase f d).theta_inp_sound = [] ∧
      (soundingBase f d).qv_inp_sound = [] ∧ (soundingBase f d).U_inp_sound = [] ∧
      (soundingBase f d).V_inp_sound = [] := ⟨rfl, rfl, rfl, rfl, rfl⟩
  obtain ⟨Q, hQ⟩ := surface_cons_split f kept
  have hz : (storedLevel last).z = last.z := rfl
  have key := adjustTop_eval ztop (soundingBase f d) Q (levelBelow f kept)
    (storedLevel last) hb
  have e1 : Q ++ [levelBelow f kept, storedLevel last] =
      (surfaceLevel f :: kept.map storedLevel) ++ [storedLevel last] := by
    rw [hQ]
    simp
  have e2 : ∀ t, Q ++ [levelBelow f kept, storedLevel last, t] =
      (surfaceLevel f :: kept.map storedLevel) ++ [storedLevel last, t] := by
    intro t
    rw [hQ]
    simp
  have e3 : ∀ t, Q ++ [levelBelow f kept, t] =
      (surfaceLevel f :: kept.map storedLevel) ++ [t] := by
    intro t
    rw [hQ]
    simp
  rw [e1, e2, e3, hz] at key
  have hstart : readProfile ztop f.profile
      ((soundingBase f d).push_back 0 f.theta_ref (f.qv_ref * 0.001) 0 0) z_uninit =
      ((soundingBase f d).withLevels ((surfaceLevel f :: kept.map storedLevel) ++
        [storedLevel last]), last.z) := by
    rw [readProfile_eq, hC]
    simp [InputSoundingData.withLevels, InputSoundingData.push_back, soundingBase, surfaceLevel,
      storedLevel]
  have hrun : read_from_file (some f) ztop z_uninit d =
      (adjustTop ztop (readProfile ztop f.profile
        ((soundingBase f d).push_back 0 f.theta_ref (f.qv_ref * 0.001) 0 0) z_uninit).2
        (readProfile ztop f.profile
        ((soundingBase f d).push_back 0 f.theta_ref (f.qv_ref * 0.001) 0 0) z_uninit).1).bind
        host_to_device := rfl
  rw [hrun, hstart, key]
  show host_to_device _ = _
  unfold host_to_device
  simp only [bind, Except.bind]
  rw [size_withLevels _ _ hb]
  rfl

theorem prefix_concat_unique (A L : List SoundingLine) (x y : SoundingLine)
    (hx : (A ++ [x]) <+: L) (hy : (A ++ [y]) <+: L) : x = y := by
  have hp : (A ++ [x]) <+: (A ++ [y]) :=
    List.prefix_of_prefix_length_le hx hy (by simp)
  have he : A ++ [x] = A ++ [y] := List.IsPrefix.eq_of_length hp (by simp)
  have := List.append_cancel_left he
  exact List.head_eq_of_cons_eq this

/-- The first phase of `init_params`: `use_gravity` is queried, `gravity` is
set from it, the QKE switches are not touched. -/
theorem init_terrain_gravity_fields (c : Constants) (pp : ParmParse) (sc : SolverChoice) :
    (init_terrain_gravity c pp sc).use_gravity = query pp.use_gravity sc.use_gravity ∧
    (init_terrain_gravity c pp sc).gravity =
      (if query pp.use_gravity sc.use_gravity = true then c.CONST_GRAV else 0) ∧
    (init_terrain_gravity c pp sc).use_QKE = sc.use_QKE ∧
    (init_terrain_gravity c pp sc).diffuse_QKE_3D = sc.diffuse_QKE_3D ∧
    (init_terrain_gravity c pp sc).advect_QKE = sc.advect_QKE := by
  unfold init_terrain_gravity
  refine ⟨rfl, ?_, rfl, rfl, rfl⟩
  simp only
  split_ifs <;> norm_num

theorem init_pbl_switches (pp : ParmParse) (sc sc1 : SolverChoice)
    (h : init_pbl pp sc = Except.ok sc1) :
    sc1.use_gravity = sc.use_gravity ∧ sc1.gravity = sc.gravity ∧
    sc1.diffuse_QKE_3D = sc.diffuse_QKE_3D ∧ sc1.advect_QKE = sc.advect_QKE := by
  unfold init_pbl at h
  by_cases hp : sc.pbl_type ≠ PBLType.None
  · rw [if_pos hp] at h
    by_cases hl : sc.les_type ≠ LESType.None
    · simp only [bind, Except.bind, pure, Except.pure, if_pos hl] at h
      injection h with h
      subst h
      exact ⟨rfl, rfl, rfl, rfl⟩
    · have hd : ¬ sc.les_type = LESType.Deardorff := by
        intro hd
        exact hl (by rw [hd]; decide)
      simp only [bind, Except.bind, pure, Except.pure, if_neg hl, if_neg hd] at h
      injection h with h
      subst h
      exact ⟨rfl, rfl, rfl, rfl⟩
  · rw [if_neg hp] at h
    injection h with h
    subst h
    exact ⟨rfl, rfl, rfl, rfl⟩

theorem init_constants_switches (pp : ParmParse) (sc : SolverChoice) :
    (init_constants pp sc).use_gravity = sc.use_gravity ∧
    (init_constants pp sc).gravity = sc.gravity ∧
    (init_constants pp sc).diffuse_QKE_3D =
      (if (init_constants pp sc).use_QKE = true then query pp.diffuse_QKE_3D sc.diffuse_QKE_3D
       else sc.diffuse_QKE_3D) ∧
    (init_constants pp sc).advect_QKE =
      (if (init_constants pp sc).use_QKE = true then query pp.advect_QKE sc.advect_QKE
       else sc.advect_QKE) := by
  unfold init_constants
  by_cases hp : sc.pbl_type = PBLType.MYNN25
  · simp [hp]
  · by_cases hq : sc.use_QKE = true
    · simp [hp, hq]
    · simp [hp, hq]

theorem init_forcing_switches (c : Constants) (pp : ParmParse) (sc : SolverChoice) :
    (init_forcing c pp sc).use_gravity = sc.use_gravity ∧
    (init_forcing c pp sc).gravity = sc.gravity ∧
    (init_forcing c pp sc).diffuse_QKE_3D = sc.diffuse_QKE_3D ∧
    (init_forcing c pp sc).advect_QKE = sc.advect_QKE := by
  unfold init_forcing build_coriolis_forcings
  simp only
  split_ifs <;> exact ⟨rfl, rfl, rfl, rfl⟩

/-- The gravity and QKE switches a returning call of `init_params` leaves in
the object. -/
theorem init_params_switches (c : Constants) (pp : ParmParse) (st : Statics) (sc : SolverChoice)
    (r : SolverChoice × Statics) (h : init_params c pp st sc = Except.ok r) :
    r.1.use_gravity = query pp.use_gravity sc.use_gravity ∧
    r.1.gravity = (if r.1.use_gravity = true then c.CONST_GRAV else 0) ∧
    r.1.diffuse_QKE_3D =
      (if r.1.use_QKE = true then query pp.diffuse_QKE_3D sc.diffuse_QKE_3D
       else sc.diffuse_QKE_3D) ∧
    r.1.advect_QKE =
      (if r.1.use_QKE = true then query pp.advect_QKE sc.advect_QKE else sc.advect_QKE) := by
  obtain ⟨les, mol, pbl, sc1, abl, ic, _, _, _, _, h5, _, _, hr⟩ :=
    init_params_ok_inv c pp st sc r h
  have ht := init_terrain_gravity_fields c pp sc
  have hp := init_pbl_switches pp _ sc1 h5
  have hc := init_constants_switches pp sc1
  have hf := init_forcing_switches c pp { init_constants pp sc1 with abl_driver_type := abl }
  have hfq := (init_forcing_fields c pp { init_constants pp sc1 with abl_driver_type := abl }).2.2.2.1
  have e1 : r.1.use_gravity = query pp.use_gravity sc.use_gravity := by
    rw [hr]
    exact hf.1.trans (hc.1.trans (hp.1.trans ht.1))
  have e2 : r.1.gravity = (if r.1.use_gravity = true then c.CONST_GRAV else 0) := by
    rw [e1, hr]
    exact hf.2.1.trans (hc.2.1.trans (hp.2.1.trans ht.2.1))
  have eq : r.1.use_QKE = (init_constants pp sc1).use_QKE := by
    rw [hr]
    exact hfq
  have e3 : r.1.diffuse_QKE_3D =
      (if r.1.use_QKE = true then query pp.diffuse_QKE_3D sc.diffuse_QKE_3D
       else sc.diffuse_QKE_3D) := by
    rw [eq, hr]
    refine hf.2.2.1.trans (hc.2.2.1.trans ?_)
    rw [hp.2.2.1]
    rfl
  have e4 : r.1.advect_QKE =
      (if r.1.use_QKE = true then query pp.advect_QKE sc.advect_QKE else sc.advect_QKE) := by
    rw [eq, hr]
    refine hf.2.2.2.trans (hc.2.2.2.trans ?_)
    rw [hp.2.2.2]
    rfl
  exact ⟨e1, e2, e3, e4⟩

theorem sample_init_ok (pp : ParmParse)
    (hl : pp.les_type = none) (hm : pp.molec_diff_type = none) (hp : pp.pbl_type = none)
    (ha : pp.abl_driver_type = none) (hi : pp.ic_bc_type = none) (c : Constants) :
    ∃ r, init_params c pp {} {} = Except.ok r := by
  simp +decide [init_params, bind, Except.bind, pure, Except.pure, query, parse_les_type,
    parse_molec_diff_type, parse_pbl_type, init_pbl, parse_abl_driver_type, parse_ic_bc_type,
    hl, hm, hp, ha, hi]

theorem vecGet_zeros (prim : Int) : vecGet [0, 0, 0, 0] prim = 0 := by
  unfold vecGet
  split_ifs with h
  · obtain ⟨n, hn⟩ : ∃ n : Nat, prim = n := ⟨prim.toNat, by omega⟩
    subst hn
    rw [Int.toNat_ofNat]
    match n with
    | 0 => rfl
    | 1 => rfl
    | 2 => rfl
    | 3 => rfl
    | n + 4 => rfl
  · rfl

/-- The vector `alpha_eff` of the turbulence-only set-up holds zeros. -/
theorem alpha_eff_turbulentOnly (p : DiffArgs) (prim : Int) :
    vecGet (alpha_eff p.turbulentOnly.solverChoice) prim = 0 := by
  have e : rangeInt 0 (NUM_PRIM - 1) = [0, 1, 2, 3] := by decide
  have h : alpha_eff p.turbulentOnly.solverChoice = [0, 0, 0, 0] := by
    unfold alpha_eff
    rw [e]
    simp [DiffArgs.turbulentOnly]
  rw [h, vecGet_zeros]

theorem alpha_eff_molecularOnly (p : DiffArgs) :
    alpha_eff p.molecularOnly.solverChoice = alpha_eff p.solverChoice := rfl

theorem diffMode_both (sc : SolverChoice)
    (hc : sc.molec_diff_type = MolecDiffType.ConstantAlpha) (ht : l_turb sc = true) :
    diffMode sc = DiffMode.RhoAlphaTurb := by
  simp [diffMode, l_consA, hc, ht]

theorem diffMode_molecularOnly (p : DiffArgs)
    (hc : p.solverChoice.molec_diff_type = MolecDiffType.ConstantAlpha) :
    diffMode p.molecularOnly.solverChoice = DiffMode.RhoAlpha := by
  simp [diffMode, l_consA, l_turb, DiffArgs.molecularOnly, hc]

theorem diffMode_turbulentOnly (p : DiffArgs) (ht : l_turb p.solverChoice = true) :
    diffMode p.turbulentOnly.solverChoice = DiffMode.AlphaTurb := by
  have h1 : l_turb p.turbulentOnly.solverChoice = true := ht
  have h2 : l_consA p.turbulentOnly.solverChoice = false := by
    simp [l_consA, DiffArgs.turbulentOnly]
  simp [diffMode, h1, h2]

/-- In the mode with both constant alpha and a closure the face diffusivity
is the sum of the one of the constant-alpha-only mode and the one of the
turbulence-only mode with zero molecular coefficients. -/
theorem faceDiff_both (p : DiffArgs)
    (hc : p.solverChoice.molec_diff_type = MolecDiffType.ConstantAlpha)
    (ht : l_turb p.solverChoice = true) (i j k prim : Int) :
    faceDiff_x (diffMode p.solverChoice) p i j k prim =
      faceDiff_x (diffMode p.molecularOnly.solverChoice) p.molecularOnly i j k prim +
      faceDiff_x (diffMode p.turbulentOnly.solverChoice) p.turbulentOnly i j k prim ∧
    faceDiff_y (diffMode p.solverChoice) p i j k prim =
      faceDiff_y (diffMode p.molecularOnly.solverChoice) p.molecularOnly i j k prim +
      faceDiff_y (diffMode p.turbulentOnly.solverChoice) p.turbulentOnly i j k prim ∧
    faceDiff_z (diffMode p.solverChoice) p i j k prim =
      faceDiff_z (diffMode p.molecularOnly.solverChoice) p.molecularOnly i j k prim +
      faceDiff_z (diffMode p.turbulentOnly.solverChoice) p.turbulentOnly i j k prim := by
  rw [diffMode_both _ hc ht, diffMode_molecularOnly p hc, diffMode_turbulentOnly p ht]
  simp only [faceDiff_x, faceDiff_y, faceDiff_z, alpha_eff_turbulentOnly,
    alpha_eff_molecularOnly, zero_add]
  exact ⟨rfl, rfl, rfl⟩

/-- A fold of array updates seen at one point `(i,j,k,q)`: the updates of the
elements outside `T` leave the point as it was, the update of an element `c`
in `T` maps the value `x` found there to `g c x`. -/
theorem foldl_point {α : Type} (f : α → Array4 → Array4) (i j k q : Int) (T : α → Prop)
    (g : α → ℚ → ℚ)
    (hin : ∀ c a, T c → f c a i j k q = g c (a i j k q))
    (hout : ∀ c a, ¬ T c → f c a i j k q = a i j k q)
    (l : List α) :
    (∀ a, (∀ c ∈ l, ¬ T c) → (l.foldl (fun s c => f c s) a) i j k q = a i j k q) ∧
    (∀ a c, T c → c ∈ l → (∀ d ∈ l, T d → d = c) → l.Nodup →
      (l.foldl (fun s c => f c s) a) i j k q = g c (a i j k q)) := by
  induction l with
  | nil =>
    refine ⟨fun a _ => rfl, fun a c _ hc => ?_⟩
    cases hc
  | cons d l ih =>
    refine ⟨fun a h => ?_, fun a c hT hc hu hn => ?_⟩
    · rw [List.foldl_cons, ih.1 _ (fun c hc => h c (List.mem_cons_of_mem _ hc)),
        hout d a (h d (List.mem_cons_self _ _))]
    · rw [List.foldl_cons]
      rw [List.nodup_cons] at hn
      by_cases hd : T d
      · have e : d = c := hu d (List.mem_cons_self _ _) hd
        subst e
        rw [ih.1 _ (fun c hc hTc => hn.1 ((hu c (List.mem_cons_of_mem _ hc) hTc) ▸ hc)),
          hin d a hT]
      · have hcl : c ∈ l := by
          rcases List.mem_cons.1 hc with e | e
          · exact absurd (e ▸ hT) hd
          · exact e
        rw [ih.2 _ c hT hcl (fun x hx => hu x (List.mem_cons_of_mem _ hx)) hn.2, hout d a hd]

/-- A launch leaves a point as it was when no kernel call of the launch
changes it. -/
theorem ParallelFor_point_frame (bx : Box) (f : Int → Int → Int → Array4 → Array4)
    (i2 j2 k2 q2 : Int)
    (hf : ∀ i j k a, bx.contains i j k → f i j k a i2 j2 k2 q2 = a i2 j2 k2 q2) (a : Array4) :
    ParallelFor bx f a i2 j2 k2 q2 = a i2 j2 k2 q2 := by
  unfold ParallelFor
  have key : ∀ l : List (Int × Int × Int), (∀ c ∈ l, bx.contains c.1 c.2.1 c.2.2) →
      ∀ a, l.foldl (fun s c => f c.1 c.2.1 c.2.2 s) a i2 j2 k2 q2 = a i2 j2 k2 q2 := by
    intro l
    induction l with
    | nil => intro _ a; rfl
    | cons c l ih =>
      intro hl a
      rw [List.foldl_cons, ih (fun d hd => hl d (List.mem_cons_of_mem _ hd)),
        hf _ _ _ _ (hl c (List.mem_cons_self _ _))]
  exact key _ (fun c hc => (mem_cells bx c.1 c.2.1 c.2.2).1 hc) a

/-- A launch over components leaves a point as it was when no kernel call of
the launch changes it. -/
theorem ParallelForN_point_frame (bx : Box) (ncomp : Int)
    (f : Int → Int → Int → Int → Array4 → Array4) (i2 j2 k2 q2 : Int)
    (hf : ∀ i j k n a, bx.contains i j k → 0 ≤ n → n ≤ ncomp - 1 →
      f i j k n a i2 j2 k2 q2 = a i2 j2 k2 q2) (a : Array4) :
    ParallelForN bx ncomp f a i2 j2 k2 q2 = a i2 j2 k2 q2 := by
  unfold ParallelForN
  have key : ∀ l : List Int, (∀ n ∈ l, 0 ≤ n ∧ n ≤ ncomp - 1) →
      ∀ a, l.foldl (fun s n => ParallelFor bx (fun i j k => f i j k n) s) a i2 j2 k2 q2
        = a i2 j2 k2 q2 := by
    intro l
    induction l with
    | nil => intro _ a; rfl
    | cons n l ih =>
      intro hl a
      have hn := hl n (List.mem_cons_self _ _)
      rw [List.foldl_cons, ih (fun d hd => hl d (List.mem_cons_of_mem _ hd)),
        ParallelFor_point_frame bx _ i2 j2 k2 q2 (fun i j k a hc => hf i j k n a hc hn.1 hn.2)]
  exact key _ (fun n hn => (mem_rangeInt _ _ _).1 hn) a

/-- A launch seen at one point that exactly one kernel call, the one of cell
`(i,j,k)`, changes. -/
theorem ParallelFor_point_hit (bx : Box) (f : Int → Int → Int → Array4 → Array4)
    (i2 j2 k2 q2 : Int) (T : Int × Int × Int → Prop) (g : Int × Int × Int → ℚ → ℚ)
    (hin : ∀ c a, T c → f c.1 c.2.1 c.2.2 a i2 j2 k2 q2 = g c (a i2 j2 k2 q2))
    (hout : ∀ c a, ¬ T c → f c.1 c.2.1 c.2.2 a i2 j2 k2 q2 = a i2 j2 k2 q2)
    (c : Int × Int × Int) (hT : T c) (hc : bx.contains c.1 c.2.1 c.2.2)
    (hu : ∀ d, bx.contains d.1 d.2.1 d.2.2 → T d → d = c) (a : Array4) :
    ParallelFor bx f a i2 j2 k2 q2 = g c (a i2 j2 k2 q2) := by
  unfold ParallelFor
  exact (foldl_point (fun c a => f c.1 c.2.1 c.2.2 a) i2 j2 k2 q2 T g hin hout bx.cells).2 a c hT
    ((mem_cells bx c.1 c.2.1 c.2.2).2 hc)
    (fun d hd hTd => hu d ((mem_cells bx d.1 d.2.1 d.2.2).1 hd) hTd) (nodup_cells bx)

/-- A launch over components seen at a point that only the kernel calls of
component `n` change, with `0 ≤ n ≤ ncomp - 1`, the launch of that component
mapping the value `x` found there to `g x`. -/
theorem ParallelForN_point_hit (bx : Box) (ncomp : Int)
    (f : Int → Int → Int → Int → Array4 → Array4) (i2 j2 k2 q2 : Int) (n : Int)
    (hn : 0 ≤ n ∧ n ≤ ncomp - 1) (g : ℚ → ℚ)
    (hthis : ∀ a, ParallelFor bx (fun i j k => f i j k n) a i2 j2 k2 q2 = g (a i2 j2 k2 q2))
    (hother : ∀ i j k m a, m ≠ n → f i j k m a i2 j2 k2 q2 = a i2 j2 k2 q2) (a : Array4) :
    ParallelForN bx ncomp f a i2 j2 k2 q2 = g (a i2 j2 k2 q2) := by
  unfold ParallelForN
  exact (foldl_point (fun m a => ParallelFor bx (fun i j k => f i j k m) a) i2 j2 k2 q2
    (fun m => m = n) (fun _ x => g x)
    (fun m a hm => by
      have e : m = n := hm
      subst e
      exact hthis a)
    (fun m a hm => ParallelFor_point_frame bx _ i2 j2 k2 q2
      (fun i j k a _ => hother i j k m a hm) a)
    (rangeInt 0 (ncomp - 1))).2 a n rfl ((mem_rangeInt _ _ _).2 hn) (fun d _ hd => hd)
    (nodup_rangeInt _ _)

/-- The kernel over `planexy` seen at a point: the bottom and the top face
of its column and component lose their corrections, every other point stays. -/
theorem zfluxEndsKernel_apply (tm : TerrainMetrics) (p : DiffArgs) (k_lo k_hi : Int)
    (xf yf : Array4) (hk : k_lo ≠ k_hi) (i j k n : Int) (a : Array4) (i2 j2 k2 q2 : Int) :
    zfluxEndsKernel tm p k_lo k_hi xf yf i j k n a i2 j2 k2 q2 =
      if (i2 = i ∧ j2 = j) ∧ q2 = p.n_start + n then
        (if k2 = k_lo then a i2 j2 k2 q2 - bottomCorrection tm p xf yf k_lo i2 j2 q2
         else if k2 = k_hi then a i2 j2 k2 q2 - topCorrection tm p xf yf k_hi i2 j2 q2
         else a i2 j2 k2 q2)
      else a i2 j2 k2 q2 := by
  simp only [zfluxEndsKernel, Array4.set_apply, bottomCorrection, topCorrection]
  by_cases h1 : (i2 = i ∧ j2 = j) ∧ q2 = p.n_start + n
  · obtain ⟨⟨rfl, rfl⟩, rfl⟩ := h1
    by_cases h2 : k2 = k_lo
    · subst h2
      simp [hk]
    · by_cases h3 : k2 = k_hi
      · subst h3
        simp [h2, Ne.symm hk]
      · simp [h2, h3]
  · rw [if_neg h1]
    have e1 : ¬ (i2 = i ∧ j2 = j ∧ k2 = k_hi ∧ q2 = p.n_start + n) :=
      fun h => h1 ⟨⟨h.1, h.2.1⟩, h.2.2.2⟩
    have e2 : ¬ (i2 = i ∧ j2 = j ∧ k2 = k_lo ∧ q2 = p.n_start + n) :=
      fun h => h1 ⟨⟨h.1, h.2.1⟩, h.2.2.2⟩
    rw [if_neg e1, if_neg e2]

theorem zfluxInteriorKernel_own (tm : TerrainMetrics) (p : DiffArgs) (xf yf : Array4)
    (i j k n : Int) (a : Array4) :
    zfluxInteriorKernel tm p xf yf i j k n a =
      a.set i j k (p.n_start + n)
        (ownValue (fun i j k => zfluxInteriorKernel tm p xf yf i j k n) (p.n_start + n) i j k
          (a i j k (p.n_start + n))) := by
  simp only [zfluxInteriorKernel, ownValue, Array4.set_same, Array4.const]

/-- The launch over `planexy`: on the z-faces of the box it subtracts the
bottom correction at `k_lo`, the top correction at `k_hi`, and leaves the
faces in between as they were. -/
theorem endsPass_apply (tm : TerrainMetrics) (p : DiffArgs) (xf yf a : Array4)
    (hz : p.bx.smallEnd.z ≤ p.bx.bigEnd.z) (i j k q : Int)
    (hb : (surroundingNodes p.bx 2).contains i j k) (hq : p.n_start ≤ q ∧ q ≤ p.n_end) :
    ParallelForN ((surroundingNodes p.bx 2).setBig 2 ((surroundingNodes p.bx 2).smallEnd.get 2))
        (p.n_end - p.n_start + 1)
        (zfluxEndsKernel tm p ((surroundingNodes p.bx 2).smallEnd.get 2)
          ((surroundingNodes p.bx 2).bigEnd.get 2) xf yf) a i j k q =
      if k = (surroundingNodes p.bx 2).smallEnd.get 2 then
        a i j k q - bottomCorrection tm p xf yf ((surroundingNodes p.bx 2).smallEnd.get 2) i j q
      else if k = (surroundingNodes p.bx 2).bigEnd.get 2 then
        a i j k q - topCorrection tm p xf yf ((surroundingNodes p.bx 2).bigEnd.get 2) i j q
      else a i j k q := by
  have hlo : (surroundingNodes p.bx 2).smallEnd.get 2 = p.bx.smallEnd.z := rfl
  have hhi : (surroundingNodes p.bx 2).bigEnd.get 2 = p.bx.bigEnd.z + 1 := rfl
  have hk : (surroundingNodes p.bx 2).smallEnd.get 2 ≠ (surroundingNodes p.bx 2).bigEnd.get 2 := by
    rw [hlo, hhi]
    omega
  have hcont : ∀ d : Int × Int × Int,
      ((surroundingNodes p.bx 2).setBig 2 ((surroundingNodes p.bx 2).smallEnd.get 2)).contains
        d.1 d.2.1 d.2.2 ↔
      ((p.bx.smallEnd.x ≤ d.1 ∧ d.1 ≤ p.bx.bigEnd.x) ∧ (p.bx.smallEnd.y ≤ d.2.1 ∧ d.2.1 ≤ p.bx.bigEnd.y)
        ∧ d.2.2 = p.bx.smallEnd.z) := by
    intro d
    simp only [Box.contains, surroundingNodes, Box.setBig, IntVect.set, IntVect.get]
    constructor
    · rintro ⟨h1, h2, h3⟩
      exact ⟨h1, h2, le_antisymm h3.2 h3.1⟩
    · rintro ⟨h1, h2, h3⟩
      exact ⟨h1, h2, by omega⟩
  have hbx : (p.bx.smallEnd.x ≤ i ∧ i ≤ p.bx.bigEnd.x) ∧ (p.bx.smallEnd.y ≤ j ∧ j ≤ p.bx.bigEnd.y)
      ∧ (p.bx.smallEnd.z ≤ k ∧ k ≤ p.bx.bigEnd.z + 1) := by
    simpa only [Box.contains, surroundingNodes, IntVect.set, IntVect.get] using hb
  rw [ParallelForN_point_hit _ _ _ i j k q (q - p.n_start) (by omega)
    (fun x => if k = (surroundingNodes p.bx 2).smallEnd.get 2 then
        x - bottomCorrection tm p xf yf ((surroundingNodes p.bx 2).smallEnd.get 2) i j q
      else if k = (surroundingNodes p.bx 2).bigEnd.get 2 then
        x - topCorrection tm p xf yf ((surroundingNodes p.bx 2).bigEnd.get 2) i j q
      else x)]
  · intro a
    refine ParallelFor_point_hit _ _ i j k q (fun c => c.1 = i ∧ c.2.1 = j)
      (fun _ x => if k = (surroundingNodes p.bx 2).smallEnd.get 2 then
          x - bottomCorrection tm p xf yf ((surroundingNodes p.bx 2).smallEnd.get 2) i j q
        else if k = (surroundingNodes p.bx 2).bigEnd.get 2 then
          x - topCorrection tm p xf yf ((surroundingNodes p.bx 2).bigEnd.get 2) i j q
        else x) ?_ ?_
      (i, j, p.bx.smallEnd.z) ⟨rfl, rfl⟩ ((hcont _).2 ⟨hbx.1, hbx.2.1, rfl⟩) ?_ a
    · rintro ⟨c1, c2, c3⟩ a ⟨h1, h2⟩
      simp only at h1 h2
      subst h1 h2
      have e : p.n_start + (q - p.n_start) = q := by omega
      rw [zfluxEndsKernel_apply tm p _ _ xf yf hk, if_pos ⟨⟨rfl, rfl⟩, e.symm⟩]
    · rintro ⟨c1, c2, c3⟩ a hT
      rw [zfluxEndsKernel_apply tm p _ _ xf yf hk, if_neg]
      rintro ⟨⟨h1, h2⟩, _⟩
      exact hT ⟨h1.symm, h2.symm⟩
    · rintro ⟨d1, d2, d3⟩ hd ⟨h1, h2⟩
      have := (hcont (d1, d2, d3)).1 hd
      simp only at h1 h2 this
      rw [h1, h2, this.2.2]
  · intro i1 j1 k1 m a hm
    rw [zfluxEndsKernel_apply tm p _ _ xf yf hk, if_neg]
    rintro ⟨_, h⟩
    exact hm (by omega)

/-- The z-flux after the two correction passes, on the z-faces of a box with
at least one cell in z: the bottom face loses the bottom correction, the top
face the top correction, every face in between the interior correction. -/
theorem correctFluxes_zflux_apply (tm : TerrainMetrics) (p : DiffArgs) (s : DiffState)
    (hz : p.bx.smallEnd.z ≤ p.bx.bigEnd.z) (i j k q : Int)
    (hb : (surroundingNodes p.bx 2).contains i j k) (hq : p.n_start ≤ q ∧ q ≤ p.n_end) :
    (correctFluxes tm p s).zflux i j k q =
      s.zflux i j k q -
        (if k = p.bx.smallEnd.z then
          bottomCorrection tm p s.xflux s.yflux p.bx.smallEnd.z i j q
         else if k = p.bx.bigEnd.z + 1 then
          topCorrection tm p s.xflux s.yflux (p.bx.bigEnd.z + 1) i j q
         else interiorCorrection tm p s.xflux s.yflux i j k q) := by
  have hbx : (p.bx.smallEnd.x ≤ i ∧ i ≤ p.bx.bigEnd.x) ∧ (p.bx.smallEnd.y ≤ j ∧ j ≤ p.bx.bigEnd.y)
      ∧ (p.bx.smallEnd.z ≤ k ∧ k ≤ p.bx.bigEnd.z + 1) := by
    simpa only [Box.contains, surroundingNodes, IntVect.set, IntVect.get] using hb
  have h3 : (((surroundingNodes p.bx 2).growLo 2 (-1)).growHi 2 (-1)).contains i j k ↔
      (p.bx.smallEnd.z + 1 ≤ k ∧ k ≤ p.bx.bigEnd.z) := by
    simp only [Box.contains, surroundingNodes, Box.growLo, Box.growHi, IntVect.set, IntVect.get]
    constructor
    · rintro ⟨_, _, h⟩
      omega
    · intro h
      exact ⟨hbx.1, hbx.2.1, by omega⟩
  have hlo : (surroundingNodes p.bx 2).smallEnd.get 2 = p.bx.smallEnd.z := rfl
  have hhi : (surroundingNodes p.bx 2).bigEnd.get 2 = p.bx.bigEnd.z + 1 := rfl
  simp only [correctFluxes]
  rw [ParallelForN_apply _ _ p.n_start _ _ (zfluxInteriorKernel_own tm p s.xflux s.yflux),
    endsPass_apply tm p s.xflux s.yflux s.zflux hz i j k q hb hq, hlo, hhi]
  have e : p.n_start + (q - p.n_start) = q := by omega
  by_cases h1 : k = p.bx.smallEnd.z
  · rw [if_pos h1, if_pos h1, if_neg]
    rintro ⟨h, _⟩
    have := h3.1 h
    omega
  · by_cases h2 : k = p.bx.bigEnd.z + 1
    · rw [if_neg h1, if_neg h1, if_pos h2, if_pos h2, if_neg]
      rintro ⟨h, _⟩
      have := h3.1 h
      omega
    · rw [if_neg h1, if_neg h1, if_neg h2, if_neg h2, if_pos ⟨h3.2 (by omega), by omega⟩]
      simp only [ownValue, zfluxInteriorKernel, interiorCorrection, Array4.set_same,
        Array4.const, e]

/-- The correction passes leave every component of the z-flux outside
`n_start..n_end` as it was. -/
theorem correctFluxes_zflux_other (tm : TerrainMetrics) (p : DiffArgs) (s : DiffState)
    (hz : p.bx.smallEnd.z ≤ p.bx.bigEnd.z) (i j k q : Int)
    (hq : ¬ (p.n_start ≤ q ∧ q ≤ p.n_end)) :
    (correctFluxes tm p s).zflux i j k q = s.zflux i j k q := by
  have hk : (surroundingNodes p.bx 2).smallEnd.get 2 ≠ (surroundingNodes p.bx 2).bigEnd.get 2 := by
    show p.bx.smallEnd.z ≠ p.bx.bigEnd.z + 1
    omega
  simp only [correctFluxes]
  rw [ParallelForN_apply _ _ p.n_start _ _ (zfluxInteriorKernel_own tm p s.xflux s.yflux),
    if_neg (fun h => hq (by omega))]
  refine ParallelForN_point_frame _ _ _ i j k q (fun i1 j1 k1 n a _ h0 h1 => ?_) _
  rw [zfluxEndsKernel_apply tm p _ _ s.xflux s.yflux hk, if_neg]
  rintro ⟨_, h⟩
  exact hq (by omega)

/-- The raw x-flux on the faces of the launch does not depend on what the
flux array held before the call. -/
theorem rawFluxes_xflux_indep (tm : TerrainMetrics) (p : DiffArgs) (s s2 : DiffState)
    (i j k q : Int) (hb : (surroundingNodes p.bx 0).contains i j k)
    (hq : p.n_start ≤ q ∧ q ≤ p.n_end) :
    (rawFluxes tm p s2).xflux i j k q = (rawFluxes tm p s).xflux i j k q := by
  rw [rawFluxes_xflux tm p s i j k q hb hq, rawFluxes_xflux tm p s2 i j k q hb hq]

theorem rawFluxes_yflux_indep (tm : TerrainMetrics) (p : DiffArgs) (s s2 : DiffState)
    (i j k q : Int) (hb : (surroundingNodes p.bx 1).contains i j k)
    (hq : p.n_start ≤ q ∧ q ≤ p.n_end) :
    (rawFluxes tm p s2).yflux i j k q = (rawFluxes tm p s).yflux i j k q := by
  rw [rawFluxes_yflux tm p s i j k q hb hq, rawFluxes_yflux tm p s2 i j k q hb hq]

theorem rawFluxes_zflux_indep (tm : TerrainMetrics) (p : DiffArgs) (s s2 : DiffState)
    (i j k q : Int) (hb : (surroundingNodes p.bx 2).contains i j k)
    (hq : p.n_start ≤ q ∧ q ≤ p.n_end) :
    (rawFluxes tm p s2).zflux i j k q = (rawFluxes tm p s).zflux i j k q := by
  rw [rawFluxes_zflux tm p s i j k q hb hq, rawFluxes_zflux tm p s2 i j k q hb hq]

/-- On the slope example the raw x-flux is `2` on every x-face of the box and
the raw z-flux is `0` on every z-face, whatever the arrays held before. -/
theorem inclineArgs_raw (tm : TerrainMetrics)
    (hxi : ∀ i j k, tm.Compute_h_xi_AtIface i j k inclineArgs.dxInv inclineArgs.z_nd = 0)
    (hzeta : ∀ i j k, tm.Compute_h_zeta_AtIface i j k inclineArgs.dxInv inclineArgs.z_nd = 1)
    (s : DiffState) (i j k : Int) :
    ((surroundingNodes inclineArgs.bx 0).contains i j k →
      (rawFluxes tm inclineArgs s).xflux i j k RhoTheta_comp = 2) ∧
    ((surroundingNodes inclineArgs.bx 2).contains i j k →
      (rawFluxes tm inclineArgs s).zflux i j k RhoTheta_comp = 0) := by
  have hm : diffMode inclineArgs.solverChoice = DiffMode.RhoAlpha := by decide
  have ha : vecGet (alpha_eff inclineArgs.solverChoice) (RhoTheta_comp - qty_offset) = 2 := by
    have e1 : inclineArgs.solverChoice.molec_diff_type = MolecDiffType.ConstantAlpha := rfl
    have e2 : RhoTheta_comp - qty_offset = PrimTheta_comp := by decide
    rw [alpha_eff_get _ _ (by decide) (by decide), if_pos e1, if_pos e2]
    rfl
  refine ⟨fun hb => ?_, fun hb => ?_⟩
  · rw [rawFluxes_xflux tm inclineArgs s i j k RhoTheta_comp hb (by decide), hm, hxi, hzeta]
    simp only [faceDiff_x, ha]
    norm_num [inclineArgs, keArgs, Array4.const]
  · rw [rawFluxes_zflux tm inclineArgs s i j k RhoTheta_comp hb (by decide), hm]
    simp only [faceDiff_z, ha]
    norm_num [inclineArgs, keArgs, Array4.const]

/-- The kernel over `planexy` writes the component `n_start + n` only. -/
theorem zfluxEndsKernel_other (tm : TerrainMetrics) (p : DiffArgs) (k_lo k_hi : Int)
    (xf yf : Array4) (i j k n : Int) (a : Array4) (i2 j2 k2 q2 : Int)
    (hq : q2 ≠ p.n_start + n) :
    zfluxEndsKernel tm p k_lo k_hi xf yf i j k n a i2 j2 k2 q2 = a i2 j2 k2 q2 := by
  simp only [zfluxEndsKernel, Array4.set_apply]
  rw [if_neg (fun h => hq h.2.2.2), if_neg (fun h => hq h.2.2.2)]

/-- The flux arrays keep every component outside `n_start..n_end`. -/
theorem DiffusionSrcForState_T_flux_frame (tm : TerrainMetrics) (cl : Closures) (p : DiffArgs)
    (s : DiffState) (i j k q : Int) (hq : ¬ (p.n_start ≤ q ∧ q ≤ p.n_end)) :
    (DiffusionSrcForState_T tm cl p s).xflux i j k q = s.xflux i j k q ∧
    (DiffusionSrcForState_T tm cl p s).yflux i j k q = s.yflux i j k q ∧
    (DiffusionSrcForState_T tm cl p s).zflux i j k q = s.zflux i j k q := by
  have hn : ¬ (p.n_start ≤ q ∧ q ≤ p.n_start + (p.n_end - p.n_start + 1) - 1) :=
    fun h => hq (by omega)
  refine ⟨?_, ?_, ?_⟩
  · show (correctFluxes tm p (rawFluxes tm p s)).xflux i j k q = _
    simp only [correctFluxes, rawFluxes]
    rw [ParallelForN_apply _ _ p.n_start _ _ (xfluxScaleKernel_own tm p), if_neg (fun h => hn h.2),
      ParallelForN_apply _ _ p.n_start _ _ (xfluxKernel_own tm _ p), if_neg (fun h => hn h.2)]
  · show (correctFluxes tm p (rawFluxes tm p s)).yflux i j k q = _
    simp only [correctFluxes, rawFluxes]
    rw [ParallelForN_apply _ _ p.n_start _ _ (yfluxScaleKernel_own tm p), if_neg (fun h => hn h.2),
      ParallelForN_apply _ _ p.n_start _ _ (yfluxKernel_own tm _ p), if_neg (fun h => hn h.2)]
  · show (correctFluxes tm p (rawFluxes tm p s)).zflux i j k q = _
    simp only [correctFluxes, rawFluxes]
    rw [ParallelForN_apply _ _ p.n_start _ _ (zfluxInteriorKernel_own tm p _ _),
      if_neg (fun h => hn h.2),
      ParallelForN_point_frame _ _ _ i j k q (fun i1 j1 k1 n a _ h0 h1 =>
        zfluxEndsKernel_other tm p _ _ _ _ i1 j1 k1 n a i j k q (fun h => hq (by omega))),
      ParallelForN_apply _ _ p.n_start _ _ (zfluxKernel_own tm _ p), if_neg (fun h => hn h.2)]

/-- The TKE and QKE sources change the tendency only inside the box, and
there only at the TKE component (Deardorff, `n_end ≥ RhoKE_comp`) and the QKE
component (QKE advected, `n_end ≥ RhoQKE_comp`). -/
theorem keSources_frame (tm : TerrainMetrics) (cl : Closures) (p : DiffArgs) (s : DiffState)
    (i j k q : Int)
    (h : ¬ p.bx.contains i j k ∨
      (¬ (p.solverChoice.les_type = LESType.Deardorff ∧ q = RhoKE_comp ∧ RhoKE_comp ≤ p.n_end) ∧
       ¬ ((p.solverChoice.use_QKE = true ∧ p.solverChoice.advect_QKE = true) ∧
          q = RhoQKE_comp ∧ RhoQKE_comp ≤ p.n_end))) :
    (keSources tm cl p s).cell_rhs i j k q = s.cell_rhs i j k q := by
  simp only [keSources]
  have h1 : ∀ r : Array4,
      (if (decide (p.solverChoice.les_type = LESType.Deardorff) = true ∧ p.n_end ≥ RhoKE_comp)
        then ParallelFor p.bx (deardorffKernel tm cl p) r else r) i j k q = r i j k q := by
    intro r
    split_ifs with hc
    · rw [ParallelFor_apply p.bx RhoKE_comp _ _ (deardorffKernel_own tm cl p), if_neg]
      rintro ⟨hb, hq⟩
      rcases h with h | h
      · exact h hb
      · exact h.1 ⟨by simpa using hc.1, hq, hc.2⟩
    · rfl
  have h2 : ∀ r : Array4,
      (if ((p.solverChoice.use_QKE && p.solverChoice.advect_QKE) = true ∧ p.n_end ≥ RhoQKE_comp)
        then ParallelFor p.bx (qkeKernel cl p) r else r) i j k q = r i j k q := by
    intro r
    split_ifs with hc
    · rw [ParallelFor_apply p.bx RhoQKE_comp _ _ (qkeKernel_own cl p), if_neg]
      rintro ⟨hb, hq⟩
      rcases h with h | h
      · exact h hb
      · exact h.2 ⟨by simpa using hc.1, hq, hc.2⟩
    · rfl
  exact (h2 _).trans (h1 _)

/-- Under the Deardorff closure with `RhoKE_comp ≤ n_end` and the TKE
component outside `n_start..n_end`, the TKE tendency of a cell of the box is
what the Deardorff kernel makes of the incoming value. -/
theorem DiffusionSrcForState_T_ke_outside (tm : TerrainMetrics) (cl : Closures) (p : DiffArgs)
    (s : DiffState) (i j k : Int) (hb : p.bx.contains i j k)
    (hq : ¬ (p.n_start ≤ RhoKE_comp ∧ RhoKE_comp ≤ p.n_end)) (he : RhoKE_comp ≤ p.n_end)
    (hd : p.solverChoice.les_type = LESType.Deardorff) :
    (DiffusionSrcForState_T tm cl p s).cell_rhs i j k RhoKE_comp =
      ownValue (deardorffKernel tm cl p) RhoKE_comp i j k (s.cell_rhs i j k RhoKE_comp) := by
  unfold DiffusionSrcForState_T
  simp only [keSources]
  have h2 : ∀ r : Array4,
      (if ((p.solverChoice.use_QKE && p.solverChoice.advect_QKE) = true ∧ p.n_end ≥ RhoQKE_comp)
        then ParallelFor p.bx (qkeKernel cl p) r else r) i j k RhoKE_comp = r i j k RhoKE_comp := by
    intro r
    split_ifs with h
    · rw [ParallelFor_apply p.bx RhoQKE_comp _ _ (qkeKernel_own cl p), if_neg]
      rintro ⟨_, hq⟩
      exact absurd hq (by decide)
    · rfl
  refine (h2 _).trans ?_
  have hp : p.bx.contains i j k ∧ RhoKE_comp = RhoKE_comp := ⟨hb, rfl⟩
  have hc : decide (p.solverChoice.les_type = LESType.Deardorff) = true ∧ p.n_end ≥ RhoKE_comp :=
    ⟨by simpa using hd, he⟩
  rw [if_pos hc, ParallelFor_apply p.bx RhoKE_comp _ _ (deardorffKernel_own tm cl p), if_pos hp,
    fluxesToRhs_apply, if_neg (fun h => hq h.2)]
  rfl

/-- What the Deardorff kernel leaves in the TKE tendency of its cell, written
with the mixing length. -/
theorem deardorffKernel_length (tm : TerrainMetrics) (cl : Closures) (p : DiffArgs)
    (i j k : Int) (old : ℚ) :
    ownValue (deardorffKernel tm cl p) RhoKE_comp i j k old =
      old
      + p.cell_data i j k Rho_comp * p.grav_gpu 2
          * (0.1 * (1 + 2 * deardorffLength tm cl p i j k / l_Delta cl p)
              * cl.sqrt (p.cell_prim i j k PrimKE_comp))
          * deardorff_dtheta_dz tm p i j k
      + cl.ComputeTKEProduction i j k p.u p.v p.w p.mu_turb p.dxInv p.domain p.bc_ptr
          (if p.solverChoice.use_terrain then 1 else 0)
      + (if |p.cell_prim i j k PrimKE_comp| > 0 then
          p.cell_data i j k Rho_comp * p.solverChoice.Ce
            * cl.pow (p.cell_prim i j k PrimKE_comp) 1.5 / deardorffLength tm cl p i j k
         else 0) := by
  simp only [ownValue, deardorffKernel, deardorffLength, deardorff_dtheta_dz, l_Delta,
    Array4.set_same, Array4.set_set, Array4.const]
  split_ifs <;> simp only [Array4.set_same, add_zero]

theorem calmChoice_ok :
    ∃ st, init_params sampleConstants { les_type := some "Deardorff", Ce := some 1 } {} {} =
      Except.ok (calmChoice, st) := by
  have h : ∃ r, init_params sampleConstants { les_type := some "Deardorff", Ce := some 1 } {} {}
      = Except.ok r := by
    simp +decide [init_params, bind, Except.bind, pure, Except.pure, query, parse_les_type,
      parse_molec_diff_type, parse_pbl_type, init_pbl, parse_abl_driver_type, parse_ic_bc_type]
  obtain ⟨r, hr⟩ := h
  refine ⟨r.2, ?_⟩
  have e : calmChoice = r.1 := by
    unfold calmChoice
    rw [hr]
  rw [e, hr]

theorem stableArgs_dtheta_dz (k : Int) : deardorff_dtheta_dz flatMetrics stableArgs 0 0 k = 1 := by
  simp only [deardorff_dtheta_dz, stableArgs, keArgs, flatMetrics, if_true]
  push_cast
  ring

theorem calmArgs_dtheta_dz (k : Int) : deardorff_dtheta_dz flatMetrics calmArgs 0 0 k = 1 := by
  simp only [deardorff_dtheta_dz, calmArgs, stableArgs, keArgs, flatMetrics, if_true]
  push_cast
  ring

/-- A launch that assigns component `0` of each cell a value not depending on
the array. -/
theorem ParallelFor_assign (bx : Box) (g : Int → Int → Int → ℚ) (a : Array4) (i j k n : Int) :
    ParallelFor bx (fun i j k x => x.set i j k 0 (g i j k)) a i j k n =
      if bx.contains i j k ∧ n = 0 then g i j k else a i j k n :=
  ParallelFor_apply bx 0 (fun i j k _ => g i j k) _ (fun _ _ _ _ => rfl) a i j k n

theorem mostStrain_skip (tm : TerrainMetrics) (a : RhsArgs) (t : Tau9)
    (h : ¬ (a.nrk = 0 ∧ l_use_diff a.solverChoice = true ∧ a.most.isSome = true)) :
    mostStrain tm a t = t := by
  unfold mostStrain
  rw [if_neg h]

/-- The MOST block writes the arrays `tau13`, `tau23`, `tau31`, `tau32` only,
and those only at cells with `k ≤ 0`. -/
theorem mostStrain_frame (tm : TerrainMetrics) (a : RhsArgs) (t : Tau9) :
    (mostStrain tm a t).tau11 = t.tau11 ∧ (mostStrain tm a t).tau22 = t.tau22 ∧
    (mostStrain tm a t).tau33 = t.tau33 ∧ (mostStrain tm a t).tau12 = t.tau12 ∧
    (mostStrain tm a t).tau21 = t.tau21 ∧
    (∀ i j k n, 0 < k →
      (mostStrain tm a t).tau13 i j k n = t.tau13 i j k n ∧
      (mostStrain tm a t).tau23 i j k n = t.tau23 i j k n ∧
      (mostStrain tm a t).tau31 i j k n = t.tau31 i j k n ∧
      (mostStrain tm a t).tau32 i j k n = t.tau32 i j k n) := by
  have hx : ∀ i j k, 0 < k → ¬ ((a.bx.convert ⟨1, 0, 1⟩).setBig 2 0).contains i j k := by
    intro i j k hk h
    simp only [Box.contains, Box.setBig, IntVect.set] at h
    omega
  have hy : ∀ i j k, 0 < k → ¬ ((a.bx.convert ⟨0, 1, 1⟩).setBig 2 0).contains i j k := by
    intro i j k hk h
    simp only [Box.contains, Box.setBig, IntVect.set] at h
    omega
  unfold mostStrain
  split_ifs with h1 h2
  · refine ⟨rfl, rfl, rfl, rfl, rfl, fun i j k n hk => ?_⟩
    simp only [ParallelFor_assign, hx i j k hk, hy i j k hk, false_and, if_false, and_self]
  · refine ⟨rfl, rfl, rfl, rfl, rfl, fun i j k n hk => ?_⟩
    simp only [ParallelFor_assign, hx i j k hk, hy i j k hk, false_and, if_false, and_self]
  · exact ⟨rfl, rfl, rfl, rfl, rfl, fun i j k n hk => ⟨rfl, rfl, rfl, rfl⟩⟩

/-- The x-momentum kernels read the perturbation pressure only inside `gbx`. -/
theorem xmomKernel_reads_gbx (tm : TerrainMetrics) (a : RhsArgs)
    (hspan : a.tilebox.smallEnd.z = 0 ∧ a.tilebox.bigEnd.z = a.domhi_z ∧ 1 ≤ a.domhi_z)
    (pp1 pp2 : Array4) (hpp : ∀ i j k, a.gbx.contains i j k → pp1 i j k 0 = pp2 i j k 0)
    (i j k : Int) (hc : a.tbx.contains i j k) (r : Array4) :
    xmomKernel_T tm a pp1 i j k r = xmomKernel_T tm a pp2 i j k r ∧
    xmomKernel_N a pp1 i j k r = xmomKernel_N a pp2 i j k r := by
  obtain ⟨hx, hy, hz⟩ := (tbx_contains a i j k).1 hc
  obtain ⟨bxx, bxy, bxz⟩ := bx_bounds a
  have p0 : pp1 i j k 0 = pp2 i j k 0 ∧ pp1 (i - 1) j k 0 = pp2 (i - 1) j k 0 :=
    ⟨hpp _ _ _ ((gbx_contains a _ _ _).2 ⟨by omega, by omega, by omega⟩),
     hpp _ _ _ ((gbx_contains a _ _ _).2 ⟨by omega, by omega, by omega⟩)⟩
  have hup : k ≠ a.domhi_z →
      pp1 i j (k + 1) 0 = pp2 i j (k + 1) 0 ∧ pp1 (i - 1) j (k + 1) 0 = pp2 (i - 1) j (k + 1) 0 :=
    fun h =>
    ⟨hpp _ _ _ ((gbx_contains a _ _ _).2 ⟨by omega, by omega, by omega⟩),
     hpp _ _ _ ((gbx_contains a _ _ _).2 ⟨by omega, by omega, by omega⟩)⟩
  have hdn : k ≠ 0 →
      pp1 i j (k - 1) 0 = pp2 i j (k - 1) 0 ∧ pp1 (i - 1) j (k - 1) 0 = pp2 (i - 1) j (k - 1) 0 :=
    fun h =>
    ⟨hpp _ _ _ ((gbx_contains a _ _ _).2 ⟨by omega, by omega, by omega⟩),
     hpp _ _ _ ((gbx_contains a _ _ _).2 ⟨by omega, by omega, by omega⟩)⟩
  refine ⟨?_, by simp only [xmomKernel_N, p0.1, p0.2]⟩
  by_cases hk0 : k = 0
  · have hkd : k ≠ a.domhi_z := by omega
    simp only [xmomKernel_T, p0.1, p0.2, if_pos hk0, (hup hkd).1, (hup hkd).2]
  · by_cases hkd : k = a.domhi_z
    · simp only [xmomKernel_T, p0.1, p0.2, if_neg hk0, if_pos hkd, (hdn hk0).1, (hdn hk0).2]
    · simp only [xmomKernel_T, p0.1, p0.2, if_neg hk0, if_neg hkd, (hup hkd).1, (hup hkd).2,
        (hdn hk0).1, (hdn hk0).2]

/-- The y-momentum kernels read the perturbation pressure only inside `gbx`. -/
theorem ymomKernel_reads_gbx (tm : TerrainMetrics) (a : RhsArgs)
    (hspan : a.tilebox.smallEnd.z = 0 ∧ a.tilebox.bigEnd.z = a.domhi_z ∧ 1 ≤ a.domhi_z)
    (pp1 pp2 : Array4) (hpp : ∀ i j k, a.gbx.contains i j k → pp1 i j k 0 = pp2 i j k 0)
    (i j k : Int) (hc : a.tby.contains i j k) (r : Array4) :
    ymomKernel_T tm a pp1 i j k r = ymomKernel_T tm a pp2 i j k r ∧
    ymomKernel_N a pp1 i j k r = ymomKernel_N a pp2 i j k r := by
  obtain ⟨hx, hy, hz⟩ := (tby_contains a i j k).1 hc
  obtain ⟨bxx, bxy, bxz⟩ := bx_bounds a
  have p0 : pp1 i j k 0 = pp2 i j k 0 ∧ pp1 i (j - 1) k 0 = pp2 i (j - 1) k 0 :=
    ⟨hpp _ _ _ ((gbx_contains a _ _ _).2 ⟨by omega, by omega, by omega⟩),
     hpp _ _ _ ((gbx_contains a _ _ _).2 ⟨by omega, by omega, by omega⟩)⟩
  have hup : k ≠ a.domhi_z →
      pp1 i j (k + 1) 0 = pp2 i j (k + 1) 0 ∧ pp1 i (j - 1) (k + 1) 0 = pp2 i (j - 1) (k + 1) 0 :=
    fun h =>
    ⟨hpp _ _ _ ((gbx_contains a _ _ _).2 ⟨by omega, by omega, by omega⟩),
     hpp _ _ _ ((gbx_contains a _ _ _).2 ⟨by omega, by omega, by omega⟩)⟩
  have hdn : k ≠ 0 →
      pp1 i j (k - 1) 0 = pp2 i j (k - 1) 0 ∧ pp1 i (j - 1) (k - 1) 0 = pp2 i (j - 1) (k - 1) 0 :=
    fun h =>
    ⟨hpp _ _ _ ((gbx_contains a _ _ _).2 ⟨by omega, by omega, by omega⟩),
     hpp _ _ _ ((gbx_contains a _ _ _).2 ⟨by omega, by omega, by omega⟩)⟩
  refine ⟨?_, by simp only [ymomKernel_N, p0.1, p0.2]⟩
  by_cases hk0 : k = 0
  · have hkd : k ≠ a.domhi_z := by omega
    simp only [ymomKernel_T, p0.1, p0.2, if_pos hk0, (hup hkd).1, (hup hkd).2]
  · by_cases hkd : k = a.domhi_z
    · simp only [ymomKernel_T, p0.1, p0.2, if_neg hk0, if_pos hkd, (hdn hk0).1, (hdn hk0).2]
    · simp only [ymomKernel_T, p0.1, p0.2, if_neg hk0, if_neg hkd, (hup hkd).1, (hup hkd).2,
        (hdn hk0).1, (hdn hk0).2]

/-- The z-momentum kernels read the perturbation pressure only inside `gbx`. -/
theorem zmomKernel_reads_gbx (tm : TerrainMetrics) (a : RhsArgs)
    (pp1 pp2 : Array4) (hpp : ∀ i j k, a.gbx.contains i j k → pp1 i j k 0 = pp2 i j k 0)
    (i j k : Int) (hc : a.tbz.contains i j k) (r : Array4) :
    zmomKernel_T tm a pp1 i j k r = zmomKernel_T tm a pp2 i j k r ∧
    zmomKernel_N a pp1 i j k r = zmomKernel_N a pp2 i j k r := by
  obtain ⟨hx, hy, hz⟩ := (tbz_contains a i j k).1 hc
  obtain ⟨bxx, bxy, bxz⟩ := bx_bounds a
  have c1 : a.gbx.contains i j k := (gbx_contains a _ _ _).2 ⟨by omega, by omega, by omega⟩
  have c2 : a.gbx.contains i j (k - 1) := (gbx_contains a _ _ _).2 ⟨by omega, by omega, by omega⟩
  exact ⟨by simp only [zmomKernel_T, hpp _ _ _ c1, hpp _ _ _ c2],
    by simp only [zmomKernel_N, hpp _ _ _ c1, hpp _ _ _ c2]⟩

/-- A value `v1 + t*(v2 - v1)` with `0 ≤ t ≤ 1` lies between `v1` and `v2`. -/
theorem lerp_between (v1 v2 t : ℚ) (h0 : 0 ≤ t) (h1 : t ≤ 1) :
    min v1 v2 ≤ v1 + t * (v2 - v1) ∧ v1 + t * (v2 - v1) ≤ max v1 v2 := by
  rcases le_total v1 v2 with h | h
  · rw [min_eq_left h, max_eq_right h]
    constructor
    · nlinarith [mul_nonneg h0 (sub_nonneg.2 h)]
    · nlinarith [mul_nonneg (sub_nonneg.2 h1) (sub_nonneg.2 h)]
  · rw [min_eq_right h, max_eq_left h]
    constructor
    · nlinarith [mul_nonneg (sub_nonneg.2 h1) (sub_nonneg.2 h)]
    · nlinarith [mul_nonneg h0 (sub_nonneg.2 h)]

/-- The interpolation formula is exact on values affine in the height. -/
theorem lerp_affine (z1 z2 zt al be : ℚ) (h : z1 ≠ z2) :
    (al * z1 + be) + (zt - z1) / (z2 - z1) * ((al * z2 + be) - (al * z1 + be)) = al * zt + be := by
  have h2 : z2 - z1 ≠ 0 := sub_ne_zero.2 (Ne.symm h)
  field_simp
  ring

/-- The stored level below the last consumed line is the surface when no line
was kept, and otherwise a kept line, which lies below `ztop`. -/
theorem levelBelow_height (f : SoundingFile) (ztop : ℚ) (kept : List SoundingLine)
    (hlow : ∀ l ∈ kept, l.z < ztop) :
    (kept = [] → levelBelow f kept = surfaceLevel f) ∧
    (kept ≠ [] → (levelBelow f kept).z < ztop) := by
  constructor
  · rintro rfl
    rfl
  · intro hne
    obtain ⟨Q, l, rfl⟩ : ∃ Q l, kept = Q ++ [l] :=
      ⟨kept.dropLast, kept.getLast hne, (List.dropLast_append_getLast hne).symm⟩
    have e : levelBelow f (Q ++ [l]) = storedLevel l := by
      simp [levelBelow]
    rw [e]
    exact hlow l (by simp)

theorem consumed_low (ztop : ℚ) (p : List SoundingLine) (kept : List SoundingLine)
    (last : SoundingLine) (hC : consumed ztop p = kept ++ [last]) : ∀ l ∈ kept, l.z < ztop := by
  induction p generalizing kept with
  | nil =>
    simp [consumed] at hC
  | cons x rest ih =>
    simp only [consumed] at hC
    by_cases hx : x.z ≥ ztop
    · rw [if_pos hx] at hC
      cases kept with
      | nil => intro l hl; cases hl
      | cons y ys =>
        exfalso
        simp at hC
    · rw [if_neg hx] at hC
      cases kept with
      | nil => intro l hl; cases hl
      | cons y ys =>
        simp only [List.cons_append, List.cons.injEq] at hC
        intro l hl
        rcases List.mem_cons.1 hl with e | e
        · rw [e, ← hC.1]
          exact not_le.1 hx
        · exact ih ys hC.2 l e

theorem grav_gpu_two (sc : SolverChoice) : grav_gpu sc 2 = -sc.gravity := rfl

/-- The value the x-momentum kernel with terrain leaves at its face, term by
term. -/
theorem xmomKernel_T_terms (tm : TerrainMetrics) (a : RhsArgs) (pp : Array4) (i j k : Int)
    (old : ℚ) :
    ownValue (xmomKernel_T tm a pp) 0 i j k old =
      (old - gpx_T tm a pp i j k + ext_forcing a.solverChoice 0
        + (if a.solverChoice.use_coriolis = true then coriolis_x a i j k else 0)
        - (if a.solverChoice.use_rayleigh_damping = true then rayleigh_x a i j k else 0))
      * (if l_moving_terrain a.solverChoice = true then
          0.5 * (a.detJ i j k 0 + a.detJ (i-1) j k 0) else 1) := by
  simp only [xmomKernel_T, ownValue, gpx_T, coriolis_x, rayleigh_x]
  split_ifs <;> simp only [Array4.set_set, Array4.set_same, Array4.const] <;> ring

theorem xmomKernel_N_terms (a : RhsArgs) (pp : Array4) (i j k : Int) (old : ℚ) :
    ownValue (xmomKernel_N a pp) 0 i j k old =
      old - gpx_N a pp i j k + ext_forcing a.solverChoice 0
        + (if a.solverChoice.use_coriolis = true then coriolis_x a i j k else 0)
        - (if a.solverChoice.use_rayleigh_damping = true then rayleigh_x a i j k else 0) := by
  simp only [xmomKernel_N, ownValue, gpx_N, coriolis_x, rayleigh_x]
  split_ifs <;> simp only [Array4.set_set, Array4.set_same, Array4.const] <;> ring

/-- The value the y-momentum kernel with terrain leaves at its face, term by
term: the Coriolis amount is added whatever `use_coriolis` is. -/
theorem ymomKernel_T_terms (tm : TerrainMetrics) (a : RhsArgs) (pp : Array4) (i j k : Int)
    (old : ℚ) :
    ownValue (ymomKernel_T tm a pp) 0 i j k old =
      (old - gpy_T tm a pp i j k + ext_forcing a.solverChoice 1
        + coriolis_y a i j k
        - (if a.solverChoice.use_rayleigh_damping = true then rayleigh_y a i j k else 0))
      * (if l_moving_terrain a.solverChoice = true then
          0.5 * (a.detJ i j k 0 + a.detJ i (j-1) k 0) else 1) := by
  simp only [ymomKernel_T, ownValue, gpy_T, coriolis_y, rayleigh_y]
  split_ifs <;> simp only [Array4.set_set, Array4.set_same, Array4.const] <;> ring

theorem ymomKernel_N_terms (a : RhsArgs) (pp : Array4) (i j k : Int) (old : ℚ) :
    ownValue (ymomKernel_N a pp) 0 i j k old =
      old - gpy_N a pp i j k + ext_forcing a.solverChoice 1
        + (if a.solverChoice.use_coriolis = true then coriolis_y a i j k else 0)
        - (if a.solverChoice.use_rayleigh_damping = true then rayleigh_y a i j k else 0) := by
  simp only [ymomKernel_N, ownValue, gpy_N, coriolis_y, rayleigh_y]
  split_ifs <;> simp only [Array4.set_set, Array4.set_same, Array4.const] <;> ring

theorem zmomKernel_T_terms (tm : TerrainMetrics) (a : RhsArgs) (pp : Array4) (i j k : Int)
    (old : ℚ) :
    ownValue (zmomKernel_T tm a pp) 0 i j k old =
      (old - gpz_T tm a pp i j k + buoyancy a i j k + ext_forcing a.solverChoice 2
        + (if a.solverChoice.use_coriolis = true then coriolis_z a i j k else 0)
        - (if a.solverChoice.use_rayleigh_damping = true then rayleigh_z a i j k else 0))
      * (if a.solverChoice.use_terrain = true ∧ l_moving_terrain a.solverChoice = true then
          0.5 * (a.detJ i j k 0 + a.detJ i j (k-1) 0) else 1) := by
  simp only [zmomKernel_T, ownValue, gpz_T, coriolis_z, rayleigh_z, buoyancy]
  split_ifs <;> simp only [Array4.set_set, Array4.set_same, Array4.const] <;> ring

theorem zmomKernel_N_terms (a : RhsArgs) (pp : Array4) (i j k : Int) (old : ℚ) :
    ownValue (zmomKernel_N a pp) 0 i j k old =
      old - gpz_N a pp i j k + buoyancy a i j k + ext_forcing a.solverChoice 2
        + (if a.solverChoice.use_coriolis = true then coriolis_z a i j k else 0)
        - (if a.solverChoice.use_rayleigh_damping = true then rayleigh_z a i j k else 0) := by
  simp only [zmomKernel_N, ownValue, gpz_N, coriolis_z, rayleigh_z, buoyancy]
  split_ifs <;> simp only [Array4.set_set, Array4.set_same, Array4.const] <;> ring

theorem gravChoice_ok :
    ∃ st, init_params sampleConstants { use_gravity := some true } {} {} =
      Except.ok (gravChoice, st) := by
  obtain ⟨r, hr⟩ := sample_init_ok { use_gravity := some true } rfl rfl rfl rfl rfl
    sampleConstants
  refine ⟨r.2, ?_⟩
  have e : gravChoice = r.1 := by
    unfold gravChoice
    rw [hr]
  rw [e, hr]

/-- The forcing vectors and Coriolis switches the last phase of `init_params`
leaves. -/
theorem init_forcing_coriolis (c : Constants) (pp : ParmParse) (sc : SolverChoice) :
    (init_forcing c pp sc).use_coriolis = sc.use_coriolis ∧
    (init_forcing c pp sc).abl_driver_type = sc.abl_driver_type ∧
    (init_forcing c pp sc).abl_pressure_grad =
      GpuArray3.mk3 (vecGet (query pp.abl_pressure_grad [0.0, 0.0, 0.0]) 0)
        (vecGet (query pp.abl_pressure_grad [0.0, 0.0, 0.0]) 1)
        (vecGet (query pp.abl_pressure_grad [0.0, 0.0, 0.0]) 2) ∧
    (sc.use_coriolis = true → sc.abl_driver_type = ABLDriverType.GeostrophicWind →
      (init_forcing c pp sc).abl_geo_forcing =
        GpuArray3.mk3
          (-(init_forcing c pp sc).coriolis_factor *
            (vecGet (query pp.abl_geo_wind [0, 0, 0]) 1 * (init_forcing c pp sc).sinphi
              - vecGet (query pp.abl_geo_wind [0, 0, 0]) 2 * (init_forcing c pp sc).cosphi))
          ((init_forcing c pp sc).coriolis_factor * vecGet (query pp.abl_geo_wind [0, 0, 0]) 0
            * (init_forcing c pp sc).sinphi)
          (-(init_forcing c pp sc).coriolis_factor * vecGet (query pp.abl_geo_wind [0, 0, 0]) 0
            * (init_forcing c pp sc).cosphi)) := by
  unfold init_forcing build_coriolis_forcings
  simp only
  refine ⟨?_, ?_, ?_, ?_⟩
  · split_ifs <;> rfl
  · split_ifs <;> rfl
  · split_ifs <;> rfl
  · intro hc hd
    rw [if_pos hc, if_pos hd]

/-- The forcing set-up a returning call of `init_params` leaves in the object. -/
theorem init_params_forcing (c : Constants) (pp : ParmParse) (st : Statics) (sc : SolverChoice)
    (r : SolverChoice × Statics) (h : init_params c pp st sc = Except.ok r) :
    r.1.abl_pressure_grad =
      GpuArray3.mk3 (vecGet (query pp.abl_pressure_grad [0.0, 0.0, 0.0]) 0)
        (vecGet (query pp.abl_pressure_grad [0.0, 0.0, 0.0]) 1)
        (vecGet (query pp.abl_pressure_grad [0.0, 0.0, 0.0]) 2) ∧
    (r.1.use_coriolis = true → r.1.abl_driver_type = ABLDriverType.GeostrophicWind →
      r.1.abl_geo_forcing =
        GpuArray3.mk3
          (-r.1.coriolis_factor *
            (vecGet (query pp.abl_geo_wind [0, 0, 0]) 1 * r.1.sinphi
              - vecGet (query pp.abl_geo_wind [0, 0, 0]) 2 * r.1.cosphi))
          (r.1.coriolis_factor * vecGet (query pp.abl_geo_wind [0, 0, 0]) 0 * r.1.sinphi)
          (-r.1.coriolis_factor * vecGet (query pp.abl_geo_wind [0, 0, 0]) 0 * r.1.cosphi)) ∧
    (∀ b, pp.use_coriolis = some b → r.1.use_coriolis = b) ∧
    parse_abl_driver_type (query pp.abl_driver_type st.abl_driver_type_string) =
      Except.ok r.1.abl_driver_type := by
  obtain ⟨les, mol, pbl, sc1, abl, ic, _, _, _, _, _, h6, _, hr⟩ :=
    init_params_ok_inv c pp st sc r h
  have hf := init_forcing_coriolis c pp { init_constants pp sc1 with abl_driver_type := abl }
  rw [hr]
  refine ⟨hf.2.2.1, fun hc hd => hf.2.2.2 (hf.1.symm.trans hc) (hf.2.1.symm.trans hd),
    fun b hb => ?_, ?_⟩
  · refine hf.1.trans ?_
    show (init_constants pp sc1).use_coriolis = b
    unfold init_constants
    simp only [hb, query, Option.getD_some]
  · rw [h6]
    exact congrArg Except.ok hf.2.1.symm

theorem geoChoice_ok :
    ∃ st, init_params sampleConstants
      { use_coriolis := some true, abl_driver_type := some "GeostrophicWind",
        abl_geo_wind := some [3, 4, 5] } {} {} = Except.ok (geoChoice, st) := by
  have h : ∃ r, init_params sampleConstants
      { use_coriolis := some true, abl_driver_type := some "GeostrophicWind",
        abl_geo_wind := some [3, 4, 5] } {} {} = Except.ok r := by
    simp +decide [init_params, bind, Except.bind, pure, Except.pure, query, parse_les_type,
      parse_molec_diff_type, parse_pbl_type, init_pbl, parse_abl_driver_type, parse_ic_bc_type]
  obtain ⟨r, hr⟩ := h
  refine ⟨r.2, ?_⟩
  have e : geoChoice = r.1 := by
    unfold geoChoice
    rw [hr]
  rw [e, hr]

/-- Without terrain the pressure `erf_enforce_hse` leaves differs between the
levels `k-1` and `k` by `-dz*gravity*(rho(k)+rho(k-1))/2`, for `k` in `1..nz`. -/
theorem hse_flat_difference (x : HseExt) (h : HseArgs) (s : HseState) (i j k : Int)
    (ht : h.solverChoice.use_terrain = false) (hb : h.b2d.contains i j 0)
    (hi : h.domain.smallEnd.x ≤ i ∧ i ≤ h.domain.bigEnd.x)
    (hj : h.domain.smallEnd.y ≤ j ∧ j ≤ h.domain.bigEnd.y)
    (hk : 1 ≤ k ∧ k ≤ h.nz) :
    (erf_enforce_hse x h s).pres_arr i j k 0 - (erf_enforce_hse x h s).pres_arr i j (k-1) 0 =
      -h.dz * h.solverChoice.gravity * (h.rho_arr i j k 0 + h.rho_arr i j (k-1) 0) / 2 := by
  rw [(erf_enforce_hse_flat x h s i j k ht hb hi hj ⟨by omega, Or.inr hk.2⟩).1,
    (erf_enforce_hse_flat x h s i j (k-1) ht hb hi hj ⟨by omega, Or.inr (by omega)⟩).1,
    flatColumn_succ x h i j k hk.1]
  unfold flatPressureStep
  ring

/-- The z-momentum tendency `erf_slow_rhs_pre` leaves at a face of `tbz`: the
value of the z-momentum kernel of the active branch, run on the perturbation
pressure of the pressure pass and the tendency left by the earlier steps. -/
theorem tileBody_rho_w_rhs (tm : TerrainMetrics) (ext : RhsExt) (cl : Closures) (a : RhsArgs)
    (s : RhsState) (i j k : Int) (hc : a.tbz.contains i j k) :
    (tileBody tm ext cl a s).rho_w_rhs i j k 0 =
      (if a.solverChoice.use_terrain = true then
        ownValue (zmomKernel_T tm a (stepPprime ext a (stepScratch s)).pp_arr) 0 i j k
          ((stepZero a (momSources ext a (statePart tm ext cl a s))).rho_w_rhs i j k 0)
       else
        ownValue (zmomKernel_N a (stepPprime ext a (stepScratch s)).pp_arr) 0 i j k
          ((stepZero a (momSources ext a (statePart tm ext cl a s))).rho_w_rhs i j k 0)) := by
  have hpp : (stepZero a (stepYmom tm a (stepXmom tm a
      (momSources ext a (statePart tm ext cl a s))))).pp_arr =
        (stepPprime ext a (stepScratch s)).pp_arr := by
    show (stepYmom tm a _).pp_arr = _
    rw [stepYmom_pp_arr, stepXmom_pp_arr, momSources_pp_arr]
  have hz : (stepZero a (stepYmom tm a (stepXmom tm a
        (momSources ext a (statePart tm ext cl a s))))).rho_w_rhs i j k 0 =
      (stepZero a (momSources ext a (statePart tm ext cl a s))).rho_w_rhs i j k 0 := by
    rw [stepZero_apply, stepZero_apply, stepYmom_rho_w_rhs, stepXmom_rho_w_rhs]
  unfold tileBody
  rw [stepZmom_apply, if_pos ⟨hc, rfl⟩, hpp, hz]

/-- On flat nodal heights the loop body with terrain is the one without. -/
theorem hseTerrainStep_flat (x : HseExt) (h : HseArgs)
    (hz : ∀ i j k, h.znd_arr i j k 0 = (k : ℚ) * h.dz) (i j : Int) :
    hseTerrainStep x h i j = hseFlatStep x h.withoutTerrain i j := by
  funext s k
  have e : s.pres_arr i j (k-1) 0
      - (0.5 * (0.5 * (0.25 * (h.znd_arr i j k 0 + h.znd_arr (i+1) j k 0
                          + h.znd_arr i (j+1) k 0 + h.znd_arr (i+1) (j+1) k 0)
                      + 0.25 * (h.znd_arr i j (k+1) 0 + h.znd_arr (i+1) j (k+1) 0
                          + h.znd_arr i (j+1) (k+1) 0 + h.znd_arr (i+1) (j+1) (k+1) 0))
              - 0.5 * (0.25 * (h.znd_arr i j k 0 + h.znd_arr (i+1) j k 0
                          + h.znd_arr i (j+1) k 0 + h.znd_arr (i+1) (j+1) k 0)
                      + 0.25 * (h.znd_arr i j (k-1) 0 + h.znd_arr (i+1) j (k-1) 0
                          + h.znd_arr i (j+1) (k-1) 0 + h.znd_arr (i+1) (j+1) (k-1) 0)))
            * h.rho_arr i j (k-1) 0) * h.solverChoice.gravity
      - (0.5 * (0.5 * (0.25 * (h.znd_arr i j k 0 + h.znd_arr (i+1) j k 0
                          + h.znd_arr i (j+1) k 0 + h.znd_arr (i+1) (j+1) k 0)
                      + 0.25 * (h.znd_arr i j (k+1) 0 + h.znd_arr (i+1) j (k+1) 0
                          + h.znd_arr i (j+1) (k+1) 0 + h.znd_arr (i+1) (j+1) (k+1) 0))
              - 0.5 * (0.25 * (h.znd_arr i j k 0 + h.znd_arr (i+1) j k 0
                          + h.znd_arr i (j+1) k 0 + h.znd_arr (i+1) (j+1) k 0)
                      + 0.25 * (h.znd_arr i j (k-1) 0 + h.znd_arr (i+1) j (k-1) 0
                          + h.znd_arr i (j+1) (k-1) 0 + h.znd_arr (i+1) (j+1) (k-1) 0)))
            * h.rho_arr i j k 0) * h.solverChoice.gravity =
      s.pres_arr i j (k-1) 0
        - h.dz * (0.5 * (h.rho_arr i j k 0 + h.rho_arr i j (k-1) 0)) * h.solverChoice.gravity := by
    simp only [hz]
    push_cast
    ring
  simp only [hseTerrainStep, hseFlatStep, HseArgs.withoutTerrain, e]

/-- On flat nodal heights the column kernel with terrain is the one without. -/
theorem hseColumnKernel_flat_terrain (x : HseExt) (h : HseArgs)
    (ht : h.solverChoice.use_terrain = true)
    (hz : ∀ i j k, h.znd_arr i j k 0 = (k : ℚ) * h.dz) :
    hseColumnKernel x h = hseColumnKernel x h.withoutTerrain := by
  funext i j k s
  have e : 0.125 * (h.znd_arr i j 0 0 + h.znd_arr (i+1) j 0 0 + h.znd_arr i (j+1) 0 0
                + h.znd_arr (i+1) (j+1) 0 0
              + h.znd_arr i j 1 0 + h.znd_arr (i+1) j 1 0 + h.znd_arr i (j+1) 1 0
                + h.znd_arr (i+1) (j+1) 1 0) = 0.5 * h.dz := by
    simp only [hz]
    push_cast
    ring
  have hf : (h.withoutTerrain).solverChoice.use_terrain = false := rfl
  unfold hseColumnKernel
  simp only [ht, hf, if_true, Bool.false_eq_true, if_false, e, hseTerrainStep_flat x h hz]
  rfl

/-- On the sheared example the raw x-flux is `2*k` on every x-face of the box,
the raw y-flux is `0` on every y-face and the raw z-flux is `2*i` on every
z-face, whatever the arrays held before. -/
theorem shearedArgs_raw (s : DiffState) (i j k : Int) :
    ((surroundingNodes shearedArgs.bx 0).contains i j k →
      (rawFluxes rampMetrics shearedArgs s).xflux i j k RhoTheta_comp = 2 * (k : ℚ)) ∧
    ((surroundingNodes shearedArgs.bx 1).contains i j k →
      (rawFluxes rampMetrics shearedArgs s).yflux i j k RhoTheta_comp = 0) ∧
    ((surroundingNodes shearedArgs.bx 2).contains i j k →
      (rawFluxes rampMetrics shearedArgs s).zflux i j k RhoTheta_comp = 2 * (i : ℚ)) := by
  have hm : diffMode shearedArgs.solverChoice = DiffMode.RhoAlpha := by decide
  have ha : vecGet (alpha_eff shearedArgs.solverChoice) (RhoTheta_comp - qty_offset) = 2 := by
    have e1 : shearedArgs.solverChoice.molec_diff_type = MolecDiffType.ConstantAlpha := rfl
    have e2 : RhoTheta_comp - qty_offset = PrimTheta_comp := by decide
    rw [alpha_eff_get _ _ (by decide) (by decide), if_pos e1, if_pos e2]
    rfl
  refine ⟨fun hb => ?_, fun hb => ?_, fun hb => ?_⟩
  · rw [rawFluxes_xflux rampMetrics shearedArgs s i j k RhoTheta_comp hb (by decide), hm]
    simp only [faceDiff_x, ha]
    norm_num [shearedArgs, inclineArgs, keArgs, Array4.const, rampMetrics, flatMetrics]
    ring
  · rw [rawFluxes_yflux rampMetrics shearedArgs s i j k RhoTheta_comp hb (by decide), hm]
    simp only [faceDiff_y, ha]
    norm_num [shearedArgs, inclineArgs, keArgs, Array4.const, rampMetrics, flatMetrics]
  · rw [rawFluxes_zflux rampMetrics shearedArgs s i j k RhoTheta_comp hb (by decide), hm]
    simp only [faceDiff_z, ha]
    norm_num [shearedArgs, inclineArgs, keArgs, Array4.const, rampMetrics, flatMetrics]
    ring

/-- Outside `0..NUM_PRIM-1` the model of `d_alpha_eff[prim_index]` reads `0`. -/
theorem alpha_eff_outside (sc : SolverChoice) (prim : Int) (h : prim < 0 ∨ NUM_PRIM ≤ prim) :
    vecGet (alpha_eff sc) prim = 0 := by
  have hN : NUM_PRIM = 4 := rfl
  rw [hN] at h
  unfold vecGet
  rcases h with h | h
  · rw [if_neg (by omega)]
  · rw [if_pos (by omega)]
    apply List.getD_eq_default
    have hl : (alpha_eff sc).length = 4 := by
      unfold alpha_eff
      split_ifs <;> rfl
    rw [hl]
    omega

/-- Without the Deardorff closure and without QKE no source kernel runs. -/
theorem keSources_off (tm : TerrainMetrics) (cl : Closures) (p : DiffArgs) (s : DiffState)
    (hl : p.solverChoice.les_type ≠ LESType.Deardorff) (hq : p.solverChoice.use_QKE = false) :
    keSources tm cl p s = s := by
  have hd : decide (p.solverChoice.les_type = LESType.Deardorff) = false := by
    simp only [hl, decide_False]
  simp only [keSources, hd, hq, Bool.false_and, Bool.false_eq_true, false_and, if_false]

/-- With no closure named by the inputs or the statics, a returning call of
`init_params` sets no LES and no PBL type and parses the molecular type from
the input or from `"Constant"`. -/
theorem init_plain_fields (c : Constants) (pp : ParmParse) (st : Statics) (sc : SolverChoice)
    (r : SolverChoice × Statics) (h : init_params c pp st sc = Except.ok r)
    (hl : query pp.les_type st.les_type_string = "None")
    (hp : query pp.pbl_type st.pbl_type_string = "None") :
    r.1.les_type = LESType.None ∧ r.1.pbl_type = PBLType.None ∧
    parse_molec_diff_type (query pp.molec_diff_type "Constant") = Except.ok r.1.molec_diff_type ∧
    r.1.use_QKE = sc.use_QKE := by
  obtain ⟨h1, h2, h3, h4, _⟩ := init_params_config c pp st sc r h
  rw [hl] at h1
  rw [hp] at h3
  have e1 : r.1.les_type = LESType.None := by
    have : parse_les_type "None" = Except.ok LESType.None := by
      simp +decide [parse_les_type, pure, Except.pure]
    exact (Except.ok.inj (this.symm.trans h1)).symm
  have e3 : r.1.pbl_type = PBLType.None := by
    have : parse_pbl_type "None" = Except.ok PBLType.None := by
      simp +decide [parse_pbl_type, pure, Except.pure]
    exact (Except.ok.inj (this.symm.trans h3)).symm
  rw [if_pos e1] at h2
  refine ⟨e1, e3, h2, ?_⟩
  rw [h4, e3]
  simp +decide

theorem alphaOnlyChoice_ok :
    ∃ st, init_params sampleConstants
      { molec_diff_type := some "ConstantAlpha", alpha_T := some 1, rho0_trans := some 2 } {} {} =
      Except.ok (alphaOnlyChoice, st) := by
  have h : ∃ r, init_params sampleConstants
      { molec_diff_type := some "ConstantAlpha", alpha_T := some 1, rho0_trans := some 2 } {} {}
      = Except.ok r := by
    simp +decide [init_params, bind, Except.bind, pure, Except.pure, query, parse_les_type,
      parse_molec_diff_type, parse_pbl_type, init_pbl, parse_abl_driver_type, parse_ic_bc_type]
  obtain ⟨r, hr⟩ := h
  refine ⟨r.2, ?_⟩
  have e : alphaOnlyChoice = r.1 := by
    unfold alphaOnlyChoice
    rw [hr]
  rw [e, hr]

theorem heavyChoice_ok :
    ∃ st, init_params sampleConstants { alpha_T := some 1, rho0_trans := some 2 } {} {} =
      Except.ok (heavyChoice, st) := by
  have h : ∃ r, init_params sampleConstants { alpha_T := some 1, rho0_trans := some 2 } {} {}
      = Except.ok r := by
    simp +decide [init_params, bind, Except.bind, pure, Except.pure, query, parse_les_type,
      parse_molec_diff_type, parse_pbl_type, init_pbl, parse_abl_driver_type, parse_ic_bc_type]
  obtain ⟨r, hr⟩ := h
  refine ⟨r.2, ?_⟩
  have e : heavyChoice = r.1 := by
    unfold heavyChoice
    rw [hr]
  rw [e, hr]

/-- The fields of `alphaOnlyChoice`. -/
theorem alphaOnlyChoice_fields :
    alphaOnlyChoice.les_type = LESType.None ∧ alphaOnlyChoice.pbl_type = PBLType.None ∧
    alphaOnlyChoice.molec_diff_type = MolecDiffType.ConstantAlpha ∧
    alphaOnlyChoice.alpha_T = 1 ∧ alphaOnlyChoice.alpha_C = 0 ∧
    alphaOnlyChoice.rho0_trans = 2 := by
  obtain ⟨st, h⟩ := alphaOnlyChoice_ok
  obtain ⟨e1, e2, e3, _⟩ := init_plain_fields _ _ _ _ _ h rfl rfl
  obtain ⟨_, _, _, _, h5, h6, _, _, h9⟩ := init_params_config _ _ _ _ _ h
  simp only at e1 e2 e3 h5 h6 h9
  refine ⟨e1, e2, ?_, ?_, ?_, ?_⟩
  · have : parse_molec_diff_type (query (some "ConstantAlpha") "Constant") =
        Except.ok MolecDiffType.ConstantAlpha := by
      simp +decide [parse_molec_diff_type, query, pure, Except.pure]
    exact (Except.ok.inj (this.symm.trans e3)).symm
  · rw [h5]
    norm_num [query]
  · rw [h6]
    norm_num [query]
  · rw [h9]
    norm_num [query]

/-- The fields of `heavyChoice`. -/
theorem heavyChoice_fields :
    heavyChoice.les_type = LESType.None ∧ heavyChoice.pbl_type = PBLType.None ∧
    heavyChoice.molec_diff_type = MolecDiffType.Constant ∧
    heavyChoice.alpha_T = 1 ∧ heavyChoice.alpha_C = 0 ∧
    heavyChoice.rho0_trans = 2 ∧ heavyChoice.rhoAlpha_T = 2 := by
  obtain ⟨st, h⟩ := heavyChoice_ok
  obtain ⟨e1, e2, e3, _⟩ := init_plain_fields _ _ _ _ _ h rfl rfl
  obtain ⟨_, _, _, _, h5, h6, h7, _, h9⟩ := init_params_config _ _ _ _ _ h
  simp only at e1 e2 e3 h5 h6 h7 h9
  have a1 : heavyChoice.alpha_T = 1 := by
    rw [h5]
    norm_num [query]
  have a2 : heavyChoice.rho0_trans = 2 := by
    rw [h9]
    norm_num [query]
  refine ⟨e1, e2, ?_, a1, ?_, a2, ?_⟩
  · have : parse_molec_diff_type (query (none : Option String) "Constant") =
        Except.ok MolecDiffType.Constant := by
      simp +decide [parse_molec_diff_type, query, pure, Except.pure]
    exact (Except.ok.inj (this.symm.trans e3)).symm
  · rw [h6]
    norm_num [query]
  · rw [h7, a1, a2]
    norm_num

/-- In the branches with a turbulence closure the face diffusivities read
`d_alpha_eff[prim_index]` and `mu_turb` at `d_eddy_diff_idx/idy/idz[prim_index]`. -/
theorem faceDiff_turbulent (p : DiffArgs) (ht : l_turb p.solverChoice = true)
    (i j k prim : Int) :
    faceDiff_x (diffMode p.solverChoice) p i j k prim =
      (if p.solverChoice.molec_diff_type = MolecDiffType.ConstantAlpha then
        0.5 * (p.cell_data i j k Rho_comp + p.cell_data (i-1) j k Rho_comp)
          * vecGet (alpha_eff p.solverChoice) prim
       else vecGet (alpha_eff p.solverChoice) prim)
      + 0.5 * (p.mu_turb i j k (vecGetI eddy_diff_idx prim)
              + p.mu_turb (i-1) j k (vecGetI eddy_diff_idx prim)) ∧
    faceDiff_y (diffMode p.solverChoice) p i j k prim =
      (if p.solverChoice.molec_diff_type = MolecDiffType.ConstantAlpha then
        0.5 * (p.cell_data i j k Rho_comp + p.cell_data i (j-1) k Rho_comp)
          * vecGet (alpha_eff p.solverChoice) prim
       else vecGet (alpha_eff p.solverChoice) prim)
      + 0.5 * (p.mu_turb i j k (vecGetI eddy_diff_idy prim)
              + p.mu_turb i (j-1) k (vecGetI eddy_diff_idy prim)) ∧
    faceDiff_z (diffMode p.solverChoice) p i j k prim =
      (if p.solverChoice.molec_diff_type = MolecDiffType.ConstantAlpha then
        0.5 * (p.cell_data i j k Rho_comp + p.cell_data i j (k-1) Rho_comp)
          * vecGet (alpha_eff p.solverChoice) prim
       else vecGet (alpha_eff p.solverChoice) prim)
      + 0.5 * (p.mu_turb i j k (vecGetI eddy_diff_idz prim)
              + p.mu_turb i j (k-1) (vecGetI eddy_diff_idz prim)) := by
  by_cases hc : p.solverChoice.molec_diff_type = MolecDiffType.ConstantAlpha
  · have hm : diffMode p.solverChoice = DiffMode.RhoAlphaTurb := by
      simp only [diffMode, l_consA, hc, ht, decide_True, Bool.and_self, if_true]
    rw [hm, if_pos hc, if_pos hc, if_pos hc]
    exact ⟨rfl, rfl, rfl⟩
  · have hm : diffMode p.solverChoice = DiffMode.AlphaTurb := by
      simp only [diffMode, l_consA, hc, ht, decide_False, Bool.false_and, Bool.false_eq_true,
        if_false, if_true]
    rw [hm, if_neg hc, if_neg hc, if_neg hc]
    exact ⟨rfl, rfl, rfl⟩

/-- C1. For a patch whose box spans the full vertical extent of the domain
(cells `k = 0 .. domhi_z`) and every `(i,j)` of the patch, after
`erf_slow_rhs_pre` returns the z-momentum tendency `rho_w_rhs` is exactly `0`
at `(i,j,0)` and at `(i,j,domhi_z+1)`: for all inputs and collaborators, with
or without terrain and moving terrain. -/
theorem boundary_faces_zero_after_rhs (tm : TerrainMetrics) (ext : RhsExt) (cl : Closures)
    (a : RhsArgs) (s r : RhsState) (i j : Int)
    (hret : erf_slow_rhs_pre tm ext cl a s = Except.ok r)
    (hlo : a.bx.smallEnd.z = 0) (hhi : a.bx.bigEnd.z = a.domhi_z)
    (hi : a.bx.smallEnd.x ≤ i ∧ i ≤ a.bx.bigEnd.x)
    (hj : a.bx.smallEnd.y ≤ j ∧ j ≤ a.bx.bigEnd.y) :
    r.rho_w_rhs i j 0 0 = 0 ∧ r.rho_w_rhs i j (a.domhi_z + 1) 0 = 0 := by
  rw [erf_slow_rhs_pre_ok tm ext cl a s r hret]
  unfold tileBody
  constructor
  · rw [stepZmom_frame _ _ _ _ _ _ _ (by omega), stepZero_apply, if_pos]
    exact ⟨⟨hi, hj⟩, Or.inl rfl, rfl⟩
  · rw [stepZmom_frame _ _ _ _ _ _ _ (by omega), stepZero_apply, if_pos]
    exact ⟨⟨hi, hj⟩, Or.inr rfl, rfl⟩

theorem boundary_faces_zero_after_rhs_witness :
    (tileBody flatMetrics idleExt idleClosures restArgs sevenState).rho_w_rhs 1 1 0 0 = 0 ∧
      (tileBody flatMetrics idleExt idleClosures restArgs sevenState).rho_w_rhs 1 1
        (restArgs.domhi_z + 1) 0 = 0 :=
  boundary_faces_zero_after_rhs flatMetrics idleExt idleClosures restArgs sevenState _ 1 1
    restArgs_ok (by decide) (by decide) (by decide) (by decide)

/-- C9. The z-momentum terms executed after the boundary zeroing (pressure
gradient, buoyancy, external forcing, Coriolis, Rayleigh damping and the
moving-terrain Jacobian scaling, terrain and non-terrain branch) change
`rho_w_rhs` only at faces `k` with `lo_z + 1 ≤ k ≤ hi_z` of the patch box:
every other face, in particular `k = lo_z` and `k = hi_z + 1`, keeps the value
it had after the zeroing. -/
theorem zmom_terms_write_interior_only (tm : TerrainMetrics) (ext : RhsExt) (cl : Closures)
    (a : RhsArgs) (s : RhsState) (i j k m : Int)
    (h : ¬ (a.bx.smallEnd.z + 1 ≤ k ∧ k ≤ a.bx.bigEnd.z)) :
    (tileBody tm ext cl a s).rho_w_rhs i j k m =
      (stepZero a (stepYmom tm a (stepXmom tm a (momSources ext a
        (statePart tm ext cl a s))))).rho_w_rhs i j k m := by
  unfold tileBody
  exact stepZmom_frame tm a _ i j k m h

theorem zmom_terms_write_interior_only_witness :
    (tileBody flatMetrics idleExt idleClosures restArgs sevenState).rho_w_rhs 0 0 2 0 =
      (stepZero restArgs (stepYmom flatMetrics restArgs (stepXmom flatMetrics restArgs
        (momSources idleExt restArgs
          (statePart flatMetrics idleExt idleClosures restArgs sevenState))))).rho_w_rhs 0 0 2 0 :=
  zmom_terms_write_interior_only flatMetrics idleExt idleClosures restArgs sevenState 0 0 2 0
    (by decide)

/-- C2. Whenever the molecular-diffusion string in effect is `ConstantAlpha`
and the LES string in effect is `Smagorinsky` or `Deardorff`,
`SolverChoice::init_params` raises the configuration error of line 120 instead
of returning a configuration. -/
theorem init_params_rejects_les_with_constant_alpha (c : Constants) (pp : ParmParse)
    (st : Statics) (sc : SolverChoice)
    (hles : query pp.les_type st.les_type_string = "Smagorinsky" ∨
      query pp.les_type st.les_type_string = "Deardorff")
    (hmol : query pp.molec_diff_type st.molec_diff_type_string = "ConstantAlpha") :
    init_params c pp st sc =
      Except.error "We don't allow LES with MolecDiffType::ConstantAlpha" := by
  rcases hles with h | h
  · simp [init_params, h, hmol, parse_les_type, parse_molec_diff_type, bind, Except.bind,
      pure, Except.pure, throw, throwThe, MonadExceptOf.throw]
  · simp [init_params, h, hmol, parse_les_type, parse_molec_diff_type, bind, Except.bind,
      pure, Except.pure, throw, throwThe, MonadExceptOf.throw]

theorem init_params_rejects_les_with_constant_alpha_witness :
    init_params sampleConstants
        { les_type := some "Deardorff", molec_diff_type := some "ConstantAlpha" } {} {} =
      Except.error "We don't allow LES with MolecDiffType::ConstantAlpha" :=
  init_params_rejects_les_with_constant_alpha sampleConstants
    { les_type := some "Deardorff", molec_diff_type := some "ConstantAlpha" } {} {}
    (Or.inr rfl) rfl

/-- C3 (the code at the failing input). With `les_type = Deardorff` and
`pbl_type = MYNN2.5` on a fresh object, `init_params` raises no error: it
returns a configuration with the Deardorff closure and the MYNN2.5 PBL model
both selected. -/
theorem init_params_accepts_deardorff_with_pbl (c : Constants) :
    ∃ r, init_params c { les_type := some "Deardorff", pbl_type := some "MYNN2.5" } {} {} =
        Except.ok r ∧
      r.1.les_type = LESType.Deardorff ∧ r.1.pbl_type = PBLType.MYNN25 ∧
      r.1.molec_diff_type = MolecDiffType.None := by
  simp +decide [init_params, parse_les_type, parse_molec_diff_type, parse_pbl_type, init_pbl,
    parse_abl_driver_type, parse_ic_bc_type, query, bind, Except.bind,
    pure, Except.pure, throw, throwThe, MonadExceptOf.throw, init_constants, init_forcing,
    init_terrain_gravity]

/-- C8. With Rayleigh damping enabled and terrain static or absent, what
`erf_slow_rhs_pre` leaves in the RhoTheta tendency of a cell `(i,j,k)` of the
box is the value accumulated there by advection and diffusion plus exactly
`-tau(k) * (theta(i,j,k) - thetabar(k)) * rho(i,j,k)`, with coefficient and
target indexed by `k` only; the density tendency is the one accumulated before
the damping. -/
theorem rayleigh_damping_of_rhotheta (tm : TerrainMetrics) (ext : RhsExt) (cl : Closures)
    (a : RhsArgs) (s : RhsState) (i j k : Int)
    (hr : a.solverChoice.use_rayleigh_damping = true)
    (hstatic : ¬ (a.solverChoice.use_terrain = true ∧ l_moving_terrain a.solverChoice = true))
    (hb : a.bx.contains i j k) :
    (tileBody tm ext cl a s).cell_rhs i j k RhoTheta_comp =
        (beforeDamping tm ext cl a s).cell_rhs i j k RhoTheta_comp
          + -(a.dptr_rayleigh_tau k)
              * (a.cell_prim i j k PrimTheta_comp - a.dptr_rayleigh_thetabar k)
              * a.cell_data i j k Rho_comp ∧
      (tileBody tm ext cl a s).cell_rhs i j k Rho_comp =
        (beforeDamping tm ext cl a s).cell_rhs i j k Rho_comp := by
  rw [tileBody_cell_rhs]
  have hst : statePart tm ext cl a s = stepRayleighTheta a (beforeDamping tm ext cl a s) := by
    simp only [statePart, beforeDamping, stepDetJState, if_neg hstatic]
  rw [hst]
  constructor
  · rw [stepRayleighTheta_apply a _ i j k RhoTheta_comp hr, if_pos ⟨hb, rfl⟩]
    ring
  · rw [stepRayleighTheta_apply a _ i j k Rho_comp hr, if_neg]
    rintro ⟨_, h⟩
    exact absurd h (by decide)

theorem rayleigh_damping_of_rhotheta_witness :
    (tileBody flatMetrics idleExt idleClosures dampedArgs sevenState).cell_rhs 0 1 1 RhoTheta_comp =
        (beforeDamping flatMetrics idleExt idleClosures dampedArgs sevenState).cell_rhs 0 1 1
            RhoTheta_comp
          + -(0.01 : ℚ) * (305 - 300) * 2 ∧
      (tileBody flatMetrics idleExt idleClosures dampedArgs sevenState).cell_rhs 0 1 1 Rho_comp =
        (beforeDamping flatMetrics idleExt idleClosures dampedArgs sevenState).cell_rhs 0 1 1
          Rho_comp :=
  rayleigh_damping_of_rhotheta flatMetrics idleExt idleClosures dampedArgs sevenState 0 1 1
    rfl (by decide) (by decide)

/-- C4. When `molec_diff_type`, `les_type` and `pbl_type` are all `None`,
`erf_slow_rhs_pre` adds no diffusive contribution: the diffusion steps for the
state and for the momenta return the tendencies unchanged, and two runs that
differ only in the eddy-diffusivity field, the source field and the diffusion
coefficients give the same result, in particular the same state tendency and
the same three momentum tendencies. -/
theorem no_diffusion_when_all_none (tm : TerrainMetrics) (ext : RhsExt) (cl : Closures)
    (a : RhsArgs) (s : RhsState) (eddyDiffs source : Array4)
    (alpha_T alpha_C dynamicViscosity rho0_trans rhoAlpha_T rhoAlpha_C : ℚ)
    (hm : a.solverChoice.molec_diff_type = MolecDiffType.None)
    (hl : a.solverChoice.les_type = LESType.None)
    (hp : a.solverChoice.pbl_type = PBLType.None) :
    erf_slow_rhs_pre tm ext cl
        (a.withDiffusionData eddyDiffs source alpha_T alpha_C dynamicViscosity rho0_trans
          rhoAlpha_T rhoAlpha_C) s =
      erf_slow_rhs_pre tm ext cl a s ∧
    (∀ t : RhsState, stepDiffState tm ext cl a t = t ∧ stepDiffMom ext a t = t) := by
  have hd : l_use_diff a.solverChoice = false := by simp [l_use_diff, hm, hl, hp]
  have hd2 : l_use_diff (a.withDiffusionData eddyDiffs source alpha_T alpha_C dynamicViscosity
      rho0_trans rhoAlpha_T rhoAlpha_C).solverChoice = false := hd
  constructor
  · have hbody : tileBody tm ext cl (a.withDiffusionData eddyDiffs source alpha_T alpha_C
        dynamicViscosity rho0_trans rhoAlpha_T rhoAlpha_C) s = tileBody tm ext cl a s := by
      simp only [tileBody, statePart, momSources, stepExpr_off _ _ _ hd, stepExpr_off _ _ _ hd2,
        stepTau_off _ _ _ _ hd, stepTau_off _ _ _ _ hd2, stepDiffState_off _ _ _ _ _ hd,
        stepDiffState_off _ _ _ _ _ hd2, stepDiffMom_off _ _ _ hd, stepDiffMom_off _ _ _ hd2]
      rw [stepPprime_withDiffusionData, stepOmega_withDiffusionData,
        stepAdvState_withDiffusionData, stepRayleighTheta_withDiffusionData,
        stepDetJState_withDiffusionData, stepAdvMom_withDiffusionData,
        stepXmom_withDiffusionData, stepYmom_withDiffusionData, stepZero_withDiffusionData,
        stepZmom_withDiffusionData]
      rfl
    unfold erf_slow_rhs_pre
    rw [hbody]
    rfl
  · intro t
    exact ⟨stepDiffState_off tm ext cl a t hd, stepDiffMom_off ext a t hd⟩

theorem no_diffusion_when_all_none_witness :
    erf_slow_rhs_pre flatMetrics idleExt idleClosures
        (restArgs.withDiffusionData (Array4.const 3) (Array4.const 5) 1 2 3 4 5 6) sevenState =
      erf_slow_rhs_pre flatMetrics idleExt idleClosures restArgs sevenState ∧
    (∀ t : RhsState, stepDiffState flatMetrics idleExt idleClosures restArgs t = t ∧
      stepDiffMom idleExt restArgs t = t) :=
  no_diffusion_when_all_none flatMetrics idleExt idleClosures restArgs sevenState
    (Array4.const 3) (Array4.const 5) 1 2 3 4 5 6 rfl rfl rfl

/-- C7 (as amended). Dry build, terrain or no terrain. If on the patch and its
one-cell lateral halo the density is the base-state density and the
equation-of-state pressure is the base-state pressure, the momenta are zero,
the external forcing is zero and Rayleigh damping is off, and if, when terrain
is used, the patch spans the full vertical extent `0..domhi_z` with
`domhi_z ≥ 1`, then the pressure-gradient, buoyancy, forcing and Coriolis terms
add exactly nothing to the x-, y- and z-momentum tendencies at every face they
update: each tendency is the value it had before these terms, times the
moving-terrain Jacobian factor (which is `1` unless the terrain moves). -/
theorem hydrostatic_rest_adds_no_momentum_tendency (tm : TerrainMetrics) (ext : RhsExt)
    (cl : Closures) (a : RhsArgs) (s : RhsState)
    (hbal : AtHydrostaticRest ext a)
    (hspan : a.solverChoice.use_terrain = true →
      a.tilebox.smallEnd.z = 0 ∧ a.tilebox.bigEnd.z = a.domhi_z ∧ 1 ≤ a.domhi_z) :
    (∀ i j k, a.tbx.contains i j k →
      (tileBody tm ext cl a s).rho_u_rhs i j k 0 =
        (momSources ext a (statePart tm ext cl a s)).rho_u_rhs i j k 0
          * jacobianFactor a 0 i j k) ∧
    (∀ i j k, a.tby.contains i j k →
      (tileBody tm ext cl a s).rho_v_rhs i j k 0 =
        (momSources ext a (statePart tm ext cl a s)).rho_v_rhs i j k 0
          * jacobianFactor a 1 i j k) ∧
    (∀ i j k, a.tbz.contains i j k →
      (tileBody tm ext cl a s).rho_w_rhs i j k 0 =
        (stepZero a (momSources ext a (statePart tm ext cl a s))).rho_w_rhs i j k 0
          * jacobianFactor a 2 i j k) := by
  have hpp := pp_zero_at_rest tm ext cl a s hbal
  refine ⟨?_, ?_, ?_⟩
  · intro i j k hc
    rw [tileBody_rho_u_rhs, stepXmom_apply, if_pos ⟨hc, rfl⟩]
    by_cases ht : a.solverChoice.use_terrain = true
    · rw [if_pos ht]
      exact xmomKernel_T_at_rest tm ext a _ hbal ht hpp (hspan ht) i j k hc _
    · rw [if_neg ht, xmomKernel_N_at_rest ext a _ hbal hpp i j k hc]
      simp [jacobianFactor, ht]
  · intro i j k hc
    rw [tileBody_rho_v_rhs, stepYmom_apply, if_pos ⟨hc, rfl⟩, stepXmom_pp_arr,
      stepXmom_rho_v_rhs]
    by_cases ht : a.solverChoice.use_terrain = true
    · rw [if_pos ht]
      exact ymomKernel_T_at_rest tm ext a _ hbal ht hpp (hspan ht) i j k hc _
    · rw [if_neg ht, ymomKernel_N_at_rest ext a _ hbal hpp i j k hc]
      simp [jacobianFactor, ht]
  · intro i j k hc
    have hpp2 : ∀ i j k, a.gbx.contains i j k →
        (stepZero a (stepYmom tm a (stepXmom tm a
          (momSources ext a (statePart tm ext cl a s))))).pp_arr i j k 0 = 0 := by
      intro i j k h
      show (stepYmom tm a _).pp_arr i j k 0 = 0
      rw [stepYmom_pp_arr, stepXmom_pp_arr]
      exact hpp i j k h
    have hz : (stepZero a (stepYmom tm a (stepXmom tm a
          (momSources ext a (statePart tm ext cl a s))))).rho_w_rhs i j k 0 =
        (stepZero a (momSources ext a (statePart tm ext cl a s))).rho_w_rhs i j k 0 := by
      rw [stepZero_apply, stepZero_apply, stepYmom_rho_w_rhs, stepXmom_rho_w_rhs]
    unfold tileBody
    rw [stepZmom_apply, if_pos ⟨hc, rfl⟩, zmomKernel_at_rest tm ext a _ hbal hpp2 i j k hc, hz]

theorem restArgs_at_rest : AtHydrostaticRest idleExt terrainRestArgs := by
  refine ⟨fun i j k _ => ⟨rfl, rfl⟩, fun i j k => ⟨rfl, rfl, rfl⟩, fun d => ?_, rfl⟩
  rcases d with _ | _ | d <;> exact ⟨rfl, rfl⟩

theorem hydrostatic_rest_adds_no_momentum_tendency_witness :
    (∀ i j k, terrainRestArgs.tbx.contains i j k →
      (tileBody slopeMetrics idleExt idleClosures terrainRestArgs sevenState).rho_u_rhs i j k 0 =
        (momSources idleExt terrainRestArgs
          (statePart slopeMetrics idleExt idleClosures terrainRestArgs sevenState)).rho_u_rhs
            i j k 0 * jacobianFactor terrainRestArgs 0 i j k) ∧
    (∀ i j k, terrainRestArgs.tby.contains i j k →
      (tileBody slopeMetrics idleExt idleClosures terrainRestArgs sevenState).rho_v_rhs i j k 0 =
        (momSources idleExt terrainRestArgs
          (statePart slopeMetrics idleExt idleClosures terrainRestArgs sevenState)).rho_v_rhs
            i j k 0 * jacobianFactor terrainRestArgs 1 i j k) ∧
    (∀ i j k, terrainRestArgs.tbz.contains i j k →
      (tileBody slopeMetrics idleExt idleClosures terrainRestArgs sevenState).rho_w_rhs i j k 0 =
        (stepZero terrainRestArgs (momSources idleExt terrainRestArgs
          (statePart slopeMetrics idleExt idleClosures terrainRestArgs sevenState))).rho_w_rhs
            i j k 0 * jacobianFactor terrainRestArgs 2 i j k) :=
  hydrostatic_rest_adds_no_momentum_tendency slopeMetrics idleExt idleClosures terrainRestArgs
    sevenState restArgs_at_rest (fun _ => ⟨rfl, rfl, by decide⟩)

/-- C7 (counterexample to the claim as stated). A terrain patch that is the
lower half `k = 0..1` of a domain with `k = 0..3`, on a uniform slope
(`h_xi = 1`), hydrostatically balanced and at rest in the sense of the claim,
with `7` left in the unwritten part of `pprime`: at the x-face `(0,0,1)` the
vertical pressure stencil reads `pprime` at `k = 2`, outside the cells where it
was computed, and the x-momentum tendency goes from `7` to `10.5`. -/
theorem hydrostatic_rest_counterexample :
    AtHydrostaticRest idleExt slopeArgs ∧ slopeArgs.tbx.contains 0 0 1 ∧
      (momSources idleExt slopeArgs
        (statePart slopeMetrics idleExt idleClosures slopeArgs sevenState)).rho_u_rhs 0 0 1 0
          * jacobianFactor slopeArgs 0 0 0 1 = 7 ∧
      (tileBody slopeMetrics idleExt idleClosures slopeArgs sevenState).rho_u_rhs 0 0 1 0
        = 10.5 := by
  refine ⟨⟨fun i j k _ => ⟨rfl, rfl⟩, fun i j k => ⟨rfl, rfl, rfl⟩, fun d => ?_, rfl⟩, by decide,
    ?_, ?_⟩
  · rcases d with _ | _ | d <;> exact ⟨rfl, rfl⟩
  · have h1 : (momSources idleExt slopeArgs
        (statePart slopeMetrics idleExt idleClosures slopeArgs sevenState)).rho_u_rhs 0 0 1 0
          = 7 := rfl
    rw [h1]
    simp [jacobianFactor, slopeArgs, l_moving_terrain]
  · have h1 : (momSources idleExt slopeArgs
        (statePart slopeMetrics idleExt idleClosures slopeArgs sevenState)).rho_u_rhs 0 0 1 0
          = 7 := rfl
    have ht : slopeArgs.solverChoice.use_terrain = true := rfl
    rw [tileBody_rho_u_rhs, stepXmom_apply, if_pos ⟨by decide, rfl⟩, if_pos ht, h1,
      momSources_pp_arr]
    simp only [xmomKernel_T, ownValue, stepPprime_apply]
    have c1 : slopeArgs.gbx.contains 0 0 1 := by decide
    have c2 : slopeArgs.gbx.contains (0 - 1) 0 1 := by decide
    have c3 : ¬ slopeArgs.gbx.contains 0 0 (1 + 1) := by decide
    have c4 : ¬ slopeArgs.gbx.contains (0 - 1) 0 (1 + 1) := by decide
    have c5 : slopeArgs.gbx.contains 0 0 (1 - 1) := by decide
    have c6 : slopeArgs.gbx.contains (0 - 1) 0 (1 - 1) := by decide
    simp only [c1, c2, c3, c4, c5, c6, true_and, false_and, if_true, if_false]
    norm_num [slopeArgs, restArgs, slopeMetrics, flatMetrics, idleExt, sevenState, stepScratch,
      Array4.const, Array4.set_apply, RhsArgs.domhi_z, IntVect.get, unitBox, ext_forcing,
      GpuArray3.mk3, l_moving_terrain, RhsArgs.z_nd, RhoTheta_comp]

/-- C10 (as amended). For each component `q` in `n_start..n_end` that is not
the TKE component under the Deardorff closure nor the QKE component when QKE
is advected, and each cell `(i,j,k)` of the box, `DiffusionSrcForState_T`
leaves in `cell_rhs(i,j,k,q)` the value that was there plus
`[(xflux(i+1,j,k,q)-xflux(i,j,k,q))*dx_inv*mf_m(i,j) + (yflux(i,j+1,k,q)-yflux(i,j,k,q))*dy_inv*mf_m(i,j) + (zflux(i,j,k+1,q)-zflux(i,j,k,q))*dz_inv + source(i,j,k,q)] / detJ(i,j,k)`
with the final (terrain-corrected) fluxes. -/
theorem tendency_update_adds_flux_divergence (tm : TerrainMetrics) (cl : Closures) (p : DiffArgs)
    (s : DiffState) (i j k q : Int) (hb : p.bx.contains i j k)
    (hq : p.n_start ≤ q ∧ q ≤ p.n_end) (hsp : ¬ specialComponent p q) :
    (DiffusionSrcForState_T tm cl p s).cell_rhs i j k q =
      s.cell_rhs i j k q +
        (((DiffusionSrcForState_T tm cl p s).xflux (i+1) j k q
            - (DiffusionSrcForState_T tm cl p s).xflux i j k q) * p.dxInv 0 * p.mf_m i j 0 0
          + ((DiffusionSrcForState_T tm cl p s).yflux i (j+1) k q
            - (DiffusionSrcForState_T tm cl p s).yflux i j k q) * p.dxInv 1 * p.mf_m i j 0 0
          + ((DiffusionSrcForState_T tm cl p s).zflux i j (k+1) q
            - (DiffusionSrcForState_T tm cl p s).zflux i j k q) * p.dxInv 2
          + p.source_fab i j k q) / p.detJ i j k 0 :=
  DiffusionSrcForState_T_generic tm cl p s i j k q hb hq hsp

theorem tendency_update_adds_flux_divergence_witness :
    (DiffusionSrcForState_T flatMetrics shearClosures keArgs zeroDiffState).cell_rhs 0 1 0
        RhoTheta_comp =
      zeroDiffState.cell_rhs 0 1 0 RhoTheta_comp +
        (((DiffusionSrcForState_T flatMetrics shearClosures keArgs zeroDiffState).xflux (0+1) 1 0
              RhoTheta_comp
            - (DiffusionSrcForState_T flatMetrics shearClosures keArgs zeroDiffState).xflux 0 1 0
              RhoTheta_comp) * keArgs.dxInv 0 * keArgs.mf_m 0 1 0 0
          + ((DiffusionSrcForState_T flatMetrics shearClosures keArgs zeroDiffState).yflux 0 (1+1) 0
              RhoTheta_comp
            - (DiffusionSrcForState_T flatMetrics shearClosures keArgs zeroDiffState).yflux 0 1 0
              RhoTheta_comp) * keArgs.dxInv 1 * keArgs.mf_m 0 1 0 0
          + ((DiffusionSrcForState_T flatMetrics shearClosures keArgs zeroDiffState).zflux 0 1 (0+1)
              RhoTheta_comp
            - (DiffusionSrcForState_T flatMetrics shearClosures keArgs zeroDiffState).zflux 0 1 0
              RhoTheta_comp) * keArgs.dxInv 2
          + keArgs.source_fab 0 1 0 RhoTheta_comp) / keArgs.detJ 0 1 0 0 :=
  tendency_update_adds_flux_divergence flatMetrics shearClosures keArgs zeroDiffState 0 1 0
    RhoTheta_comp (by decide) (by decide) (by
      rintro (⟨_, h⟩ | ⟨_, h⟩) <;> exact absurd h (by decide))

/-- C10 (counterexample to the claim as stated). Deardorff closure, components
RhoTheta..RhoKE, fluid at rest with zero TKE and a shear production of `1`: at
the TKE component of cell `(0,0,0)` the tendency left by
`DiffusionSrcForState_T` is the old value plus the flux divergence plus `1`. -/
theorem tendency_update_counterexample :
    keArgs.bx.contains 0 0 0 ∧ (keArgs.n_start ≤ RhoKE_comp ∧ RhoKE_comp ≤ keArgs.n_end) ∧
      (DiffusionSrcForState_T flatMetrics shearClosures keArgs zeroDiffState).cell_rhs 0 0 0
          RhoKE_comp =
        zeroDiffState.cell_rhs 0 0 0 RhoKE_comp
          + fluxDivergence keArgs
              (DiffusionSrcForState_T flatMetrics shearClosures keArgs zeroDiffState) 0 0 0
              RhoKE_comp
          + 1 := by
  exact ⟨by decide, by decide, keArgs_ke_increment 0 0 0 (by decide)⟩

/-- C5 (as amended). Discrete conservation of `DiffusionSrcForState_T`: on a
non-empty box with zero source, unit map factor `mf_m` and non-zero `detJ`,
for every component `q` in `n_start..n_end` other than the TKE component under
Deardorff and the QKE component when QKE is advected, the sum over the cells
of the box of `detJ(i,j,k)` times the increment of `cell_rhs` equals the net
final flux through the boundary faces of the box (interior faces cancel); it is
exactly `0` when the final fluxes on opposite boundary faces are equal. -/
theorem diffusive_tendency_is_conservative (tm : TerrainMetrics) (cl : Closures) (p : DiffArgs)
    (s : DiffState) (q : Int)
    (hq : p.n_start ≤ q ∧ q ≤ p.n_end) (hsp : ¬ specialComponent p q)
    (hne : p.bx.smallEnd.x ≤ p.bx.bigEnd.x ∧ p.bx.smallEnd.y ≤ p.bx.bigEnd.y ∧
      p.bx.smallEnd.z ≤ p.bx.bigEnd.z)
    (hsrc : ∀ i j k, p.bx.contains i j k → p.source_fab i j k q = 0)
    (hmf : ∀ i j k, p.bx.contains i j k → p.mf_m i j 0 0 = 1)
    (hJ : ∀ i j k, p.bx.contains i j k → p.detJ i j k 0 ≠ 0) :
    p.bx.sumCells (fun i j k => p.detJ i j k 0 *
        ((DiffusionSrcForState_T tm cl p s).cell_rhs i j k q - s.cell_rhs i j k q)) =
      netBoundaryFlux p (DiffusionSrcForState_T tm cl p s) q ∧
    ((∀ j k, (DiffusionSrcForState_T tm cl p s).xflux (p.bx.bigEnd.x + 1) j k q =
          (DiffusionSrcForState_T tm cl p s).xflux p.bx.smallEnd.x j k q) →
      (∀ i k, (DiffusionSrcForState_T tm cl p s).yflux i (p.bx.bigEnd.y + 1) k q =
          (DiffusionSrcForState_T tm cl p s).yflux i p.bx.smallEnd.y k q) →
      (∀ i j, (DiffusionSrcForState_T tm cl p s).zflux i j (p.bx.bigEnd.z + 1) q =
          (DiffusionSrcForState_T tm cl p s).zflux i j p.bx.smallEnd.z q) →
      p.bx.sumCells (fun i j k => p.detJ i j k 0 *
        ((DiffusionSrcForState_T tm cl p s).cell_rhs i j k q - s.cell_rhs i j k q)) = 0) := by
  have hsum : p.bx.sumCells (fun i j k => p.detJ i j k 0 *
        ((DiffusionSrcForState_T tm cl p s).cell_rhs i j k q - s.cell_rhs i j k q)) =
      netBoundaryFlux p (DiffusionSrcForState_T tm cl p s) q := by
    rw [sumCells_congr p.bx _
      (fun i j k =>
        ((DiffusionSrcForState_T tm cl p s).xflux (i+1) j k q
          - (DiffusionSrcForState_T tm cl p s).xflux i j k q) * p.dxInv 0
        + ((DiffusionSrcForState_T tm cl p s).yflux i (j+1) k q
          - (DiffusionSrcForState_T tm cl p s).yflux i j k q) * p.dxInv 1
        + ((DiffusionSrcForState_T tm cl p s).zflux i j (k+1) q
          - (DiffusionSrcForState_T tm cl p s).zflux i j k q) * p.dxInv 2
        + (fun _ _ _ => (0 : ℚ)) i j k)]
    · refine (sumCells_divergence p.bx (by omega) (by omega) (by omega)
        (fun i j k => (DiffusionSrcForState_T tm cl p s).xflux i j k q)
        (fun i j k => (DiffusionSrcForState_T tm cl p s).yflux i j k q)
        (fun i j k => (DiffusionSrcForState_T tm cl p s).zflux i j k q)
        (fun _ _ _ => 0) (p.dxInv 0) (p.dxInv 1) (p.dxInv 2)).trans ?_
      rw [sumCells_zero, add_zero]
      rfl
    · intro i j k hb
      rw [DiffusionSrcForState_T_generic tm cl p s i j k q hb hq hsp]
      simp only [fluxDivergence, hsrc i j k hb, hmf i j k hb]
      field_simp [hJ i j k hb]
      ring
  refine ⟨hsum, fun h1 h2 h3 => ?_⟩
  rw [hsum]
  unfold netBoundaryFlux
  simp only [h1, h2, h3, sub_self, sumInt_zero, mul_zero, add_zero]

theorem diffusive_tendency_is_conservative_witness :
    keArgs.bx.sumCells (fun i j k => keArgs.detJ i j k 0 *
        ((DiffusionSrcForState_T flatMetrics shearClosures keArgs zeroDiffState).cell_rhs i j k
            RhoTheta_comp - zeroDiffState.cell_rhs i j k RhoTheta_comp)) =
      netBoundaryFlux keArgs
        (DiffusionSrcForState_T flatMetrics shearClosures keArgs zeroDiffState) RhoTheta_comp :=
  (diffusive_tendency_is_conservative flatMetrics shearClosures keArgs zeroDiffState
    RhoTheta_comp (by decide)
    (by rintro (⟨_, h⟩ | ⟨_, h⟩) <;> exact absurd h (by decide))
    (by decide) (fun _ _ _ _ => rfl) (fun _ _ _ _ => rfl)
    (fun _ _ _ _ => by norm_num [keArgs, Array4.const])).1

/-- C5 (counterexample to the claim as stated). Deardorff closure, components
RhoTheta..RhoKE, zero source, unit map factor, `detJ = 1`, fluid at rest with
zero TKE and a shear production of `1` per cell: at the TKE component the
sum of `detJ` times the increment over the 8 cells of the box is the net
boundary flux plus `8`. -/
theorem conservation_counterexample :
    (keArgs.n_start ≤ RhoKE_comp ∧ RhoKE_comp ≤ keArgs.n_end) ∧
    keArgs.bx.sumCells (fun i j k => keArgs.detJ i j k 0 *
        ((DiffusionSrcForState_T flatMetrics shearClosures keArgs zeroDiffState).cell_rhs i j k
            RhoKE_comp - zeroDiffState.cell_rhs i j k RhoKE_comp)) =
      netBoundaryFlux keArgs
        (DiffusionSrcForState_T flatMetrics shearClosures keArgs zeroDiffState) RhoKE_comp
        + 8 := by
  refine ⟨by decide, ?_⟩
  rw [sumCells_congr keArgs.bx _
    (fun i j k =>
      ((DiffusionSrcForState_T flatMetrics shearClosures keArgs zeroDiffState).xflux (i+1) j k
          RhoKE_comp
        - (DiffusionSrcForState_T flatMetrics shearClosures keArgs zeroDiffState).xflux i j k
          RhoKE_comp) * keArgs.dxInv 0
      + ((DiffusionSrcForState_T flatMetrics shearClosures keArgs zeroDiffState).yflux i (j+1) k
          RhoKE_comp
        - (DiffusionSrcForState_T flatMetrics shearClosures keArgs zeroDiffState).yflux i j k
          RhoKE_comp) * keArgs.dxInv 1
      + ((DiffusionSrcForState_T flatMetrics shearClosures keArgs zeroDiffState).zflux i j (k+1)
          RhoKE_comp
        - (DiffusionSrcForState_T flatMetrics shearClosures keArgs zeroDiffState).zflux i j k
          RhoKE_comp) * keArgs.dxInv 2
      + (fun _ _ _ => (1 : ℚ)) i j k)]
  · refine (sumCells_divergence keArgs.bx (by decide) (by decide) (by decide)
      (fun i j k => (DiffusionSrcForState_T flatMetrics shearClosures keArgs zeroDiffState).xflux
        i j k RhoKE_comp)
      (fun i j k => (DiffusionSrcForState_T flatMetrics shearClosures keArgs zeroDiffState).yflux
        i j k RhoKE_comp)
      (fun i j k => (DiffusionSrcForState_T flatMetrics shearClosures keArgs zeroDiffState).zflux
        i j k RhoKE_comp)
      (fun _ _ _ => 1) (keArgs.dxInv 0) (keArgs.dxInv 1) (keArgs.dxInv 2)).trans ?_
    have h8 : keArgs.bx.sumCells (fun _ _ _ => (1 : ℚ)) = 8 := by
      have e : Int.toNat 2 = 2 := rfl
      simp only [Box.sumCells, sumInt, rangeInt, keArgs, unitBox]
      norm_num [e, List.range_succ]
    rw [h8]
    rfl
  · intro i j k hb
    rw [keArgs_ke_increment i j k hb]
    simp only [fluxDivergence]
    norm_num [keArgs, zeroDiffState, Array4.const]

/-- C6 (as amended). With identity metrics (`h_xi = h_eta = 0`, `h_zeta = 1`
at every evaluation point, `detJ = 1`), in whichever of the four diffusivity
modes the solver choices select and for every component `q` in
`n_start..n_end`, `DiffusionSrcForState_T` leaves on every x-, y- and z-face of
the box the Cartesian reference fluxes `D*mf_u*dx_inv*(q(i,j,k)-q(i-1,j,k))`,
`D*mf_v*dy_inv*(q(i,j,k)-q(i,j-1,k))`, `D*dz_inv*(q(i,j,k)-q(i,j,k-1))`; and
for every component other than the TKE component under Deardorff and the QKE
component when QKE is advected, the increment of `cell_rhs` is the plain
Cartesian divergence of these fluxes plus the source. -/
theorem identity_metrics_match_cartesian_reference (tm : TerrainMetrics) (cl : Closures)
    (p : DiffArgs) (s : DiffState) (q : Int) (hid : IdentityMetrics tm p)
    (hq : p.n_start ≤ q ∧ q ≤ p.n_end) :
    (∀ i j k, (surroundingNodes p.bx 0).contains i j k →
      (DiffusionSrcForState_T tm cl p s).xflux i j k q = cartesian_xflux p i j k q) ∧
    (∀ i j k, (surroundingNodes p.bx 1).contains i j k →
      (DiffusionSrcForState_T tm cl p s).yflux i j k q = cartesian_yflux p i j k q) ∧
    (∀ i j k, (surroundingNodes p.bx 2).contains i j k →
      (DiffusionSrcForState_T tm cl p s).zflux i j k q = cartesian_zflux p i j k q) ∧
    (¬ specialComponent p q → ∀ i j k, p.bx.contains i j k →
      (DiffusionSrcForState_T tm cl p s).cell_rhs i j k q =
        s.cell_rhs i j k q + cartesian_increment p i j k q) := by
  refine ⟨fun i j k hb => final_xflux_identity tm cl p s hid i j k q hb hq,
    fun i j k hb => final_yflux_identity tm cl p s hid i j k q hb hq,
    fun i j k hb => final_zflux_identity tm cl p s hid i j k q hb hq,
    fun hsp i j k hb => ?_⟩
  rw [DiffusionSrcForState_T_generic tm cl p s i j k q hb hq hsp,
    fluxDivergence_identity tm cl p s hid i j k q hb hq]

theorem flatMetrics_identity (p : DiffArgs) (h : ∀ i j k, p.detJ i j k 0 = 1) :
    IdentityMetrics flatMetrics p :=
  ⟨fun _ _ _ => ⟨rfl, rfl, rfl, rfl, rfl, rfl, rfl, rfl⟩, h⟩

theorem identity_metrics_match_cartesian_reference_witness :
    (∀ i j k, (surroundingNodes keArgs.bx 0).contains i j k →
      (DiffusionSrcForState_T flatMetrics shearClosures keArgs zeroDiffState).xflux i j k
        RhoTheta_comp = cartesian_xflux keArgs i j k RhoTheta_comp) ∧
    (∀ i j k, (surroundingNodes keArgs.bx 1).contains i j k →
      (DiffusionSrcForState_T flatMetrics shearClosures keArgs zeroDiffState).yflux i j k
        RhoTheta_comp = cartesian_yflux keArgs i j k RhoTheta_comp) ∧
    (∀ i j k, (surroundingNodes keArgs.bx 2).contains i j k →
      (DiffusionSrcForState_T flatMetrics shearClosures keArgs zeroDiffState).zflux i j k
        RhoTheta_comp = cartesian_zflux keArgs i j k RhoTheta_comp) ∧
    (¬ specialComponent keArgs RhoTheta_comp → ∀ i j k, keArgs.bx.contains i j k →
      (DiffusionSrcForState_T flatMetrics shearClosures keArgs zeroDiffState).cell_rhs i j k
          RhoTheta_comp =
        zeroDiffState.cell_rhs i j k RhoTheta_comp
          + cartesian_increment keArgs i j k RhoTheta_comp) :=
  identity_metrics_match_cartesian_reference flatMetrics shearClosures keArgs zeroDiffState
    RhoTheta_comp (flatMetrics_identity keArgs (fun _ _ _ => rfl)) (by decide)

/-- C6 (counterexample to the claim as stated). Identity metrics, QKE advected,
components RhoTheta..RhoQKE, a QKE source of `1`: at the QKE component of cell
`(0,0,0)` the tendency left by `DiffusionSrcForState_T` is the old value plus
the Cartesian divergence and source plus `1`. -/
theorem cartesian_reference_counterexample :
    IdentityMetrics flatMetrics qkeArgs ∧ qkeArgs.bx.contains 0 0 0 ∧
      (qkeArgs.n_start ≤ RhoQKE_comp ∧ RhoQKE_comp ≤ qkeArgs.n_end) ∧
      (DiffusionSrcForState_T flatMetrics qkeClosures qkeArgs zeroDiffState).cell_rhs 0 0 0
          RhoQKE_comp =
        zeroDiffState.cell_rhs 0 0 0 RhoQKE_comp
          + cartesian_increment qkeArgs 0 0 0 RhoQKE_comp + 1 := by
  have hid : IdentityMetrics flatMetrics qkeArgs := flatMetrics_identity qkeArgs (fun _ _ _ => rfl)
  refine ⟨hid, by decide, by decide, ?_⟩
  rw [DiffusionSrcForState_T_qke flatMetrics qkeClosures qkeArgs zeroDiffState 0 0 0 (by decide)
    (by decide) ⟨rfl, rfl⟩,
    fluxDivergence_identity flatMetrics qkeClosures qkeArgs zeroDiffState hid 0 0 0 RhoQKE_comp
      (by decide) (by decide)]
  rfl

/-- C15. `ComputeGhostCells` returns `2` for the spatial orders 2, 3 and 4
and `3` for the orders 5 and 6, and raises its error for every other integer;
on the orders `2..6` the returned number is non-decreasing in the order. -/
theorem ghost_cells_by_spatial_order :
    ComputeGhostCells 2 = Except.ok 2 ∧ ComputeGhostCells 3 = Except.ok 2 ∧
    ComputeGhostCells 4 = Except.ok 2 ∧ ComputeGhostCells 5 = Except.ok 3 ∧
    ComputeGhostCells 6 = Except.ok 3 ∧
    (∀ n : Int, n < 2 ∨ 6 < n →
      ComputeGhostCells n = Except.error "Must specify spatial order to be 2,3,4,5 or 6") ∧
    (∀ m n g h : Int, 2 ≤ m → m ≤ n → n ≤ 6 →
      ComputeGhostCells m = Except.ok g → ComputeGhostCells n = Except.ok h → g ≤ h) := by
  refine ⟨rfl, rfl, rfl, rfl, rfl, ?_, ?_⟩
  · intro n hn
    unfold ComputeGhostCells
    rw [if_neg (by omega), if_neg (by omega), if_neg (by omega), if_neg (by omega),
      if_neg (by omega)]
  · intro m n g h h2 hmn h6 hg hh
    have hm : m = 2 ∨ m = 3 ∨ m = 4 ∨ m = 5 ∨ m = 6 := by omega
    have hn : n = 2 ∨ n = 3 ∨ n = 4 ∨ n = 5 ∨ n = 6 := by omega
    rcases hm with rfl | rfl | rfl | rfl | rfl <;> rcases hn with rfl | rfl | rfl | rfl | rfl <;>
      simp [ComputeGhostCells] at hg hh <;> omega

/-- C11. With terrain (static, or moving with `z_t` supplied) the Omega of
the result of `erf_slow_rhs_pre` is exactly `0` at the ground face `k = 0` for
every `(i,j)` of the z-nodal tile box grown by one cell laterally, whatever
`rho_w`, `rho_u`, `rho_v`, the metrics, the density and `z_t` are. -/
theorem omega_zero_on_ground_with_terrain (tm : TerrainMetrics) (ext : RhsExt) (cl : Closures)
    (a : RhsArgs) (s r : RhsState) (i j : Int)
    (hret : erf_slow_rhs_pre tm ext cl a s = Except.ok r)
    (ht : a.solverChoice.use_terrain = true)
    (hc : ((surroundingNodes a.tilebox 2).grow ⟨1, 1, 0⟩).contains i j 0) :
    r.omega_arr i j 0 0 = 0 := by
  rw [erf_slow_rhs_pre_ok tm ext cl a s r hret, tileBody_omega_arr]
  exact stepOmega_ground tm a _ i j ht hc

theorem omega_zero_on_ground_with_terrain_witness :
    (tileBody flatMetrics idleExt idleClosures movingArgs sevenState).omega_arr 2 (-1) 0 0 = 0 :=
  omega_zero_on_ground_with_terrain flatMetrics idleExt idleClosures movingArgs sevenState _ 2 (-1)
    movingArgs_ok rfl (by decide)

/-- C12. When `erf_slow_rhs_pre` returns, each momentum tendency at a face
of its update box is the value accumulated there by advection, diffusion,
pressure gradient, buoyancy, forcing, Coriolis and damping, multiplied under
moving terrain (`terrain_type = 1`) by the mean of `detJ` over the two cells
sharing the face, and by no factor under static terrain or without terrain. -/
theorem moving_terrain_scales_momentum_tendencies (tm : TerrainMetrics) (ext : RhsExt)
    (cl : Closures) (a : RhsArgs) (s r : RhsState) (i j k : Int)
    (hret : erf_slow_rhs_pre tm ext cl a s = Except.ok r) :
    (a.tbx.contains i j k →
      r.rho_u_rhs i j k 0 =
        (accumulatedMomentum tm ext cl a s).rho_u_rhs i j k 0 *
          (if a.solverChoice.terrain_type = 1 then 0.5 * (a.dJ i j k 0 + a.dJ (i-1) j k 0)
           else 1)) ∧
    (a.tby.contains i j k →
      r.rho_v_rhs i j k 0 =
        (accumulatedMomentum tm ext cl a s).rho_v_rhs i j k 0 *
          (if a.solverChoice.terrain_type = 1 then 0.5 * (a.dJ i j k 0 + a.dJ i (j-1) k 0)
           else 1)) ∧
    (a.tbz.contains i j k →
      r.rho_w_rhs i j k 0 =
        (accumulatedMomentum tm ext cl a s).rho_w_rhs i j k 0 *
          (if a.solverChoice.terrain_type = 1 then 0.5 * (a.dJ i j k 0 + a.dJ i j (k-1) 0)
           else 1)) := by
  have hassert : ¬ (l_moving_terrain a.solverChoice = true ∧
      a.solverChoice.use_terrain = false) := by
    intro h
    unfold erf_slow_rhs_pre at hret
    rw [if_pos h] at hret
    cases hret
  rw [erf_slow_rhs_pre_ok tm ext cl a s r hret]
  exact tileBody_momentum_factor tm ext cl a s i j k hassert

theorem moving_terrain_scales_momentum_tendencies_witness :
    (tileBody flatMetrics idleExt idleClosures movingArgs sevenState).rho_u_rhs 1 1 1 0 =
      (accumulatedMomentum flatMetrics idleExt idleClosures movingArgs sevenState).rho_u_rhs
        1 1 1 0 * 3 ∧
    (tileBody flatMetrics idleExt idleClosures movingArgs sevenState).rho_v_rhs 1 1 1 0 =
      (accumulatedMomentum flatMetrics idleExt idleClosures movingArgs sevenState).rho_v_rhs
        1 1 1 0 * 3 ∧
    (tileBody flatMetrics idleExt idleClosures movingArgs sevenState).rho_w_rhs 1 1 1 0 =
      (accumulatedMomentum flatMetrics idleExt idleClosures movingArgs sevenState).rho_w_rhs
        1 1 1 0 * 3 := by
  have h := moving_terrain_scales_momentum_tendencies flatMetrics idleExt idleClosures
    movingArgs sevenState _ 1 1 1 movingArgs_ok
  have e : (0.5 : ℚ) * (movingArgs.dJ 1 1 1 0 + movingArgs.dJ (1-1) 1 1 0) = 3 := by
    norm_num [movingArgs, Array4.const]
  have e2 : (0.5 : ℚ) * (movingArgs.dJ 1 1 1 0 + movingArgs.dJ 1 (1-1) 1 0) = 3 := by
    norm_num [movingArgs, Array4.const]
  have e3 : (0.5 : ℚ) * (movingArgs.dJ 1 1 1 0 + movingArgs.dJ 1 1 (1-1) 0) = 3 := by
    norm_num [movingArgs, Array4.const]
  have hm : movingArgs.solverChoice.terrain_type = 1 := rfl
  rw [if_pos hm, if_pos hm, if_pos hm, e, e2, e3] at h
  exact ⟨h.1 (by decide), h.2.1 (by decide), h.2.2 (by decide)⟩

/-- C14. Once the terrain assertion of line 63 has passed,
`erf_slow_rhs_pre` fails with the assertion of the perturbation-pressure pass
exactly when some cell of the tile box grown by one cell in x and y has
`RhoTheta <= 0`; when it returns, the pass has written
`getPgivenRTh(RhoTheta) - p0` at every cell of that box while the momentum
tendencies are still untouched, and that is the perturbation pressure the
momentum kernels read and the result holds. -/
theorem pprime_pass_asserts_positive_rhotheta (tm : TerrainMetrics) (ext : RhsExt)
    (cl : Closures) (a : RhsArgs) (s : RhsState)
    (hassert : ¬ (l_moving_terrain a.solverChoice = true ∧
      a.solverChoice.use_terrain = false)) :
    (erf_slow_rhs_pre tm ext cl a s =
        Except.error "Assertion cell_data(i,j,k,RhoTheta_comp) > 0. failed" ↔
      ∃ i j k, (a.tilebox.grow ⟨1, 1, 0⟩).contains i j k ∧
        a.cell_data i j k RhoTheta_comp ≤ 0) ∧
    (∀ r, erf_slow_rhs_pre tm ext cl a s = Except.ok r →
      ((stepPprime ext a (stepScratch s)).rho_u_rhs = s.rho_u_rhs ∧
       (stepPprime ext a (stepScratch s)).rho_v_rhs = s.rho_v_rhs ∧
       (stepPprime ext a (stepScratch s)).rho_w_rhs = s.rho_w_rhs) ∧
      ∀ i j k, (a.tilebox.grow ⟨1, 1, 0⟩).contains i j k →
        (stepPprime ext a (stepScratch s)).pp_arr i j k 0 =
          ext.getPgivenRTh (a.cell_data i j k RhoTheta_comp) - a.p0 i j k 0 ∧
        (momSources ext a (statePart tm ext cl a s)).pp_arr i j k 0 =
          ext.getPgivenRTh (a.cell_data i j k RhoTheta_comp) - a.p0 i j k 0 ∧
        r.pp_arr i j k 0 =
          ext.getPgivenRTh (a.cell_data i j k RhoTheta_comp) - a.p0 i j k 0) := by
  constructor
  · refine Iff.trans ?_ (pprime_check_iff a)
    unfold erf_slow_rhs_pre
    rw [if_neg hassert]
    by_cases hany : a.gbx.cells.any
        (fun c => decide (a.cell_data c.1 c.2.1 c.2.2 RhoTheta_comp ≤ 0)) = true
    · rw [if_pos hany]
      exact ⟨fun _ => hany, fun _ => rfl⟩
    · rw [if_neg hany]
      exact ⟨fun h => (by cases h), fun h => absurd h hany⟩
  · intro r hret
    refine ⟨⟨rfl, rfl, rfl⟩, ?_⟩
    intro i j k hc
    have hc2 : a.gbx.contains i j k := hc
    have hp : (stepPprime ext a (stepScratch s)).pp_arr i j k 0 =
        ext.getPgivenRTh (a.cell_data i j k RhoTheta_comp) - a.p0 i j k 0 := by
      rw [stepPprime_apply, if_pos ⟨hc2, rfl⟩]
    refine ⟨hp, ?_, ?_⟩
    · rw [momSources_pp_arr, hp]
    · rw [erf_slow_rhs_pre_ok tm ext cl a s r hret]
      unfold tileBody
      rw [stepZmom_pp_arr]
      show (stepYmom tm a _).pp_arr i j k 0 = _
      rw [stepYmom_pp_arr, stepXmom_pp_arr, momSources_pp_arr, hp]


theorem pprime_pass_asserts_positive_rhotheta_witness :
    (tileBody flatMetrics idleExt idleClosures restArgs sevenState).pp_arr 0 0 0 0 = 0 ∧
      erf_slow_rhs_pre flatMetrics idleExt idleClosures coldArgs sevenState =
        Except.error "Assertion cell_data(i,j,k,RhoTheta_comp) > 0. failed" := by
  have h := ((pprime_pass_asserts_positive_rhotheta flatMetrics idleExt idleClosures restArgs
    sevenState (by decide)).2 _ restArgs_ok).2 0 0 0 (by decide)
  have e : idleExt.getPgivenRTh (restArgs.cell_data 0 0 0 RhoTheta_comp) - restArgs.p0 0 0 0 0
      = 0 := by
    norm_num [idleExt, restArgs, Array4.const]
  refine ⟨h.2.2.trans e, ?_⟩
  exact (pprime_pass_asserts_positive_rhotheta flatMetrics idleExt idleClosures coldArgs
    sevenState (by decide)).1.2 ⟨0, 0, 0, by decide, by norm_num [coldArgs, Array4.const]⟩

/-- C16. On the first call of `init_params` (static strings at their initial
values): when the call returns and the inputs give no `molec_diff_type`, the
result has `Constant` if `les_type` is `None` and `None` if an LES closure is
selected; a `molec_diff_type` given as `Constant`, `ConstantAlpha` or `None`
is the one of the result; with any other string the call raises an error,
which is `Don't know this molec_diff_type` when the LES string is a known one. -/
theorem molec_diff_type_default_and_override (c : Constants) (pp : ParmParse)
    (sc : SolverChoice) :
    (∀ r, init_params c pp {} sc = Except.ok r →
      (pp.molec_diff_type = none →
        (r.1.les_type = LESType.None → r.1.molec_diff_type = MolecDiffType.Constant) ∧
        (r.1.les_type ≠ LESType.None → r.1.molec_diff_type = MolecDiffType.None)) ∧
      (pp.molec_diff_type = some "Constant" → r.1.molec_diff_type = MolecDiffType.Constant) ∧
      (pp.molec_diff_type = some "ConstantAlpha" →
        r.1.molec_diff_type = MolecDiffType.ConstantAlpha) ∧
      (pp.molec_diff_type = some "None" → r.1.molec_diff_type = MolecDiffType.None)) ∧
    (∀ str, pp.molec_diff_type = some str → str ≠ "Constant" → str ≠ "ConstantAlpha" →
      str ≠ "None" →
      (∃ e, init_params c pp {} sc = Except.error e) ∧
      (∀ les, parse_les_type (query pp.les_type "None") = Except.ok les →
        init_params c pp {} sc = Except.error "Don't know this molec_diff_type")) := by
  constructor
  · intro r h
    have hm := (init_params_config c pp {} sc r h).2.1
    refine ⟨?_, ?_, ?_, ?_⟩
    · intro hn
      rw [hn] at hm
      constructor
      · intro hl
        rw [if_pos hl] at hm
        injection hm with hm
        exact hm.symm
      · intro hl
        rw [if_neg hl] at hm
        injection hm with hm
        exact hm.symm
    · intro hs
      rw [hs] at hm
      injection hm with hm
      exact hm.symm
    · intro hs
      rw [hs] at hm
      injection hm with hm
      exact hm.symm
    · intro hs
      rw [hs] at hm
      injection hm with hm
      exact hm.symm
  · intro str hs h1 h2 h3
    have key : ∀ les, parse_les_type (query pp.les_type "None") = Except.ok les →
        init_params c pp {} sc = Except.error "Don't know this molec_diff_type" := by
      intro les hl
      have hl2 : parse_les_type (query pp.les_type ({} : Statics).les_type_string) =
          Except.ok les := hl
      unfold init_params
      simp only [bind, Except.bind, pure, Except.pure]
      rw [hl2]
      simp only [hs, query, Option.getD_some]
      rw [parse_molec_diff_type_unknown str h1 h2 h3]
    refine ⟨?_, key⟩
    cases hl : parse_les_type (query pp.les_type "None") with
    | ok les => exact ⟨_, key les hl⟩
    | error e =>
      have hl2 : parse_les_type (query pp.les_type ({} : Statics).les_type_string) =
          Except.error e := hl
      refine ⟨e, ?_⟩
      unfold init_params
      simp only [bind, Except.bind, pure, Except.pure]
      rw [hl2]

theorem molec_diff_type_default_and_override_witness :
    (∃ r, init_params sampleConstants {} {} {} = Except.ok r ∧
      r.1.molec_diff_type = MolecDiffType.Constant) ∧
    (∃ r, init_params sampleConstants { les_type := some "Smagorinsky" } {} {} = Except.ok r ∧
      r.1.molec_diff_type = MolecDiffType.None) ∧
    (∃ r, init_params sampleConstants
        { les_type := some "Smagorinsky", molec_diff_type := some "Constant" } {} {} =
          Except.ok r ∧
      r.1.molec_diff_type = MolecDiffType.Constant) ∧
    init_params sampleConstants { molec_diff_type := some "Molecular" } {} {} =
      Except.error "Don't know this molec_diff_type" := by
  have h1 : ∃ r, init_params sampleConstants {} {} {} = Except.ok r := by
    simp +decide [init_params, bind, Except.bind, pure, Except.pure, query, parse_les_type,
      parse_molec_diff_type, parse_pbl_type, init_pbl, parse_abl_driver_type, parse_ic_bc_type]
  have h2 : ∃ r, init_params sampleConstants { les_type := some "Smagorinsky" } {} {} =
      Except.ok r := by
    simp +decide [init_params, bind, Except.bind, pure, Except.pure, query, parse_les_type,
      parse_molec_diff_type, parse_pbl_type, init_pbl, parse_abl_driver_type, parse_ic_bc_type]
  have h3 : ∃ r, init_params sampleConstants
      { les_type := some "Smagorinsky", molec_diff_type := some "Constant" } {} {} =
        Except.ok r := by
    simp +decide [init_params, bind, Except.bind, pure, Except.pure, query, parse_les_type,
      parse_molec_diff_type, parse_pbl_type, init_pbl, parse_abl_driver_type, parse_ic_bc_type]
  obtain ⟨r1, e1⟩ := h1
  obtain ⟨r2, e2⟩ := h2
  obtain ⟨r3, e3⟩ := h3
  have l1 := (init_params_config _ _ _ _ _ e1).1
  have l2 := (init_params_config _ _ _ _ _ e2).1
  refine ⟨⟨r1, e1, ?_⟩, ⟨r2, e2, ?_⟩, ⟨r3, e3, ?_⟩, ?_⟩
  · refine (((molec_diff_type_default_and_override sampleConstants {} {}).1 r1 e1).1 rfl).1 ?_
    have : parse_les_type (query (none : Option String) "None") = Except.ok LESType.None := by
      simp +decide [parse_les_type, query, pure, Except.pure]
    rw [show parse_les_type (query ({} : ParmParse).les_type ({} : Statics).les_type_string) =
      Except.ok LESType.None from this] at l1
    injection l1 with l1
    exact l1.symm
  · refine (((molec_diff_type_default_and_override sampleConstants _ {}).1 r2 e2).1 rfl).2 ?_
    have : parse_les_type (query (some "Smagorinsky") "None") = Except.ok LESType.Smagorinsky := by
      simp +decide [parse_les_type, query, pure, Except.pure]
    rw [show parse_les_type (query ({ les_type := some "Smagorinsky" } : ParmParse).les_type
      ({} : Statics).les_type_string) = Except.ok LESType.Smagorinsky from this] at l2
    injection l2 with l2
    rw [← l2]
    decide
  · exact ((molec_diff_type_default_and_override sampleConstants _ {}).1 r3 e3).2.1 rfl
  · exact ((molec_diff_type_default_and_override sampleConstants _ {}).2 "Molecular" rfl
      (by decide) (by decide) (by decide)).2 LESType.None
      (by simp +decide [parse_les_type, query, pure, Except.pure])

/-- C19. In `erf_slow_rhs_pre` the state diffusion is invoked with
`n_start = n_end = RhoTheta_comp`, and it leaves the tendency of every other
component, the density in particular, as it was: for every diffusion set-up,
with terrain by `DiffusionSrcForState_T`, without terrain for a
`DiffusionSrcForState_N` that writes only the components it is given. -/
theorem state_diffusion_reaches_rhotheta_only (tm : TerrainMetrics) (ext : RhsExt)
    (cl : Closures) (a : RhsArgs) (s : RhsState)
    (hN : ∀ (d : DiffState) (i j k q : Int),
      ¬ (a.diffArgs.n_start ≤ q ∧ q ≤ a.diffArgs.n_end) →
      (ext.DiffusionSrcForState_N a.diffArgs d).cell_rhs i j k q = d.cell_rhs i j k q) :
    a.diffArgs.n_start = RhoTheta_comp ∧ a.diffArgs.n_end = RhoTheta_comp ∧
    (∀ i j k q, q ≠ RhoTheta_comp →
      (stepDiffState tm ext cl a s).cell_rhs i j k q = s.cell_rhs i j k q) ∧
    (∀ i j k, (stepDiffState tm ext cl a s).cell_rhs i j k Rho_comp = s.cell_rhs i j k Rho_comp) := by
  have h1 : a.diffArgs.n_start = RhoTheta_comp := rfl
  have h2 : a.diffArgs.n_end = RhoTheta_comp := rfl
  have key : ∀ i j k q, q ≠ RhoTheta_comp →
      (stepDiffState tm ext cl a s).cell_rhs i j k q = s.cell_rhs i j k q := by
    intro i j k q hq
    have hr : ¬ (a.diffArgs.n_start ≤ q ∧ q ≤ a.diffArgs.n_end) := by
      rw [h1, h2]
      intro hh
      exact hq (le_antisymm hh.2 hh.1)
    unfold stepDiffState
    by_cases hd : l_use_diff a.solverChoice = true
    · rw [if_pos hd]
      by_cases ht : a.solverChoice.use_terrain = true
      · simp only [ht, if_true]
        exact DiffusionSrcForState_T_frame tm cl a.diffArgs _ (by rw [h2]; decide) i j k q hr
      · simp only [ht]
        exact hN _ i j k q hr
    · rw [if_neg hd]
  exact ⟨h1, h2, key, fun i j k => key i j k Rho_comp (by decide)⟩

theorem state_diffusion_reaches_rhotheta_only_witness :
    (stepDiffState flatMetrics idleExt idleClosures diffusingArgs sevenState).cell_rhs 0 0 0
      Rho_comp = 7 :=
  (state_diffusion_reaches_rhotheta_only flatMetrics idleExt idleClosures diffusingArgs
    sevenState (fun _ _ _ _ _ _ => rfl)).2.2.2 0 0 0

/-- C13 (as amended). For solver choices made by `init_params` with
`molec_diff_type` not `ConstantAlpha` and `les_type`, `pbl_type` both `None`,
the diffusivity `DiffusionSrcForState_T` uses at every face is
`rho0_trans * alpha_T` for the potential temperature, `rho0_trans * alpha_C`
for the scalar and `0` for TKE and QKE; the raw face fluxes of a component
vanish on the faces of the box when that value is `0`. -/
theorem molecular_diffusivity_without_closure (c : Constants) (pp : ParmParse) (st st2 : Statics)
    (sc0 : SolverChoice) (tm : TerrainMetrics) (p : DiffArgs) (s : DiffState)
    (hcfg : init_params c pp st sc0 = Except.ok (p.solverChoice, st2))
    (hm : p.solverChoice.molec_diff_type ≠ MolecDiffType.ConstantAlpha)
    (hl : p.solverChoice.les_type = LESType.None)
    (hp : p.solverChoice.pbl_type = PBLType.None) :
    (∀ i j k prim, 0 ≤ prim → prim < NUM_PRIM →
      faceDiff_x (diffMode p.solverChoice) p i j k prim =
        molecularDiffusivity p.solverChoice prim ∧
      faceDiff_y (diffMode p.solverChoice) p i j k prim =
        molecularDiffusivity p.solverChoice prim ∧
      faceDiff_z (diffMode p.solverChoice) p i j k prim =
        molecularDiffusivity p.solverChoice prim) ∧
    (∀ q, p.n_start ≤ q ∧ q ≤ p.n_end → RhoTheta_comp ≤ q ∧ q ≤ RhoScalar_comp →
      molecularDiffusivity p.solverChoice (q - qty_offset) = 0 → ∀ i j k,
      ((surroundingNodes p.bx 0).contains i j k → (rawFluxes tm p s).xflux i j k q = 0) ∧
      ((surroundingNodes p.bx 1).contains i j k → (rawFluxes tm p s).yflux i j k q = 0) ∧
      ((surroundingNodes p.bx 2).contains i j k → (rawFluxes tm p s).zflux i j k q = 0)) := by
  obtain ⟨_, _, _, _, _, _, h7, h8, _⟩ := init_params_config c pp st sc0 _ hcfg
  simp only at h7 h8
  have key : ∀ i j k prim, 0 ≤ prim → prim < NUM_PRIM →
      faceDiff_x (diffMode p.solverChoice) p i j k prim =
        molecularDiffusivity p.solverChoice prim ∧
      faceDiff_y (diffMode p.solverChoice) p i j k prim =
        molecularDiffusivity p.solverChoice prim ∧
      faceDiff_z (diffMode p.solverChoice) p i j k prim =
        molecularDiffusivity p.solverChoice prim := by
    intro i j k prim h0 h1
    have hf := faceDiff_no_closure p hl hp i j k prim
    rw [if_neg hm, if_neg hm, if_neg hm, alpha_eff_get _ prim h0 h1, if_neg hm, h7, h8] at hf
    exact hf
  refine ⟨key, ?_⟩
  intro q hq hr hD i j k
  have hr2 : 0 ≤ q - qty_offset ∧ q - qty_offset < NUM_PRIM := by
    have e1 : qty_offset = 1 := rfl
    have e2 : NUM_PRIM = 4 := rfl
    have e3 : RhoTheta_comp = 1 := rfl
    have e4 : RhoScalar_comp = 4 := rfl
    omega
  refine rawFluxes_zero tm p s q hq (fun i j k => ?_) i j k
  have hk := key i j k (q - qty_offset) hr2.1 hr2.2
  rw [hD] at hk
  exact hk

theorem molecular_diffusivity_without_closure_witness :
    faceDiff_x (diffMode conductingArgs.solverChoice) conductingArgs 1 0 0 PrimTheta_comp = 1 ∧
      faceDiff_z (diffMode conductingArgs.solverChoice) conductingArgs 1 0 0 PrimKE_comp = 0 := by
  obtain ⟨st, h⟩ := conductingChoice_ok
  obtain ⟨h1, h2, h3, h4⟩ := conductingChoice_fields
  obtain ⟨_, _, _, _, h5, _, h7, _, h9⟩ := init_params_config _ _ _ _ _ h
  have hsc : conductingArgs.solverChoice = conductingChoice := rfl
  have hm : conductingArgs.solverChoice.molec_diff_type ≠ MolecDiffType.ConstantAlpha := by
    rw [hsc, h2]
    decide
  have hk := (molecular_diffusivity_without_closure sampleConstants _ {} st {} flatMetrics
    conductingArgs zeroDiffState h hm h1 h3).1
  refine ⟨((hk 1 0 0 PrimTheta_comp (by decide) (by decide)).1).trans ?_,
    ((hk 1 0 0 PrimKE_comp (by decide) (by decide)).2.2).trans ?_⟩
  · show molecularDiffusivity conductingChoice PrimTheta_comp = 1
    unfold molecularDiffusivity
    rw [if_pos rfl, ← h7, h4]
  · show molecularDiffusivity conductingChoice PrimKE_comp = 0
    unfold molecularDiffusivity
    rw [if_neg (by decide), if_neg (by decide)]

/-- C13 (counterexample). With the solver choices `init_params` makes from
`alpha_T = 1` alone (molecular transport `Constant`, no LES, no PBL scheme) the
diffusivity of the potential temperature is `1` and the raw x-flux at the face
`(1,0,0)` is `1`, not `0`. -/
theorem nonzero_diffusivity_counterexample :
    conductingArgs.solverChoice.molec_diff_type ≠ MolecDiffType.ConstantAlpha ∧
    conductingArgs.solverChoice.les_type = LESType.None ∧
    conductingArgs.solverChoice.pbl_type = PBLType.None ∧
    faceDiff_x (diffMode conductingArgs.solverChoice) conductingArgs 1 0 0 PrimTheta_comp = 1 ∧
    (rawFluxes flatMetrics conductingArgs zeroDiffState).xflux 1 0 0 RhoTheta_comp = 1 := by
  obtain ⟨h1, h2, h3, h4⟩ := conductingChoice_fields
  have hm : conductingArgs.solverChoice.molec_diff_type ≠ MolecDiffType.ConstantAlpha := by
    have hsc : conductingArgs.solverChoice = conductingChoice := rfl
    rw [hsc, h2]
    decide
  have hD : faceDiff_x (diffMode conductingArgs.solverChoice) conductingArgs 1 0 0
      PrimTheta_comp = 1 := by
    rw [(faceDiff_no_closure conductingArgs h1 h3 1 0 0 PrimTheta_comp).1, if_neg hm,
      alpha_eff_get _ _ (by decide) (by decide), if_neg hm, if_pos rfl]
    exact h4
  refine ⟨hm, h1, h3, hD, ?_⟩
  rw [rawFluxes_xflux flatMetrics conductingArgs zeroDiffState 1 0 0 RhoTheta_comp (by decide)
    (by decide)]
  have e : RhoTheta_comp - qty_offset = PrimTheta_comp := rfl
  rw [e, hD]
  norm_num [conductingArgs, keArgs, flatMetrics, Array4.const]

/-- C20 (as amended). For solver choices made by `init_params` on a fresh
object with no turbulence closure (`les_type`, `pbl_type` both `None`) and
`alpha_T = alpha_C = 0`, components `n_start..n_end` within
RhoTheta..RhoScalar and a box with at least two cells in z: every raw and
every final x-, y- and z-flux of `DiffusionSrcForState_T` is `0` on the faces
of the box, and `cell_rhs` grows by `source/detJ` in every cell of the box,
hence stays as it was where the source is `0`. -/
theorem zero_coefficients_give_zero_fluxes (c : Constants) (pp : ParmParse) (st st2 : Statics)
    (tm : TerrainMetrics) (cl : Closures) (p : DiffArgs) (s : DiffState)
    (hcfg : init_params c pp st {} = Except.ok (p.solverChoice, st2))
    (hl : p.solverChoice.les_type = LESType.None)
    (hp : p.solverChoice.pbl_type = PBLType.None)
    (ha : p.solverChoice.alpha_T = 0 ∧ p.solverChoice.alpha_C = 0)
    (hr : RhoTheta_comp ≤ p.n_start ∧ p.n_end ≤ RhoScalar_comp)
    (hz : p.bx.smallEnd.z < p.bx.bigEnd.z)
    (i j k q : Int) (hq : p.n_start ≤ q ∧ q ≤ p.n_end) :
    ((surroundingNodes p.bx 0).contains i j k →
      (rawFluxes tm p s).xflux i j k q = 0 ∧
      (DiffusionSrcForState_T tm cl p s).xflux i j k q = 0) ∧
    ((surroundingNodes p.bx 1).contains i j k →
      (rawFluxes tm p s).yflux i j k q = 0 ∧
      (DiffusionSrcForState_T tm cl p s).yflux i j k q = 0) ∧
    ((surroundingNodes p.bx 2).contains i j k →
      (rawFluxes tm p s).zflux i j k q = 0 ∧
      (DiffusionSrcForState_T tm cl p s).zflux i j k q = 0) ∧
    (p.bx.contains i j k →
      (DiffusionSrcForState_T tm cl p s).cell_rhs i j k q =
        s.cell_rhs i j k q + p.source_fab i j k q / p.detJ i j k 0 ∧
      (p.source_fab i j k q = 0 →
        (DiffusionSrcForState_T tm cl p s).cell_rhs i j k q = s.cell_rhs i j k q)) := by
  have hD : ∀ q, p.n_start ≤ q ∧ q ≤ p.n_end → ∀ i j k,
      faceDiff_x (diffMode p.solverChoice) p i j k (q - qty_offset) = 0 ∧
      faceDiff_y (diffMode p.solverChoice) p i j k (q - qty_offset) = 0 ∧
      faceDiff_z (diffMode p.solverChoice) p i j k (q - qty_offset) = 0 := by
    intro q hq i j k
    have e1 : qty_offset = 1 := rfl
    have e2 : NUM_PRIM = 4 := rfl
    have e3 : RhoTheta_comp = 1 := rfl
    have e4 : RhoScalar_comp = 4 := rfl
    exact faceDiff_zero c pp st st2 {} p hcfg hl hp ha i j k (q - qty_offset) (by omega) (by omega)
  have hraw := rawFluxes_zero tm p s q hq (hD q hq)
  have hfin := DiffusionSrcForState_T_of_zero tm cl p s hz hD
  refine ⟨fun hb => ⟨(hraw i j k).1 hb, (hfin i j k q hq).1 hb⟩,
    fun hb => ⟨(hraw i j k).2.1 hb, (hfin i j k q hq).2.1 hb⟩,
    fun hb => ⟨(hraw i j k).2.2 hb, (hfin i j k q hq).2.2 hb⟩, fun hb => ?_⟩
  have hQ : p.solverChoice.use_QKE = false := by
    obtain ⟨_, _, _, h4, _⟩ := init_params_config c pp st {} _ hcfg
    simp only at h4
    rw [h4, hp]
    rfl
  have hsp : ¬ specialComponent p q := by
    rintro (⟨h, _⟩ | ⟨⟨h, _⟩, _⟩)
    · rw [hl] at h
      cases h
    · rw [hQ] at h
      cases h
  have hc : p.bx.contains i j k := hb
  simp only [Box.contains] at hb
  have hx1 := (hfin (i+1) j k q hq).1 (by
    simp only [Box.contains, surroundingNodes, IntVect.set, IntVect.get]; omega)
  have hx0 := (hfin i j k q hq).1 (by
    simp only [Box.contains, surroundingNodes, IntVect.set, IntVect.get]; omega)
  have hy1 := (hfin i (j+1) k q hq).2.1 (by
    simp only [Box.contains, surroundingNodes, IntVect.set, IntVect.get]; omega)
  have hy0 := (hfin i j k q hq).2.1 (by
    simp only [Box.contains, surroundingNodes, IntVect.set, IntVect.get]; omega)
  have hz1 := (hfin i j (k+1) q hq).2.2 (by
    simp only [Box.contains, surroundingNodes, IntVect.set, IntVect.get]; omega)
  have hz0 := (hfin i j k q hq).2.2 (by
    simp only [Box.contains, surroundingNodes, IntVect.set, IntVect.get]; omega)
  have hmain : (DiffusionSrcForState_T tm cl p s).cell_rhs i j k q =
      s.cell_rhs i j k q + p.source_fab i j k q / p.detJ i j k 0 := by
    rw [DiffusionSrcForState_T_generic tm cl p s i j k q hc hq hsp]
    unfold fluxDivergence
    rw [hx1, hx0, hy1, hy0, hz1, hz0]
    simp only [sub_self, zero_mul, zero_add]
  refine ⟨hmain, fun h0 => ?_⟩
  rw [hmain, h0, zero_div, add_zero]

theorem zero_coefficients_give_zero_fluxes_witness :
    (DiffusionSrcForState_T rampMetrics idleClosures quietArgs staleFluxState).zflux 0 0 0
        RhoTheta_comp = 0 ∧
      (DiffusionSrcForState_T rampMetrics idleClosures quietArgs staleFluxState).cell_rhs 0 0 0
        RhoTheta_comp = 3 := by
  obtain ⟨st, h⟩ := quietChoice_ok
  obtain ⟨h1, h3, h5, h6⟩ := quietChoice_fields
  have hk := zero_coefficients_give_zero_fluxes sampleConstants {} {} st rampMetrics idleClosures
    quietArgs staleFluxState h h1 h3 ⟨h5, h6⟩ (by decide) (by decide) 0 0 0 RhoTheta_comp
    (by decide)
  refine ⟨(hk.2.2.1 (by decide)).2, (hk.2.2.2 (by decide)).1.trans ?_⟩
  norm_num [quietArgs, keArgs, staleFluxState, Array4.const]

/-- C20 (counterexample). On the one-cell box `(0,0,0)`, with no closure and
`alpha_T = alpha_C = 0`, the terrain correction of the bottom z-face reads the
x-flux at `k = 1`, which no kernel has written: with `7` there and `h_xi = 1`
the final z-flux at `(0,0,0)` is `7/2`. -/
theorem zero_flux_counterexample :
    thinArgs.solverChoice.les_type = LESType.None ∧
    thinArgs.solverChoice.pbl_type = PBLType.None ∧
    thinArgs.solverChoice.alpha_T = 0 ∧ thinArgs.solverChoice.alpha_C = 0 ∧
    (surroundingNodes thinArgs.bx 2).contains 0 0 0 ∧
    (DiffusionSrcForState_T rampMetrics idleClosures thinArgs staleFluxState).zflux 0 0 0
      RhoTheta_comp = 7 / 2 := by
  obtain ⟨st, h⟩ := quietChoice_ok
  obtain ⟨h1, h3, h5, h6⟩ := quietChoice_fields
  refine ⟨h1, h3, h5, h6, by decide, ?_⟩
  have hD : ∀ i j k,
      faceDiff_x (diffMode thinArgs.solverChoice) thinArgs i j k (RhoTheta_comp - qty_offset) = 0 ∧
      faceDiff_y (diffMode thinArgs.solverChoice) thinArgs i j k (RhoTheta_comp - qty_offset) = 0 ∧
      faceDiff_z (diffMode thinArgs.solverChoice) thinArgs i j k (RhoTheta_comp - qty_offset) = 0 :=
    fun i j k => faceDiff_zero sampleConstants {} {} st {} thinArgs h h1 h3 ⟨h5, h6⟩ i j k _
      (by decide) (by decide)
  have hraw := rawFluxes_zero rampMetrics thinArgs staleFluxState RhoTheta_comp (by decide) hD
  have x00 := (hraw 0 0 0).1 (by decide)
  have x10 := (hraw 1 0 0).1 (by decide)
  have y00 := (hraw 0 0 0).2.1 (by decide)
  have y10 := (hraw 0 1 0).2.1 (by decide)
  have z00 := (hraw 0 0 0).2.2 (by decide)
  have x01 := rawFluxes_xflux_outside rampMetrics thinArgs staleFluxState 0 0 1 RhoTheta_comp
    (by decide)
  have x11 := rawFluxes_xflux_outside rampMetrics thinArgs staleFluxState 1 0 1 RhoTheta_comp
    (by decide)
  have y01 := rawFluxes_yflux_outside rampMetrics thinArgs staleFluxState 0 0 1 RhoTheta_comp
    (by decide)
  have y11 := rawFluxes_yflux_outside rampMetrics thinArgs staleFluxState 0 1 1 RhoTheta_comp
    (by decide)
  show (correctFluxes rampMetrics thinArgs (rawFluxes rampMetrics thinArgs staleFluxState)).zflux
    0 0 0 RhoTheta_comp = 7 / 2
  simp only [correctFluxes]
  rw [ParallelForN_id_on _ _ _ (fun i j k n a hc _ _ => by
    have hk : (1 : Int) ≤ k ∧ k ≤ 0 := hc.2.2
    omega)]
  have hbox : (surroundingNodes thinArgs.bx 2).setBig 2
      ((surroundingNodes thinArgs.bx 2).smallEnd.get 2) = ⟨⟨0, 0, 0⟩, ⟨0, 0, 0⟩⟩ := by decide
  have hn : thinArgs.n_end - thinArgs.n_start + 1 = 1 := by decide
  rw [hbox, hn, ParallelForN_single]
  have hs : thinArgs.n_start + 0 = RhoTheta_comp := by decide
  have hlo : (surroundingNodes thinArgs.bx 2).smallEnd.get 2 = 0 := by decide
  have hhi : (surroundingNodes thinArgs.bx 2).bigEnd.get 2 = 1 := by decide
  simp only [zfluxEndsKernel, hs, hlo, hhi]
  rw [Array4.set_apply, if_neg (by decide), Array4.set_same]
  have e1 : (0 : Int) + 1 = 1 := rfl
  rw [e1, x00, x10, y00, y10, z00, x01, x11, y01, y11]
  norm_num [rampMetrics, flatMetrics, staleFluxState, Array4.const]

/-- C17. `read_from_file` on a file that opens and has at least one profile
line returns, and the five profile vectors it leaves are: first the surface
(`z = 0`, `theta_ref`, `0.001*qv_ref`, `U = V = 0`); then the lines `kept`,
with `qv` multiplied by `0.001`, where `kept` is the run of leading profile
lines below `ztop` (it stops at the first line at or above `ztop`, or is the
whole profile); then one last level `top` whose height is exactly `ztop`, and
which is the line at `ztop` itself (its `qv` times `0.001`) when the line
following `kept` has `z = ztop`. The five vectors have equal length and the
last height is `ztop`. -/
theorem read_from_file_profile (f : SoundingFile) (ztop z_uninit : ℚ) (d : InputSoundingData)
    (hne : f.profile ≠ []) :
    ∃ r kept top, read_from_file (some f) ztop z_uninit d = Except.ok r ∧
      kept <+: f.profile ∧ (∀ l ∈ kept, l.z < ztop) ∧
      (kept = f.profile ∨ ∃ l, (kept ++ [l]) <+: f.profile ∧ ztop ≤ l.z) ∧ top.z = ztop ∧
      (∀ l, (kept ++ [l]) <+: f.profile → l.z = ztop → top = storedLevel l) ∧
      r.z_inp_sound = 0 :: (kept.map (fun l => l.z) ++ [top.z]) ∧
      r.theta_inp_sound = f.theta_ref :: (kept.map (fun l => l.theta) ++ [top.theta]) ∧
      r.qv_inp_sound = 0.001 * f.qv_ref :: (kept.map (fun l => 0.001 * l.qv) ++ [top.qv]) ∧
      r.U_inp_sound = 0 :: (kept.map (fun l => l.U) ++ [top.U]) ∧
      r.V_inp_sound = 0 :: (kept.map (fun l => l.V) ++ [top.V]) ∧
      (r.theta_inp_sound.length = r.z_inp_sound.length ∧
        r.qv_inp_sound.length = r.z_inp_sound.length ∧
        r.U_inp_sound.length = r.z_inp_sound.length ∧
        r.V_inp_sound.length = r.z_inp_sound.length) ∧
      r.z_inp_sound.getLast? = some ztop := by
  obtain ⟨kept, last, hC, hpre, hlow, hall⟩ := consumed_split ztop f.profile hne
  have hev := read_from_file_eval f ztop z_uninit d kept last hC
  have hmul : ∀ q : ℚ, q * 0.001 = 0.001 * q := fun q => mul_comm _ _
  by_cases h1 : last.z = ztop
  · rw [if_pos h1] at hev
    refine ⟨_, kept, storedLevel last, hev, ?_, hlow, Or.inr ⟨last, hpre, le_of_eq h1.symm⟩, h1,
      ?_, ?_, ?_, ?_, ?_, ?_, ?_, ?_⟩
    · exact (List.prefix_append _ _).trans hpre
    · intro l hl _
      rw [prefix_concat_unique kept f.profile l last hl hpre]
    · simp [InputSoundingData.withLevels, soundingBase, surfaceLevel, storedLevel]
    · simp [InputSoundingData.withLevels, soundingBase, surfaceLevel, storedLevel]
    · simp [InputSoundingData.withLevels, soundingBase, surfaceLevel, storedLevel, hmul,
        Function.comp_def]
    · simp [InputSoundingData.withLevels, soundingBase, surfaceLevel, storedLevel]
    · simp [InputSoundingData.withLevels, soundingBase, surfaceLevel, storedLevel]
    · simp [InputSoundingData.withLevels, soundingBase]
    · simp [InputSoundingData.withLevels, soundingBase, surfaceLevel, storedLevel,
        List.getLast?_cons, h1]
  · rw [if_neg h1] at hev
    by_cases h2 : last.z < ztop
    · rw [if_pos h2] at hev
      refine ⟨_, kept ++ [last], interpolatedTop ztop (levelBelow f kept) (storedLevel last),
        hev, hpre, ?_, Or.inl (hall h2), rfl, ?_, ?_, ?_, ?_, ?_, ?_, ?_, ?_⟩
      · intro l hl
        rcases List.mem_append.1 hl with hk | hk
        · exact hlow l hk
        · rw [List.mem_singleton.1 hk]
          exact h2
      · intro l hl _
        have hlen := hl.length_le
        rw [hall h2] at hlen
        simp at hlen
      · simp [InputSoundingData.withLevels, soundingBase, surfaceLevel, storedLevel]
      · simp [InputSoundingData.withLevels, soundingBase, surfaceLevel, storedLevel]
      · simp [InputSoundingData.withLevels, soundingBase, surfaceLevel, storedLevel, hmul,
          Function.comp_def]
      · simp [InputSoundingData.withLevels, soundingBase, surfaceLevel, storedLevel]
      · simp [InputSoundingData.withLevels, soundingBase, surfaceLevel, storedLevel]
      · simp [InputSoundingData.withLevels, soundingBase]
      · simp [InputSoundingData.withLevels, soundingBase, surfaceLevel, storedLevel,
          List.getLast?_cons, interpolatedTop]
    · rw [if_neg h2] at hev
      refine ⟨_, kept, interpolatedTop ztop (levelBelow f kept) (storedLevel last),
        hev, ?_, hlow, Or.inr ⟨last, hpre, le_of_lt (lt_of_le_of_ne (not_lt.1 h2) (Ne.symm h1))⟩,
        rfl, ?_, ?_, ?_, ?_, ?_, ?_, ?_, ?_⟩
      · exact (List.prefix_append _ _).trans hpre
      · intro l hl hz
        rw [prefix_concat_unique kept f.profile l last hl hpre] at hz
        exact absurd hz h1
      · simp [InputSoundingData.withLevels, soundingBase, surfaceLevel, storedLevel]
      · simp [InputSoundingData.withLevels, soundingBase, surfaceLevel, storedLevel]
      · simp [InputSoundingData.withLevels, soundingBase, surfaceLevel, storedLevel, hmul,
          Function.comp_def]
      · simp [InputSoundingData.withLevels, soundingBase, surfaceLevel, storedLevel]
      · simp [InputSoundingData.withLevels, soundingBase, surfaceLevel, storedLevel]
      · simp [InputSoundingData.withLevels, soundingBase]
      · simp [InputSoundingData.withLevels, soundingBase, surfaceLevel, storedLevel,
          List.getLast?_cons, interpolatedTop]

theorem read_from_file_profile_witness :
    ∃ r, read_from_file (some sampleSounding) 150 0 staleSounding = Except.ok r ∧
      r.z_inp_sound = [0, 100, 150] ∧ r.theta_inp_sound = [300, 301, 302] ∧
      r.qv_inp_sound = [1 / 100, 1 / 125, 7 / 1000] ∧
      r.U_inp_sound.length = r.z_inp_sound.length ∧ r.z_inp_sound.getLast? = some 150 := by
  obtain ⟨r, kept, top, h, _, _, _, _, _, _, _, _, _, _, hl, hz⟩ :=
    read_from_file_profile sampleSounding 150 0 staleSounding (by simp [sampleSounding])
  have hC : consumed 150 sampleSounding.profile =
      [⟨100, 301, 8, 5, 0⟩] ++ [⟨200, 303, 6, 7, 0⟩] := by
    simp only [sampleSounding, consumed]
    norm_num
  have hev := read_from_file_eval sampleSounding 150 0 staleSounding _ _ hC
  rw [h] at hev
  have hr := Except.ok.inj hev
  refine ⟨r, h, ?_, ?_, ?_, hl.2.2.1, hz⟩
  · rw [hr]
    norm_num [InputSoundingData.withLevels, soundingBase, surfaceLevel, storedLevel,
      interpolatedTop, levelBelow, sampleSounding]
  · rw [hr]
    norm_num [InputSoundingData.withLevels, soundingBase, surfaceLevel, storedLevel,
      interpolatedTop, levelBelow, sampleSounding]
  · rw [hr]
    norm_num [InputSoundingData.withLevels, soundingBase, surfaceLevel, storedLevel,
      interpolatedTop, levelBelow, sampleSounding]

/-- C27 (the code at the failing input). `init_params` on a fresh
`SolverChoice`: when the inputs have no `use_gravity` entry the call leaves
`use_gravity = false` and `gravity = 0`, the initializer of the field,
although the comment above the query says that these default to true; an entry
sets `use_gravity` to its value; and in every case `gravity` is `CONST_GRAV`
when `use_gravity` is true and `0` otherwise. -/
theorem gravity_follows_use_gravity (c : Constants) (pp : ParmParse) (st : Statics)
    (r : SolverChoice × Statics) (h : init_params c pp st {} = Except.ok r) :
    (pp.use_gravity = none → r.1.use_gravity = false ∧ r.1.gravity = 0) ∧
    (∀ b, pp.use_gravity = some b → r.1.use_gravity = b) ∧
    r.1.gravity = (if r.1.use_gravity = true then c.CONST_GRAV else 0) := by
  obtain ⟨h1, h2, _, _⟩ := init_params_switches c pp st {} r h
  refine ⟨fun hn => ?_, fun b hb => ?_, h2⟩
  · have e : r.1.use_gravity = false := by
      rw [h1, hn]
      rfl
    refine ⟨e, ?_⟩
    rw [h2, e]
    rfl
  · rw [h1, hb]
    rfl

theorem gravity_follows_use_gravity_witness :
    (∃ r, init_params sampleConstants {} {} {} = Except.ok r ∧
      r.1.use_gravity = false ∧ r.1.gravity = 0 ∧ r.1.gravity ≠ sampleConstants.CONST_GRAV) ∧
    (∃ r, init_params sampleConstants { use_gravity := some true } {} {} = Except.ok r ∧
      r.1.use_gravity = true ∧ r.1.gravity = 9.81) := by
  constructor
  · obtain ⟨r, hr⟩ := sample_init_ok {} rfl rfl rfl rfl rfl sampleConstants
    have h := (gravity_follows_use_gravity sampleConstants _ {} r hr).1 rfl
    refine ⟨r, hr, h.1, h.2, ?_⟩
    rw [h.2]
    norm_num [sampleConstants]
  · obtain ⟨r, hr⟩ := sample_init_ok { use_gravity := some true } rfl rfl rfl rfl rfl
      sampleConstants
    have h := gravity_follows_use_gravity sampleConstants _ {} r hr
    have e := h.2.1 true rfl
    refine ⟨r, hr, e, ?_⟩
    rw [h.2.2, e]
    rfl

/-- C28. After `init_params` succeeds on a fresh `SolverChoice`, `use_QKE` is
true exactly when `pbl_type` is `MYNN25`, and whenever `use_QKE` is false
`diffuse_QKE_3D` and `advect_QKE` keep their defaults `false` and `true`
(the inputs for them are not read). -/
theorem use_QKE_iff_mynn (c : Constants) (pp : ParmParse) (st : Statics)
    (r : SolverChoice × Statics) (h : init_params c pp st {} = Except.ok r) :
    (r.1.use_QKE = true ↔ r.1.pbl_type = PBLType.MYNN25) ∧
    (r.1.use_QKE = false → r.1.diffuse_QKE_3D = false ∧ r.1.advect_QKE = true) := by
  obtain ⟨_, _, _, h4, _⟩ := init_params_config c pp st {} r h
  obtain ⟨_, _, h7, h8⟩ := init_params_switches c pp st {} r h
  have hq : r.1.use_QKE = decide (r.1.pbl_type = PBLType.MYNN25) := by
    rw [h4]
    simp
  refine ⟨?_, fun hf => ?_⟩
  · rw [hq]
    simp
  · rw [hf] at h7 h8
    exact ⟨h7, h8⟩

theorem use_QKE_iff_mynn_witness :
    (∃ r, init_params sampleConstants { pbl_type := some "MYNN2.5" } {} {} = Except.ok r ∧
      r.1.use_QKE = true) ∧
    (∃ r, init_params sampleConstants { advect_QKE := some false } {} {} = Except.ok r ∧
      r.1.use_QKE = false ∧ r.1.advect_QKE = true) := by
  have h1 : ∃ r, init_params sampleConstants { pbl_type := some "MYNN2.5" } {} {} =
      Except.ok r := by
    simp +decide [init_params, bind, Except.bind, pure, Except.pure, query, parse_les_type,
      parse_molec_diff_type, parse_pbl_type, init_pbl, parse_abl_driver_type, parse_ic_bc_type]
  obtain ⟨r1, e1⟩ := h1
  obtain ⟨r2, e2⟩ := sample_init_ok { advect_QKE := some false } rfl rfl rfl rfl rfl
    sampleConstants
  have p1 := (init_params_config _ _ _ _ _ e1).2.2.1
  have p2 := (init_params_config _ _ _ _ _ e2).2.2.1
  have q1 : r1.1.pbl_type = PBLType.MYNN25 := by
    have : parse_pbl_type (query (some "MYNN2.5") "None") = Except.ok PBLType.MYNN25 := by
      simp +decide [parse_pbl_type, query, pure, Except.pure]
    exact (Except.ok.inj (this.symm.trans p1)).symm
  have q2 : r2.1.pbl_type = PBLType.None := by
    have : parse_pbl_type (query (none : Option String) "None") = Except.ok PBLType.None := by
      simp +decide [parse_pbl_type, query, pure, Except.pure]
    exact (Except.ok.inj (this.symm.trans p2)).symm
  have w1 := use_QKE_iff_mynn sampleConstants _ {} r1 e1
  have w2 := use_QKE_iff_mynn sampleConstants _ {} r2 e2
  have f2 : r2.1.use_QKE = false := by
    have hn : ¬ r2.1.use_QKE = true := by
      rw [w2.1, q2]
      decide
    simpa using hn
  exact ⟨⟨r1, e1, w1.1.2 q1⟩, ⟨r2, e2, f2, (w2.2 f2).2⟩⟩

/-- C21. In the mode of `DiffusionSrcForState_T` in which constant alpha and a
turbulence closure are both active (`l_consA && l_turb`), the diffusivity at
a face is `rho_face * alpha` plus the average of the eddy diffusivity over the
two cells sharing the face: `rho_face` is the mean density of those two cells,
`alpha` is `alpha_T` for the potential temperature, `alpha_C` for the scalar
and `0` for TKE and QKE, and the eddy diffusivity is read at the component
`eddy_diff_idx/idy/idz` of the quantity. On every face and every component of
the launches the raw x-, y- and z-flux of this mode is the raw flux of the
constant-alpha-only mode (the same arguments with the closure switched off,
which selects the branch `RhoAlpha`) plus the raw flux of the turbulence-only
mode with zero molecular coefficients (the same arguments with molecular
transport `None` and all coefficients `0`, which selects the branch
`AlphaTurb`). -/
theorem both_mode_adds_molecular_and_turbulent (tm : TerrainMetrics) (p : DiffArgs)
    (s sA sT : DiffState)
    (hc : p.solverChoice.molec_diff_type = MolecDiffType.ConstantAlpha)
    (ht : l_turb p.solverChoice = true) :
    (∀ i j k prim, 0 ≤ prim → prim < NUM_PRIM →
      faceDiff_x (diffMode p.solverChoice) p i j k prim =
        0.5 * (p.cell_data i j k Rho_comp + p.cell_data (i-1) j k Rho_comp) *
            molecularAlpha p.solverChoice prim
          + 0.5 * (p.mu_turb i j k (vecGetI eddy_diff_idx prim)
                  + p.mu_turb (i-1) j k (vecGetI eddy_diff_idx prim)) ∧
      faceDiff_y (diffMode p.solverChoice) p i j k prim =
        0.5 * (p.cell_data i j k Rho_comp + p.cell_data i (j-1) k Rho_comp) *
            molecularAlpha p.solverChoice prim
          + 0.5 * (p.mu_turb i j k (vecGetI eddy_diff_idy prim)
                  + p.mu_turb i (j-1) k (vecGetI eddy_diff_idy prim)) ∧
      faceDiff_z (diffMode p.solverChoice) p i j k prim =
        0.5 * (p.cell_data i j k Rho_comp + p.cell_data i j (k-1) Rho_comp) *
            molecularAlpha p.solverChoice prim
          + 0.5 * (p.mu_turb i j k (vecGetI eddy_diff_idz prim)
                  + p.mu_turb i j (k-1) (vecGetI eddy_diff_idz prim))) ∧
    (diffMode p.molecularOnly.solverChoice = DiffMode.RhoAlpha ∧
      diffMode p.turbulentOnly.solverChoice = DiffMode.AlphaTurb) ∧
    (∀ i j k q, p.n_start ≤ q ∧ q ≤ p.n_end →
      ((surroundingNodes p.bx 0).contains i j k →
        (rawFluxes tm p s).xflux i j k q =
          (rawFluxes tm p.molecularOnly sA).xflux i j k q +
          (rawFluxes tm p.turbulentOnly sT).xflux i j k q) ∧
      ((surroundingNodes p.bx 1).contains i j k →
        (rawFluxes tm p s).yflux i j k q =
          (rawFluxes tm p.molecularOnly sA).yflux i j k q +
          (rawFluxes tm p.turbulentOnly sT).yflux i j k q) ∧
      ((surroundingNodes p.bx 2).contains i j k →
        (rawFluxes tm p s).zflux i j k q =
          (rawFluxes tm p.molecularOnly sA).zflux i j k q +
          (rawFluxes tm p.turbulentOnly sT).zflux i j k q)) := by
  refine ⟨?_, ⟨diffMode_molecularOnly p hc, diffMode_turbulentOnly p ht⟩, ?_⟩
  · intro i j k prim h0 h1
    rw [diffMode_both _ hc ht]
    have ha : vecGet (alpha_eff p.solverChoice) prim = molecularAlpha p.solverChoice prim := by
      rw [alpha_eff_get _ prim h0 h1, if_pos hc]
      rfl
    simp only [faceDiff_x, faceDiff_y, faceDiff_z, ha, and_self]
  · intro i j k q hq
    have hf := faceDiff_both p hc ht i j k (q - qty_offset)
    refine ⟨fun hb => ?_, fun hb => ?_, fun hb => ?_⟩
    · rw [rawFluxes_xflux tm p s i j k q hb hq,
        rawFluxes_xflux tm p.molecularOnly sA i j k q hb hq,
        rawFluxes_xflux tm p.turbulentOnly sT i j k q hb hq, hf.1]
      simp only [DiffArgs.molecularOnly, DiffArgs.turbulentOnly]
      ring
    · rw [rawFluxes_yflux tm p s i j k q hb hq,
        rawFluxes_yflux tm p.molecularOnly sA i j k q hb hq,
        rawFluxes_yflux tm p.turbulentOnly sT i j k q hb hq, hf.2.1]
      simp only [DiffArgs.molecularOnly, DiffArgs.turbulentOnly]
      ring
    · rw [rawFluxes_zflux tm p s i j k q hb hq,
        rawFluxes_zflux tm p.molecularOnly sA i j k q hb hq,
        rawFluxes_zflux tm p.turbulentOnly sT i j k q hb hq, hf.2.2]
      simp only [DiffArgs.molecularOnly, DiffArgs.turbulentOnly]
      ring

theorem both_mode_adds_molecular_and_turbulent_witness :
    faceDiff_x (diffMode bothArgs.solverChoice) bothArgs 1 0 0 PrimTheta_comp = 5 ∧
    (rawFluxes flatMetrics bothArgs zeroDiffState).xflux 1 0 0 RhoTheta_comp =
      (rawFluxes flatMetrics bothArgs.molecularOnly zeroDiffState).xflux 1 0 0 RhoTheta_comp +
      (rawFluxes flatMetrics bothArgs.turbulentOnly zeroDiffState).xflux 1 0 0 RhoTheta_comp := by
  have h := both_mode_adds_molecular_and_turbulent flatMetrics bothArgs zeroDiffState
    zeroDiffState zeroDiffState rfl (by decide)
  refine ⟨(h.1 1 0 0 PrimTheta_comp (by decide) (by decide)).1.trans ?_,
    (h.2.2 1 0 0 RhoTheta_comp (by decide)).1 (by decide)⟩
  norm_num [bothArgs, keArgs, molecularAlpha, Array4.const]

/-- C22. Terrain correction of the vertical flux in `DiffusionSrcForState_T`,
for a box with at least two cells in z. At every z-face `(i,j,k)` of the box
and every component `q` in `n_start..n_end` the final z-flux is the raw z-flux
minus one correction `h_xi*X + h_eta*Y`, where `X` and `Y` are built from the
raw x- and y-fluxes (those of the raw-flux pass, before their multiplication
by `h_zeta`): at the bottom face `k_lo` they are
`1.5*avg(k_lo) - 0.5*avg(k_lo+1)`, at the top face `k_hi` they are
`1.5*avg(k_hi-1) - 0.5*avg(k_hi-2)`, with `avg` the mean over the faces
`(i,i+1)` resp. `(j,j+1)`, and at the faces in between the four-point average
over those faces and the levels `(k-1,k)`. The final z-flux at these faces does
not depend on what the flux arrays held before the call: every flux value read
by the two passes was written by the raw-flux pass of the same call. -/
theorem zflux_terrain_correction (tm : TerrainMetrics) (cl : Closures) (p : DiffArgs)
    (s : DiffState) (hz : p.bx.smallEnd.z < p.bx.bigEnd.z) (i j k q : Int)
    (hb : (surroundingNodes p.bx 2).contains i j k) (hq : p.n_start ≤ q ∧ q ≤ p.n_end) :
    (DiffusionSrcForState_T tm cl p s).zflux i j k q =
      (rawFluxes tm p s).zflux i j k q -
        (if k = p.bx.smallEnd.z then
          bottomCorrection tm p (rawFluxes tm p s).xflux (rawFluxes tm p s).yflux
            p.bx.smallEnd.z i j q
         else if k = p.bx.bigEnd.z + 1 then
          topCorrection tm p (rawFluxes tm p s).xflux (rawFluxes tm p s).yflux
            (p.bx.bigEnd.z + 1) i j q
         else
          interiorCorrection tm p (rawFluxes tm p s).xflux (rawFluxes tm p s).yflux i j k q) ∧
    (∀ s2 : DiffState, (DiffusionSrcForState_T tm cl p s2).zflux i j k q =
      (DiffusionSrcForState_T tm cl p s).zflux i j k q) := by
  have hbx : (p.bx.smallEnd.x ≤ i ∧ i ≤ p.bx.bigEnd.x) ∧ (p.bx.smallEnd.y ≤ j ∧ j ≤ p.bx.bigEnd.y)
      ∧ (p.bx.smallEnd.z ≤ k ∧ k ≤ p.bx.bigEnd.z + 1) := by
    simpa only [Box.contains, surroundingNodes, IntVect.set, IntVect.get] using hb
  have key : ∀ s0 : DiffState, (DiffusionSrcForState_T tm cl p s0).zflux i j k q =
      (rawFluxes tm p s0).zflux i j k q -
        (if k = p.bx.smallEnd.z then
          bottomCorrection tm p (rawFluxes tm p s0).xflux (rawFluxes tm p s0).yflux
            p.bx.smallEnd.z i j q
         else if k = p.bx.bigEnd.z + 1 then
          topCorrection tm p (rawFluxes tm p s0).xflux (rawFluxes tm p s0).yflux
            (p.bx.bigEnd.z + 1) i j q
         else
          interiorCorrection tm p (rawFluxes tm p s0).xflux (rawFluxes tm p s0).yflux i j k q) :=
    fun s0 => correctFluxes_zflux_apply tm p (rawFluxes tm p s0) (le_of_lt hz) i j k q hb hq
  refine ⟨key s, fun s2 => ?_⟩
  have hx : ∀ i1 k1, (i1 = i ∨ i1 = i + 1) → p.bx.smallEnd.z ≤ k1 → k1 ≤ p.bx.bigEnd.z →
      (rawFluxes tm p s2).xflux i1 j k1 q = (rawFluxes tm p s).xflux i1 j k1 q := by
    intro i1 k1 hi h1 h2
    refine rawFluxes_xflux_indep tm p s s2 i1 j k1 q ?_ hq
    simp only [Box.contains, surroundingNodes, IntVect.set, IntVect.get]
    exact ⟨by omega, hbx.2.1, h1, h2⟩
  have hy : ∀ j1 k1, (j1 = j ∨ j1 = j + 1) → p.bx.smallEnd.z ≤ k1 → k1 ≤ p.bx.bigEnd.z →
      (rawFluxes tm p s2).yflux i j1 k1 q = (rawFluxes tm p s).yflux i j1 k1 q := by
    intro j1 k1 hj h1 h2
    refine rawFluxes_yflux_indep tm p s s2 i j1 k1 q ?_ hq
    simp only [Box.contains, surroundingNodes, IntVect.set, IntVect.get]
    exact ⟨hbx.1, by omega, h1, h2⟩
  rw [key s, key s2, rawFluxes_zflux_indep tm p s s2 i j k q hb hq]
  by_cases h1 : k = p.bx.smallEnd.z
  · rw [if_pos h1, if_pos h1]
    simp only [bottomCorrection]
    rw [hx i _ (Or.inl rfl) le_rfl (by omega), hx (i+1) _ (Or.inr rfl) le_rfl (by omega),
      hx i (p.bx.smallEnd.z + 1) (Or.inl rfl) (by omega) (by omega),
      hx (i+1) (p.bx.smallEnd.z + 1) (Or.inr rfl) (by omega) (by omega),
      hy j _ (Or.inl rfl) le_rfl (by omega), hy (j+1) _ (Or.inr rfl) le_rfl (by omega),
      hy j (p.bx.smallEnd.z + 1) (Or.inl rfl) (by omega) (by omega),
      hy (j+1) (p.bx.smallEnd.z + 1) (Or.inr rfl) (by omega) (by omega)]
  · by_cases h2 : k = p.bx.bigEnd.z + 1
    · rw [if_neg h1, if_neg h1, if_pos h2, if_pos h2]
      simp only [topCorrection]
      rw [hx i (p.bx.bigEnd.z + 1 - 1) (Or.inl rfl) (by omega) (by omega),
        hx (i+1) (p.bx.bigEnd.z + 1 - 1) (Or.inr rfl) (by omega) (by omega),
        hx i (p.bx.bigEnd.z + 1 - 2) (Or.inl rfl) (by omega) (by omega),
        hx (i+1) (p.bx.bigEnd.z + 1 - 2) (Or.inr rfl) (by omega) (by omega),
        hy j (p.bx.bigEnd.z + 1 - 1) (Or.inl rfl) (by omega) (by omega),
        hy (j+1) (p.bx.bigEnd.z + 1 - 1) (Or.inr rfl) (by omega) (by omega),
        hy j (p.bx.bigEnd.z + 1 - 2) (Or.inl rfl) (by omega) (by omega),
        hy (j+1) (p.bx.bigEnd.z + 1 - 2) (Or.inr rfl) (by omega) (by omega)]
    · rw [if_neg h1, if_neg h1, if_neg h2, if_neg h2]
      simp only [interiorCorrection]
      rw [hx i k (Or.inl rfl) (by omega) (by omega),
        hx (i+1) k (Or.inr rfl) (by omega) (by omega),
        hx i (k - 1) (Or.inl rfl) (by omega) (by omega),
        hx (i+1) (k - 1) (Or.inr rfl) (by omega) (by omega),
        hy j k (Or.inl rfl) (by omega) (by omega),
        hy (j+1) k (Or.inr rfl) (by omega) (by omega),
        hy j (k - 1) (Or.inl rfl) (by omega) (by omega),
        hy (j+1) (k - 1) (Or.inr rfl) (by omega) (by omega)]

theorem zflux_terrain_correction_witness :
    (DiffusionSrcForState_T rampMetrics shearClosures inclineArgs staleFluxState).zflux 0 0 0
        RhoTheta_comp = -2 ∧
    (DiffusionSrcForState_T rampMetrics shearClosures inclineArgs staleFluxState).zflux 0 0 1
        RhoTheta_comp = -2 := by
  have hr := inclineArgs_raw rampMetrics (fun _ _ _ => rfl) (fun _ _ _ => rfl) staleFluxState
  constructor
  · have e0 : (0 : Int) = inclineArgs.bx.smallEnd.z := rfl
    rw [(zflux_terrain_correction rampMetrics shearClosures inclineArgs staleFluxState
      (by decide) 0 0 0 RhoTheta_comp (by decide) (by decide)).1, if_pos e0]
    simp only [bottomCorrection]
    rw [(hr 0 0 0).2 (by decide), (hr 0 0 inclineArgs.bx.smallEnd.z).1 (by decide),
      (hr (0+1) 0 inclineArgs.bx.smallEnd.z).1 (by decide),
      (hr 0 0 (inclineArgs.bx.smallEnd.z + 1)).1 (by decide),
      (hr (0+1) 0 (inclineArgs.bx.smallEnd.z + 1)).1 (by decide)]
    norm_num [rampMetrics, flatMetrics]
  · have e1 : ¬ ((1 : Int) = inclineArgs.bx.smallEnd.z) := by decide
    have e2 : ¬ ((1 : Int) = inclineArgs.bx.bigEnd.z + 1) := by decide
    rw [(zflux_terrain_correction rampMetrics shearClosures inclineArgs staleFluxState
      (by decide) 0 0 1 RhoTheta_comp (by decide) (by decide)).1, if_neg e1, if_neg e2]
    simp only [interiorCorrection]
    rw [(hr 0 0 1).2 (by decide), (hr 0 0 1).1 (by decide), (hr (0+1) 0 1).1 (by decide),
      (hr 0 0 (1-1)).1 (by decide), (hr (0+1) 0 (1-1)).1 (by decide)]
    norm_num [rampMetrics, flatMetrics]

/-- C30 (the code at the failing input). `DiffusionSrcForState_T` leaves the
three flux arrays unchanged in every component outside `n_start..n_end` and
leaves `cell_rhs` unchanged at every cell outside `bx`: the generic kernels run
over `n_start..n_end` only. The TKE and QKE source kernels are launched on a
test of `n_end` alone. In a component `q` outside the range `cell_rhs` is
unchanged when `q` is neither the TKE component under the Deardorff closure
with `RhoKE_comp ≤ n_end` nor the QKE component with QKE advected and
`RhoQKE_comp ≤ n_end`, so the density component is always unchanged. But under
the Deardorff closure with `RhoKE_comp ≤ n_end` and the TKE component outside
`n_start..n_end` (that is, `RhoKE_comp < n_start`), the TKE tendency of every
cell of `bx` is what the Deardorff kernel makes of the incoming value: the
function writes a component outside the range it was given. -/
theorem diffusion_writes_in_range_and_special (tm : TerrainMetrics) (cl : Closures)
    (p : DiffArgs) (s : DiffState) (i j k q : Int) :
    (¬ (p.n_start ≤ q ∧ q ≤ p.n_end) →
      (DiffusionSrcForState_T tm cl p s).xflux i j k q = s.xflux i j k q ∧
      (DiffusionSrcForState_T tm cl p s).yflux i j k q = s.yflux i j k q ∧
      (DiffusionSrcForState_T tm cl p s).zflux i j k q = s.zflux i j k q) ∧
    (¬ p.bx.contains i j k →
      (DiffusionSrcForState_T tm cl p s).cell_rhs i j k q = s.cell_rhs i j k q) ∧
    (¬ (p.n_start ≤ q ∧ q ≤ p.n_end) →
      ¬ (p.solverChoice.les_type = LESType.Deardorff ∧ q = RhoKE_comp ∧ RhoKE_comp ≤ p.n_end) →
      ¬ ((p.solverChoice.use_QKE = true ∧ p.solverChoice.advect_QKE = true) ∧
          q = RhoQKE_comp ∧ RhoQKE_comp ≤ p.n_end) →
      (DiffusionSrcForState_T tm cl p s).cell_rhs i j k q = s.cell_rhs i j k q) ∧
    (¬ (p.n_start ≤ Rho_comp ∧ Rho_comp ≤ p.n_end) →
      (DiffusionSrcForState_T tm cl p s).cell_rhs i j k Rho_comp = s.cell_rhs i j k Rho_comp) ∧
    (p.bx.contains i j k → ¬ (p.n_start ≤ RhoKE_comp ∧ RhoKE_comp ≤ p.n_end) →
      RhoKE_comp ≤ p.n_end → p.solverChoice.les_type = LESType.Deardorff →
      (DiffusionSrcForState_T tm cl p s).cell_rhs i j k RhoKE_comp =
        ownValue (deardorffKernel tm cl p) RhoKE_comp i j k (s.cell_rhs i j k RhoKE_comp)) := by
  refine ⟨DiffusionSrcForState_T_flux_frame tm cl p s i j k q, fun hb => ?_, fun hq h1 h2 => ?_,
    fun hq => ?_, fun hb hq he hd => DiffusionSrcForState_T_ke_outside tm cl p s i j k hb hq he hd⟩
  · unfold DiffusionSrcForState_T
    rw [keSources_frame tm cl p _ i j k q (Or.inl hb), fluxesToRhs_apply,
      if_neg (fun h => hb h.1)]
    rfl
  · unfold DiffusionSrcForState_T
    rw [keSources_frame tm cl p _ i j k q (Or.inr ⟨h1, h2⟩), fluxesToRhs_apply,
      if_neg (fun h => hq h.2)]
    rfl
  · unfold DiffusionSrcForState_T
    rw [keSources_frame tm cl p _ i j k Rho_comp
      (Or.inr ⟨fun h => absurd h.2.1 (by decide), fun h => absurd h.2.1 (by decide)⟩),
      fluxesToRhs_apply, if_neg (fun h => hq h.2)]
    rfl

theorem diffusion_writes_in_range_and_special_witness :
    ¬ (scalarOnlyArgs.n_start ≤ RhoKE_comp ∧ RhoKE_comp ≤ scalarOnlyArgs.n_end) ∧
    zeroDiffState.cell_rhs 0 0 0 RhoKE_comp = 0 ∧
    (DiffusionSrcForState_T flatMetrics shearClosures scalarOnlyArgs zeroDiffState).cell_rhs 0 0 0
        RhoKE_comp = 1 ∧
    (DiffusionSrcForState_T flatMetrics shearClosures scalarOnlyArgs staleFluxState).xflux 0 0 0
        RhoTheta_comp = 7 ∧
    (DiffusionSrcForState_T flatMetrics shearClosures scalarOnlyArgs staleFluxState).cell_rhs 0 0 0
        Rho_comp = 0 := by
  have h := diffusion_writes_in_range_and_special flatMetrics shearClosures scalarOnlyArgs
    staleFluxState 0 0 0 RhoTheta_comp
  have h0 := diffusion_writes_in_range_and_special flatMetrics shearClosures scalarOnlyArgs
    staleFluxState 0 0 0 Rho_comp
  have hk := (diffusion_writes_in_range_and_special flatMetrics shearClosures scalarOnlyArgs
    zeroDiffState 0 0 0 RhoKE_comp).2.2.2.2 (by decide) (by decide) (by decide) rfl
  refine ⟨by decide, rfl, ?_, (h.1 (by decide)).1, h0.2.2.2.1 (by decide)⟩
  rw [hk]
  simp only [ownValue, deardorffKernel, Array4.set_same, Array4.set_set, Array4.const]
  norm_num [scalarOnlyArgs, keArgs, shearClosures, flatMetrics, zeroDiffState, Array4.const,
    Array4.set_apply, PrimKE_comp, RhoKE_comp, PrimTheta_comp, RhoTheta_comp, Rho_comp]

/-- C25 (as amended). In the Deardorff TKE source of `DiffusionSrcForState_T`
the mixing length is `l_Delta = pow(dx_inv*dy_inv*dz_inv, -1/3)`, the cube
root of the cell volume, when the metric-corrected `d(theta)/dz` is `≤ 0`
(neutral or unstable stratification), and it is the stability/TKE-dependent
length `0.76*sqrt(E)*(g_z/theta)*d(theta)/dz` when `d(theta)/dz > 0` (stable
stratification). With this length the kernel adds to the TKE tendency the
buoyancy term `rho*g_z*KH*d(theta)/dz` with
`KH = 0.1*(1 + 2*length/l_Delta)*sqrt(E)`, the shear production, and, when
`|E| > 0`, the term `rho*Ce*pow(E,1.5)/length`. -/
theorem deardorff_length_by_stratification (tm : TerrainMetrics) (cl : Closures) (p : DiffArgs)
    (i j k : Int) :
    (deardorff_dtheta_dz tm p i j k ≤ 0 → deardorffLength tm cl p i j k = l_Delta cl p) ∧
    (0 < deardorff_dtheta_dz tm p i j k →
      deardorffLength tm cl p i j k =
        0.76 * cl.sqrt (p.cell_prim i j k PrimKE_comp)
          * (p.grav_gpu 2 / p.cell_prim i j k PrimTheta_comp) * deardorff_dtheta_dz tm p i j k) ∧
    (∀ old, ownValue (deardorffKernel tm cl p) RhoKE_comp i j k old =
      old
      + p.cell_data i j k Rho_comp * p.grav_gpu 2
          * (0.1 * (1 + 2 * deardorffLength tm cl p i j k / l_Delta cl p)
              * cl.sqrt (p.cell_prim i j k PrimKE_comp))
          * deardorff_dtheta_dz tm p i j k
      + cl.ComputeTKEProduction i j k p.u p.v p.w p.mu_turb p.dxInv p.domain p.bc_ptr
          (if p.solverChoice.use_terrain then 1 else 0)
      + (if |p.cell_prim i j k PrimKE_comp| > 0 then
          p.cell_data i j k Rho_comp * p.solverChoice.Ce
            * cl.pow (p.cell_prim i j k PrimKE_comp) 1.5 / deardorffLength tm cl p i j k
         else 0)) := by
  refine ⟨fun h => ?_, fun h => ?_, deardorffKernel_length tm cl p i j k⟩
  · unfold deardorffLength
    rw [if_pos h]
  · unfold deardorffLength
    rw [if_neg (not_le.2 h)]

theorem deardorff_length_by_stratification_witness :
    deardorffLength flatMetrics shearClosures keArgs 0 0 0 = 1 ∧
    deardorffLength flatMetrics shearClosures stableArgs 0 0 0 = -7.4556 := by
  have h1 := deardorff_length_by_stratification flatMetrics shearClosures keArgs 0 0 0
  have h2 := deardorff_length_by_stratification flatMetrics shearClosures stableArgs 0 0 0
  refine ⟨(h1.1 ?_).trans rfl, (h2.2.1 ?_).trans ?_⟩
  · norm_num [deardorff_dtheta_dz, keArgs, Array4.const]
  · rw [stableArgs_dtheta_dz]
    norm_num
  · rw [stableArgs_dtheta_dz]
    norm_num [stableArgs, keArgs, shearClosures, GpuArray3.mk3, PrimTheta_comp, PrimKE_comp,
      RhoTheta_comp, RhoKE_comp]

/-- C25 (counterexample). Stable stratification (`theta = k + 1`, so
`d(theta)/dz = 1 > 0`) with `E = 1`, `theta = 1`, `g_z = -9.81` on a unit
grid: the cube root of the cell volume is `1`, but the kernel uses the length
`0.76*1*(-9.81/1)*1 = -7.4556`, with which it leaves
`-9.81*0.1*(1 + 2*(-7.4556)) + 1 + 1/(-7.4556)` in a TKE tendency that was
`0`. -/
theorem stable_length_counterexample :
    0 < deardorff_dtheta_dz flatMetrics stableArgs 0 0 0 ∧
    l_Delta shearClosures stableArgs = 1 ∧
    deardorffLength flatMetrics shearClosures stableArgs 0 0 0 = -7.4556 ∧
    ownValue (deardorffKernel flatMetrics shearClosures stableArgs) RhoKE_comp 0 0 0 0 =
      -9.81 * (0.1 * (1 + 2 * (-7.4556))) + 1 + 1 / (-7.4556) := by
  have hd := stableArgs_dtheta_dz 0
  have hl : deardorffLength flatMetrics shearClosures stableArgs 0 0 0 = -7.4556 := by
    unfold deardorffLength
    rw [hd, if_neg (by norm_num)]
    norm_num [stableArgs, keArgs, shearClosures, GpuArray3.mk3, PrimTheta_comp, PrimKE_comp,
      RhoTheta_comp, RhoKE_comp]
  refine ⟨by rw [hd]; norm_num, rfl, hl, ?_⟩
  rw [deardorffKernel_length, hl, hd]
  have e : l_Delta shearClosures stableArgs = 1 := rfl
  rw [e]
  norm_num [stableArgs, keArgs, shearClosures, GpuArray3.mk3, PrimTheta_comp, PrimKE_comp,
    RhoTheta_comp, RhoKE_comp, Rho_comp, Array4.const]

/-- C26 (the code at the failing input). Solver choices made by `init_params`
on a fresh object with `use_gravity` not set or set to false, and the gravity
vector `erf_slow_rhs_pre` builds from them: `g_z = 0`, and at every cell with
stable stratification (`d(theta)/dz > 0`) the mixing length of the Deardorff
kernel is `0.76*sqrt(E)*(0/theta)*d(theta)/dz = 0`, whatever `E` and `theta`
are. The kernel adds no dissipation when `E = 0`, but when `|E| > 0` it adds
`rho*Ce*pow(E,1.5)/length` with that zero length as the divisor. -/
theorem zero_length_without_gravity (c : Constants) (pp : ParmParse) (st st2 : Statics)
    (tm : TerrainMetrics) (cl : Closures) (p : DiffArgs) (i j k : Int)
    (hcfg : init_params c pp st {} = Except.ok (p.solverChoice, st2))
    (hg : pp.use_gravity = none ∨ pp.use_gravity = some false)
    (hgrav : p.grav_gpu = grav_gpu p.solverChoice)
    (hs : 0 < deardorff_dtheta_dz tm p i j k) :
    p.grav_gpu 2 = 0 ∧
    deardorffLength tm cl p i j k = 0 ∧
    (∀ old, ownValue (deardorffKernel tm cl p) RhoKE_comp i j k old =
      old
      + cl.ComputeTKEProduction i j k p.u p.v p.w p.mu_turb p.dxInv p.domain p.bc_ptr
          (if p.solverChoice.use_terrain then 1 else 0)
      + (if |p.cell_prim i j k PrimKE_comp| > 0 then
          p.cell_data i j k Rho_comp * p.solverChoice.Ce
            * cl.pow (p.cell_prim i j k PrimKE_comp) 1.5 / deardorffLength tm cl p i j k
         else 0)) := by
  obtain ⟨h1, h2, _, _⟩ := init_params_switches c pp st {} _ hcfg
  simp only at h1 h2
  have hu : p.solverChoice.use_gravity = false := by
    rw [h1]
    rcases hg with e | e <;> rw [e] <;> rfl
  have h0 : p.grav_gpu 2 = 0 := by
    rw [hgrav, grav_gpu, h2, hu]
    simp [GpuArray3.mk3]
  have hl : deardorffLength tm cl p i j k = 0 := by
    unfold deardorffLength
    rw [if_neg (not_le.2 hs), h0]
    simp
  refine ⟨h0, hl, fun old => ?_⟩
  rw [deardorffKernel_length, h0]
  simp

theorem zero_length_without_gravity_witness :
    0 < |calmArgs.cell_prim 0 0 0 PrimKE_comp| ∧
    0 < calmArgs.cell_prim 0 0 0 PrimTheta_comp ∧
    calmArgs.grav_gpu 2 = 0 ∧
    deardorffLength flatMetrics shearClosures calmArgs 0 0 0 = 0 := by
  obtain ⟨st, h⟩ := calmChoice_ok
  have hk := zero_length_without_gravity sampleConstants _ {} st flatMetrics shearClosures
    calmArgs 0 0 0 h (Or.inl rfl) rfl (by rw [calmArgs_dtheta_dz]; norm_num)
  refine ⟨?_, ?_, hk.1, hk.2.1⟩
  · norm_num [calmArgs, stableArgs, PrimKE_comp, PrimTheta_comp, RhoKE_comp, RhoTheta_comp]
  · norm_num [calmArgs, stableArgs, PrimKE_comp, PrimTheta_comp, RhoKE_comp, RhoTheta_comp]

/-- C23 (as amended). With a surface-layer (MOST) model active and diffusion
enabled, the block of `erf_slow_rhs_pre` that recomputes the strain at the
bottom runs at the first stage only. At `nrk = 0` it stores the one-sided
values in `tau13` and `tau23` (and copies them to `tau31`, `tau32` under
terrain; without terrain these two are untouched) on the faces of its boxes,
which all have `k ≤ 0`. At every later stage (`nrk ≠ 0`) the block is skipped:
the strain handed on is the one `ComputeStrain_T/N` just computed, without the
one-sided recomputation. At no stage does the block change a strain value at
`k > 0`. -/
theorem most_strain_first_stage_only (tm : TerrainMetrics) (ext : RhsExt) (a : RhsArgs)
    (t : Tau9) (hd : l_use_diff a.solverChoice = true) (hm : a.most.isSome = true) :
    (a.nrk = 0 → ∀ i j k,
      (((a.bx.convert ⟨1, 0, 1⟩).setBig 2 0).contains i j k →
        k ≤ 0 ∧
        (mostStrain tm a t).tau13 i j k 0 =
          (if a.solverChoice.use_terrain = true then mostTau13_T tm a i j k
           else mostTau13_N a i j k) ∧
        (mostStrain tm a t).tau31 i j k 0 =
          (if a.solverChoice.use_terrain = true then mostTau13_T tm a i j k
           else t.tau31 i j k 0)) ∧
      (((a.bx.convert ⟨0, 1, 1⟩).setBig 2 0).contains i j k →
        k ≤ 0 ∧
        (mostStrain tm a t).tau23 i j k 0 =
          (if a.solverChoice.use_terrain = true then mostTau23_T tm a i j k
           else mostTau23_N a i j k) ∧
        (mostStrain tm a t).tau32 i j k 0 =
          (if a.solverChoice.use_terrain = true then mostTau23_T tm a i j k
           else t.tau32 i j k 0))) ∧
    (a.nrk ≠ 0 → mostStrain tm a (stepStrain ext a t) = stepStrain ext a t) ∧
    (∀ i j k n, 0 < k →
      (mostStrain tm a t).tau13 i j k n = t.tau13 i j k n ∧
      (mostStrain tm a t).tau23 i j k n = t.tau23 i j k n ∧
      (mostStrain tm a t).tau31 i j k n = t.tau31 i j k n ∧
      (mostStrain tm a t).tau32 i j k n = t.tau32 i j k n) := by
  refine ⟨fun h0 i j k => ?_, fun h0 => mostStrain_skip tm a _ (fun h => h0 h.1),
    (mostStrain_frame tm a t).2.2.2.2.2⟩
  have hk : ∀ b : Box, (b.setBig 2 0).contains i j k → k ≤ 0 := by
    intro b h
    simp only [Box.contains, Box.setBig, IntVect.set] at h
    omega
  have hc : a.nrk = 0 ∧ l_use_diff a.solverChoice = true ∧ a.most.isSome = true := ⟨h0, hd, hm⟩
  unfold mostStrain
  rw [if_pos hc]
  by_cases ht : a.solverChoice.use_terrain = true
  · simp only [ht, if_true, ParallelFor_assign, and_true]
    exact ⟨fun hb => ⟨hk _ hb, by simp only [hb, if_true], by simp only [hb, if_true]⟩,
      fun hb => ⟨hk _ hb, by simp only [hb, if_true], by simp only [hb, if_true]⟩⟩
  · have hf : a.solverChoice.use_terrain = false := by simpa using ht
    simp only [hf, Bool.false_eq_true, if_false, ParallelFor_assign, and_true]
    exact ⟨fun hb => ⟨hk _ hb, by simp only [hb, if_true]⟩,
      fun hb => ⟨hk _ hb, by simp only [hb, if_true]⟩⟩

theorem most_strain_first_stage_only_witness :
    (mostStrain flatMetrics mostArgs zeroTau).tau13 0 0 0 0 = 1/2 ∧
    mostStrain flatMetrics laterStageArgs (stepStrain idleExt laterStageArgs zeroTau) =
      stepStrain idleExt laterStageArgs zeroTau := by
  have h1 := (most_strain_first_stage_only flatMetrics idleExt mostArgs zeroTau (by decide)
    (by decide)).1 rfl 0 0 0
  have h2 := (most_strain_first_stage_only flatMetrics idleExt laterStageArgs zeroTau
    (by decide) (by decide)).2.1 (by decide)
  refine ⟨((h1.1 (by decide)).2.1).trans ?_, h2⟩
  norm_num [mostArgs, restArgs, mostTau13_N, Array4.const]

/-- C23 (counterexample). A patch at the second stage (`nrk = 1`) with a
surface-layer model and diffusion enabled, wind `u = k`: the face `(0,0,0)`
lies in the box of the MOST kernel and its one-sided value of `tau13` is
`1/2`, but the block leaves `tau13(0,0,0)` at the value `0` it found. -/
theorem most_skipped_at_later_stage_counterexample :
    laterStageArgs.nrk = 1 ∧ l_use_diff laterStageArgs.solverChoice = true ∧
    laterStageArgs.most.isSome = true ∧
    ((laterStageArgs.bx.convert ⟨1, 0, 1⟩).setBig 2 0).contains 0 0 0 ∧
    mostTau13_N laterStageArgs 0 0 0 = 1/2 ∧
    (mostStrain flatMetrics laterStageArgs zeroTau).tau13 0 0 0 0 = 0 := by
  refine ⟨rfl, by decide, by decide, by decide, ?_, ?_⟩
  · norm_num [laterStageArgs, mostArgs, restArgs, mostTau13_N, Array4.const]
  · rw [mostStrain_skip flatMetrics laterStageArgs zeroTau (fun h => absurd h.1 (by decide))]
    rfl

/-- C24. For a tile box that spans the full vertical extent `0..domhi_z` with
`domhi_z ≥ 1`, the x-, y- and z-momentum kernels of `erf_slow_rhs_pre`
(terrain and non-terrain branches, with the one-sided vertical differences at
`k = 0` and `k = domhi_z`) read the perturbation pressure only at indices
inside `gbx`, the tile box grown by one cell in x and y and by none in z: two
pressure arrays that agree on `gbx` give the same kernel result at every face
of `tbx`, `tby` and `tbz`. And at every index of `gbx` the array the momentum
kernels receive holds the value written by the pressure pass earlier in the
same call, `getPgivenRTh(RhoTheta) - p0`. -/
theorem pressure_stencils_read_inside_halo (tm : TerrainMetrics) (a : RhsArgs)
    (hspan : a.tilebox.smallEnd.z = 0 ∧ a.tilebox.bigEnd.z = a.domhi_z ∧ 1 ≤ a.domhi_z) :
    (∀ pp1 pp2 : Array4, (∀ i j k, a.gbx.contains i j k → pp1 i j k 0 = pp2 i j k 0) →
      ∀ (i j k : Int) (r : Array4),
        (a.tbx.contains i j k →
          xmomKernel_T tm a pp1 i j k r = xmomKernel_T tm a pp2 i j k r ∧
          xmomKernel_N a pp1 i j k r = xmomKernel_N a pp2 i j k r) ∧
        (a.tby.contains i j k →
          ymomKernel_T tm a pp1 i j k r = ymomKernel_T tm a pp2 i j k r ∧
          ymomKernel_N a pp1 i j k r = ymomKernel_N a pp2 i j k r) ∧
        (a.tbz.contains i j k →
          zmomKernel_T tm a pp1 i j k r = zmomKernel_T tm a pp2 i j k r ∧
          zmomKernel_N a pp1 i j k r = zmomKernel_N a pp2 i j k r)) ∧
    (∀ (ext : RhsExt) (cl : Closures) (s : RhsState) (i j k : Int), a.gbx.contains i j k →
      (momSources ext a (statePart tm ext cl a s)).pp_arr i j k 0 =
        ext.getPgivenRTh (a.cell_data i j k RhoTheta_comp) - a.p0 i j k 0) := by
  refine ⟨fun pp1 pp2 hpp i j k r => ⟨fun hc => xmomKernel_reads_gbx tm a hspan pp1 pp2 hpp i j k hc r,
    fun hc => ymomKernel_reads_gbx tm a hspan pp1 pp2 hpp i j k hc r,
    fun hc => zmomKernel_reads_gbx tm a pp1 pp2 hpp i j k hc r⟩, fun ext cl s i j k hc => ?_⟩
  rw [momSources_pp_arr, stepPprime_apply, if_pos ⟨hc, rfl⟩]

theorem pressure_stencils_read_inside_halo_witness :
    xmomKernel_T flatMetrics terrainRestArgs (Array4.const 0) 0 0 0 (Array4.const 0) =
      xmomKernel_T flatMetrics terrainRestArgs haloPressure 0 0 0 (Array4.const 0) ∧
    zmomKernel_T flatMetrics terrainRestArgs (Array4.const 0) 0 0 1 (Array4.const 0) =
      zmomKernel_T flatMetrics terrainRestArgs haloPressure 0 0 1 (Array4.const 0) := by
  have h := (pressure_stencils_read_inside_halo flatMetrics terrainRestArgs
    ⟨rfl, rfl, by decide⟩).1 (Array4.const 0) haloPressure
    (fun i j k hc => by simp only [haloPressure, Array4.const, if_pos hc])
  exact ⟨((h 0 0 0 (Array4.const 0)).1 (by decide)).1, ((h 0 0 1 (Array4.const 0)).2.2 (by decide)).1⟩

/-- C29. Top-of-domain adjustment in `read_from_file`, on a file whose reading
loop consumes the lines `kept` and then `last`. The two last stored levels are
`(z1,v1)`, the last line of `kept` or the surface level when `kept` is empty,
and `(z2,v2)`, the line `last` (moisture times `0.001`). The level computed
for `ztop` has, for each of theta, qv, U, V, the value
`v1 + (ztop - z1)/(z2 - z1)*(v2 - v1)`. When `z2 = ztop` the vectors are left
as read; when `z2 < ztop` the level is appended as a new last entry (one more
entry than read); when `z2 > ztop` it replaces the last entry (as many
entries as read), and then, for `z1 < z2` and `z1 ≤ ztop` (which holds when
`kept` is not empty, and for the surface level when `0 ≤ ztop`), each value
lies between `v1` and `v2`. For `z1 < z2` the value is exact on a profile
affine in z: if `v1 = al*z1 + be` and `v2 = al*z2 + be` it is `al*ztop + be`.
The function returns in each case. -/
theorem top_adjustment_interpolates (f : SoundingFile) (ztop z_uninit : ℚ)
    (d : InputSoundingData) (kept : List SoundingLine) (last : SoundingLine)
    (hC : consumed ztop f.profile = kept ++ [last]) :
    ∃ r, read_from_file (some f) ztop z_uninit d = Except.ok r ∧
      (last.z = ztop →
        r = (soundingBase f d).withLevels
          ((surfaceLevel f :: kept.map storedLevel) ++ [storedLevel last])) ∧
      (last.z < ztop →
        r = (soundingBase f d).withLevels
          ((surfaceLevel f :: kept.map storedLevel) ++ [storedLevel last,
            interpolatedTop ztop (levelBelow f kept) (storedLevel last)]) ∧
        r.z_inp_sound.length = (surfaceLevel f :: kept.map storedLevel).length + 2) ∧
      (ztop < last.z →
        r = (soundingBase f d).withLevels
          ((surfaceLevel f :: kept.map storedLevel) ++ [
            interpolatedTop ztop (levelBelow f kept) (storedLevel last)]) ∧
        r.z_inp_sound.length = (surfaceLevel f :: kept.map storedLevel).length + 1) ∧
      (kept = [] → levelBelow f kept = surfaceLevel f) ∧
      (∀ Q l, kept = Q ++ [l] → levelBelow f kept = storedLevel l) ∧
      (interpolatedTop ztop (levelBelow f kept) (storedLevel last)).z = ztop ∧
      (∀ g ∈ [SoundingLine.theta, SoundingLine.qv, SoundingLine.U, SoundingLine.V],
        g (interpolatedTop ztop (levelBelow f kept) (storedLevel last)) =
          g (levelBelow f kept) +
            (ztop - (levelBelow f kept).z) / (last.z - (levelBelow f kept).z) *
              (g (storedLevel last) - g (levelBelow f kept))) ∧
      ((levelBelow f kept).z < last.z → ztop < last.z → (kept ≠ [] ∨ 0 ≤ ztop) →
        ∀ g ∈ [SoundingLine.theta, SoundingLine.qv, SoundingLine.U, SoundingLine.V],
          min (g (levelBelow f kept)) (g (storedLevel last)) ≤
              g (interpolatedTop ztop (levelBelow f kept) (storedLevel last)) ∧
            g (interpolatedTop ztop (levelBelow f kept) (storedLevel last)) ≤
              max (g (levelBelow f kept)) (g (storedLevel last))) ∧
      ((levelBelow f kept).z < last.z →
        ∀ g ∈ [SoundingLine.theta, SoundingLine.qv, SoundingLine.U, SoundingLine.V],
          ∀ al be : ℚ, g (levelBelow f kept) = al * (levelBelow f kept).z + be →
            g (storedLevel last) = al * last.z + be →
            g (interpolatedTop ztop (levelBelow f kept) (storedLevel last)) = al * ztop + be) := by
  have hev := read_from_file_eval f ztop z_uninit d kept last hC
  have hlow := consumed_low ztop f.profile kept last hC
  have hform : ∀ g ∈ [SoundingLine.theta, SoundingLine.qv, SoundingLine.U, SoundingLine.V],
      g (interpolatedTop ztop (levelBelow f kept) (storedLevel last)) =
        g (levelBelow f kept) +
          (ztop - (levelBelow f kept).z) / (last.z - (levelBelow f kept).z) *
            (g (storedLevel last) - g (levelBelow f kept)) := by
    intro g hg
    simp only [List.mem_cons, List.mem_singleton, List.not_mem_nil, or_false] at hg
    rcases hg with rfl | rfl | rfl | rfl <;> rfl
  refine ⟨_, hev, fun h => ?_, fun h => ⟨?_, ?_⟩, fun h => ⟨?_, ?_⟩,
    (levelBelow_height f ztop kept hlow).1, ?_, rfl, hform, ?_, ?_⟩
  · rw [if_pos h]
  · rw [if_neg (ne_of_lt h), if_pos h]
  · rw [if_neg (ne_of_lt h), if_pos h]
    simp [InputSoundingData.withLevels, soundingBase]
  · rw [if_neg (ne_of_gt h), if_neg (not_lt.2 (le_of_lt h))]
  · rw [if_neg (ne_of_gt h), if_neg (not_lt.2 (le_of_lt h))]
    simp [InputSoundingData.withLevels, soundingBase]
  · rintro Q l rfl
    simp [levelBelow]
  · intro h12 htop hk g hg
    rw [hform g hg]
    have hpos : 0 < last.z - (levelBelow f kept).z := sub_pos.2 h12
    have hz1 : (levelBelow f kept).z ≤ ztop := by
      by_cases hne : kept = []
      · rw [(levelBelow_height f ztop kept hlow).1 hne]
        rcases hk with hk | hk
        · exact absurd hne hk
        · exact hk
      · exact le_of_lt ((levelBelow_height f ztop kept hlow).2 hne)
    refine lerp_between _ _ _ (div_nonneg (sub_nonneg.2 hz1) (le_of_lt hpos)) ?_
    rw [div_le_one hpos]
    linarith
  · intro h12 g hg al be h1 h2
    rw [hform g hg, h1, h2]
    exact lerp_affine _ _ _ _ _ (ne_of_lt h12)

theorem top_adjustment_interpolates_witness :
    (∃ r, read_from_file (some sampleSounding) 150 0 staleSounding = Except.ok r ∧
      r.z_inp_sound = [0, 100, 150] ∧ r.theta_inp_sound = [300, 301, 302] ∧
      r.U_inp_sound = [0, 5, 6]) ∧
    (∃ r, read_from_file (some sampleSounding) 400 0 staleSounding = Except.ok r ∧
      r.z_inp_sound = [0, 100, 200, 300, 400] ∧
      r.theta_inp_sound = [300, 301, 303, 305, 307]) := by
  have hC : consumed 150 sampleSounding.profile =
      [⟨100, 301, 8, 5, 0⟩] ++ [⟨200, 303, 6, 7, 0⟩] := by
    simp only [sampleSounding, consumed]
    norm_num
  have hC2 : consumed 400 sampleSounding.profile =
      [⟨100, 301, 8, 5, 0⟩, ⟨200, 303, 6, 7, 0⟩] ++ [⟨300, 305, 4, 9, 0⟩] := by
    simp only [sampleSounding, consumed]
    norm_num
  obtain ⟨r, h, _, _, h3, _⟩ :=
    top_adjustment_interpolates sampleSounding 150 0 staleSounding _ _ hC
  obtain ⟨r2, h2, _, h4, _⟩ :=
    top_adjustment_interpolates sampleSounding 400 0 staleSounding _ _ hC2
  have hr := (h3 (by norm_num)).1
  have hr2 := (h4 (by norm_num)).1
  refine ⟨⟨r, h, ?_, ?_, ?_⟩, ⟨r2, h2, ?_, ?_⟩⟩
  · rw [hr]
    norm_num [InputSoundingData.withLevels, soundingBase, surfaceLevel, storedLevel,
      interpolatedTop, levelBelow, sampleSounding]
  · rw [hr]
    norm_num [InputSoundingData.withLevels, soundingBase, surfaceLevel, storedLevel,
      interpolatedTop, levelBelow, sampleSounding]
  · rw [hr]
    norm_num [InputSoundingData.withLevels, soundingBase, surfaceLevel, storedLevel,
      interpolatedTop, levelBelow, sampleSounding]
  · rw [hr2]
    norm_num [InputSoundingData.withLevels, soundingBase, surfaceLevel, storedLevel,
      interpolatedTop, levelBelow, sampleSounding]
  · rw [hr2]
    norm_num [InputSoundingData.withLevels, soundingBase, surfaceLevel, storedLevel,
      interpolatedTop, levelBelow, sampleSounding]

/-- C32. Dry buoyancy in `erf_slow_rhs_pre`, for solver choices made by
`init_params` with `CONST_GRAV ≥ 0`. The value the z-momentum kernels (without
and with terrain) leave at a face `(i,j,k)` is the old value minus the
pressure-gradient term, plus the buoyancy term, plus the external forcing,
plus the Coriolis term and minus the Rayleigh term when these are switched on
(times the `detJ` factor for moving terrain). The buoyancy term is
`-gravity*((rho(i,j,k) - r0(i,j,k)) + (rho(i,j,k-1) - r0(i,j,k-1)))/2` with
`gravity ≥ 0`; it is `0` when `use_gravity` is false, it is `0` when the
density equals the base-state density in both cells, and it is negative when
gravity is on (`use_gravity` true, `CONST_GRAV > 0`) and the density exceeds
the base state in both cells adjoining the face. -/
theorem dry_buoyancy_term (c : Constants) (pp : ParmParse) (st st2 : Statics)
    (sc0 : SolverChoice) (tm : TerrainMetrics) (a : RhsArgs) (pp_arr : Array4) (i j k : Int)
    (hcfg : init_params c pp st sc0 = Except.ok (a.solverChoice, st2))
    (hg : 0 ≤ c.CONST_GRAV) :
    (∀ old, ownValue (zmomKernel_N a pp_arr) 0 i j k old =
      old - gpz_N a pp_arr i j k + buoyancy a i j k + ext_forcing a.solverChoice 2
        + (if a.solverChoice.use_coriolis = true then coriolis_z a i j k else 0)
        - (if a.solverChoice.use_rayleigh_damping = true then rayleigh_z a i j k else 0)) ∧
    (∀ old, ownValue (zmomKernel_T tm a pp_arr) 0 i j k old =
      (old - gpz_T tm a pp_arr i j k + buoyancy a i j k + ext_forcing a.solverChoice 2
        + (if a.solverChoice.use_coriolis = true then coriolis_z a i j k else 0)
        - (if a.solverChoice.use_rayleigh_damping = true then rayleigh_z a i j k else 0))
      * (if a.solverChoice.use_terrain = true ∧ l_moving_terrain a.solverChoice = true then
          0.5 * (a.detJ i j k 0 + a.detJ i j (k-1) 0) else 1)) ∧
    buoyancy a i j k =
      -a.solverChoice.gravity *
        ((a.cell_data i j k Rho_comp - a.r0 i j k 0)
          + (a.cell_data i j (k-1) Rho_comp - a.r0 i j (k-1) 0)) / 2 ∧
    0 ≤ a.solverChoice.gravity ∧
    (a.solverChoice.use_gravity = false → buoyancy a i j k = 0) ∧
    (a.cell_data i j k Rho_comp = a.r0 i j k 0 →
      a.cell_data i j (k-1) Rho_comp = a.r0 i j (k-1) 0 → buoyancy a i j k = 0) ∧
    (a.solverChoice.use_gravity = true → 0 < c.CONST_GRAV →
      a.r0 i j k 0 < a.cell_data i j k Rho_comp →
      a.r0 i j (k-1) 0 < a.cell_data i j (k-1) Rho_comp → buoyancy a i j k < 0) := by
  obtain ⟨_, h2, _, _⟩ := init_params_switches c pp st sc0 _ hcfg
  simp only at h2
  have hr : Rho_comp = 0 := rfl
  have hb : buoyancy a i j k =
      -a.solverChoice.gravity *
        ((a.cell_data i j k Rho_comp - a.r0 i j k 0)
          + (a.cell_data i j (k-1) Rho_comp - a.r0 i j (k-1) 0)) / 2 := by
    rw [hr]
    unfold buoyancy
    rw [grav_gpu_two]
    ring
  refine ⟨zmomKernel_N_terms a pp_arr i j k, zmomKernel_T_terms tm a pp_arr i j k, hb, ?_,
    fun hu => ?_, fun e1 e2 => ?_, fun hu hpos hd1 hd2 => ?_⟩
  · rw [h2]
    split_ifs
    · exact hg
    · exact le_refl _
  · rw [hb, h2, hu]
    simp
  · rw [hb, e1, e2]
    simp
  · rw [hb, h2, if_pos hu]
    have := mul_pos hpos (add_pos (sub_pos.2 hd1) (sub_pos.2 hd2))
    linarith

theorem dry_buoyancy_term_witness :
    buoyancy denseArgs 0 0 1 < 0 ∧
    buoyancy denseArgs 0 0 1 = -denseArgs.solverChoice.gravity * ((2 - 1) + (2 - 1)) / 2 := by
  obtain ⟨st, h⟩ := gravChoice_ok
  have h1 := dry_buoyancy_term sampleConstants _ {} st {} flatMetrics denseArgs
    (Array4.const 0) 0 0 1 h (by norm_num [sampleConstants])
  have hu : denseArgs.solverChoice.use_gravity = true :=
    (init_params_switches sampleConstants _ {} {} _ h).1
  refine ⟨h1.2.2.2.2.2.2 hu (by norm_num [sampleConstants])
    (by norm_num [denseArgs, restArgs, Array4.const])
    (by norm_num [denseArgs, restArgs, Array4.const]), h1.2.2.1.trans ?_⟩
  norm_num [denseArgs, restArgs, Array4.const]

/-- C33 (the code at the failing input). With `use_coriolis = false` the
x-momentum kernels (terrain and non-terrain), the y-momentum kernel without
terrain and the z-momentum kernels (terrain and non-terrain) of
`erf_slow_rhs_pre` add no Coriolis term: the value left at a face is the old
value minus the pressure gradient, plus buoyancy (z only) and external
forcing, minus the Rayleigh term when that is on. The y-momentum kernel of the
terrain branch still adds `-coriolis_factor * rho_u_loc * sinphi`, with
`rho_u_loc` the mean of the x-momentum over the four neighbouring x-faces:
its block is not guarded by `use_coriolis`. -/
theorem ymom_terrain_coriolis_unguarded (tm : TerrainMetrics) (a : RhsArgs) (pp : Array4)
    (i j k : Int) (old : ℚ) (hc : a.solverChoice.use_coriolis = false) :
    ownValue (xmomKernel_T tm a pp) 0 i j k old =
      (old - gpx_T tm a pp i j k + ext_forcing a.solverChoice 0
        - (if a.solverChoice.use_rayleigh_damping = true then rayleigh_x a i j k else 0))
      * (if l_moving_terrain a.solverChoice = true then
          0.5 * (a.detJ i j k 0 + a.detJ (i-1) j k 0) else 1) ∧
    ownValue (xmomKernel_N a pp) 0 i j k old =
      old - gpx_N a pp i j k + ext_forcing a.solverChoice 0
        - (if a.solverChoice.use_rayleigh_damping = true then rayleigh_x a i j k else 0) ∧
    ownValue (ymomKernel_N a pp) 0 i j k old =
      old - gpy_N a pp i j k + ext_forcing a.solverChoice 1
        - (if a.solverChoice.use_rayleigh_damping = true then rayleigh_y a i j k else 0) ∧
    ownValue (zmomKernel_T tm a pp) 0 i j k old =
      (old - gpz_T tm a pp i j k + buoyancy a i j k + ext_forcing a.solverChoice 2
        - (if a.solverChoice.use_rayleigh_damping = true then rayleigh_z a i j k else 0))
      * (if a.solverChoice.use_terrain = true ∧ l_moving_terrain a.solverChoice = true then
          0.5 * (a.detJ i j k 0 + a.detJ i j (k-1) 0) else 1) ∧
    ownValue (zmomKernel_N a pp) 0 i j k old =
      old - gpz_N a pp i j k + buoyancy a i j k + ext_forcing a.solverChoice 2
        - (if a.solverChoice.use_rayleigh_damping = true then rayleigh_z a i j k else 0) ∧
    ownValue (ymomKernel_T tm a pp) 0 i j k old =
      (old - gpy_T tm a pp i j k + ext_forcing a.solverChoice 1
        + -a.solverChoice.coriolis_factor
            * (0.25 * (a.rho_u (i+1) j k 0 + a.rho_u i j k 0
                      + a.rho_u (i+1) (j-1) k 0 + a.rho_u i (j-1) k 0))
            * a.solverChoice.sinphi
        - (if a.solverChoice.use_rayleigh_damping = true then rayleigh_y a i j k else 0))
      * (if l_moving_terrain a.solverChoice = true then
          0.5 * (a.detJ i j k 0 + a.detJ i (j-1) k 0) else 1) := by
  have hn : ¬ a.solverChoice.use_coriolis = true := by
    rw [hc]
    decide
  refine ⟨?_, ?_, ?_, ?_, ?_, ?_⟩
  · rw [xmomKernel_T_terms, if_neg hn, add_zero]
  · rw [xmomKernel_N_terms, if_neg hn, add_zero]
  · rw [ymomKernel_N_terms, if_neg hn, add_zero]
  · rw [zmomKernel_T_terms, if_neg hn, add_zero]
  · rw [zmomKernel_N_terms, if_neg hn, add_zero]
  · rw [ymomKernel_T_terms]
    rfl

theorem ymom_terrain_coriolis_unguarded_witness :
    spinArgs.solverChoice.use_coriolis = false ∧
    ownValue (ymomKernel_T flatMetrics spinArgs (Array4.const 0)) 0 0 0 0 0 = -4 ∧
    ownValue (ymomKernel_N spinArgs (Array4.const 0)) 0 0 0 0 0 = 0 := by
  have h := ymom_terrain_coriolis_unguarded flatMetrics spinArgs (Array4.const 0) 0 0 0 0 rfl
  refine ⟨rfl, h.2.2.2.2.2.trans ?_, h.2.2.1.trans ?_⟩
  · norm_num [spinArgs, restArgs, gpy_T, ext_forcing, GpuArray3.mk3, l_moving_terrain,
      Array4.const, flatMetrics]
  · norm_num [spinArgs, restArgs, gpy_N, ext_forcing, GpuArray3.mk3, Array4.const]

/-- C39. Geostrophic balance. Let the solver choices come from `init_params`
with `use_coriolis` on, the driver `GeostrophicWind`, zero `abl_pressure_grad`
and the geostrophic wind `(U, V, W)`, and let the momentum be uniform and equal
to `(U, V, W)` (unit density). Then with the forcing `build_coriolis_forcings`
stored in `abl_geo_forcing`, the Coriolis term plus the external forcing is
exactly `0` in each of the x-, y- and z-momentum equations, whatever the
Coriolis factor, `sinphi` and `cosphi` (so for every latitude and rotation
period), and the value the six momentum kernels leave at a face is the old
value minus the pressure gradient, plus buoyancy (z only), minus the Rayleigh
term when that is on. -/
theorem geostrophic_balance (c : Constants) (pp : ParmParse) (st st2 : Statics)
    (sc0 : SolverChoice) (tm : TerrainMetrics) (a : RhsArgs) (U V W : ℚ)
    (hcfg : init_params c pp st sc0 = Except.ok (a.solverChoice, st2))
    (hcor : a.solverChoice.use_coriolis = true)
    (hdrv : a.solverChoice.abl_driver_type = ABLDriverType.GeostrophicWind)
    (hpg : query pp.abl_pressure_grad [0.0, 0.0, 0.0] = [0, 0, 0])
    (hwind : query pp.abl_geo_wind [0, 0, 0] = [U, V, W])
    (hu : ∀ i j k, a.rho_u i j k 0 = U) (hv : ∀ i j k, a.rho_v i j k 0 = V)
    (hw : ∀ i j k, a.rho_w i j k 0 = W) (pp_arr : Array4) (i j k : Int) (old : ℚ) :
    (coriolis_x a i j k + ext_forcing a.solverChoice 0 = 0 ∧
      coriolis_y a i j k + ext_forcing a.solverChoice 1 = 0 ∧
      coriolis_z a i j k + ext_forcing a.solverChoice 2 = 0) ∧
    (ownValue (xmomKernel_N a pp_arr) 0 i j k old =
        old - gpx_N a pp_arr i j k
          - (if a.solverChoice.use_rayleigh_damping = true then rayleigh_x a i j k else 0) ∧
      ownValue (ymomKernel_N a pp_arr) 0 i j k old =
        old - gpy_N a pp_arr i j k
          - (if a.solverChoice.use_rayleigh_damping = true then rayleigh_y a i j k else 0) ∧
      ownValue (zmomKernel_N a pp_arr) 0 i j k old =
        old - gpz_N a pp_arr i j k + buoyancy a i j k
          - (if a.solverChoice.use_rayleigh_damping = true then rayleigh_z a i j k else 0)) ∧
    (ownValue (xmomKernel_T tm a pp_arr) 0 i j k old =
        (old - gpx_T tm a pp_arr i j k
          - (if a.solverChoice.use_rayleigh_damping = true then rayleigh_x a i j k else 0))
        * (if l_moving_terrain a.solverChoice = true then
            0.5 * (a.detJ i j k 0 + a.detJ (i-1) j k 0) else 1) ∧
      ownValue (ymomKernel_T tm a pp_arr) 0 i j k old =
        (old - gpy_T tm a pp_arr i j k
          - (if a.solverChoice.use_rayleigh_damping = true then rayleigh_y a i j k else 0))
        * (if l_moving_terrain a.solverChoice = true then
            0.5 * (a.detJ i j k 0 + a.detJ i (j-1) k 0) else 1) ∧
      ownValue (zmomKernel_T tm a pp_arr) 0 i j k old =
        (old - gpz_T tm a pp_arr i j k + buoyancy a i j k
          - (if a.solverChoice.use_rayleigh_damping = true then rayleigh_z a i j k else 0))
        * (if a.solverChoice.use_terrain = true ∧ l_moving_terrain a.solverChoice = true then
            0.5 * (a.detJ i j k 0 + a.detJ i j (k-1) 0) else 1)) := by
  obtain ⟨hp, hgf, _, _⟩ := init_params_forcing c pp st sc0 _ hcfg
  simp only at hp hgf
  have hgf2 := hgf hcor hdrv
  rw [hwind] at hgf2
  rw [hpg] at hp
  have v0 : vecGet [U, V, W] 0 = U := by simp [vecGet]
  have v1 : vecGet [U, V, W] 1 = V := by simp [vecGet]
  have v2 : vecGet [U, V, W] 2 = W := by simp [vecGet]
  have z0 : vecGet [0, 0, 0] 0 = 0 := by simp [vecGet]
  have z1 : vecGet [0, 0, 0] 1 = 0 := by simp [vecGet]
  have z2 : vecGet [0, 0, 0] 2 = 0 := by simp [vecGet]
  rw [v0, v1, v2] at hgf2
  rw [z0, z1, z2] at hp
  have e0 : ext_forcing a.solverChoice 0 =
      -a.solverChoice.coriolis_factor * (V * a.solverChoice.sinphi - W * a.solverChoice.cosphi) := by
    unfold ext_forcing
    rw [hp, hgf2]
    simp [GpuArray3.mk3]
  have e1 : ext_forcing a.solverChoice 1 =
      a.solverChoice.coriolis_factor * U * a.solverChoice.sinphi := by
    unfold ext_forcing
    rw [hp, hgf2]
    simp [GpuArray3.mk3]
  have e2 : ext_forcing a.solverChoice 2 =
      -a.solverChoice.coriolis_factor * U * a.solverChoice.cosphi := by
    unfold ext_forcing
    rw [hp, hgf2]
    simp [GpuArray3.mk3]
  have bx : coriolis_x a i j k + ext_forcing a.solverChoice 0 = 0 := by
    rw [e0]
    simp only [coriolis_x, hv, hw]
    ring
  have by1 : coriolis_y a i j k + ext_forcing a.solverChoice 1 = 0 := by
    rw [e1]
    simp only [coriolis_y, hu]
    ring
  have bz : coriolis_z a i j k + ext_forcing a.solverChoice 2 = 0 := by
    rw [e2]
    simp only [coriolis_z, hu]
    ring
  refine ⟨⟨bx, by1, bz⟩, ⟨?_, ?_, ?_⟩, ⟨?_, ?_, ?_⟩⟩
  · rw [xmomKernel_N_terms, if_pos hcor]
    linarith
  · rw [ymomKernel_N_terms, if_pos hcor]
    linarith
  · rw [zmomKernel_N_terms, if_pos hcor]
    linarith
  · rw [xmomKernel_T_terms, if_pos hcor]
    congr 1
    linarith
  · rw [ymomKernel_T_terms]
    congr 1
    linarith
  · rw [zmomKernel_T_terms, if_pos hcor]
    congr 1
    linarith

theorem geostrophic_balance_witness :
    coriolis_x geoArgs 0 0 0 + ext_forcing geoArgs.solverChoice 0 = 0 ∧
    coriolis_y geoArgs 0 0 0 + ext_forcing geoArgs.solverChoice 1 = 0 ∧
    coriolis_z geoArgs 0 0 0 + ext_forcing geoArgs.solverChoice 2 = 0 := by
  obtain ⟨st, h⟩ := geoChoice_ok
  obtain ⟨_, _, h3, h4⟩ := init_params_forcing _ _ _ _ _ h
  have hcor : geoArgs.solverChoice.use_coriolis = true := h3 true rfl
  have hdrv : geoArgs.solverChoice.abl_driver_type = ABLDriverType.GeostrophicWind := by
    have : parse_abl_driver_type (query (some "GeostrophicWind") "None") =
        Except.ok ABLDriverType.GeostrophicWind := by
      simp +decide [parse_abl_driver_type, query, pure, Except.pure]
    exact (Except.ok.inj (this.symm.trans h4)).symm
  exact (geostrophic_balance sampleConstants _ {} st {} flatMetrics geoArgs 3 4 5 h hcor hdrv
    (by norm_num [query]) rfl (fun _ _ _ => rfl) (fun _ _ _ => rfl) (fun _ _ _ => rfl) (Array4.const 0) 0 0 0 0).1

/-- C34. Perturbation form and full form of the vertical force in
`erf_slow_rhs_pre` (dry, no terrain). Let the base state be the one of the
non-terrain branch of `erf_enforce_hse`: `r0` is the density it was given and
`p0` the pressure it produced, with the same gravity and with
`dz_inv * dz = 1`. Then at a face `(i,j,k)` of `tbz` with `1 ≤ k ≤ nz`, in a
column of the domain, the pressure-gradient term computed from `p - p0` plus
the buoyancy term computed from `rho - r0` equals the full-form force
`-dz_inv*(p(k) - p(k-1)) - gravity*(rho(k) + rho(k-1))/2`, where
`p = getPgivenRTh(RhoTheta)`, for every state; and the z-momentum tendency the
tile body leaves there is the value before the momentum kernel plus that
force, plus the external forcing, the Coriolis term and minus the Rayleigh
term when these are on. -/
theorem perturbation_form_equals_full_form (x : HseExt) (h : HseArgs) (hs : HseState)
    (tm : TerrainMetrics) (ext : RhsExt) (cl : Closures) (a : RhsArgs) (s : RhsState)
    (i j k : Int)
    (hht : h.solverChoice.use_terrain = false) (hat : a.solverChoice.use_terrain = false)
    (hgr : a.solverChoice.gravity = h.solverChoice.gravity)
    (hdz : a.dxInv 2 * h.dz = 1)
    (hr0 : ∀ kk, a.r0 i j kk 0 = h.rho_arr i j kk 0)
    (hp0 : ∀ kk, a.p0 i j kk 0 = (erf_enforce_hse x h hs).pres_arr i j kk 0)
    (hb : h.b2d.contains i j 0)
    (hi : h.domain.smallEnd.x ≤ i ∧ i ≤ h.domain.bigEnd.x)
    (hj : h.domain.smallEnd.y ≤ j ∧ j ≤ h.domain.bigEnd.y)
    (hk : 1 ≤ k ∧ k ≤ h.nz) (hc : a.tbz.contains i j k) :
    -gpz_N a (stepPprime ext a (stepScratch s)).pp_arr i j k + buoyancy a i j k =
      -a.dxInv 2 * (ext.getPgivenRTh (a.cell_data i j k RhoTheta_comp)
                    - ext.getPgivenRTh (a.cell_data i j (k-1) RhoTheta_comp))
        - a.solverChoice.gravity
            * (a.cell_data i j k Rho_comp + a.cell_data i j (k-1) Rho_comp) / 2 ∧
    (tileBody tm ext cl a s).rho_w_rhs i j k 0 =
      (stepZero a (momSources ext a (statePart tm ext cl a s))).rho_w_rhs i j k 0
        + (-a.dxInv 2 * (ext.getPgivenRTh (a.cell_data i j k RhoTheta_comp)
                        - ext.getPgivenRTh (a.cell_data i j (k-1) RhoTheta_comp))
            - a.solverChoice.gravity
                * (a.cell_data i j k Rho_comp + a.cell_data i j (k-1) Rho_comp) / 2)
        + ext_forcing a.solverChoice 2
        + (if a.solverChoice.use_coriolis = true then coriolis_z a i j k else 0)
        - (if a.solverChoice.use_rayleigh_damping = true then rayleigh_z a i j k else 0) := by
  obtain ⟨hx, hy, hz⟩ := (tbz_contains a i j k).1 hc
  obtain ⟨bxx, bxy, bxz⟩ := bx_bounds a
  have c1 : a.gbx.contains i j k := (gbx_contains a _ _ _).2 ⟨by omega, by omega, by omega⟩
  have c2 : a.gbx.contains i j (k - 1) := (gbx_contains a _ _ _).2 ⟨by omega, by omega, by omega⟩
  have hd := hse_flat_difference x h hs i j k hht hb hi hj hk
  have key : -gpz_N a (stepPprime ext a (stepScratch s)).pp_arr i j k + buoyancy a i j k =
      -a.dxInv 2 * (ext.getPgivenRTh (a.cell_data i j k RhoTheta_comp)
                    - ext.getPgivenRTh (a.cell_data i j (k-1) RhoTheta_comp))
        - a.solverChoice.gravity
            * (a.cell_data i j k Rho_comp + a.cell_data i j (k-1) Rho_comp) / 2 := by
    have hr : Rho_comp = 0 := rfl
    have hpd : a.p0 i j k 0 - a.p0 i j (k-1) 0 =
        -h.dz * a.solverChoice.gravity * (a.r0 i j k 0 + a.r0 i j (k-1) 0) / 2 := by
      rw [hp0, hp0, hd, hr0, hr0, hgr]
    have hpd2 : a.dxInv 2 * (a.p0 i j k 0 - a.p0 i j (k-1) 0) =
        -a.solverChoice.gravity * (a.r0 i j k 0 + a.r0 i j (k-1) 0) / 2 := by
      rw [hpd]
      have : a.dxInv 2 * (-h.dz * a.solverChoice.gravity * (a.r0 i j k 0 + a.r0 i j (k-1) 0) / 2)
          = (a.dxInv 2 * h.dz) *
            (-a.solverChoice.gravity * (a.r0 i j k 0 + a.r0 i j (k-1) 0) / 2) := by ring
      rw [this, hdz, one_mul]
    unfold gpz_N buoyancy
    rw [stepPprime_apply, if_pos ⟨c1, rfl⟩, stepPprime_apply, if_pos ⟨c2, rfl⟩, grav_gpu_two, hr]
    linear_combination hpd2
  have hnt : ¬ a.solverChoice.use_terrain = true := by
    rw [hat]
    decide
  refine ⟨key, ?_⟩
  rw [tileBody_rho_w_rhs tm ext cl a s i j k hc, if_neg hnt, zmomKernel_N_terms]
  linear_combination key

theorem perturbation_form_equals_full_form_witness :
    -gpz_N perturbedArgs (stepPprime idleExt perturbedArgs (stepScratch sevenState)).pp_arr 0 0 1
        + buoyancy perturbedArgs 0 0 1 = -30 := by
  have h := (perturbation_form_equals_full_form sampleHseExt columnArgs
    ⟨Array4.empty, Array4.empty⟩ flatMetrics idleExt idleClosures perturbedArgs sevenState 0 0 1
    rfl rfl rfl (by norm_num [perturbedArgs, restArgs, columnArgs]) (fun _ => rfl) (fun _ => rfl)
    (by decide) (by decide) (by decide) (by decide) (by decide)).1
  rw [h]
  norm_num [perturbedArgs, restArgs, idleExt, Array4.const]

/-- C35. On flat terrain with uniform spacing, `z_nd(i,j,k) = k*dz` for all
`i, j, k`, the terrain branch of `ERF::erf_enforce_hse` produces the same
arrays as the non-terrain branch run on the same arguments (the same density
in particular) with `use_terrain` switched off: the pressure and the Exner
function agree at every index, hence at every `k` in `-1..nz`. -/
theorem terrain_branch_on_flat_heights (x : HseExt) (h : HseArgs) (s : HseState)
    (ht : h.solverChoice.use_terrain = true)
    (hz : ∀ i j k, h.znd_arr i j k 0 = (k : ℚ) * h.dz) :
    erf_enforce_hse x h s = erf_enforce_hse x h.withoutTerrain s ∧
    h.withoutTerrain.solverChoice.use_terrain = false ∧
    h.withoutTerrain.rho_arr = h.rho_arr ∧
    (∀ i j k, (erf_enforce_hse x h s).pres_arr i j k 0 =
        (erf_enforce_hse x h.withoutTerrain s).pres_arr i j k 0 ∧
      (erf_enforce_hse x h s).pi_arr i j k 0 =
        (erf_enforce_hse x h.withoutTerrain s).pi_arr i j k 0) := by
  have key : erf_enforce_hse x h s = erf_enforce_hse x h.withoutTerrain s := by
    unfold erf_enforce_hse
    rw [hseColumnKernel_flat_terrain x h ht hz]
    rfl
  exact ⟨key, rfl, rfl, fun i j k => by rw [key]; exact ⟨rfl, rfl⟩⟩

theorem terrain_branch_on_flat_heights_witness :
    (erf_enforce_hse sampleHseExt flatTerrainArgs ⟨Array4.empty, Array4.empty⟩).pres_arr 0 0 2 0 =
      (erf_enforce_hse sampleHseExt flatTerrainArgs.withoutTerrain
        ⟨Array4.empty, Array4.empty⟩).pres_arr 0 0 2 0 ∧
    (erf_enforce_hse sampleHseExt flatTerrainArgs.withoutTerrain
        ⟨Array4.empty, Array4.empty⟩).pres_arr 0 0 2 0 = 99955 := by
  have h := terrain_branch_on_flat_heights sampleHseExt flatTerrainArgs
    ⟨Array4.empty, Array4.empty⟩ rfl (fun _ _ _ => rfl)
  refine ⟨(h.2.2.2 0 0 2).1, ?_⟩
  rw [(erf_enforce_hse_flat sampleHseExt flatTerrainArgs.withoutTerrain _ 0 0 2 rfl (by decide)
    (by decide) (by decide) (by decide)).1]
  norm_num [flatColumn, columnValues, flatPressureStep, flatTerrainArgs, HseArgs.withoutTerrain,
    columnArgs, sampleHseExt]

/-- C36. Consistency of the stencils that correct the z-flux in
`DiffusionSrcForState_T`, for a box with at least two cells in z. Fix `(i,j)`
and a component `q` in `n_start..n_end`, and let the raw horizontal fluxes,
averaged over the two faces `(i,i+1)` resp. `(j,j+1)` of the column, be affine
in the level: `a + b*k` for the x-flux and `c + d*k` for the y-flux at every
level `k` of the box. Then the horizontal-flux values used in the correction
are `a + b*(k - 1/2)` and `c + d*(k - 1/2)` at the bottom face (extrapolated
with weights `1.5`, `-0.5` from the levels `k_lo`, `k_lo+1`), at the top face
`k_hi` (from the levels `k_hi-1`, `k_hi-2`) and at every face in between (mean
of the levels `k-1`, `k`) alike, and at every z-face `(i,j,k)` of the box the
final z-flux is the raw z-flux minus
`h_xi*(a + b*(k - 1/2)) + h_eta*(c + d*(k - 1/2))`. -/
theorem zflux_correction_affine_consistent (tm : TerrainMetrics) (cl : Closures) (p : DiffArgs)
    (s : DiffState) (hz : p.bx.smallEnd.z < p.bx.bigEnd.z) (i j q : Int)
    (hq : p.n_start ≤ q ∧ q ≤ p.n_end) (a b c d : ℚ)
    (hx : ∀ kk : Int, p.bx.smallEnd.z ≤ kk → kk ≤ p.bx.bigEnd.z →
      0.5 * ((rawFluxes tm p s).xflux i j kk q + (rawFluxes tm p s).xflux (i+1) j kk q)
        = a + b * (kk : ℚ))
    (hy : ∀ kk : Int, p.bx.smallEnd.z ≤ kk → kk ≤ p.bx.bigEnd.z →
      0.5 * ((rawFluxes tm p s).yflux i j kk q + (rawFluxes tm p s).yflux i (j+1) kk q)
        = c + d * (kk : ℚ)) :
    bottomCorrection tm p (rawFluxes tm p s).xflux (rawFluxes tm p s).yflux p.bx.smallEnd.z i j q =
      tm.Compute_h_xi_AtKface i j p.bx.smallEnd.z p.dxInv p.z_nd
          * (a + b * ((p.bx.smallEnd.z : ℚ) - 1/2))
        + tm.Compute_h_eta_AtKface i j p.bx.smallEnd.z p.dxInv p.z_nd
          * (c + d * ((p.bx.smallEnd.z : ℚ) - 1/2)) ∧
    topCorrection tm p (rawFluxes tm p s).xflux (rawFluxes tm p s).yflux (p.bx.bigEnd.z + 1) i j q =
      tm.Compute_h_xi_AtKface i j (p.bx.bigEnd.z + 1) p.dxInv p.z_nd
          * (a + b * (((p.bx.bigEnd.z + 1 : Int) : ℚ) - 1/2))
        + tm.Compute_h_eta_AtKface i j (p.bx.bigEnd.z + 1) p.dxInv p.z_nd
          * (c + d * (((p.bx.bigEnd.z + 1 : Int) : ℚ) - 1/2)) ∧
    (∀ k : Int, p.bx.smallEnd.z < k → k ≤ p.bx.bigEnd.z →
      interiorCorrection tm p (rawFluxes tm p s).xflux (rawFluxes tm p s).yflux i j k q =
        tm.Compute_h_xi_AtKface i j k p.dxInv p.z_nd * (a + b * ((k : ℚ) - 1/2))
          + tm.Compute_h_eta_AtKface i j k p.dxInv p.z_nd * (c + d * ((k : ℚ) - 1/2))) ∧
    (∀ k : Int, (surroundingNodes p.bx 2).contains i j k →
      (DiffusionSrcForState_T tm cl p s).zflux i j k q =
        (rawFluxes tm p s).zflux i j k q -
          (tm.Compute_h_xi_AtKface i j k p.dxInv p.z_nd * (a + b * ((k : ℚ) - 1/2))
            + tm.Compute_h_eta_AtKface i j k p.dxInv p.z_nd * (c + d * ((k : ℚ) - 1/2)))) := by
  have hbot : bottomCorrection tm p (rawFluxes tm p s).xflux (rawFluxes tm p s).yflux
      p.bx.smallEnd.z i j q =
      tm.Compute_h_xi_AtKface i j p.bx.smallEnd.z p.dxInv p.z_nd
          * (a + b * ((p.bx.smallEnd.z : ℚ) - 1/2))
        + tm.Compute_h_eta_AtKface i j p.bx.smallEnd.z p.dxInv p.z_nd
          * (c + d * ((p.bx.smallEnd.z : ℚ) - 1/2)) := by
    simp only [bottomCorrection]
    rw [hx p.bx.smallEnd.z (le_refl _) (le_of_lt hz), hx (p.bx.smallEnd.z + 1) (by omega) (by omega),
      hy p.bx.smallEnd.z (le_refl _) (le_of_lt hz), hy (p.bx.smallEnd.z + 1) (by omega) (by omega)]
    push_cast
    ring
  have htop : topCorrection tm p (rawFluxes tm p s).xflux (rawFluxes tm p s).yflux
      (p.bx.bigEnd.z + 1) i j q =
      tm.Compute_h_xi_AtKface i j (p.bx.bigEnd.z + 1) p.dxInv p.z_nd
          * (a + b * (((p.bx.bigEnd.z + 1 : Int) : ℚ) - 1/2))
        + tm.Compute_h_eta_AtKface i j (p.bx.bigEnd.z + 1) p.dxInv p.z_nd
          * (c + d * (((p.bx.bigEnd.z + 1 : Int) : ℚ) - 1/2)) := by
    simp only [topCorrection]
    rw [hx (p.bx.bigEnd.z + 1 - 1) (by omega) (by omega),
      hx (p.bx.bigEnd.z + 1 - 2) (by omega) (by omega),
      hy (p.bx.bigEnd.z + 1 - 1) (by omega) (by omega),
      hy (p.bx.bigEnd.z + 1 - 2) (by omega) (by omega)]
    push_cast
    ring
  have hint : ∀ k : Int, p.bx.smallEnd.z < k → k ≤ p.bx.bigEnd.z →
      interiorCorrection tm p (rawFluxes tm p s).xflux (rawFluxes tm p s).yflux i j k q =
        tm.Compute_h_xi_AtKface i j k p.dxInv p.z_nd * (a + b * ((k : ℚ) - 1/2))
          + tm.Compute_h_eta_AtKface i j k p.dxInv p.z_nd * (c + d * ((k : ℚ) - 1/2)) := by
    intro k h1 h2
    have x1 := hx k (le_of_lt h1) h2
    have x2 := hx (k - 1) (by omega) (by omega)
    have y1 := hy k (le_of_lt h1) h2
    have y2 := hy (k - 1) (by omega) (by omega)
    have ex : 0.25 * ((rawFluxes tm p s).xflux i j k q + (rawFluxes tm p s).xflux (i+1) j k q
        + (rawFluxes tm p s).xflux i j (k-1) q + (rawFluxes tm p s).xflux (i+1) j (k-1) q)
        = a + b * ((k : ℚ) - 1/2) := by
      push_cast at x2
      linear_combination (1/2 : ℚ) * x1 + (1/2 : ℚ) * x2
    have ey : 0.25 * ((rawFluxes tm p s).yflux i j k q + (rawFluxes tm p s).yflux i (j+1) k q
        + (rawFluxes tm p s).yflux i j (k-1) q + (rawFluxes tm p s).yflux i (j+1) (k-1) q)
        = c + d * ((k : ℚ) - 1/2) := by
      push_cast at y2
      linear_combination (1/2 : ℚ) * y1 + (1/2 : ℚ) * y2
    simp only [interiorCorrection]
    rw [ex, ey]
  refine ⟨hbot, htop, hint, fun k hb => ?_⟩
  have hbx : (p.bx.smallEnd.x ≤ i ∧ i ≤ p.bx.bigEnd.x) ∧ (p.bx.smallEnd.y ≤ j ∧ j ≤ p.bx.bigEnd.y)
      ∧ (p.bx.smallEnd.z ≤ k ∧ k ≤ p.bx.bigEnd.z + 1) := by
    simpa only [Box.contains, surroundingNodes, IntVect.set, IntVect.get] using hb
  have key : (DiffusionSrcForState_T tm cl p s).zflux i j k q =
      (correctFluxes tm p (rawFluxes tm p s)).zflux i j k q := rfl
  rw [key, correctFluxes_zflux_apply tm p (rawFluxes tm p s) (le_of_lt hz) i j k q hb hq]
  by_cases h1 : k = p.bx.smallEnd.z
  · rw [if_pos h1, h1, hbot]
  · by_cases h2 : k = p.bx.bigEnd.z + 1
    · rw [if_neg h1, if_pos h2, h2, htop]
    · rw [if_neg h1, if_neg h2, hint k (by omega) (by omega)]

theorem zflux_correction_affine_consistent_witness :
    (DiffusionSrcForState_T rampMetrics shearClosures shearedArgs staleFluxState).zflux 0 0 0
        RhoTheta_comp = 1 ∧
    (DiffusionSrcForState_T rampMetrics shearClosures shearedArgs staleFluxState).zflux 0 0 1
        RhoTheta_comp = -1 ∧
    (DiffusionSrcForState_T rampMetrics shearClosures shearedArgs staleFluxState).zflux 0 0 2
        RhoTheta_comp = -3 := by
  have hr := shearedArgs_raw staleFluxState
  have hx : ∀ kk : Int, shearedArgs.bx.smallEnd.z ≤ kk → kk ≤ shearedArgs.bx.bigEnd.z →
      0.5 * ((rawFluxes rampMetrics shearedArgs staleFluxState).xflux 0 0 kk RhoTheta_comp
        + (rawFluxes rampMetrics shearedArgs staleFluxState).xflux (0+1) 0 kk RhoTheta_comp)
        = 0 + 2 * (kk : ℚ) := by
    intro kk h1 h2
    have c1 : (surroundingNodes shearedArgs.bx 0).contains 0 0 kk := by
      simp only [Box.contains, surroundingNodes, IntVect.set, IntVect.get]
      exact ⟨by decide, by decide, h1, h2⟩
    have c2 : (surroundingNodes shearedArgs.bx 0).contains (0+1) 0 kk := by
      simp only [Box.contains, surroundingNodes, IntVect.set, IntVect.get]
      exact ⟨by decide, by decide, h1, h2⟩
    rw [(hr 0 0 kk).1 c1, (hr (0+1) 0 kk).1 c2]
    ring
  have hy : ∀ kk : Int, shearedArgs.bx.smallEnd.z ≤ kk → kk ≤ shearedArgs.bx.bigEnd.z →
      0.5 * ((rawFluxes rampMetrics shearedArgs staleFluxState).yflux 0 0 kk RhoTheta_comp
        + (rawFluxes rampMetrics shearedArgs staleFluxState).yflux 0 (0+1) kk RhoTheta_comp)
        = 0 + 0 * (kk : ℚ) := by
    intro kk h1 h2
    have c1 : (surroundingNodes shearedArgs.bx 1).contains 0 0 kk := by
      simp only [Box.contains, surroundingNodes, IntVect.set, IntVect.get]
      exact ⟨by decide, by decide, h1, h2⟩
    have c2 : (surroundingNodes shearedArgs.bx 1).contains 0 (0+1) kk := by
      simp only [Box.contains, surroundingNodes, IntVect.set, IntVect.get]
      exact ⟨by decide, by decide, h1, h2⟩
    rw [(hr 0 0 kk).2.1 c1, (hr 0 (0+1) kk).2.1 c2]
    ring
  have h := (zflux_correction_affine_consistent rampMetrics shearClosures shearedArgs
    staleFluxState (by decide) 0 0 RhoTheta_comp (by decide) 0 2 0 0 hx hy).2.2.2
  refine ⟨?_, ?_, ?_⟩
  · rw [h 0 (by decide), (hr 0 0 0).2.2 (by decide)]
    norm_num [rampMetrics, flatMetrics]
  · rw [h 1 (by decide), (hr 0 0 1).2.2 (by decide)]
    norm_num [rampMetrics, flatMetrics]
  · rw [h 2 (by decide), (hr 0 0 2).2.2 (by decide)]
    norm_num [rampMetrics, flatMetrics]

/-- C37. Two runs of `DiffusionSrcForState_T` on the same arguments and arrays
that differ in the solver choices only: both come from `init_params` (QKE not
in use before the call), both without LES and PBL closure and with the same
`alpha_T` and `alpha_C`; the first has `molec_diff_type = ConstantAlpha`, the
second `molec_diff_type = Constant`. If the density is `rho0_trans` in every
cell, the first run takes the branch that multiplies `alpha` by the face
density, the second the branch that reads `rhoAlpha_T`, `rhoAlpha_C`, and the
two runs return the same fluxes and the same tendency. -/
theorem constant_alpha_matches_constant (c : Constants) (pp1 pp2 : ParmParse)
    (st st1 st2 : Statics) (sc0 sc1 sc2 : SolverChoice) (tm : TerrainMetrics) (cl : Closures)
    (p : DiffArgs) (s : DiffState)
    (h1 : init_params c pp1 st sc0 = Except.ok (sc1, st1))
    (h2 : init_params c pp2 st sc0 = Except.ok (sc2, st2))
    (hq0 : sc0.use_QKE = false)
    (hm1 : sc1.molec_diff_type = MolecDiffType.ConstantAlpha)
    (hm2 : sc2.molec_diff_type = MolecDiffType.Constant)
    (hl1 : sc1.les_type = LESType.None) (hp1 : sc1.pbl_type = PBLType.None)
    (hl2 : sc2.les_type = LESType.None) (hp2 : sc2.pbl_type = PBLType.None)
    (haT : sc1.alpha_T = sc2.alpha_T) (haC : sc1.alpha_C = sc2.alpha_C)
    (hrho : ∀ i j k, p.cell_data i j k Rho_comp = sc2.rho0_trans) :
    diffMode sc1 = DiffMode.RhoAlpha ∧ diffMode sc2 = DiffMode.Alpha ∧
    DiffusionSrcForState_T tm cl { p with solverChoice := sc1 } s =
      DiffusionSrcForState_T tm cl { p with solverChoice := sc2 } s := by
  have d1 : diffMode sc1 = DiffMode.RhoAlpha := by
    rw [diffMode_no_closure sc1 hl1 hp1, if_pos hm1]
  have d2 : diffMode sc2 = DiffMode.Alpha := by
    have hne : ¬ sc2.molec_diff_type = MolecDiffType.ConstantAlpha := by
      rw [hm2]
      decide
    rw [diffMode_no_closure sc2 hl2 hp2, if_neg hne]
  refine ⟨d1, d2, ?_⟩
  obtain ⟨_, _, _, u1, _⟩ := init_params_config c pp1 st sc0 _ h1
  obtain ⟨_, _, _, u2, _, _, r7, r8, _⟩ := init_params_config c pp2 st sc0 _ h2
  simp only at u1 u2 r7 r8
  have q1 : sc1.use_QKE = false := by
    rw [u1, hp1, hq0]
    decide
  have q2 : sc2.use_QKE = false := by
    rw [u2, hp2, hq0]
    decide
  have hcoef : ∀ prim : Int,
      sc2.rho0_trans * vecGet (alpha_eff sc1) prim = vecGet (alpha_eff sc2) prim := by
    intro prim
    have hne : ¬ sc2.molec_diff_type = MolecDiffType.ConstantAlpha := by
      rw [hm2]
      decide
    by_cases hr : 0 ≤ prim ∧ prim < NUM_PRIM
    · rw [alpha_eff_get sc1 prim hr.1 hr.2, alpha_eff_get sc2 prim hr.1 hr.2, if_pos hm1,
        if_neg hne, r7, r8, haT, haC]
      split_ifs <;> ring
    · have ho : prim < 0 ∨ NUM_PRIM ≤ prim := by
        by_cases h0 : 0 ≤ prim
        · exact Or.inr (not_lt.1 (fun hh => hr ⟨h0, hh⟩))
        · exact Or.inl (not_le.1 h0)
      rw [alpha_eff_outside sc1 prim ho, alpha_eff_outside sc2 prim ho, mul_zero]
  have hface : ∀ prim : Int, 0.5 * (sc2.rho0_trans + sc2.rho0_trans) * vecGet (alpha_eff sc1) prim
      = vecGet (alpha_eff sc2) prim := by
    intro prim
    rw [← hcoef]
    ring
  have hx : xfluxKernel tm DiffMode.RhoAlpha { p with solverChoice := sc1 } =
      xfluxKernel tm DiffMode.Alpha { p with solverChoice := sc2 } := by
    funext i j k n a
    simp only [xfluxKernel, faceDiff_x, hrho, hface]
  have hy : yfluxKernel tm DiffMode.RhoAlpha { p with solverChoice := sc1 } =
      yfluxKernel tm DiffMode.Alpha { p with solverChoice := sc2 } := by
    funext i j k n a
    simp only [yfluxKernel, faceDiff_y, hrho, hface]
  have hzk : zfluxKernel tm DiffMode.RhoAlpha { p with solverChoice := sc1 } =
      zfluxKernel tm DiffMode.Alpha { p with solverChoice := sc2 } := by
    funext i j k n a
    simp only [zfluxKernel, faceDiff_z, hrho, hface]
  have hraw : rawFluxes tm { p with solverChoice := sc1 } s =
      rawFluxes tm { p with solverChoice := sc2 } s := by
    simp only [rawFluxes, d1, d2, hx, hy, hzk]
  have hcorr : ∀ s0 : DiffState, correctFluxes tm { p with solverChoice := sc1 } s0 =
      correctFluxes tm { p with solverChoice := sc2 } s0 := fun _ => rfl
  have hrhs : ∀ s0 : DiffState, fluxesToRhs { p with solverChoice := sc1 } s0 =
      fluxesToRhs { p with solverChoice := sc2 } s0 := fun _ => rfl
  have hne1 : sc1.les_type ≠ LESType.Deardorff := by
    rw [hl1]
    decide
  have hne2 : sc2.les_type ≠ LESType.Deardorff := by
    rw [hl2]
    decide
  unfold DiffusionSrcForState_T
  rw [keSources_off tm cl { p with solverChoice := sc1 } _ hne1 q1,
    keSources_off tm cl { p with solverChoice := sc2 } _ hne2 q2, hraw, hcorr, hrhs]

theorem constant_alpha_matches_constant_witness :
    diffMode alphaOnlyChoice = DiffMode.RhoAlpha ∧ diffMode heavyChoice = DiffMode.Alpha ∧
    DiffusionSrcForState_T flatMetrics shearClosures
        { heavyArgs with solverChoice := alphaOnlyChoice } staleFluxState =
      DiffusionSrcForState_T flatMetrics shearClosures
        { heavyArgs with solverChoice := heavyChoice } staleFluxState := by
  obtain ⟨st1, h1⟩ := alphaOnlyChoice_ok
  obtain ⟨st2, h2⟩ := heavyChoice_ok
  obtain ⟨a1, a2, a3, a4, a5, _⟩ := alphaOnlyChoice_fields
  obtain ⟨b1, b2, b3, b4, b5, b6, _⟩ := heavyChoice_fields
  exact constant_alpha_matches_constant sampleConstants _ _ {} st1 st2 {} alphaOnlyChoice
    heavyChoice flatMetrics shearClosures heavyArgs staleFluxState h1 h2 rfl a3 b3 a1 a2 b1 b2
    (a4.trans b4.symm) (a5.trans b5.symm) (fun _ _ _ => b6.symm)

/-- C38. Selection of the stress closure in `erf_slow_rhs_pre`. The flag
`cons_visc` holds if and only if `molec_diff_type` is `Constant` or
`ConstantAlpha`; then, whatever the LES and PBL types, the stress is the one
of `ComputeStressConsVisc_T` (terrain) or `ComputeStressConsVisc_N` (no
terrain) called with `mu_eff = 2*dynamicViscosity`, and it does not depend on
the eddy-viscosity field. When `molec_diff_type` is `None` and diffusion is
enabled, which is exactly the case `cons_visc` false with diffusion enabled,
the stress is the one of `ComputeStressVarVisc_T` or `ComputeStressVarVisc_N`
called with `mu_eff = 0` and the field `mu_turb`. When `molec_diff_type`,
`les_type` and `pbl_type` are all `None` the stress arrays are left as they
were. -/
theorem stress_closure_selection (ext : RhsExt) (a : RhsArgs) (er_arr : Array4) (t : Tau9) :
    (cons_visc a.solverChoice = true ↔
      (a.solverChoice.molec_diff_type = MolecDiffType.Constant ∨
        a.solverChoice.molec_diff_type = MolecDiffType.ConstantAlpha)) ∧
    ((a.solverChoice.molec_diff_type = MolecDiffType.Constant ∨
        a.solverChoice.molec_diff_type = MolecDiffType.ConstantAlpha) →
      stepStress ext a er_arr t =
        (if a.solverChoice.use_terrain = true then
          ext.ComputeStressConsVisc_T (a.tilebox.grow ⟨1, 1, 0⟩) (a.bx.convert ⟨1, 1, 0⟩)
            (a.bx.convert ⟨1, 0, 1⟩) (a.bx.convert ⟨0, 1, 1⟩)
            (2 * a.solverChoice.dynamicViscosity) t er_arr a.z_nd a.dxInv
         else
          t.putSix (ext.ComputeStressConsVisc_N (a.tilebox.grow ⟨1, 1, 0⟩)
            (a.bx.convert ⟨1, 1, 0⟩) (a.bx.convert ⟨1, 0, 1⟩) (a.bx.convert ⟨0, 1, 1⟩)
            (2 * a.solverChoice.dynamicViscosity) t.six er_arr)) ∧
      ∀ e : Array4, stepStress ext { a with eddyDiffs := e } er_arr t = stepStress ext a er_arr t) ∧
    ((a.solverChoice.molec_diff_type = MolecDiffType.None ∧ l_use_diff a.solverChoice = true) →
      stepStress ext a er_arr t =
        (if a.solverChoice.use_terrain = true then
          ext.ComputeStressVarVisc_T (a.tilebox.grow ⟨1, 1, 0⟩) (a.bx.convert ⟨1, 1, 0⟩)
            (a.bx.convert ⟨1, 0, 1⟩) (a.bx.convert ⟨0, 1, 1⟩) 0 a.mu_turb t er_arr a.z_nd a.dxInv
         else
          t.putSix (ext.ComputeStressVarVisc_N (a.tilebox.grow ⟨1, 1, 0⟩)
            (a.bx.convert ⟨1, 1, 0⟩) (a.bx.convert ⟨1, 0, 1⟩) (a.bx.convert ⟨0, 1, 1⟩)
            0 a.mu_turb t.six er_arr))) ∧
    ((cons_visc a.solverChoice = false ∧ l_use_diff a.solverChoice = true) ↔
      (a.solverChoice.molec_diff_type = MolecDiffType.None ∧
        l_use_diff a.solverChoice = true)) ∧
    ((a.solverChoice.molec_diff_type = MolecDiffType.None ∧
        a.solverChoice.les_type = LESType.None ∧ a.solverChoice.pbl_type = PBLType.None) →
      stepStress ext a er_arr t = t) := by
  have hcv : cons_visc a.solverChoice = true ↔
      (a.solverChoice.molec_diff_type = MolecDiffType.Constant ∨
        a.solverChoice.molec_diff_type = MolecDiffType.ConstantAlpha) := by
    simp only [cons_visc, Bool.or_eq_true, decide_eq_true_eq]
  have hnone : a.solverChoice.molec_diff_type = MolecDiffType.None →
      cons_visc a.solverChoice = false := by
    intro h
    simp only [cons_visc, h]
    decide
  refine ⟨hcv, fun h => ?_, fun h => ?_, ⟨fun h => ⟨?_, h.2⟩, fun h => ⟨hnone h.1, h.2⟩⟩,
    fun h => ?_⟩
  · have hc : cons_visc a.solverChoice = true := hcv.2 h
    have hd : l_use_diff a.solverChoice = true := by
      rcases h with h | h <;> simp +decide [l_use_diff, h]
    have key : ∀ b : RhsArgs, b.solverChoice = a.solverChoice →
        stepStress ext b er_arr t =
          (if b.solverChoice.use_terrain = true then
            ext.ComputeStressConsVisc_T (b.tilebox.grow ⟨1, 1, 0⟩) (b.bx.convert ⟨1, 1, 0⟩)
              (b.bx.convert ⟨1, 0, 1⟩) (b.bx.convert ⟨0, 1, 1⟩)
              (2 * b.solverChoice.dynamicViscosity) t er_arr b.z_nd b.dxInv
           else
            t.putSix (ext.ComputeStressConsVisc_N (b.tilebox.grow ⟨1, 1, 0⟩)
              (b.bx.convert ⟨1, 1, 0⟩) (b.bx.convert ⟨1, 0, 1⟩) (b.bx.convert ⟨0, 1, 1⟩)
              (2 * b.solverChoice.dynamicViscosity) t.six er_arr)) := by
      intro b hb
      have e2 : (0 : ℚ) + 2.0 * b.solverChoice.dynamicViscosity
          = 2 * b.solverChoice.dynamicViscosity := by norm_num
      simp only [stepStress, hb, hc, hd, if_true]
      rw [← hb, e2]
    refine ⟨key a rfl, fun e => ?_⟩
    rw [key a rfl, key { a with eddyDiffs := e } rfl]
    rfl
  · have hc : cons_visc a.solverChoice = false := hnone h.1
    simp only [stepStress, hc, h.2, if_true, Bool.false_eq_true, if_false]
  · cases hc : a.solverChoice.molec_diff_type with
    | None => rfl
    | Constant =>
      have := h.1
      simp only [cons_visc, hc] at this
      exact absurd this (by decide)
    | ConstantAlpha =>
      have := h.1
      simp only [cons_visc, hc] at this
      exact absurd this (by decide)
  · have hd : l_use_diff a.solverChoice = false := by
      simp only [l_use_diff, h.1, h.2.1, h.2.2]
      decide
    simp only [stepStress, hd, Bool.false_eq_true, if_false]

theorem stress_closure_selection_witness :
    (stepStress tagExt viscousArgs (Array4.const 0) sevenState.tau).tau11 0 0 0 0 = 6 ∧
    (stepStress tagExt eddyArgs (Array4.const 0) sevenState.tau).tau11 0 0 0 0 = -1 ∧
    (stepStress tagExt restArgs (Array4.const 0) sevenState.tau).tau11 0 0 0 0 = 7 := by
  have h1 := (stress_closure_selection tagExt viscousArgs (Array4.const 0) sevenState.tau).2.1
    (Or.inl rfl)
  have h2 := (stress_closure_selection tagExt eddyArgs (Array4.const 0) sevenState.tau).2.2.1
    ⟨rfl, by decide⟩
  have h3 := (stress_closure_selection tagExt restArgs (Array4.const 0) sevenState.tau).2.2.2.2
    ⟨rfl, rfl, rfl⟩
  have f1 : viscousArgs.solverChoice.use_terrain = false := rfl
  have f2 : eddyArgs.solverChoice.use_terrain = false := rfl
  refine ⟨?_, ?_, ?_⟩
  · rw [h1.1, f1]
    norm_num [Tau9.putSix, tagExt, Array4.const, viscousArgs]
  · rw [h2, f2]
    norm_num [Tau9.putSix, tagExt, Array4.const]
  · rw [h3]
    rfl

/-- C31 (as amended). Channel selection in `DiffusionSrcForState_T` (dry build),
for solver choices made by `init_params`. On every face and component
`q` in `n_start..n_end` of the launches the raw x-, y- and z-flux is formed
with the face diffusivity and the primitive variable at the index
`q - RhoTheta_comp`, which is Theta, KE, QKE, Scalar for `q` = RhoTheta,
RhoKE, RhoQKE, RhoScalar. With a turbulence closure active the face
diffusivity is the molecular part plus the mean over the two cells of the
face of `mu_turb` at the component `eddy_diff_idx/idy/idz[prim_index]`, and
these tables hold the horizontal channel of the same quantity on x- and
y-faces (`Theta_h`, `KE_h`, `QKE_h`, `Scalar_h`) and its vertical channel on
z-faces (`Theta_v`, `KE_v`, `QKE_v`, `Scalar_v`). The molecular coefficient
`alpha_eff[prim_index]` is `alpha_T` for theta and `alpha_C` for the scalar
when `molec_diff_type` is `ConstantAlpha`, it is `rho0_trans*alpha_T` resp.
`rho0_trans*alpha_C` (the fields `rhoAlpha_T`, `rhoAlpha_C`) for every other
`molec_diff_type`, and it is `0` for TKE and QKE in both cases. -/
theorem channel_selection (c : Constants) (pp : ParmParse) (st st2 : Statics)
    (sc0 : SolverChoice) (tm : TerrainMetrics) (p : DiffArgs) (s : DiffState)
    (hcfg : init_params c pp st sc0 = Except.ok (p.solverChoice, st2)) :
    (∀ i j k q, p.n_start ≤ q ∧ q ≤ p.n_end →
      ((surroundingNodes p.bx 0).contains i j k →
        (rawFluxes tm p s).xflux i j k q =
          faceDiff_x (diffMode p.solverChoice) p i j k (q - RhoTheta_comp) * p.mf_u i j 0 0 *
            (p.dxInv 0 * (p.cell_prim i j k (q - RhoTheta_comp)
                - p.cell_prim (i-1) j k (q - RhoTheta_comp))
              - (tm.Compute_h_xi_AtIface i j k p.dxInv p.z_nd
                  / tm.Compute_h_zeta_AtIface i j k p.dxInv p.z_nd)
                * (0.25 * p.dxInv 2 *
                    (p.cell_prim i j (k+1) (q - RhoTheta_comp)
                      + p.cell_prim (i-1) j (k+1) (q - RhoTheta_comp)
                      - p.cell_prim i j (k-1) (q - RhoTheta_comp)
                      - p.cell_prim (i-1) j (k-1) (q - RhoTheta_comp))))) ∧
      ((surroundingNodes p.bx 1).contains i j k →
        (rawFluxes tm p s).yflux i j k q =
          faceDiff_y (diffMode p.solverChoice) p i j k (q - RhoTheta_comp) * p.mf_v i j 0 0 *
            (p.dxInv 1 * (p.cell_prim i j k (q - RhoTheta_comp)
                - p.cell_prim i (j-1) k (q - RhoTheta_comp))
              - (tm.Compute_h_eta_AtJface i j k p.dxInv p.z_nd
                  / tm.Compute_h_zeta_AtJface i j k p.dxInv p.z_nd)
                * (0.25 * p.dxInv 2 *
                    (p.cell_prim i j (k+1) (q - RhoTheta_comp)
                      + p.cell_prim i (j-1) (k+1) (q - RhoTheta_comp)
                      - p.cell_prim i j (k-1) (q - RhoTheta_comp)
                      - p.cell_prim i (j-1) (k-1) (q - RhoTheta_comp))))) ∧
      ((surroundingNodes p.bx 2).contains i j k →
        (rawFluxes tm p s).zflux i j k q =
          faceDiff_z (diffMode p.solverChoice) p i j k (q - RhoTheta_comp)
            * (p.dxInv 2 * (p.cell_prim i j k (q - RhoTheta_comp)
                - p.cell_prim i j (k-1) (q - RhoTheta_comp)))
            / tm.Compute_h_zeta_AtKface i j k p.dxInv p.z_nd)) ∧
    (RhoTheta_comp - RhoTheta_comp = PrimTheta_comp ∧ RhoKE_comp - RhoTheta_comp = PrimKE_comp ∧
      RhoQKE_comp - RhoTheta_comp = PrimQKE_comp ∧
      RhoScalar_comp - RhoTheta_comp = PrimScalar_comp) ∧
    (l_turb p.solverChoice = true → ∀ i j k prim,
      faceDiff_x (diffMode p.solverChoice) p i j k prim =
        (if p.solverChoice.molec_diff_type = MolecDiffType.ConstantAlpha then
          0.5 * (p.cell_data i j k Rho_comp + p.cell_data (i-1) j k Rho_comp)
            * vecGet (alpha_eff p.solverChoice) prim
         else vecGet (alpha_eff p.solverChoice) prim)
        + 0.5 * (p.mu_turb i j k (vecGetI eddy_diff_idx prim)
                + p.mu_turb (i-1) j k (vecGetI eddy_diff_idx prim)) ∧
      faceDiff_y (diffMode p.solverChoice) p i j k prim =
        (if p.solverChoice.molec_diff_type = MolecDiffType.ConstantAlpha then
          0.5 * (p.cell_data i j k Rho_comp + p.cell_data i (j-1) k Rho_comp)
            * vecGet (alpha_eff p.solverChoice) prim
         else vecGet (alpha_eff p.solverChoice) prim)
        + 0.5 * (p.mu_turb i j k (vecGetI eddy_diff_idy prim)
                + p.mu_turb i (j-1) k (vecGetI eddy_diff_idy prim)) ∧
      faceDiff_z (diffMode p.solverChoice) p i j k prim =
        (if p.solverChoice.molec_diff_type = MolecDiffType.ConstantAlpha then
          0.5 * (p.cell_data i j k Rho_comp + p.cell_data i j (k-1) Rho_comp)
            * vecGet (alpha_eff p.solverChoice) prim
         else vecGet (alpha_eff p.solverChoice) prim)
        + 0.5 * (p.mu_turb i j k (vecGetI eddy_diff_idz prim)
                + p.mu_turb i j (k-1) (vecGetI eddy_diff_idz prim))) ∧
    (vecGetI eddy_diff_idx PrimTheta_comp = EddyDiff.Theta_h ∧
      vecGetI eddy_diff_idx PrimKE_comp = EddyDiff.KE_h ∧
      vecGetI eddy_diff_idx PrimQKE_comp = EddyDiff.QKE_h ∧
      vecGetI eddy_diff_idx PrimScalar_comp = EddyDiff.Scalar_h) ∧
    (vecGetI eddy_diff_idy PrimTheta_comp = EddyDiff.Theta_h ∧
      vecGetI eddy_diff_idy PrimKE_comp = EddyDiff.KE_h ∧
      vecGetI eddy_diff_idy PrimQKE_comp = EddyDiff.QKE_h ∧
      vecGetI eddy_diff_idy PrimScalar_comp = EddyDiff.Scalar_h) ∧
    (vecGetI eddy_diff_idz PrimTheta_comp = EddyDiff.Theta_v ∧
      vecGetI eddy_diff_idz PrimKE_comp = EddyDiff.KE_v ∧
      vecGetI eddy_diff_idz PrimQKE_comp = EddyDiff.QKE_v ∧
      vecGetI eddy_diff_idz PrimScalar_comp = EddyDiff.Scalar_v) ∧
    (vecGet (alpha_eff p.solverChoice) PrimTheta_comp =
        (if p.solverChoice.molec_diff_type = MolecDiffType.ConstantAlpha then
          p.solverChoice.alpha_T
         else p.solverChoice.rho0_trans * p.solverChoice.alpha_T) ∧
      vecGet (alpha_eff p.solverChoice) PrimScalar_comp =
        (if p.solverChoice.molec_diff_type = MolecDiffType.ConstantAlpha then
          p.solverChoice.alpha_C
         else p.solverChoice.rho0_trans * p.solverChoice.alpha_C) ∧
      vecGet (alpha_eff p.solverChoice) PrimKE_comp = 0 ∧
      vecGet (alpha_eff p.solverChoice) PrimQKE_comp = 0) := by
  obtain ⟨_, _, _, _, _, _, r7, r8, _⟩ := init_params_config c pp st sc0 _ hcfg
  simp only at r7 r8
  refine ⟨fun i j k q hq => ⟨fun hb => rawFluxes_xflux tm p s i j k q hb hq,
      fun hb => rawFluxes_yflux tm p s i j k q hb hq,
      fun hb => rawFluxes_zflux tm p s i j k q hb hq⟩,
    by decide, fun ht i j k prim => faceDiff_turbulent p ht i j k prim,
    by decide, by decide, by decide, ?_, ?_, ?_, ?_⟩
  · rw [alpha_eff_get _ _ (by decide) (by decide), ← r7]
    split_ifs <;> first | rfl | exact absurd rfl ‹_›
  · rw [alpha_eff_get _ _ (by decide) (by decide), ← r8]
    have e1 : ¬ PrimScalar_comp = PrimTheta_comp := by decide
    rw [if_neg e1, if_neg e1, if_pos rfl, if_pos rfl]
  · rw [alpha_eff_get _ _ (by decide) (by decide)]
    have e1 : ¬ PrimKE_comp = PrimTheta_comp := by decide
    have e2 : ¬ PrimKE_comp = PrimScalar_comp := by decide
    rw [if_neg e1, if_neg e2, if_neg e1, if_neg e2, ite_self]
  · rw [alpha_eff_get _ _ (by decide) (by decide)]
    have e1 : ¬ PrimQKE_comp = PrimTheta_comp := by decide
    have e2 : ¬ PrimQKE_comp = PrimScalar_comp := by decide
    rw [if_neg e1, if_neg e2, if_neg e1, if_neg e2, ite_self]

theorem channel_selection_witness :
    vecGet (alpha_eff alphaOnlyChoice) PrimTheta_comp = 1 ∧
    vecGet (alpha_eff alphaOnlyChoice) PrimScalar_comp = 0 ∧
    vecGetI eddy_diff_idx PrimScalar_comp = 2 ∧
    vecGetI eddy_diff_idz PrimScalar_comp = 7 := by
  obtain ⟨st1, h1⟩ := alphaOnlyChoice_ok
  obtain ⟨_, _, a3, a4, a5, _⟩ := alphaOnlyChoice_fields
  have h := channel_selection sampleConstants _ {} st1 {} flatMetrics
    { heavyArgs with solverChoice := alphaOnlyChoice } staleFluxState h1
  obtain ⟨_, _, _, hx, _, hz, hT, hC, _, _⟩ := h
  simp only at hT hC
  refine ⟨?_, ?_, hx.2.2.2, hz.2.2.2⟩
  · rw [hT, if_pos a3, a4]
  · rw [hC, if_pos a3, a5]

/-- C31 (counterexample). The solver choices `init_params` makes from the
inputs `alpha_T = 1`, `rho0_trans = 2` (molecular transport `Constant`) have
`alpha_T = 1`, but the molecular coefficient of theta, `alpha_eff` at the
index `RhoTheta_comp - RhoTheta_comp`, is `2 = rho0_trans*alpha_T`, not
`alpha_T`. -/
theorem molecular_coefficient_counterexample :
    (∃ st, init_params sampleConstants { alpha_T := some 1, rho0_trans := some 2 } {} {} =
      Except.ok (heavyChoice, st)) ∧
    heavyChoice.alpha_T = 1 ∧
    vecGet (alpha_eff heavyChoice) (RhoTheta_comp - RhoTheta_comp) = 2 := by
  obtain ⟨_, _, b3, b4, _, _, b7⟩ := heavyChoice_fields
  refine ⟨heavyChoice_ok, b4, ?_⟩
  have hne : ¬ heavyChoice.molec_diff_type = MolecDiffType.ConstantAlpha := by
    rw [b3]
    decide
  have e : RhoTheta_comp - RhoTheta_comp = PrimTheta_comp := by decide
  rw [e, alpha_eff_get _ _ (by decide) (by decide), if_neg hne, if_pos rfl, b7]

end ERF
